import Mathlib

/-!
# EB library: index search engine and narrow-font alternation

Shallow embedding of `eb/narwalt.c` and `eb/search.c`.

Conventions of the embedding

* A C `int` is a Lean `Int`.  Where the code stores an unsigned 32-bit
  quantity into an `int`, increments a page number, negates its argument or
  multiplies a page number by the page size, the value is reduced to 32 bits
  (two's complement) by `int32`; character numbers and offsets inside a
  2048-byte page stay far below `2^31`.  Counters the code only ever
  increases from zero (`entry_index`, `offset`, ...) are `Nat`.
* `x & 0xff` on a two's-complement `int` is `Int.land x 0xff`; the theorem
  `low_byte_eq_mod` shows that this is `x % 256` (Euclidean remainder).
* An out-parameter `int *p` is an extra argument (value on entry) and an extra
  component of the result (value on return).
* Locking (`eb_lock`, `pthread_mutex_lock`) has no effect on the values
  computed; the functions are modelled without the lock state, and a second
  time with it (section "locks").
-/

namespace EB

/-! ## Error codes -/

/-- Error codes returned by the functions of the two source files. -/
inductive EB_Error_Code where
  | EB_SUCCESS
  | EB_ERR_NO_CUR_SUB
  | EB_ERR_NO_CUR_APPSUB
  | EB_ERR_NO_CUR_FONT
  | EB_ERR_NO_SUCH_CHAR_TEXT
  | EB_ERR_FAIL_SEEK_TEXT
  | EB_ERR_FAIL_READ_TEXT
  | EB_ERR_FAIL_SEEK_APP
  | EB_ERR_FAIL_READ_APP
  | EB_ERR_UNEXP_TEXT
  | EB_ERR_NO_PREV_SEARCH
  deriving DecidableEq, Repr

open EB_Error_Code

/-! ## C integers -/

/-- The value of a C `int` expression whose exact value is `x`: arithmetic on
`int` is done in 32 bits (two's complement), and an unsigned 32-bit quantity
stored into an `int` keeps its bits. -/
def int32 (x : Int) : Int := (x + 2147483648) % 4294967296 - 2147483648

/-! ## narwalt.c : narrow-font alternation -/

/-- Character code of a subbook.  The source only tests
`character_code == EB_CHARCODE_ISO8859_1`; every other value takes the
JIS X 0208 branch. -/
inductive EB_Character_Code where
  | EB_CHARCODE_ISO8859_1
  | EB_CHARCODE_JISX0208
  deriving DecidableEq, Repr

open EB_Character_Code

/-- The fields of `appendix->subbook_current` read by the iteration
functions. -/
structure EB_Appendix_Subbook where
  character_code : EB_Character_Code
  narrow_page : Int
  narrow_start : Int
  narrow_end : Int
  deriving DecidableEq, Repr

/-- An appendix; `subbook_current = none` is the C `NULL`. -/
structure EB_Appendix where
  subbook_current : Option EB_Appendix_Subbook
  deriving DecidableEq, Repr

/-- The C expression `c & 0xff` on an `int`. -/
def low_byte (c : Int) : Int := Int.land c 0xff

/-- The `for (i = 0; i < n; i++)` loop of `eb_forward_narrow_alt_character`
(lines 482-491 with `edge = 0xfe`, `jump = 3`; lines 507-516 with
`edge = 0x7e`, `jump = 0xa3`).  The first argument counts the iterations
left; `none` is the `goto failed` taken when `end < *character_number`. -/
def forward_loop (edge jump narrow_end : Int) : Nat → Int → Option Int
  | 0, c => some c
  | k + 1, c =>
    let c1 := if edge ≤ low_byte c then c + jump else c + 1
    if narrow_end < c1 then none else forward_loop edge jump narrow_end k c1

/-- The `for (i = 0; i < n; i++)` loop of `eb_backward_narrow_alt_character`
(lines 593-602 with `edge = 0x01`, `jump = 3`; lines 616-625 with
`edge = 0x21`, `jump = 0xa3`); `none` is the `goto failed` taken when
`*character_number < start`. -/
def backward_loop (edge jump narrow_start : Int) : Nat → Int → Option Int
  | 0, c => some c
  | k + 1, c =>
    let c1 := if low_byte c ≤ edge then c - jump else c - 1
    if c1 < narrow_start then none else backward_loop edge jump narrow_start k c1

/-- Body of `eb_forward_narrow_alt_character` after the `n < 0` delegation
(lines 443-532).  Returns the error code and the new `*character_number`. -/
def forward_narrow_alt_nonneg (appendix : EB_Appendix) (n : Int)
    (character_number : Int) : EB_Error_Code × Int :=
  match appendix.subbook_current with
  | none => (EB_ERR_NO_CUR_APPSUB, -1)
  | some sub =>
    if sub.narrow_page = 0 then (EB_ERR_NO_SUCH_CHAR_TEXT, -1)
    else if sub.character_code = EB_CHARCODE_ISO8859_1 then
      if character_number < sub.narrow_start
          ∨ sub.narrow_end < character_number
          ∨ low_byte character_number < 0x01
          ∨ 0xfe < low_byte character_number then
        (EB_ERR_NO_SUCH_CHAR_TEXT, -1)
      else
        match forward_loop 0xfe 3 sub.narrow_end n.toNat character_number with
        | none => (EB_ERR_NO_SUCH_CHAR_TEXT, -1)
        | some c => (EB_SUCCESS, c)
    else
      if character_number < sub.narrow_start
          ∨ sub.narrow_end < character_number
          ∨ low_byte character_number < 0x21
          ∨ 0x7e < low_byte character_number then
        (EB_ERR_NO_SUCH_CHAR_TEXT, -1)
      else
        match forward_loop 0x7e 0xa3 sub.narrow_end n.toNat character_number with
        | none => (EB_ERR_NO_SUCH_CHAR_TEXT, -1)
        | some c => (EB_SUCCESS, c)

/-- Body of `eb_backward_narrow_alt_character` after the `n < 0` delegation
(lines 554-641).  A missing narrow font is `EB_ERR_NO_CUR_FONT` here. -/
def backward_narrow_alt_nonneg (appendix : EB_Appendix) (n : Int)
    (character_number : Int) : EB_Error_Code × Int :=
  match appendix.subbook_current with
  | none => (EB_ERR_NO_CUR_APPSUB, -1)
  | some sub =>
    if sub.narrow_page = 0 then (EB_ERR_NO_CUR_FONT, -1)
    else if sub.character_code = EB_CHARCODE_ISO8859_1 then
      if character_number < sub.narrow_start
          ∨ sub.narrow_end < character_number
          ∨ low_byte character_number < 0x01
          ∨ 0xfe < low_byte character_number then
        (EB_ERR_NO_SUCH_CHAR_TEXT, -1)
      else
        match backward_loop 0x01 3 sub.narrow_start n.toNat character_number with
        | none => (EB_ERR_NO_SUCH_CHAR_TEXT, -1)
        | some c => (EB_SUCCESS, c)
    else
      if character_number < sub.narrow_start
          ∨ sub.narrow_end < character_number
          ∨ low_byte character_number < 0x21
          ∨ 0x7e < low_byte character_number then
        (EB_ERR_NO_SUCH_CHAR_TEXT, -1)
      else
        match backward_loop 0x21 0xa3 sub.narrow_start n.toNat character_number with
        | none => (EB_ERR_NO_SUCH_CHAR_TEXT, -1)
        | some c => (EB_SUCCESS, c)

/-- Model of `eb_forward_narrow_alt_character` (narwalt.c lines 427-533):
a negative `n` delegates to the backward walk with `-n`.  This is the value
the call returns for every `n` other than `INT_MIN`, see
`narrow_alt_character_call`. -/
def eb_forward_narrow_alt_character (appendix : EB_Appendix) (n : Int)
    (character_number : Int) : EB_Error_Code × Int :=
  if n < 0 then backward_narrow_alt_nonneg appendix (-n) character_number
  else forward_narrow_alt_nonneg appendix n character_number

/-- Model of `eb_backward_narrow_alt_character` (narwalt.c lines 539-642):
a negative `n` delegates to the forward walk with `-n`.  This is the value
the call returns for every `n` other than `INT_MIN`, see
`narrow_alt_character_call`. -/
def eb_backward_narrow_alt_character (appendix : EB_Appendix) (n : Int)
    (character_number : Int) : EB_Error_Code × Int :=
  if n < 0 then forward_narrow_alt_nonneg appendix (-n) character_number
  else backward_narrow_alt_nonneg appendix n character_number

/-- The calls of `eb_forward_narrow_alt_character` (`forward = true`) and
`eb_backward_narrow_alt_character` (`forward = false`) one inside the other:
with `n < 0` each function returns what the other one returns for `-n`
(narwalt.c lines 438-441 and 550-552), the negation being done in `int`.
The first argument bounds the depth of the nested calls; `none` means that
no call has returned within that depth. -/
def narrow_alt_character_call :
    Nat → Bool → EB_Appendix → Int → Int → Option (EB_Error_Code × Int)
  | 0, _, _, _, _ => none
  | depth + 1, forward, appendix, n, character_number =>
    if n < 0 then
      narrow_alt_character_call depth (!forward) appendix (int32 (-n)) character_number
    else if forward then some (forward_narrow_alt_nonneg appendix n character_number)
    else some (backward_narrow_alt_nonneg appendix n character_number)

/-- The successor of a character number as the specification words it, for
the JIS X 0208 scheme: the row jump `0xA3` when the low byte is `0x7E`,
otherwise `+1`. -/
def spec_successor_jis (c : Int) : Int :=
  if c % 256 = 0x7e then c + 0xa3 else c + 1

/-- The successor of a character number as the specification words it, for
the ISO 8859-1 scheme: the row jump `3` when the low byte is `0xFE`,
otherwise `+1`. -/
def spec_successor_latin (c : Int) : Int :=
  if c % 256 = 0xfe then c + 3 else c + 1

/-- The appendix used in the alternation examples: one JIS X 0208 subbook
whose narrow alternation covers `0x2121 .. 0x237e`. -/
def sample_jis_appendix : EB_Appendix :=
  { subbook_current := some
      { character_code := EB_CHARCODE_JISX0208
        narrow_page := 1
        narrow_start := 0x2121
        narrow_end := 0x237e } }

/-! ## search.c : index search -/

/-- Modelled from the spec: `PAGE_SIZE = 2048` bytes.  The macro
`EB_SIZE_PAGE` is defined in a header outside the two source files. -/
def EB_SIZE_PAGE : Nat := 2048

/-- The argument of `eb_zlseek` for a page: the `int` expression
`(context->page - 1) * EB_SIZE_PAGE` (search.c lines 159, 463, 785, 1113). -/
def seek_location (page : Int) : Int := int32 ((page - 1) * EB_SIZE_PAGE)

/-- Modelled from the spec: `MAX_INDEX_DEPTH = 6`, the descent budget.  The
macro `EB_MAX_INDEX_DEPTH` is defined in a header outside the two source
files. -/
def EB_MAX_INDEX_DEPTH : Nat := 6

/-- The macro `EB_TMP_MAX_HITS` (search.c line 251). -/
def EB_TMP_MAX_HITS : Nat := 64

/-- A `char` buffer seen through a pointer: the byte stored `i` places after
the pointer.  The page cache is such a buffer of `EB_SIZE_PAGE` bytes. -/
abbrev Page := Nat → Nat

/-- Pointer arithmetic `p + off`. -/
def ptr (p : Page) (off : Nat) : Page := fun i => p (off + i)

/-- Modelled from the spec: page fields are unsigned big-endian integers;
this is the 1-byte flavour (`eb_uint1` is declared outside the two source
files). -/
def eb_uint1 (p : Page) : Nat := p 0 % 256

/-- Modelled from the spec: the 2-byte unsigned big-endian integer at `p`. -/
def eb_uint2 (p : Page) : Nat := eb_uint1 p * 256 + eb_uint1 (ptr p 1)

/-- Modelled from the spec: the 4-byte unsigned big-endian integer at `p`. -/
def eb_uint4 (p : Page) : Nat :=
  ((eb_uint1 p * 256 + eb_uint1 (ptr p 1)) * 256 + eb_uint1 (ptr p 2)) * 256
    + eb_uint1 (ptr p 3)

/-- The macro `PAGE_ID_IS_LEAF_LAYER` (line 67): `((page_id) & 0x80) == 0x80`. -/
def PAGE_ID_IS_LEAF_LAYER (page_id : Nat) : Bool := (page_id &&& 0x80) == 0x80

/-- The macro `PAGE_ID_IS_LAYER_START` (line 68): `((page_id) & 0x40) == 0x40`. -/
def PAGE_ID_IS_LAYER_START (page_id : Nat) : Bool := (page_id &&& 0x40) == 0x40

/-- The macro `PAGE_ID_IS_LAYER_END` (line 69): `((page_id) & 0x20) == 0x20`. -/
def PAGE_ID_IS_LAYER_END (page_id : Nat) : Bool := (page_id &&& 0x20) == 0x20

/-- The macro `PAGE_ID_HAVE_GROUP_ENTRY` (line 70): `((page_id) & 0x10) == 0x10`. -/
def PAGE_ID_HAVE_GROUP_ENTRY (page_id : Nat) : Bool := (page_id &&& 0x10) == 0x10

/-- Modelled from the spec: a Location `{page: u32, offset: u16}` in the text
stream (`EB_Position` is declared outside the two source files). -/
structure EB_Position where
  page : Nat
  offset : Nat
  deriving DecidableEq, Repr, Inhabited

/-- Modelled from the spec: a Hit `{heading: Location, text: Location}`. -/
structure EB_Hit where
  heading : EB_Position
  text : EB_Position
  deriving DecidableEq, Repr, Inhabited

/-- Modelled from the spec: the kind of search of a context. -/
inductive EB_Search_Code where
  | EB_SEARCH_NONE
  | EB_SEARCH_EXACTWORD
  | EB_SEARCH_WORD
  | EB_SEARCH_ENDWORD
  | EB_SEARCH_KEYWORD
  | EB_SEARCH_MULTI
  deriving DecidableEq, Repr

open EB_Search_Code

/-- Modelled from the spec: entry arrangement of an index page. -/
inductive EB_Arrange where
  | EB_ARRANGE_FIXED
  | EB_ARRANGE_VARIABLE
  deriving DecidableEq, Repr

open EB_Arrange

/-- Modelled from the spec: the search cursor `EB_Search_Context`.  The
comparator receives the pattern word, a pointer into the page buffer and a
length, and returns a negative, zero or positive `int`. -/
structure EB_Search_Context where
  code : EB_Search_Code
  compare : List Nat → Page → Nat → Int
  word : List Nat
  canonicalized_word : List Nat
  page : Int
  page_id : Nat
  entry_arrangement : EB_Arrange
  entry_length : Nat
  entry_count : Nat
  entry_index : Nat
  offset : Nat
  comparison_result : Int
  in_group_entry : Bool
  keyword_heading : EB_Position

/-- Outcome of `eb_zlseek` to a byte location of the text file followed by
`eb_zread` of `EB_SIZE_PAGE` bytes into the cache buffer.  Both functions are
external; a short read may leave anything in the buffer, given here as a
function of the former content. -/
inductive Zio_Result where
  | seek_failed
  | short_read (clobber : Page → Page)
  | full_page (data : Page)

/-- The part of `book->subbook_current` used by the index search: the text
file, as a read-only map from byte locations to read outcomes. -/
structure EB_Subbook where
  text_file : Int → Zio_Result

/-- A book code; `none` is the sentinel `EB_BOOK_NONE`. -/
abbrev EB_Book_Code := Option Nat

/-- The sentinel `EB_BOOK_NONE`. -/
def EB_BOOK_NONE : EB_Book_Code := none

/-- The fields of `EB_Book` used by search.c.  `book->text_context` is passed
beside the book, because only the external text functions look into it. -/
structure EB_Book where
  code : EB_Book_Code
  subbook_current : Option EB_Subbook
  search_contexts : Nat → EB_Search_Context

/-- A call of the external reader, recorded in the order of execution. -/
inductive Zio_Call where
  | zlseek (location : Int)
  | zread (location : Int)
  deriving DecidableEq, Repr

/-- The file-scope variables of search.c (lines 75-85), with a ghost record
of the reader calls made so far (most recent first). -/
structure Cache where
  cache_book_code : EB_Book_Code
  cache_page : Int
  cache_buffer : Page
  zio_calls : List Zio_Call

/-- The text file of the current subbook.  The search functions dereference
`book->subbook_current` unchecked (lines 157-159), so with a `NULL` there a
call that reads a page faults in C and returns nothing.  The model has no
faults: it gives such a book a file on which every seek fails, and what it
says about a call that reads a page is meant for a book with a current
subbook.  `eb_hit_list` returns `EB_ERR_NO_CUR_SUB` before it reads anything
(lines 285-288). -/
def text_file (book : EB_Book) : Int → Zio_Result :=
  match book.subbook_current with
  | some sub => sub.text_file
  | none => fun _ => Zio_Result.seek_failed

/-- The seek to `(page - 1) * EB_SIZE_PAGE`, an `int` expression and hence
reduced to 32 bits (`seek_location`), and the read of one page into
`cache_buffer` (lines 157-170, 461-472, 783-794, 1111-1122). -/
def read_page (book : EB_Book) (page : Int) (cache : Cache) : EB_Error_Code × Cache :=
  let location := seek_location page
  match text_file book location with
  | Zio_Result.seek_failed =>
    (EB_ERR_FAIL_SEEK_TEXT,
      { cache with zio_calls := Zio_Call.zlseek location :: cache.zio_calls })
  | Zio_Result.short_read clobber =>
    (EB_ERR_FAIL_READ_TEXT,
      { cache with
        cache_buffer := clobber cache.cache_buffer
        zio_calls := Zio_Call.zread location :: Zio_Call.zlseek location :: cache.zio_calls })
  | Zio_Result.full_page data =>
    (EB_SUCCESS,
      { cache with
        cache_buffer := data
        zio_calls := Zio_Call.zread location :: Zio_Call.zlseek location :: cache.zio_calls })

/-- Decoding of the 4-byte page header into the context (lines 175-182,
478-486, 800-808, 1128-1136). -/
def decode_header (cache_buffer : Page) (context : EB_Search_Context) : EB_Search_Context :=
  { context with
    page_id := eb_uint1 cache_buffer
    entry_length := eb_uint1 (ptr cache_buffer 1)
    entry_arrangement :=
      if eb_uint1 (ptr cache_buffer 1) = 0 then EB_ARRANGE_VARIABLE else EB_ARRANGE_FIXED
    entry_count := eb_uint2 (ptr cache_buffer 2)
    offset := 4 }

/-- The scan of an intermediate page (lines 194-208).  The first argument is
`entry_count - entry_index`, the iterations left; `cache_p` of the source is
`cache_buffer + context->offset` throughout.  Returns the error code
(`EB_SUCCESS` unless the bounds check failed), the context and `next_page`,
an `int` (line 136) that receives the unsigned result of `eb_uint4`
(line 203), so a child pointer from `2^31` on is a negative `next_page`. -/
def presearch_scan (cache_buffer : Page) (next_page : Int) :
    Nat → EB_Search_Context → EB_Error_Code × EB_Search_Context × Int
  | 0, context => (EB_SUCCESS, context, next_page)
  | r + 1, context =>
    if EB_SIZE_PAGE < context.offset + context.entry_length + 4 then
      (EB_ERR_UNEXP_TEXT, context, next_page)
    else if context.compare context.canonicalized_word (ptr cache_buffer context.offset)
        context.entry_length ≤ 0 then
      (EB_SUCCESS, context,
        int32 (eb_uint4 (ptr cache_buffer (context.offset + context.entry_length))))
    else
      presearch_scan cache_buffer next_page r
        { context with
          offset := context.offset + context.entry_length + 4
          entry_index := context.entry_index + 1 }

/-- How the descent loop of `eb_presearch_word` (lines 151-215) is left. -/
inductive Presearch_Exit where
  | failed (error_code : EB_Error_Code)
  | succeeded
  | leaf
  | depth_exceeded
  deriving DecidableEq, Repr

/-- The descent loop of `eb_presearch_word` (lines 151-215).  The first
argument is `EB_MAX_INDEX_DEPTH - index_depth`. -/
def presearch_loop (book : EB_Book) :
    Nat → Cache → EB_Search_Context → Presearch_Exit × Cache × EB_Search_Context
  | 0, cache, context => (Presearch_Exit.depth_exceeded, cache, context)
  | d + 1, cache, context =>
    let rd := read_page book context.page cache
    if rd.1 ≠ EB_SUCCESS then
      (Presearch_Exit.failed rd.1, { rd.2 with cache_book_code := EB_BOOK_NONE }, context)
    else
      let context1 := decode_header rd.2.cache_buffer context
      if PAGE_ID_IS_LEAF_LAYER context1.page_id then
        (Presearch_Exit.leaf, rd.2, context1)
      else
        let sc := presearch_scan rd.2.cache_buffer context1.page context1.entry_count
          { context1 with entry_index := 0 }
        if sc.1 ≠ EB_SUCCESS then
          (Presearch_Exit.failed sc.1, rd.2, sc.2.1)
        else if sc.2.1.entry_count ≤ sc.2.1.entry_index ∨ sc.2.1.page = sc.2.2 then
          (Presearch_Exit.succeeded, rd.2, { sc.2.1 with comparison_result := -1 })
        else
          presearch_loop book d rd.2 { sc.2.1 with page := sc.2.2 }

/-- Model of `eb_presearch_word` (search.c lines 130-245): returns the error
code, the cache variables and the context after the call. -/
def eb_presearch_word (book : EB_Book) (cache : Cache) (context : EB_Search_Context) :
    EB_Error_Code × Cache × EB_Search_Context :=
  let r := presearch_loop book EB_MAX_INDEX_DEPTH
    { cache with cache_book_code := EB_BOOK_NONE } context
  match r.1 with
  | Presearch_Exit.failed error_code => (error_code, r.2.1, r.2.2)
  | Presearch_Exit.succeeded => (EB_SUCCESS, r.2.1, r.2.2)
  | Presearch_Exit.depth_exceeded => (EB_ERR_UNEXP_TEXT, r.2.1, r.2.2)
  | Presearch_Exit.leaf =>
    (EB_SUCCESS,
      { r.2.1 with cache_book_code := book.code, cache_page := r.2.2.page },
      { r.2.2 with
        entry_index := 0
        comparison_result := 1
        entry_length := 0
        in_group_entry := false })

/-- The cache check at the top of a leaf-walk iteration (lines 460-491,
782-813, 1110-1141): on a miss the page is read, the header is decoded only
when `entry_index == 0`, and the cache identity is set. -/
def load_leaf_page (book : EB_Book) (cache : Cache) (context : EB_Search_Context) :
    EB_Error_Code × Cache × EB_Search_Context :=
  if cache.cache_book_code ≠ book.code ∨ cache.cache_page ≠ context.page then
    let rd := read_page book context.page cache
    if rd.1 ≠ EB_SUCCESS then (rd.1, rd.2, context)
    else
      (EB_SUCCESS,
        { rd.2 with cache_book_code := book.code, cache_page := context.page },
        if context.entry_index = 0 then
          { decode_header rd.2.cache_buffer context with entry_index := 0 }
        else context)
  else (EB_SUCCESS, cache, context)

/-- How an entry loop of a leaf walk is left: the loop condition
`entry_index < entry_count` became false, or `goto succeeded`, or
`goto failed` with an error code. -/
inductive Walk_Exit where
  | page_done
  | succeeded
  | failed (error_code : EB_Error_Code)
  deriving DecidableEq, Repr

/-- The hit read from a record whose text location is at `cache_p + t` and
whose heading location is at `cache_p + h`. -/
def hit_at (cache_p : Page) (t h : Nat) : EB_Hit :=
  { heading := { page := eb_uint4 (ptr cache_p h), offset := eb_uint2 (ptr cache_p (h + 4)) }
    text := { page := eb_uint4 (ptr cache_p t), offset := eb_uint2 (ptr cache_p (t + 4)) } }

/-- Entry loop of a leaf without group entries in fixed arrangement (word:
lines 509-542, keyword: 831-864, multi: 1159-1192).  `check` is the constant
of the bounds check: `12` in the word and keyword walks, `13` in the multi
walk.  The first argument is `entry_count - entry_index`; `hits` are the
elements stored through `hit` so far, so `*hit_count` is `hits.length`. -/
def fixed_loop (check : Nat) (cache_buffer : Page) (max_hit_count : Int) :
    Nat → EB_Search_Context → List EB_Hit → Walk_Exit × EB_Search_Context × List EB_Hit
  | 0, context, hits => (Walk_Exit.page_done, context, hits)
  | r + 1, context, hits =>
    if EB_SIZE_PAGE < context.offset + context.entry_length + check then
      (Walk_Exit.failed EB_ERR_UNEXP_TEXT, context, hits)
    else
      let cache_p := ptr cache_buffer context.offset
      let result := context.compare context.word cache_p context.entry_length
      let hits1 :=
        if result = 0 then
          hits ++ [hit_at cache_p context.entry_length (context.entry_length + 6)]
        else hits
      let context1 :=
        { context with
          comparison_result := result
          entry_index := context.entry_index + 1
          offset := context.offset + context.entry_length + 12 }
      if result < 0 ∨ max_hit_count ≤ (hits1.length : Int) then
        (Walk_Exit.succeeded, context1, hits1)
      else fixed_loop check cache_buffer max_hit_count r context1 hits1

/-- Entry loop of a leaf without group entries in variable arrangement
(word: lines 551-589, keyword: 872-910, multi: 1200-1238). -/
def variable_loop (cache_buffer : Page) (max_hit_count : Int) :
    Nat → EB_Search_Context → List EB_Hit → Walk_Exit × EB_Search_Context × List EB_Hit
  | 0, context, hits => (Walk_Exit.page_done, context, hits)
  | r + 1, context, hits =>
    if EB_SIZE_PAGE < context.offset + 1 then
      (Walk_Exit.failed EB_ERR_UNEXP_TEXT, context, hits)
    else
      let cache_p := ptr cache_buffer context.offset
      let context0 := { context with entry_length := eb_uint1 cache_p }
      if EB_SIZE_PAGE < context0.offset + context0.entry_length + 13 then
        (Walk_Exit.failed EB_ERR_UNEXP_TEXT, context0, hits)
      else
        let result := context0.compare context0.word (ptr cache_p 1) context0.entry_length
        let hits1 :=
          if result = 0 then
            hits ++ [hit_at cache_p (context0.entry_length + 1) (context0.entry_length + 7)]
          else hits
        let context1 :=
          { context0 with
            comparison_result := result
            entry_index := context0.entry_index + 1
            offset := context0.offset + context0.entry_length + 13 }
        if result < 0 ∨ max_hit_count ≤ (hits1.length : Int) then
          (Walk_Exit.succeeded, context1, hits1)
        else variable_loop cache_buffer max_hit_count r context1 hits1

/-- The record with group id `0x00` (single entry), the same in the three
leaf walks (lines 603-637, 924-958, 1252-1286).  `none` is the failed bounds
check. -/
def single_entry (cache_p : Page) (context : EB_Search_Context) (hits : List EB_Hit) :
    Option (EB_Search_Context × List EB_Hit) :=
  if EB_SIZE_PAGE < context.offset + context.entry_length + 14 then none
  else
    let result :=
      context.compare context.canonicalized_word (ptr cache_p 2) context.entry_length
    some
      ({ context with
          comparison_result := result
          in_group_entry := false
          offset := context.offset + context.entry_length + 14 },
        if result = 0
            ∧ context.compare context.word (ptr cache_p 2) context.entry_length = 0 then
          hits ++ [hit_at cache_p (context.entry_length + 2) (context.entry_length + 8)]
        else hits)

/-- One record of a leaf with group entries in `eb_hit_list_word`
(lines 597-694), before `entry_index++`.  `Except.error` carries the context
at the `goto failed` (the error code is `EB_ERR_UNEXP_TEXT`). -/
def word_group_entry (cache_buffer : Page) (context : EB_Search_Context)
    (hits : List EB_Hit) : Except EB_Search_Context (EB_Search_Context × List EB_Hit) :=
  if EB_SIZE_PAGE < context.offset + 2 then Except.error context
  else
    let cache_p := ptr cache_buffer context.offset
    let group_id := eb_uint1 cache_p
    let context0 := { context with entry_length := eb_uint1 (ptr cache_p 1) }
    if group_id = 0x00 then
      match single_entry cache_p context0 hits with
      | none => Except.error context0
      | some r => Except.ok r
    else if group_id = 0x80 then
      if EB_SIZE_PAGE < context0.offset + context0.entry_length + 4 then Except.error context0
      else
        Except.ok
          ({ context0 with
              comparison_result :=
                context0.compare context0.canonicalized_word (ptr cache_p 4)
                  context0.entry_length
              in_group_entry := true
              offset := context0.offset + context0.entry_length + 4 },
            hits)
    else if group_id = 0xc0 then
      if EB_SIZE_PAGE < context0.offset + 14 then Except.error context0
      else
        Except.ok
          ({ context0 with offset := context0.offset + context0.entry_length + 14 },
            if context0.comparison_result = 0 ∧ context0.in_group_entry = true
                ∧ context0.compare context0.word (ptr cache_p 2) context0.entry_length = 0 then
              hits ++ [hit_at cache_p (context0.entry_length + 2) (context0.entry_length + 8)]
            else hits)
    else Except.error context

/-- Entry loop of a leaf with group entries in `eb_hit_list_word`
(lines 596-700). -/
def word_group_loop (cache_buffer : Page) (max_hit_count : Int) :
    Nat → EB_Search_Context → List EB_Hit → Walk_Exit × EB_Search_Context × List EB_Hit
  | 0, context, hits => (Walk_Exit.page_done, context, hits)
  | r + 1, context, hits =>
    match word_group_entry cache_buffer context hits with
    | Except.error context1 => (Walk_Exit.failed EB_ERR_UNEXP_TEXT, context1, hits)
    | Except.ok (context1, hits1) =>
      let context2 := { context1 with entry_index := context1.entry_index + 1 }
      if context2.comparison_result < 0 ∨ max_hit_count ≤ (hits1.length : Int) then
        (Walk_Exit.succeeded, context2, hits1)
      else word_group_loop cache_buffer max_hit_count r context2 hits1

/-- One record of a leaf with group entries in `eb_hit_list_multi`
(lines 1246-1336), before `entry_index++`. -/
def multi_group_entry (cache_buffer : Page) (context : EB_Search_Context)
    (hits : List EB_Hit) : Except EB_Search_Context (EB_Search_Context × List EB_Hit) :=
  if EB_SIZE_PAGE < context.offset + 2 then Except.error context
  else
    let cache_p := ptr cache_buffer context.offset
    let group_id := eb_uint1 cache_p
    if group_id = 0x00 then
      let context0 := { context with entry_length := eb_uint1 (ptr cache_p 1) }
      match single_entry cache_p context0 hits with
      | none => Except.error context0
      | some r => Except.ok r
    else if group_id = 0x80 then
      let context0 := { context with entry_length := eb_uint1 (ptr cache_p 1) }
      if EB_SIZE_PAGE < context0.offset + context0.entry_length + 6 then Except.error context0
      else
        Except.ok
          ({ context0 with
              comparison_result :=
                context0.compare context0.canonicalized_word (ptr cache_p 6)
                  context0.entry_length
              in_group_entry := true
              offset := context0.offset + context0.entry_length + 6 },
            hits)
    else if group_id = 0xc0 then
      if EB_SIZE_PAGE < context.offset + 13 then Except.error context
      else
        Except.ok
          ({ context with offset := context.offset + 13 },
            if context.in_group_entry = true ∧ context.comparison_result = 0 then
              hits ++ [hit_at cache_p 1 7]
            else hits)
    else Except.error context

/-- Entry loop of a leaf with group entries in `eb_hit_list_multi`
(lines 1245-1342). -/
def multi_group_loop (cache_buffer : Page) (max_hit_count : Int) :
    Nat → EB_Search_Context → List EB_Hit → Walk_Exit × EB_Search_Context × List EB_Hit
  | 0, context, hits => (Walk_Exit.page_done, context, hits)
  | r + 1, context, hits =>
    match multi_group_entry cache_buffer context hits with
    | Except.error context1 => (Walk_Exit.failed EB_ERR_UNEXP_TEXT, context1, hits)
    | Except.ok (context1, hits1) =>
      let context2 := { context1 with entry_index := context1.entry_index + 1 }
      if context2.comparison_result < 0 ∨ max_hit_count ≤ (hits1.length : Int) then
        (Walk_Exit.succeeded, context2, hits1)
      else multi_group_loop cache_buffer max_hit_count r context2 hits1

/-- The external text-cursor functions used by the keyword walk, acting on
`book->text_context` (of an unspecified type `TC`).  `eb_tell_text` receives
the former content of the position it writes to. -/
structure Text_Functions (TC : Type) where
  eb_seek_text : TC → EB_Position → EB_Error_Code × TC
  eb_tell_text : TC → EB_Position → EB_Error_Code × TC × EB_Position
  eb_forward_heading : TC → EB_Error_Code × TC

/-- State of the keyword walk: context, stored hits, text context. -/
structure Keyword_State (TC : Type) where
  context : EB_Search_Context
  hits : List EB_Hit
  text_context : TC

/-- One record of a leaf with group entries in `eb_hit_list_keyword`
(lines 918-1026), before `entry_index++`.  `Except.error` carries the error
code and the state at the `goto failed`. -/
def keyword_group_entry {TC : Type} (text : Text_Functions TC) (cache_buffer : Page)
    (s : Keyword_State TC) : Except (EB_Error_Code × Keyword_State TC) (Keyword_State TC) :=
  let context := s.context
  if EB_SIZE_PAGE < context.offset + 2 then Except.error (EB_ERR_UNEXP_TEXT, s)
  else
    let cache_p := ptr cache_buffer context.offset
    let group_id := eb_uint1 cache_p
    if group_id = 0x00 then
      let context0 := { context with entry_length := eb_uint1 (ptr cache_p 1) }
      match single_entry cache_p context0 s.hits with
      | none => Except.error (EB_ERR_UNEXP_TEXT, { s with context := context0 })
      | some r => Except.ok { s with context := r.1, hits := r.2 }
    else if group_id = 0x80 then
      let context0 := { context with entry_length := eb_uint1 (ptr cache_p 1) }
      if EB_SIZE_PAGE < context0.offset + context0.entry_length + 12 then
        Except.error (EB_ERR_UNEXP_TEXT, { s with context := context0 })
      else
        let context1 :=
          { context0 with
            comparison_result :=
              context0.compare context0.canonicalized_word (ptr cache_p 6)
                context0.entry_length
            keyword_heading :=
              { page := eb_uint4 (ptr cache_p (context0.entry_length + 6))
                offset := eb_uint2 (ptr cache_p (context0.entry_length + 10)) }
            in_group_entry := true
            offset := context0.offset + context0.entry_length + 12 }
        if context1.comparison_result = 0 then
          let sk := text.eb_seek_text s.text_context context1.keyword_heading
          if sk.1 ≠ EB_SUCCESS then
            Except.error (sk.1, { s with context := context1, text_context := sk.2 })
          else Except.ok { s with context := context1, text_context := sk.2 }
        else Except.ok { s with context := context1 }
    else if group_id = 0xc0 then
      if EB_SIZE_PAGE < context.offset + 7 then Except.error (EB_ERR_UNEXP_TEXT, s)
      else if context.in_group_entry = true ∧ context.comparison_result = 0 then
        let tl := text.eb_tell_text s.text_context context.keyword_heading
        let context1 := { context with keyword_heading := tl.2.2 }
        if tl.1 ≠ EB_SUCCESS then
          Except.error (tl.1, { s with context := context1, text_context := tl.2.1 })
        else
          let hits1 :=
            s.hits ++
              [{ heading := context1.keyword_heading
                 text := { page := eb_uint4 (ptr cache_p 1), offset := eb_uint2 (ptr cache_p 5) } }]
          let fw := text.eb_forward_heading tl.2.1
          if fw.1 ≠ EB_SUCCESS then
            Except.error (fw.1, { context := context1, hits := hits1, text_context := fw.2 })
          else
            Except.ok
              { context := { context1 with offset := context1.offset + 7 }
                hits := hits1
                text_context := fw.2 }
      else Except.ok { s with context := { context with offset := context.offset + 7 } }
    else Except.error (EB_ERR_UNEXP_TEXT, s)

/-- Entry loop of a leaf with group entries in `eb_hit_list_keyword`
(lines 917-1032). -/
def keyword_group_loop {TC : Type} (text : Text_Functions TC) (cache_buffer : Page)
    (max_hit_count : Int) : Nat → Keyword_State TC → Walk_Exit × Keyword_State TC
  | 0, s => (Walk_Exit.page_done, s)
  | r + 1, s =>
    match keyword_group_entry text cache_buffer s with
    | Except.error e => (Walk_Exit.failed e.1, e.2)
    | Except.ok s1 =>
      let s2 :=
        { s1 with context := { s1.context with entry_index := s1.context.entry_index + 1 } }
      if s2.context.comparison_result < 0 ∨ max_hit_count ≤ (s2.hits.length : Int) then
        (Walk_Exit.succeeded, s2)
      else keyword_group_loop text cache_buffer max_hit_count r s2

/-- What a leaf walk returns: the error code, the cache variables and the
context after the call, the elements stored into `hit_list[0]`,
`hit_list[1]`, ... in this order, and the value left in `*hit_count`. -/
structure Hit_List_Result where
  error_code : EB_Error_Code
  cache : Cache
  context : EB_Search_Context
  hit_list : List EB_Hit
  hit_count : Int

/-- The label `failed` of the three leaf walks (lines 721-725, 1063-1068,
1363-1367): a read error discards the cache, and `*hit_count = 0`. -/
def walk_failed (error_code : EB_Error_Code) (cache : Cache) (context : EB_Search_Context)
    (hits : List EB_Hit) : Hit_List_Result :=
  { error_code := error_code
    cache :=
      if error_code = EB_ERR_FAIL_READ_TEXT then { cache with cache_book_code := EB_BOOK_NONE }
      else cache
    context := context
    hit_list := hits
    hit_count := 0 }

/-- The label `succeeded` of `eb_hit_list_word` and `eb_hit_list_multi`. -/
def walk_succeeded (cache : Cache) (context : EB_Search_Context) (hits : List EB_Hit) :
    Hit_List_Result :=
  { error_code := EB_SUCCESS
    cache := cache
    context := context
    hit_list := hits
    hit_count := hits.length }

/-- The `for (;;)` loop over pages of `eb_hit_list_word` (lines 447-712).
The first argument bounds the number of iterations; `none` means the bound
was reached before the loop was left. -/
def word_page_loop (book : EB_Book) (max_hit_count : Int) :
    Nat → Cache → EB_Search_Context → List EB_Hit → Option Hit_List_Result
  | 0, _, _, _ => none
  | fuel + 1, cache, context, hits =>
    let ld := load_leaf_page book cache context
    if ld.1 ≠ EB_SUCCESS then some (walk_failed ld.1 ld.2.1 ld.2.2 hits)
    else if ¬ PAGE_ID_IS_LEAF_LAYER ld.2.2.page_id then
      some (walk_failed EB_ERR_UNEXP_TEXT ld.2.1 ld.2.2 hits)
    else
      let remaining := ld.2.2.entry_count - ld.2.2.entry_index
      let w :=
        if ¬ PAGE_ID_HAVE_GROUP_ENTRY ld.2.2.page_id
            ∧ ld.2.2.entry_arrangement = EB_ARRANGE_FIXED then
          fixed_loop 12 ld.2.1.cache_buffer max_hit_count remaining ld.2.2 hits
        else if ¬ PAGE_ID_HAVE_GROUP_ENTRY ld.2.2.page_id
            ∧ ld.2.2.entry_arrangement = EB_ARRANGE_VARIABLE then
          variable_loop ld.2.1.cache_buffer max_hit_count remaining ld.2.2 hits
        else word_group_loop ld.2.1.cache_buffer max_hit_count remaining ld.2.2 hits
      match w.1 with
      | Walk_Exit.failed error_code => some (walk_failed error_code ld.2.1 w.2.1 w.2.2)
      | Walk_Exit.succeeded => some (walk_succeeded ld.2.1 w.2.1 w.2.2)
      | Walk_Exit.page_done =>
        if PAGE_ID_IS_LAYER_END w.2.1.page_id then
          some (walk_succeeded ld.2.1 { w.2.1 with comparison_result := -1 } w.2.2)
        else
          word_page_loop book max_hit_count fuel ld.2.1
            { w.2.1 with page := int32 (w.2.1.page + 1), entry_index := 0 } w.2.2

/-- Model of `eb_hit_list_word` (search.c lines 425-726).  `fuel` bounds the
number of pages the walk may visit. -/
def eb_hit_list_word (fuel : Nat) (book : EB_Book) (cache : Cache)
    (context : EB_Search_Context) (max_hit_count : Int) : Option Hit_List_Result :=
  if context.comparison_result < 0 then some (walk_succeeded cache context [])
  else word_page_loop book max_hit_count fuel cache context []

/-- The `for (;;)` loop over pages of `eb_hit_list_multi` (lines 1097-1354). -/
def multi_page_loop (book : EB_Book) (max_hit_count : Int) :
    Nat → Cache → EB_Search_Context → List EB_Hit → Option Hit_List_Result
  | 0, _, _, _ => none
  | fuel + 1, cache, context, hits =>
    let ld := load_leaf_page book cache context
    if ld.1 ≠ EB_SUCCESS then some (walk_failed ld.1 ld.2.1 ld.2.2 hits)
    else if ¬ PAGE_ID_IS_LEAF_LAYER ld.2.2.page_id then
      some (walk_failed EB_ERR_UNEXP_TEXT ld.2.1 ld.2.2 hits)
    else
      let remaining := ld.2.2.entry_count - ld.2.2.entry_index
      let w :=
        if ¬ PAGE_ID_HAVE_GROUP_ENTRY ld.2.2.page_id
            ∧ ld.2.2.entry_arrangement = EB_ARRANGE_FIXED then
          fixed_loop 13 ld.2.1.cache_buffer max_hit_count remaining ld.2.2 hits
        else if ¬ PAGE_ID_HAVE_GROUP_ENTRY ld.2.2.page_id
            ∧ ld.2.2.entry_arrangement = EB_ARRANGE_VARIABLE then
          variable_loop ld.2.1.cache_buffer max_hit_count remaining ld.2.2 hits
        else multi_group_loop ld.2.1.cache_buffer max_hit_count remaining ld.2.2 hits
      match w.1 with
      | Walk_Exit.failed error_code => some (walk_failed error_code ld.2.1 w.2.1 w.2.2)
      | Walk_Exit.succeeded => some (walk_succeeded ld.2.1 w.2.1 w.2.2)
      | Walk_Exit.page_done =>
        if PAGE_ID_IS_LAYER_END w.2.1.page_id then
          some (walk_succeeded ld.2.1 { w.2.1 with comparison_result := -1 } w.2.2)
        else
          multi_page_loop book max_hit_count fuel ld.2.1
            { w.2.1 with page := int32 (w.2.1.page + 1), entry_index := 0 } w.2.2

/-- Model of `eb_hit_list_multi` (search.c lines 1075-1368). -/
def eb_hit_list_multi (fuel : Nat) (book : EB_Book) (cache : Cache)
    (context : EB_Search_Context) (max_hit_count : Int) : Option Hit_List_Result :=
  if context.comparison_result < 0 then some (walk_succeeded cache context [])
  else multi_page_loop book max_hit_count fuel cache context []

/-- The label `succeeded` of `eb_hit_list_keyword` (lines 1046-1057): inside a
matching group the heading cursor is saved with `eb_tell_text`, whose failure
leads to `failed`.  The text context is restored from the backup in both
cases, so it is not part of the result. -/
def keyword_succeeded {TC : Type} (text : Text_Functions TC) (cache : Cache)
    (s : Keyword_State TC) : Hit_List_Result :=
  if s.context.in_group_entry = true ∧ s.context.comparison_result = 0 then
    let tl := text.eb_tell_text s.text_context s.context.keyword_heading
    let context1 := { s.context with keyword_heading := tl.2.2 }
    if tl.1 ≠ EB_SUCCESS then walk_failed tl.1 cache context1 s.hits
    else walk_succeeded cache context1 s.hits
  else walk_succeeded cache s.context s.hits

/-- The `for (;;)` loop over pages of `eb_hit_list_keyword` (lines 769-1044)
together with the two exit labels. -/
def keyword_page_loop {TC : Type} (text : Text_Functions TC) (book : EB_Book)
    (max_hit_count : Int) : Nat → Cache → Keyword_State TC → Option Hit_List_Result
  | 0, _, _ => none
  | fuel + 1, cache, s =>
    let ld := load_leaf_page book cache s.context
    if ld.1 ≠ EB_SUCCESS then some (walk_failed ld.1 ld.2.1 ld.2.2 s.hits)
    else if ¬ PAGE_ID_IS_LEAF_LAYER ld.2.2.page_id then
      some (walk_failed EB_ERR_UNEXP_TEXT ld.2.1 ld.2.2 s.hits)
    else
      let remaining := ld.2.2.entry_count - ld.2.2.entry_index
      let w : Walk_Exit × Keyword_State TC :=
        if ¬ PAGE_ID_HAVE_GROUP_ENTRY ld.2.2.page_id
            ∧ ld.2.2.entry_arrangement = EB_ARRANGE_FIXED then
          let f := fixed_loop 12 ld.2.1.cache_buffer max_hit_count remaining ld.2.2 s.hits
          (f.1, { s with context := f.2.1, hits := f.2.2 })
        else if ¬ PAGE_ID_HAVE_GROUP_ENTRY ld.2.2.page_id
            ∧ ld.2.2.entry_arrangement = EB_ARRANGE_VARIABLE then
          let v := variable_loop ld.2.1.cache_buffer max_hit_count remaining ld.2.2 s.hits
          (v.1, { s with context := v.2.1, hits := v.2.2 })
        else
          keyword_group_loop text ld.2.1.cache_buffer max_hit_count remaining
            { s with context := ld.2.2 }
      match w.1 with
      | Walk_Exit.failed error_code =>
        some (walk_failed error_code ld.2.1 w.2.context w.2.hits)
      | Walk_Exit.succeeded => some (keyword_succeeded text ld.2.1 w.2)
      | Walk_Exit.page_done =>
        if PAGE_ID_IS_LAYER_END w.2.context.page_id then
          some (keyword_succeeded text ld.2.1
            { w.2 with context := { w.2.context with comparison_result := -1 } })
        else
          keyword_page_loop text book max_hit_count fuel ld.2.1
            { w.2 with
              context := { w.2.context with page := int32 (w.2.context.page + 1), entry_index := 0 } }

/-- Model of `eb_hit_list_keyword` (search.c lines 732-1069).
`text_context` is `book->text_context` on entry. -/
def eb_hit_list_keyword {TC : Type} (text : Text_Functions TC) (fuel : Nat) (book : EB_Book)
    (text_context : TC) (cache : Cache) (context : EB_Search_Context)
    (max_hit_count : Int) : Option Hit_List_Result :=
  let sk :=
    if context.in_group_entry = true ∧ context.comparison_result = 0 then
      text.eb_seek_text text_context context.keyword_heading
    else (EB_SUCCESS, text_context)
  if sk.1 ≠ EB_SUCCESS then some (walk_failed sk.1 cache context [])
  else if context.comparison_result < 0 then
    some (keyword_succeeded text cache { context := context, hits := [], text_context := sk.2 })
  else
    keyword_page_loop text book max_hit_count fuel cache
      { context := context, hits := [], text_context := sk.2 }

/-- The value an `int` local receives from a page or offset field of a hit
(`current_page = hit_lists[i][hit_indexes[i]].text.page`, lines 1432-1433 and
1477-1478): an unsigned 32-bit field keeps its bits, so a field from `2^31`
on is a negative `int`.  A number that does not fit 32 bits, which no field
holds, is left as it is. -/
def field_int (v : Nat) : Int := if v < 4294967296 then int32 v else v

/-- The variables of one comparison pass of `eb_and_hit_lists`
(lines 1408-1413); `greatest_page` and `greatest_offset` are `int`
(lines 1386-1387). -/
structure And_Scan where
  greatest_list : Int
  greatest_page : Int
  greatest_offset : Int
  equal_count : Nat
  deriving DecidableEq, Repr

/-- A row of `hit_lists` during `eb_and_hit_lists`: the index
`hit_indexes[i]` and the elements `hit_lists[i][hit_indexes[i]]` ...
`hit_lists[i][hit_counts[i] - 1]` not yet passed.  The list is empty exactly
when `hit_counts[i] <= hit_indexes[i]`, and its head is the current element. -/
abbrev And_Row := Nat × List EB_Hit

/-- Body of the comparison loop for list `i` (lines 1419-1450). -/
def and_scan_step (s : And_Scan) (i : Nat) (row : And_Row) : And_Scan :=
  match row.2 with
  | [] => s
  | hit :: _ =>
    let current_page := field_int hit.text.page
    let current_offset := field_int hit.text.offset
    if s.greatest_list = -1 then
      { greatest_page := current_page
        greatest_offset := current_offset
        greatest_list := i
        equal_count := s.equal_count + 1 }
    else if s.greatest_page < current_page then
      { s with
        greatest_page := current_page
        greatest_offset := current_offset
        greatest_list := i }
    else if current_page = s.greatest_page ∧ s.greatest_offset < current_offset then
      { s with
        greatest_page := current_page
        greatest_offset := current_offset
        greatest_list := i }
    else if current_page = s.greatest_page ∧ current_offset = s.greatest_offset then
      { s with equal_count := s.equal_count + 1 }
    else s

/-- The comparison loop `for (i = 0; i < hit_list_count; i++)`
(lines 1418-1451), from list `i` on. -/
def and_scan : Nat → List And_Row → And_Scan → And_Scan
  | _, [], s => s
  | i, row :: rows, s => and_scan (i + 1) rows (and_scan_step s i row)

/-- The loop that increases the indexes of all lists after a hit
(lines 1462-1466). -/
def and_advance_all (rows : List And_Row) : List And_Row :=
  rows.map fun row =>
    match row.2 with
    | [] => row
    | _ :: rest => (row.1 + 1, rest)

/-- The loop that increases the indexes of the lists whose current element
is not the greatest one (lines 1474-1484). -/
def and_advance_lesser (greatest_page greatest_offset : Int) (rows : List And_Row) :
    List And_Row :=
  rows.map fun row =>
    match row.2 with
    | [] => row
    | hit :: rest =>
      if field_int hit.text.page ≠ greatest_page
          ∨ field_int hit.text.offset ≠ greatest_offset then
        (row.1 + 1, rest)
      else row

/-- The value of `increment_count` after the loop of lines 1474-1484. -/
def and_increment_count (greatest_page greatest_offset : Int) (rows : List And_Row) : Nat :=
  (rows.filter fun row =>
    match row.2 with
    | [] => false
    | hit :: _ =>
      decide (field_int hit.text.page ≠ greatest_page
        ∨ field_int hit.text.offset ≠ greatest_offset)).length

/-- The element `hit_lists[0][hit_indexes[0]]` copied on a hit (line 1459).
With `equal_count == hit_list_count >= 1` list 0 has a current element; with
`hit_list_count == 0` the C code copies an indeterminate element, which is
`default` here. -/
def and_first_element (rows : List And_Row) : EB_Hit :=
  match rows with
  | (_, hit :: _) :: _ => hit
  | _ => default

/-- The `while (*and_count < max_and_count)` loop of `eb_and_hit_lists`
(lines 1404-1488).  The first argument bounds the number of iterations;
`and_list` holds the elements stored so far. -/
def and_loop (max_and_count : Int) :
    Nat → List And_Row → List EB_Hit → Option (List EB_Hit × List And_Row)
  | 0, _, _ => none
  | fuel + 1, rows, and_list =>
    if ¬ ((and_list.length : Int) < max_and_count) then some (and_list, rows)
    else
      let s := and_scan 0 rows
        { greatest_list := -1, greatest_page := 0, greatest_offset := 0, equal_count := 0 }
      if s.equal_count = rows.length then
        and_loop max_and_count fuel (and_advance_all rows)
          (and_list ++ [and_first_element rows])
      else if and_increment_count s.greatest_page s.greatest_offset rows = 0 then
        some (and_list, rows)
      else
        and_loop max_and_count fuel
          (and_advance_lesser s.greatest_page s.greatest_offset rows) and_list

/-- Model of `eb_and_hit_lists` (search.c lines 1374-1496).  `hit_lists` are
the `hit_list_count` rows, row `i` being the first `hit_counts[i]` elements
of `hit_lists[i]`.  Returns the elements stored into `and_list` (their number
is `*and_count`) and the new `hit_counts[]`, which are the final indexes.
Every iteration that does not leave the loop stores an element or passes an
element of a row, which gives the iteration bound used. -/
def eb_and_hit_lists (max_and_count : Int) (hit_lists : List (List EB_Hit)) :
    Option (List EB_Hit × List Nat) :=
  let fuel := (hit_lists.map List.length).sum + max_and_count.toNat + 1
  (and_loop max_and_count fuel (hit_lists.map fun row => (0, row)) []).map
    fun r => (r.1, r.2.map Prod.fst)

/-- What the first inner loop of a compound round leaves: the error code of
the failing walk (or `EB_SUCCESS`), the cache variables, the rows written
into `temporary_hit_lists[0]`, `[1]`, ... (`temporary_hit_counts[i]` is the
length of row `i`) and `last_temporary_hit_count`. -/
structure Gather_Result where
  error_code : EB_Error_Code
  cache : Cache
  rows : List (List EB_Hit)
  last_temporary_hit_count : Int

/-- The first inner loop of the keyword round (lines 313-327): every keyword
context is copied to `temporary_context` and walked for up to
`EB_TMP_MAX_HITS` hits.  The first argument is `EB_MAX_KEYWORDS - i`. -/
def keyword_gather {TC : Type} (text : Text_Functions TC) (fuel : Nat) (book : EB_Book)
    (text_context : TC) : Nat → Nat → Cache → List (List EB_Hit) → Int → Option Gather_Result
  | 0, _, cache, rows, last =>
    some { error_code := EB_SUCCESS, cache := cache, rows := rows,
           last_temporary_hit_count := last }
  | r + 1, i, cache, rows, last =>
    if (book.search_contexts i).code ≠ EB_SEARCH_KEYWORD then
      some { error_code := EB_SUCCESS, cache := cache, rows := rows,
             last_temporary_hit_count := last }
    else
      match eb_hit_list_keyword text fuel book text_context cache (book.search_contexts i)
          EB_TMP_MAX_HITS with
      | none => none
      | some res =>
        if res.error_code ≠ EB_SUCCESS then
          some { error_code := res.error_code, cache := res.cache, rows := rows,
                 last_temporary_hit_count := res.hit_count }
        else if res.hit_count = 0 then
          some { error_code := EB_SUCCESS, cache := res.cache, rows := rows ++ [res.hit_list],
                 last_temporary_hit_count := res.hit_count }
        else
          keyword_gather text fuel book text_context r (i + 1) res.cache
            (rows ++ [res.hit_list]) res.hit_count

/-- The first inner loop of the multi round (lines 358-372).  The first
argument is `EB_MAX_MULTI_ENTRIES - i`. -/
def multi_gather (fuel : Nat) (book : EB_Book) :
    Nat → Nat → Cache → List (List EB_Hit) → Int → Option Gather_Result
  | 0, _, cache, rows, last =>
    some { error_code := EB_SUCCESS, cache := cache, rows := rows,
           last_temporary_hit_count := last }
  | r + 1, i, cache, rows, last =>
    if (book.search_contexts i).code ≠ EB_SEARCH_MULTI then
      some { error_code := EB_SUCCESS, cache := cache, rows := rows,
             last_temporary_hit_count := last }
    else
      match eb_hit_list_multi fuel book cache (book.search_contexts i) EB_TMP_MAX_HITS with
      | none => none
      | some res =>
        if res.error_code ≠ EB_SUCCESS then
          some { error_code := res.error_code, cache := res.cache, rows := rows,
                 last_temporary_hit_count := res.hit_count }
        else if res.hit_count = 0 then
          some { error_code := EB_SUCCESS, cache := res.cache, rows := rows ++ [res.hit_list],
                 last_temporary_hit_count := res.hit_count }
        else
          multi_gather fuel book r (i + 1) res.cache (rows ++ [res.hit_list]) res.hit_count

/-- The second inner loop of the keyword round (lines 335-343): every keyword
context of the book itself is walked for `temporary_hit_counts[i]` hits.  The
first argument is `EB_MAX_MULTI_ENTRIES - i` (the source uses this bound in
the keyword case too). -/
def keyword_advance {TC : Type} (text : Text_Functions TC) (fuel : Nat) (text_context : TC)
    (temporary_hit_counts : Nat → Int) :
    Nat → Nat → EB_Book → Cache → Option (EB_Error_Code × EB_Book × Cache)
  | 0, _, book, cache => some (EB_SUCCESS, book, cache)
  | r + 1, i, book, cache =>
    if (book.search_contexts i).code ≠ EB_SEARCH_KEYWORD then some (EB_SUCCESS, book, cache)
    else
      match eb_hit_list_keyword text fuel book text_context cache (book.search_contexts i)
          (temporary_hit_counts i) with
      | none => none
      | some res =>
        let book1 :=
          { book with search_contexts := Function.update book.search_contexts i res.context }
        if res.error_code ≠ EB_SUCCESS then some (res.error_code, book1, res.cache)
        else keyword_advance text fuel text_context temporary_hit_counts r (i + 1) book1 res.cache

/-- The second inner loop of the multi round (lines 380-388). -/
def multi_advance (fuel : Nat) (temporary_hit_counts : Nat → Int) :
    Nat → Nat → EB_Book → Cache → Option (EB_Error_Code × EB_Book × Cache)
  | 0, _, book, cache => some (EB_SUCCESS, book, cache)
  | r + 1, i, book, cache =>
    if (book.search_contexts i).code ≠ EB_SEARCH_MULTI then some (EB_SUCCESS, book, cache)
    else
      match eb_hit_list_multi fuel book cache (book.search_contexts i)
          (temporary_hit_counts i) with
      | none => none
      | some res =>
        let book1 :=
          { book with search_contexts := Function.update book.search_contexts i res.context }
        if res.error_code ≠ EB_SUCCESS then some (res.error_code, book1, res.cache)
        else multi_advance fuel temporary_hit_counts r (i + 1) book1 res.cache

/-- The constants and indeterminate values `eb_hit_list` depends on and that
the two source files do not fix: the macros `EB_MAX_KEYWORDS` and
`EB_MAX_MULTI_ENTRIES`, and the initial content of the local array
`temporary_hit_counts`, which is never initialised. -/
structure Hit_List_Env where
  EB_MAX_KEYWORDS : Nat
  EB_MAX_MULTI_ENTRIES : Nat
  temporary_hit_counts : Nat → Int

/-- What `eb_hit_list` returns: the error code, the book (with its search
contexts) and the cache variables after the call, the elements stored into
the `hit_list` of the caller in this order, and the value of `*hit_count`. -/
structure Hit_List_Outcome where
  error_code : EB_Error_Code
  book : EB_Book
  cache : Cache
  hit_list : List EB_Hit
  hit_count : Int

/-- The array `temporary_hit_counts` after `eb_and_hit_lists` wrote the final
indexes of the first `hit_list_count` rows. -/
def updated_hit_counts (env : Hit_List_Env) (indexes : List Nat) : Nat → Int :=
  fun i =>
    match indexes.get? i with
    | some n => (n : Int)
    | none => env.temporary_hit_counts i

/-- The `for (;;)` loop of the keyword case of `eb_hit_list` (lines 310-348).
`hits` are the elements stored so far, `hit_count` is `*hit_count`. -/
def keyword_rounds {TC : Type} (text : Text_Functions TC) (env : Hit_List_Env) (fuel : Nat)
    (text_context : TC) (max_hit_count : Int) :
    Nat → EB_Book → Cache → List EB_Hit → Int → Option Hit_List_Outcome
  | 0, _, _, _, _ => none
  | rounds + 1, book, cache, hits, hit_count =>
    match keyword_gather text fuel book text_context env.EB_MAX_KEYWORDS 0 cache [] 0 with
    | none => none
    | some g =>
      if g.error_code ≠ EB_SUCCESS then
        some { error_code := g.error_code, book := book, cache := g.cache,
               hit_list := hits, hit_count := 0 }
      else if g.last_temporary_hit_count = 0 then
        some { error_code := EB_SUCCESS, book := book, cache := g.cache,
               hit_list := hits, hit_count := hit_count }
      else
        match eb_and_hit_lists (max_hit_count - hit_count) g.rows with
        | none => none
        | some a =>
          match keyword_advance text fuel text_context (updated_hit_counts env a.2)
              env.EB_MAX_MULTI_ENTRIES 0 book g.cache with
          | none => none
          | some adv =>
            if adv.1 ≠ EB_SUCCESS then
              some { error_code := adv.1, book := adv.2.1, cache := adv.2.2,
                     hit_list := hits ++ a.1, hit_count := 0 }
            else if max_hit_count ≤ hit_count + (a.1.length : Int) then
              some { error_code := EB_SUCCESS, book := adv.2.1, cache := adv.2.2,
                     hit_list := hits ++ a.1, hit_count := hit_count + (a.1.length : Int) }
            else
              keyword_rounds text env fuel text_context max_hit_count rounds adv.2.1 adv.2.2
                (hits ++ a.1) (hit_count + (a.1.length : Int))

/-- The `for (;;)` loop of the multi case of `eb_hit_list` (lines 355-393). -/
def multi_rounds (env : Hit_List_Env) (fuel : Nat) (max_hit_count : Int) :
    Nat → EB_Book → Cache → List EB_Hit → Int → Option Hit_List_Outcome
  | 0, _, _, _, _ => none
  | rounds + 1, book, cache, hits, hit_count =>
    match multi_gather fuel book env.EB_MAX_MULTI_ENTRIES 0 cache [] 0 with
    | none => none
    | some g =>
      if g.error_code ≠ EB_SUCCESS then
        some { error_code := g.error_code, book := book, cache := g.cache,
               hit_list := hits, hit_count := 0 }
      else if g.last_temporary_hit_count = 0 then
        some { error_code := EB_SUCCESS, book := book, cache := g.cache,
               hit_list := hits, hit_count := hit_count }
      else
        match eb_and_hit_lists (max_hit_count - hit_count) g.rows with
        | none => none
        | some a =>
          match multi_advance fuel (updated_hit_counts env a.2)
              env.EB_MAX_MULTI_ENTRIES 0 book g.cache with
          | none => none
          | some adv =>
            if adv.1 ≠ EB_SUCCESS then
              some { error_code := adv.1, book := adv.2.1, cache := adv.2.2,
                     hit_list := hits ++ a.1, hit_count := 0 }
            else if max_hit_count ≤ hit_count + (a.1.length : Int) then
              some { error_code := EB_SUCCESS, book := adv.2.1, cache := adv.2.2,
                     hit_list := hits ++ a.1, hit_count := hit_count + (a.1.length : Int) }
            else
              multi_rounds env fuel max_hit_count rounds adv.2.1 adv.2.2
                (hits ++ a.1) (hit_count + (a.1.length : Int))

/-- Model of `eb_hit_list` (search.c lines 256-419).  `fuel` bounds the pages
of every leaf walk and the rounds of a compound search; `hit_count` is the
value of `*hit_count` on entry. -/
def eb_hit_list {TC : Type} (text : Text_Functions TC) (env : Hit_List_Env) (fuel : Nat)
    (book : EB_Book) (text_context : TC) (cache : Cache) (max_hit_count : Int)
    (hit_count : Int) : Option Hit_List_Outcome :=
  if max_hit_count = 0 then
    some { error_code := EB_SUCCESS, book := book, cache := cache,
           hit_list := [], hit_count := hit_count }
  else if book.subbook_current.isNone then
    some { error_code := EB_ERR_NO_CUR_SUB, book := book, cache := cache,
           hit_list := [], hit_count := 0 }
  else
    match (book.search_contexts 0).code with
    | EB_SEARCH_EXACTWORD | EB_SEARCH_WORD | EB_SEARCH_ENDWORD =>
      (eb_hit_list_word fuel book cache (book.search_contexts 0) max_hit_count).map fun res =>
        { error_code := res.error_code
          book := { book with
                    search_contexts := Function.update book.search_contexts 0 res.context }
          cache := res.cache
          hit_list := res.hit_list
          hit_count := if res.error_code ≠ EB_SUCCESS then 0 else res.hit_count }
    | EB_SEARCH_KEYWORD =>
      keyword_rounds text env fuel text_context max_hit_count fuel book cache [] 0
    | EB_SEARCH_MULTI => multi_rounds env fuel max_hit_count fuel book cache [] 0
    | EB_SEARCH_NONE =>
      some { error_code := EB_ERR_NO_PREV_SEARCH, book := book, cache := cache,
             hit_list := [], hit_count := 0 }

/-! ## narwalt.c : alternation text and range -/

/-- Modelled from the spec: `MAX_ALTERNATION_TEXT_LENGTH = 31` bytes.  The
macro `EB_MAX_ALTERNATION_TEXT_LENGTH` is defined in a header outside the two
source files. -/
def EB_MAX_ALTERNATION_TEXT_LENGTH : Nat := 31

/-- Modelled from the spec: an alternation cache entry
`{character_number: i32 (sentinel -1 = empty), text: [u8; 32]}`. -/
structure EB_Alternation_Cache where
  character_number : Int
  text : Page

/-- The macro `EB_HASH_ALT_CACHE` (narwalt.c line 61): `(c) & 0x0f`, used as
an index into `appendix->narrow_cache`. -/
def EB_HASH_ALT_CACHE (c : Int) : Nat := (Int.land c 0x0f).toNat

/-- Outcome of `eb_zlseek` to a byte location of the appendix file followed by
`eb_zread` of `EB_MAX_ALTERNATION_TEXT_LENGTH + 1` bytes into the text of a
cache entry.  Both functions are external; a read that does not deliver all
the bytes may leave anything in the entry text, given here as a function of
the former content. -/
inductive Appendix_Read where
  | seek_failed
  | short_read (clobber : Page → Page)
  | full_read (data : Page)

/-- A call of the external reader on the appendix file. -/
inductive Appendix_Call where
  | zlseek (location : Int)
  | zread (length : Nat)
  deriving DecidableEq, Repr

/-- The parts of an appendix used by the text lookup besides those of
`EB_Appendix`: the cache `appendix->narrow_cache` (indexed by
`EB_HASH_ALT_CACHE`), the appendix file of the current subbook as a read-only
map from byte locations to read outcomes, and a ghost record of the reader
calls made so far (most recent first). -/
structure EB_Appendix_Data where
  narrow_cache : Nat → EB_Alternation_Cache
  appendix_file : Int → Appendix_Read
  zio_calls : List Appendix_Call

/-- The call `memcpy(text, cache_p->text, EB_MAX_ALTERNATION_TEXT_LENGTH + 1)`:
the buffer `text` after the copy. -/
def copy_text (source text : Page) : Page :=
  fun i => if i < EB_MAX_ALTERNATION_TEXT_LENGTH + 1 then source i else text i

/-- The assignment `p[i] = '\0'` on a `char` buffer. -/
def set_nul (p : Page) (i : Nat) : Page := Function.update p i 0

/-- Model of `eb_have_narrow_alt` (narwalt.c lines 68-99). -/
def eb_have_narrow_alt (appendix : EB_Appendix) : Int :=
  match appendix.subbook_current with
  | none => 0
  | some sub => if sub.narrow_page = 0 then 0 else 1

/-- Model of `eb_narrow_alt_start` (narwalt.c lines 106-147): the error code
and the value of `*start` on return. -/
def eb_narrow_alt_start (appendix : EB_Appendix) : EB_Error_Code × Int :=
  match appendix.subbook_current with
  | none => (EB_ERR_NO_CUR_APPSUB, -1)
  | some sub =>
    if sub.narrow_page = 0 then (EB_ERR_NO_SUCH_CHAR_TEXT, -1)
    else (EB_SUCCESS, sub.narrow_start)

/-- Model of `eb_narrow_alt_end` (narwalt.c lines 154-195): the error code and
the value of `*end` on return. -/
def eb_narrow_alt_end (appendix : EB_Appendix) : EB_Error_Code × Int :=
  match appendix.subbook_current with
  | none => (EB_ERR_NO_CUR_APPSUB, -1)
  | some sub =>
    if sub.narrow_page = 0 then (EB_ERR_NO_SUCH_CHAR_TEXT, -1)
    else (EB_SUCCESS, sub.narrow_end)

/-- The common body of `eb_narrow_character_text_jis` (narwalt.c lines
260-339, with `lo = 0x21`, `hi = 0x7e`, `stride = 0x5e`) and
`eb_narrow_character_text_latin` (lines 345-421, with `lo = 0x01`,
`hi = 0xfe`, `stride = 0xfe`).  `sub` is `appendix->subbook_current`.
Returns the error code, the appendix data and the buffer `text` of the
caller. -/
def narrow_character_text (lo hi stride : Int) (sub : EB_Appendix_Subbook)
    (data : EB_Appendix_Data) (character_number : Int) (text : Page) :
    EB_Error_Code × EB_Appendix_Data × Page :=
  if character_number < sub.narrow_start
      ∨ sub.narrow_end < character_number
      ∨ low_byte character_number < lo
      ∨ hi < low_byte character_number then
    (EB_ERR_NO_SUCH_CHAR_TEXT, data, set_nul text 0)
  else
    let location : Int :=
      (sub.narrow_page - 1) * EB_SIZE_PAGE
        + (((character_number >>> 8) - (sub.narrow_start >>> 8)) * stride
            + low_byte character_number - low_byte sub.narrow_start)
          * (EB_MAX_ALTERNATION_TEXT_LENGTH + 1 : Nat)
    let slot := EB_HASH_ALT_CACHE character_number
    let cache_p := data.narrow_cache slot
    if cache_p.character_number = character_number then
      (EB_SUCCESS, data, copy_text cache_p.text text)
    else
      match data.appendix_file location with
      | Appendix_Read.seek_failed =>
        (EB_ERR_FAIL_SEEK_APP,
          { data with zio_calls := Appendix_Call.zlseek location :: data.zio_calls },
          set_nul text 0)
      | Appendix_Read.short_read clobber =>
        (EB_ERR_FAIL_READ_APP,
          { data with
            narrow_cache := Function.update data.narrow_cache slot
              { character_number := -1, text := clobber cache_p.text }
            zio_calls :=
              Appendix_Call.zread (EB_MAX_ALTERNATION_TEXT_LENGTH + 1)
                :: Appendix_Call.zlseek location :: data.zio_calls },
          set_nul text 0)
      | Appendix_Read.full_read bytes =>
        (EB_SUCCESS,
          { data with
            narrow_cache := Function.update data.narrow_cache slot
              { character_number := character_number
                text := set_nul bytes EB_MAX_ALTERNATION_TEXT_LENGTH }
            zio_calls :=
              Appendix_Call.zread (EB_MAX_ALTERNATION_TEXT_LENGTH + 1)
                :: Appendix_Call.zlseek location :: data.zio_calls },
          copy_text bytes text)

/-- Model of `eb_narrow_character_text_jis` (narwalt.c lines 260-339). -/
def eb_narrow_character_text_jis (sub : EB_Appendix_Subbook) (data : EB_Appendix_Data)
    (character_number : Int) (text : Page) : EB_Error_Code × EB_Appendix_Data × Page :=
  narrow_character_text 0x21 0x7e 0x5e sub data character_number text

/-- Model of `eb_narrow_character_text_latin` (narwalt.c lines 345-421). -/
def eb_narrow_character_text_latin (sub : EB_Appendix_Subbook) (data : EB_Appendix_Data)
    (character_number : Int) (text : Page) : EB_Error_Code × EB_Appendix_Data × Page :=
  narrow_character_text 0x01 0xfe 0xfe sub data character_number text

/-- Model of `eb_narrow_alt_character_text` (narwalt.c lines 201-254):
returns the error code, the appendix data and the buffer `text` of the
caller. -/
def eb_narrow_alt_character_text (appendix : EB_Appendix) (data : EB_Appendix_Data)
    (character_number : Int) (text : Page) : EB_Error_Code × EB_Appendix_Data × Page :=
  match appendix.subbook_current with
  | none => (EB_ERR_NO_CUR_APPSUB, data, set_nul text 0)
  | some sub =>
    if sub.narrow_page = 0 then (EB_ERR_NO_SUCH_CHAR_TEXT, data, set_nul text 0)
    else
      let r :=
        if sub.character_code = EB_CHARCODE_ISO8859_1 then
          eb_narrow_character_text_latin sub data character_number text
        else eb_narrow_character_text_jis sub data character_number text
      if r.1 ≠ EB_SUCCESS then (r.1, r.2.1, set_nul r.2.2 0) else r

/-! ## search.c : eb_initialize_search -/

/-- Model of `eb_initialize_search` (search.c lines 109-121): the book and the
cache variables after the call. -/
def eb_initialize_search (book : EB_Book) (cache : Cache) : EB_Book × Cache :=
  if book.code = cache.cache_book_code then
    ({ book with
        search_contexts := Function.update book.search_contexts 0
          { book.search_contexts 0 with code := EB_SEARCH_NONE } },
      { cache with cache_book_code := EB_BOOK_NONE })
  else (book, cache)

/-! ## search.c : locks -/

/-- A call of one of the lock functions used by search.c:
`pthread_mutex_lock(&cache_mutex)`, `pthread_mutex_unlock(&cache_mutex)`,
`eb_lock(&book->lock)` and `eb_unlock(&book->lock)`. -/
inductive Lock_Call where
  | mutex_lock
  | mutex_unlock
  | book_lock
  | book_unlock
  deriving DecidableEq, Repr

/-- Modelled from the spec: the two locks as the calling thread sees them.
Each book owns a recursive-safe mutex and the page cache has a mutex of its
own; a lock is given by the number of times the thread holds it.  The lock
functions are defined outside the two source files (and the two
`pthread_mutex` calls are empty macros unless `ENABLE_PTHREAD` is defined,
lines 54-57).  `calls` is a ghost record of the calls made, most recent
first. -/
structure Lock_State where
  cache_mutex : Nat
  book_lock : Nat
  calls : List Lock_Call
  deriving DecidableEq, Repr

/-- Modelled from the spec: `pthread_mutex_lock(&cache_mutex)`. -/
def pthread_mutex_lock (locks : Lock_State) : Lock_State :=
  { locks with
    cache_mutex := locks.cache_mutex + 1
    calls := Lock_Call.mutex_lock :: locks.calls }

/-- Modelled from the spec: `pthread_mutex_unlock(&cache_mutex)`. -/
def pthread_mutex_unlock (locks : Lock_State) : Lock_State :=
  { locks with
    cache_mutex := locks.cache_mutex - 1
    calls := Lock_Call.mutex_unlock :: locks.calls }

/-- Modelled from the spec: `eb_lock(&book->lock)`. -/
def eb_lock (locks : Lock_State) : Lock_State :=
  { locks with
    book_lock := locks.book_lock + 1
    calls := Lock_Call.book_lock :: locks.calls }

/-- Modelled from the spec: `eb_unlock(&book->lock)`. -/
def eb_unlock (locks : Lock_State) : Lock_State :=
  { locks with
    book_lock := locks.book_lock - 1
    calls := Lock_Call.book_unlock :: locks.calls }

/-- The descent loop of `eb_presearch_word` (lines 151-215) with the lock
state at hand: the loop is `presearch_loop`, and no statement of it, on
whichever way it is left, calls a lock function. -/
def presearch_loop_locked (book : EB_Book) :
    Nat → Cache → EB_Search_Context → Lock_State →
      Presearch_Exit × Cache × EB_Search_Context × Lock_State
  | 0, cache, context, locks => (Presearch_Exit.depth_exceeded, cache, context, locks)
  | d + 1, cache, context, locks =>
    let rd := read_page book context.page cache
    if rd.1 ≠ EB_SUCCESS then
      (Presearch_Exit.failed rd.1, { rd.2 with cache_book_code := EB_BOOK_NONE }, context, locks)
    else
      let context1 := decode_header rd.2.cache_buffer context
      if PAGE_ID_IS_LEAF_LAYER context1.page_id then
        (Presearch_Exit.leaf, rd.2, context1, locks)
      else
        let sc := presearch_scan rd.2.cache_buffer context1.page context1.entry_count
          { context1 with entry_index := 0 }
        if sc.1 ≠ EB_SUCCESS then
          (Presearch_Exit.failed sc.1, rd.2, sc.2.1, locks)
        else if sc.2.1.entry_count ≤ sc.2.1.entry_index ∨ sc.2.1.page = sc.2.2 then
          (Presearch_Exit.succeeded, rd.2, { sc.2.1 with comparison_result := -1 }, locks)
        else
          presearch_loop_locked book d rd.2 { sc.2.1 with page := sc.2.2 } locks

/-- Model of `eb_presearch_word` with its lock calls (search.c lines
130-245): `pthread_mutex_lock(&cache_mutex)` at line 140, then the body, and
`pthread_mutex_unlock(&cache_mutex)` at the label `succeeded` (line 236) or
at the label `failed` (line 243), the only two places from which the function
returns.  There is no call of `eb_lock`. -/
def eb_presearch_word_locked (book : EB_Book) (cache : Cache) (context : EB_Search_Context)
    (locks : Lock_State) : (EB_Error_Code × Cache × EB_Search_Context) × Lock_State :=
  let r := presearch_loop_locked book EB_MAX_INDEX_DEPTH
    { cache with cache_book_code := EB_BOOK_NONE } context (pthread_mutex_lock locks)
  match r.1 with
  | Presearch_Exit.failed error_code =>
    ((error_code, r.2.1, r.2.2.1), pthread_mutex_unlock r.2.2.2)
  | Presearch_Exit.succeeded =>
    ((EB_SUCCESS, r.2.1, r.2.2.1), pthread_mutex_unlock r.2.2.2)
  | Presearch_Exit.depth_exceeded =>
    ((EB_ERR_UNEXP_TEXT, r.2.1, r.2.2.1), pthread_mutex_unlock r.2.2.2)
  | Presearch_Exit.leaf =>
    ((EB_SUCCESS,
        { r.2.1 with cache_book_code := book.code, cache_page := r.2.2.1.page },
        { r.2.2.1 with
          entry_index := 0
          comparison_result := 1
          entry_length := 0
          in_group_entry := false }),
      pthread_mutex_unlock r.2.2.2)

/-- The label `succeeded` of `eb_hit_list` (lines 405-409):
`eb_unlock(&book->lock)`, then `pthread_mutex_unlock(&cache_mutex)`. -/
def hit_list_succeeded (locks : Lock_State) : Lock_State :=
  pthread_mutex_unlock (eb_unlock locks)

/-- The label `failed` of `eb_hit_list` (lines 414-418), which also sets
`*hit_count = 0`: `eb_unlock(&book->lock)`, then
`pthread_mutex_unlock(&cache_mutex)`. -/
def hit_list_failed (locks : Lock_State) : Lock_State :=
  pthread_mutex_unlock (eb_unlock locks)

/-- The `for (;;)` loop of the keyword case of `eb_hit_list` (lines 310-348)
with the lock state at hand: every `goto failed` leads to the label `failed`
and every `break` out of the loop to the label `succeeded`. -/
def keyword_rounds_locked {TC : Type} (text : Text_Functions TC) (env : Hit_List_Env)
    (fuel : Nat) (text_context : TC) (max_hit_count : Int) :
    Nat → EB_Book → Cache → List EB_Hit → Int → Lock_State →
      Option (Hit_List_Outcome × Lock_State)
  | 0, _, _, _, _, _ => none
  | rounds + 1, book, cache, hits, hit_count, locks =>
    match keyword_gather text fuel book text_context env.EB_MAX_KEYWORDS 0 cache [] 0 with
    | none => none
    | some g =>
      if g.error_code ≠ EB_SUCCESS then
        some ({ error_code := g.error_code, book := book, cache := g.cache,
                hit_list := hits, hit_count := 0 }, hit_list_failed locks)
      else if g.last_temporary_hit_count = 0 then
        some ({ error_code := EB_SUCCESS, book := book, cache := g.cache,
                hit_list := hits, hit_count := hit_count }, hit_list_succeeded locks)
      else
        match eb_and_hit_lists (max_hit_count - hit_count) g.rows with
        | none => none
        | some a =>
          match keyword_advance text fuel text_context (updated_hit_counts env a.2)
              env.EB_MAX_MULTI_ENTRIES 0 book g.cache with
          | none => none
          | some adv =>
            if adv.1 ≠ EB_SUCCESS then
              some ({ error_code := adv.1, book := adv.2.1, cache := adv.2.2,
                      hit_list := hits ++ a.1, hit_count := 0 }, hit_list_failed locks)
            else if max_hit_count ≤ hit_count + (a.1.length : Int) then
              some ({ error_code := EB_SUCCESS, book := adv.2.1, cache := adv.2.2,
                      hit_list := hits ++ a.1, hit_count := hit_count + (a.1.length : Int) },
                hit_list_succeeded locks)
            else
              keyword_rounds_locked text env fuel text_context max_hit_count rounds adv.2.1
                adv.2.2 (hits ++ a.1) (hit_count + (a.1.length : Int)) locks

/-- The `for (;;)` loop of the multi case of `eb_hit_list` (lines 355-393)
with the lock state at hand. -/
def multi_rounds_locked (env : Hit_List_Env) (fuel : Nat) (max_hit_count : Int) :
    Nat → EB_Book → Cache → List EB_Hit → Int → Lock_State →
      Option (Hit_List_Outcome × Lock_State)
  | 0, _, _, _, _, _ => none
  | rounds + 1, book, cache, hits, hit_count, locks =>
    match multi_gather fuel book env.EB_MAX_MULTI_ENTRIES 0 cache [] 0 with
    | none => none
    | some g =>
      if g.error_code ≠ EB_SUCCESS then
        some ({ error_code := g.error_code, book := book, cache := g.cache,
                hit_list := hits, hit_count := 0 }, hit_list_failed locks)
      else if g.last_temporary_hit_count = 0 then
        some ({ error_code := EB_SUCCESS, book := book, cache := g.cache,
                hit_list := hits, hit_count := hit_count }, hit_list_succeeded locks)
      else
        match eb_and_hit_lists (max_hit_count - hit_count) g.rows with
        | none => none
        | some a =>
          match multi_advance fuel (updated_hit_counts env a.2)
              env.EB_MAX_MULTI_ENTRIES 0 book g.cache with
          | none => none
          | some adv =>
            if adv.1 ≠ EB_SUCCESS then
              some ({ error_code := adv.1, book := adv.2.1, cache := adv.2.2,
                      hit_list := hits ++ a.1, hit_count := 0 }, hit_list_failed locks)
            else if max_hit_count ≤ hit_count + (a.1.length : Int) then
              some ({ error_code := EB_SUCCESS, book := adv.2.1, cache := adv.2.2,
                      hit_list := hits ++ a.1, hit_count := hit_count + (a.1.length : Int) },
                hit_list_succeeded locks)
            else
              multi_rounds_locked env fuel max_hit_count rounds adv.2.1 adv.2.2
                (hits ++ a.1) (hit_count + (a.1.length : Int)) locks

/-- Model of `eb_hit_list` with its lock calls (search.c lines 256-419):
`pthread_mutex_lock(&cache_mutex)` and `eb_lock(&book->lock)` at lines
274-275, then the body, every way out of which is a `goto succeeded`, a
`goto failed` or the end of the `switch`, which falls into the label
`succeeded`; the function returns from the two labels only. -/
def eb_hit_list_locked {TC : Type} (text : Text_Functions TC) (env : Hit_List_Env) (fuel : Nat)
    (book : EB_Book) (text_context : TC) (cache : Cache) (max_hit_count : Int)
    (hit_count : Int) (locks : Lock_State) : Option (Hit_List_Outcome × Lock_State) :=
  let locks1 := eb_lock (pthread_mutex_lock locks)
  if max_hit_count = 0 then
    some ({ error_code := EB_SUCCESS, book := book, cache := cache,
            hit_list := [], hit_count := hit_count }, hit_list_succeeded locks1)
  else if book.subbook_current.isNone then
    some ({ error_code := EB_ERR_NO_CUR_SUB, book := book, cache := cache,
            hit_list := [], hit_count := 0 }, hit_list_failed locks1)
  else
    match (book.search_contexts 0).code with
    | EB_SEARCH_EXACTWORD | EB_SEARCH_WORD | EB_SEARCH_ENDWORD =>
      (eb_hit_list_word fuel book cache (book.search_contexts 0) max_hit_count).map fun res =>
        ({ error_code := res.error_code
           book := { book with
                     search_contexts := Function.update book.search_contexts 0 res.context }
           cache := res.cache
           hit_list := res.hit_list
           hit_count := if res.error_code ≠ EB_SUCCESS then 0 else res.hit_count },
          if res.error_code ≠ EB_SUCCESS then hit_list_failed locks1
          else hit_list_succeeded locks1)
    | EB_SEARCH_KEYWORD =>
      keyword_rounds_locked text env fuel text_context max_hit_count fuel book cache [] 0 locks1
    | EB_SEARCH_MULTI =>
      multi_rounds_locked env fuel max_hit_count fuel book cache [] 0 locks1
    | EB_SEARCH_NONE =>
      some ({ error_code := EB_ERR_NO_PREV_SEARCH, book := book, cache := cache,
              hit_list := [], hit_count := 0 }, hit_list_failed locks1)

/-! ## Vocabulary of the statements -/

/-- The successor of a character number in the scheme of a subbook, as the
specification words it. -/
def spec_successor (code : EB_Character_Code) (c : Int) : Int :=
  match code with
  | EB_CHARCODE_ISO8859_1 => spec_successor_latin c
  | EB_CHARCODE_JISX0208 => spec_successor_jis c

/-- A legal low byte: `0x01..0xFE` for ISO 8859-1, `0x21..0x7E` for
JIS X 0208. -/
def legal_low_byte (code : EB_Character_Code) (c : Int) : Prop :=
  match code with
  | EB_CHARCODE_ISO8859_1 => 0x01 ≤ c % 256 ∧ c % 256 ≤ 0xfe
  | EB_CHARCODE_JISX0208 => 0x21 ≤ c % 256 ∧ c % 256 ≤ 0x7e

instance (code : EB_Character_Code) (c : Int) : Decidable (legal_low_byte code c) := by
  unfold legal_low_byte
  cases code <;> exact inferInstance

/-- The bytes that the seek and the read for page `page` deliver, when the
page can be read in full: the 2048 bytes at the `int` offset
`(page - 1) * EB_SIZE_PAGE` of the text file (`seek_location`). -/
def page_data (book : EB_Book) (page : Int) : Option Page :=
  match text_file book (seek_location page) with
  | Zio_Result.full_page data => some data
  | _ => none

/-- Page `context.page` can be read, is an intermediate page, and its scan
selects a child different from the page itself; the value is the context with
which the descent goes on (one full iteration of lines 151-215). -/
def internal_level (book : EB_Book) (context : EB_Search_Context) :
    Option EB_Search_Context :=
  match page_data book context.page with
  | none => none
  | some data =>
    let context1 := decode_header data context
    if PAGE_ID_IS_LEAF_LAYER context1.page_id then none
    else
      let sc := presearch_scan data context1.page context1.entry_count
        { context1 with entry_index := 0 }
      if sc.1 = EB_SUCCESS ∧ sc.2.1.entry_index < sc.2.1.entry_count ∧ sc.2.1.page ≠ sc.2.2 then
        some { sc.2.1 with page := sc.2.2 }
      else none

/-- The context after `n` consecutive levels of intermediate pages, each
selecting a child different from itself. -/
def internal_levels (book : EB_Book) : Nat → EB_Search_Context → Option EB_Search_Context
  | 0, context => some context
  | n + 1, context => (internal_level book context).bind (internal_levels book n)

/-- The number of `eb_zread` calls in a list of reader calls. -/
def zread_count (calls : List Zio_Call) : Nat :=
  (calls.filter fun call =>
    match call with
    | Zio_Call.zread _ => true
    | Zio_Call.zlseek _ => false).length

/-- Order of text addresses: by page, then by offset. -/
def position_lt (a b : EB_Position) : Prop :=
  a.page < b.page ∨ (a.page = b.page ∧ a.offset < b.offset)

instance (a b : EB_Position) : Decidable (position_lt a b) := by
  unfold position_lt
  exact inferInstance

/-- Order of text addresses as the `int` comparisons of `eb_and_hit_lists`
see it: by the `int` value of the page, then of the offset. -/
def int_position_lt (a b : EB_Position) : Prop :=
  field_int a.page < field_int b.page
    ∨ (field_int a.page = field_int b.page ∧ field_int a.offset < field_int b.offset)

instance (a b : EB_Position) : Decidable (int_position_lt a b) := by
  unfold int_position_lt
  exact inferInstance

/-- A row of hits strictly ascending by the `int` values of
`(text.page, text.offset)`. -/
def int_ascending (row : List EB_Hit) : Prop :=
  row.Pairwise fun x y => int_position_lt x.text y.text

instance (row : List EB_Hit) : Decidable (int_ascending row) := by
  unfold int_ascending
  exact inferInstance

/-- A row of hits strictly ascending by `(text.page, text.offset)`. -/
def strictly_ascending (row : List EB_Hit) : Prop :=
  row.Pairwise fun x y => position_lt x.text y.text

instance (row : List EB_Hit) : Decidable (strictly_ascending row) := by
  unfold strictly_ascending
  exact inferInstance

/-- The address `a` occurs as a text address in every row. -/
def in_all_rows (rows : List (List EB_Hit)) (a : EB_Position) : Prop :=
  ∀ row ∈ rows, a ∈ row.map EB_Hit.text

instance (rows : List (List EB_Hit)) (a : EB_Position) : Decidable (in_all_rows rows a) := by
  unfold in_all_rows
  exact inferInstance

/-- The k-way intersection as the specification words it: the hits of row 0
whose text address occurs in every row, in the order of row 0. -/
def common_hits (rows : List (List EB_Hit)) : List EB_Hit :=
  match rows with
  | [] => []
  | row0 :: _ => row0.filter fun hit => decide (in_all_rows rows hit.text)

/-- The remaining elements of a row after the loop of lines 1474-1484. -/
def advance_row (greatest_page greatest_offset : Int) (row : List EB_Hit) : List EB_Hit :=
  match row with
  | [] => []
  | hit :: rest =>
    if field_int hit.text.page ≠ greatest_page
        ∨ field_int hit.text.offset ≠ greatest_offset then rest
    else hit :: rest

/-- The number of elements of the rows not yet passed. -/
def remaining_total (rows : List And_Row) : Nat :=
  (rows.map fun row => row.2.length).sum

/-- What the comparison loop has established after the rows `done`. -/
def Scan_Inv (done : List And_Row) (s : And_Scan) : Prop :=
  (s.greatest_list = -1 → (∀ r ∈ done, r.2 = []) ∧ s.equal_count = 0)
    ∧ (s.greatest_list ≠ -1 →
        (∃ r ∈ done, ∃ h rest, r.2 = h :: rest
            ∧ field_int h.text.page = s.greatest_page
            ∧ field_int h.text.offset = s.greatest_offset)
          ∧ ∀ r ∈ done, ∀ h rest, r.2 = h :: rest →
              ¬ (s.greatest_page < field_int h.text.page
                ∨ (s.greatest_page = field_int h.text.page
                  ∧ s.greatest_offset < field_int h.text.offset)))
    ∧ s.equal_count ≤ done.length
    ∧ (s.equal_count = done.length ↔
        ∀ r ∈ done, ∃ h rest, r.2 = h :: rest
          ∧ field_int h.text.page = s.greatest_page
          ∧ field_int h.text.offset = s.greatest_offset)

/-- The page cache `cache` has not been emptied since it was `entry`: it
holds exactly what `entry` held (book code, page number and buffer), or it
holds, under the code of `book`, a page of the book as a full read delivers
it. -/
def Cache_Kept (book : EB_Book) (entry cache : Cache) : Prop :=
  (cache.cache_book_code = entry.cache_book_code
      ∧ cache.cache_page = entry.cache_page
      ∧ cache.cache_buffer = entry.cache_buffer)
    ∨ (cache.cache_book_code = book.code
      ∧ page_data book cache.cache_page = some cache.cache_buffer)

/-- The row stride of a numbering scheme as the specification tabulates it:
94 for JIS X 0208, 254 for ISO 8859-1. -/
def spec_stride (code : EB_Character_Code) : Int :=
  match code with
  | EB_CHARCODE_ISO8859_1 => 254
  | EB_CHARCODE_JISX0208 => 94

/-- The byte offset of the alternation slot of character `c` as the
specification words it:
`(narrow_page - 1) * 2048 + (((c >> 8) - (start >> 8)) * stride + (c & 0xff) - (start & 0xff)) * 32`. -/
def spec_slot_location (code : EB_Character_Code) (narrow_page start c : Int) : Int :=
  (narrow_page - 1) * 2048
    + (((c >>> 8) - (start >>> 8)) * spec_stride code + low_byte c - low_byte start) * 32

/-- The page cache after a miss on page `page` of `book` was served by a full
read of `data`: the cache identity is the page, and the seek and the read are
recorded. -/
def reloaded_cache (book : EB_Book) (cache : Cache) (page : Int) (data : Page) : Cache :=
  { cache_book_code := book.code
    cache_page := page
    cache_buffer := data
    zio_calls :=
      Zio_Call.zread (seek_location page)
        :: Zio_Call.zlseek (seek_location page) :: cache.zio_calls }

/-- The Hit of a singleton record at `offset` with key length `L`, as the
specification words it: `text = (u32 at +L+2, u16 at +L+6)` and
`heading = (u32 at +L+8, u16 at +L+12)`. -/
def spec_singleton_hit (buf : Page) (offset L : Nat) : EB_Hit :=
  { heading :=
      { page := eb_uint4 (ptr buf (offset + L + 8))
        offset := eb_uint2 (ptr buf (offset + L + 12)) }
    text :=
      { page := eb_uint4 (ptr buf (offset + L + 2))
        offset := eb_uint2 (ptr buf (offset + L + 6)) } }

/-- The condition under which a singleton record emits its Hit, as the
specification words it: the canonical pattern and the literal word both
compare equal to the `L` key bytes at `+2`. -/
def spec_singleton_match (buf : Page) (context : EB_Search_Context) (L : Nat) : Prop :=
  context.compare context.canonicalized_word (ptr buf (context.offset + 2)) L = 0
    ∧ context.compare context.word (ptr buf (context.offset + 2)) L = 0

instance (buf : Page) (context : EB_Search_Context) (L : Nat) :
    Decidable (spec_singleton_match buf context L) := by
  unfold spec_singleton_match
  exact inferInstance

/-- The context after a singleton record with key length `L`, as the
specification words it: the comparison result of the canonical pattern,
`in_group_entry` false, `offset` advanced by `L + 14`. -/
def spec_singleton_context (buf : Page) (context : EB_Search_Context) (L : Nat) :
    EB_Search_Context :=
  { context with
    entry_length := L
    comparison_result :=
      context.compare context.canonicalized_word (ptr buf (context.offset + 2)) L
    in_group_entry := false
    offset := context.offset + L + 14 }

/-- The context after a group header `0x80` of the multi decoder with key
length `L`, as the specification words it: the comparison of the canonical
pattern with the `L` bytes at `+6`, `in_group_entry` true, `offset` advanced
by `L + 6`, `keyword_heading` untouched. -/
def spec_multi_header_context (buf : Page) (context : EB_Search_Context) (L : Nat) :
    EB_Search_Context :=
  { context with
    entry_length := L
    comparison_result :=
      context.compare context.canonicalized_word (ptr buf (context.offset + 6)) L
    in_group_entry := true
    offset := context.offset + L + 6 }

/-- The context after a group header `0x80` of the keyword decoder with key
length `L`, as the specification words it: the same comparison,
`keyword_heading = (u32 at +L+6, u16 at +L+10)`, `in_group_entry` true,
`offset` advanced by `L + 12`. -/
def spec_keyword_header_context (buf : Page) (context : EB_Search_Context) (L : Nat) :
    EB_Search_Context :=
  { context with
    entry_length := L
    comparison_result :=
      context.compare context.canonicalized_word (ptr buf (context.offset + 6)) L
    keyword_heading :=
      { page := eb_uint4 (ptr buf (context.offset + L + 6))
        offset := eb_uint2 (ptr buf (context.offset + L + 10)) }
    in_group_entry := true
    offset := context.offset + L + 12 }

/-- One call of `eb_narrow_alt_character_text` in a sequence of calls: the
appendix with its current subbook, the outcomes the appendix file gives
during this call, the character number and the buffer of the caller. -/
structure Alternation_Call where
  appendix : EB_Appendix
  appendix_file : Int → Appendix_Read
  character_number : Int
  text : Page

/-- The appendix data after a sequence of calls of
`eb_narrow_alt_character_text`, each on the data left by the call before. -/
def alternation_calls (calls : List Alternation_Call) (data : EB_Appendix_Data) :
    EB_Appendix_Data :=
  calls.foldl
    (fun d call =>
      (eb_narrow_alt_character_text call.appendix
        { d with appendix_file := call.appendix_file } call.character_number call.text).2.1)
    data

/-- The invariant of the alternation cache: a slot that is not empty holds a
character number that hashes to the slot, and its text ends with a zero
byte. -/
def Alternation_Cache_Inv (data : EB_Appendix_Data) : Prop :=
  ∀ i, (data.narrow_cache i).character_number ≠ -1 →
    EB_HASH_ALT_CACHE (data.narrow_cache i).character_number = i
      ∧ (data.narrow_cache i).text EB_MAX_ALTERNATION_TEXT_LENGTH = 0

/-- The text streams of the books: for each book code a fixed function from
the page number to the bytes of the page. -/
abbrev Text_Streams := Nat → Int → Page

/-- The book reads its text from the stream of its code: page `page` lies at
byte `(page - 1) * EB_SIZE_PAGE` of the text file, and a full read there
delivers the `EB_SIZE_PAGE` bytes of that page of the stream. -/
def Reads_Stream (streams : Text_Streams) (book : EB_Book) : Prop :=
  ∀ c, book.code = some c → ∀ (page : Int) (data : Page),
    text_file book ((page - 1) * EB_SIZE_PAGE) = Zio_Result.full_page data →
    ∀ i, i < EB_SIZE_PAGE → data i = streams c page i

/-- The byte offset of page `page` fits in a C `int`: the seek of the search
functions goes to the first byte of the page. -/
def seek_exact (page : Int) : Prop := seek_location page = (page - 1) * EB_SIZE_PAGE

instance (page : Int) : Decidable (seek_exact page) := by
  unfold seek_exact
  exact inferInstance

/-- Coherence of the page cache as the claim words it: if `cache_book_code`
is not `EB_BOOK_NONE`, the cache buffer equals page `cache_page` of the book
with that code. -/
def Cache_Coherent (streams : Text_Streams) (cache : Cache) : Prop :=
  ∀ c, cache.cache_book_code = some c →
    ∀ i, i < EB_SIZE_PAGE → cache.cache_buffer i = streams c cache.cache_page i

/-- Coherence of the page cache for the pages whose byte offset fits in a C
`int`: if `cache_book_code` is not `EB_BOOK_NONE` and the offset of page
`cache_page` fits, the cache buffer equals that page of the book with that
code. -/
def Cache_Coherent_Exact (streams : Text_Streams) (cache : Cache) : Prop :=
  ∀ c, cache.cache_book_code = some c → seek_exact cache.cache_page →
    ∀ i, i < EB_SIZE_PAGE → cache.cache_buffer i = streams c cache.cache_page i

/-- The text stream of a book given by its text file: page `page` is what a
full read at byte `(page - 1) * EB_SIZE_PAGE` delivers, and zero bytes where
no page can be read in full. -/
def stream_of_book (book : EB_Book) : Int → Page :=
  fun page =>
    match text_file book ((page - 1) * EB_SIZE_PAGE) with
    | Zio_Result.full_page data => data
    | _ => fun _ => 0

/-! ## Sample data used by the examples -/

/-- A comparator in the style of the exact-word matchers of the library:
bytewise difference of the word and the `length` pattern bytes, zero bytes
padding the pattern, and a word longer than the pattern comparing greater. -/
def sample_compare_from (pattern : Page) : List Nat → Nat → Nat → Int
  | [], _, 0 => 0
  | w :: _, _, 0 => (w : Int)
  | [], i, r + 1 =>
    if pattern i = 0 then sample_compare_from pattern [] (i + 1) r else - (pattern i : Int)
  | w :: ws, i, r + 1 =>
    if w = pattern i then sample_compare_from pattern ws (i + 1) r
    else (w : Int) - (pattern i : Int)

/-- The sample comparator as a `compare` callback. -/
def sample_compare (word : List Nat) (pattern : Page) (length : Nat) : Int :=
  sample_compare_from pattern word 0 length

/-- A page given by its first bytes; the rest is zero. -/
def page_of_bytes (bytes : List Nat) : Page := fun i => bytes.getD i 0

/-- The fixed-layout leaf of the example: page id `0xA0` (leaf, end of
layer), entry length 4, three records `bat`, `cat`, `dog` with text and
heading locations `(5,0),(5,6)`, `(7,0),(7,6)`, `(9,0),(9,6)`. -/
def sample_fixed_leaf : Page :=
  page_of_bytes
    [0xa0, 4, 0, 3,
     98, 97, 116, 0,   0, 0, 0, 5,  0, 0,   0, 0, 0, 5,  0, 6,
     99, 97, 116, 0,   0, 0, 0, 7,  0, 0,   0, 0, 0, 7,  0, 6,
     100, 111, 103, 0, 0, 0, 0, 9,  0, 0,   0, 0, 0, 9,  0, 6]

/-- A search context for the word `cat` whose index root is page 10. -/
def sample_context : EB_Search_Context :=
  { code := EB_SEARCH_EXACTWORD
    compare := sample_compare
    word := [99, 97, 116]
    canonicalized_word := [99, 97, 116]
    page := 10
    page_id := 0
    entry_arrangement := EB_ARRANGE_VARIABLE
    entry_length := 0
    entry_count := 0
    entry_index := 0
    offset := 0
    comparison_result := 0
    in_group_entry := false
    keyword_heading := { page := 0, offset := 0 } }

/-- A text file that holds `data` as page `page` and nothing else. -/
def one_page_file (page : Int) (data : Page) : Int → Zio_Result :=
  fun location =>
    if location = (page - 1) * 2048 then Zio_Result.full_page data else Zio_Result.seek_failed

/-- A book with code 1 whose text file holds the sample leaf as page 10. -/
def sample_book : EB_Book :=
  { code := some 1
    subbook_current := some { text_file := one_page_file 10 sample_fixed_leaf }
    search_contexts := fun _ => sample_context }

/-- An empty page cache. -/
def empty_cache : Cache :=
  { cache_book_code := EB_BOOK_NONE
    cache_page := 0
    cache_buffer := fun _ => 0
    zio_calls := [] }

/-- Text functions that always succeed and keep no state. -/
def trivial_text : Text_Functions Unit :=
  { eb_seek_text := fun _ _ => (EB_SUCCESS, ())
    eb_tell_text := fun _ position => (EB_SUCCESS, (), position)
    eb_forward_heading := fun _ => (EB_SUCCESS, ()) }

/-- Sample values for the constants left open by the source files. -/
def sample_env : Hit_List_Env :=
  { EB_MAX_KEYWORDS := 8
    EB_MAX_MULTI_ENTRIES := 8
    temporary_hit_counts := fun _ => 0 }

/-- An intermediate page with entry length 1 and a single entry: the key
`z` followed by the child pointer `child`. -/
def sample_internal_page (child : Nat) : Page :=
  page_of_bytes [0x00, 1, 0, 1, 122, 0, 0, 0, child]

/-- A text file in which every page `p` is an intermediate page whose only
entry points to page `p + 1`. -/
def chain_file : Int → Zio_Result :=
  fun location => Zio_Result.full_page (sample_internal_page (location / 2048 + 2).toNat)

/-- A book over `chain_file`: the descent from page 1 never meets a leaf. -/
def chain_book : EB_Book :=
  { code := some 1
    subbook_current := some { text_file := chain_file }
    search_contexts := fun _ => sample_context }

/-- A book whose pages 1 to 5 are intermediate pages pointing to the next
page and whose page 6 is the sample leaf. -/
def deep_book : EB_Book :=
  { code := some 1
    subbook_current := some
      { text_file := fun location =>
          if location = 5 * 2048 then Zio_Result.full_page sample_fixed_leaf
          else chain_file location }
    search_contexts := fun _ => sample_context }

/-- A book whose page 1 is an intermediate page pointing to itself. -/
def loop_book : EB_Book :=
  { code := some 1
    subbook_current := some { text_file := one_page_file 1 (sample_internal_page 1) }
    search_contexts := fun _ => sample_context }

/-- A hit with text address `(page, offset)` and heading address
`(page, offset + 6)`. -/
def sample_hit (page offset : Nat) : EB_Hit :=
  { heading := { page := page, offset := offset + 6 }
    text := { page := page, offset := offset } }

/-- The hits of term A of the keyword example. -/
def sample_row_a : List EB_Hit := [sample_hit 1 0, sample_hit 3 0, sample_hit 5 0]

/-- The hits of term B of the keyword example. -/
def sample_row_b : List EB_Hit :=
  [sample_hit 2 0, sample_hit 3 0, sample_hit 5 0, sample_hit 7 0]

/-- The sample book after `eb_presearch_word` ran on its primary context. -/
def presearched_book : EB_Book :=
  { sample_book with
    search_contexts := fun _ => (eb_presearch_word sample_book empty_cache sample_context).2.2 }


/-- Appendix data with an empty cache over an appendix file in which every
slot holds 32 bytes `A` (no terminating zero). -/
def sample_appendix_data : EB_Appendix_Data :=
  { narrow_cache := fun _ => { character_number := -1, text := fun _ => 0 }
    appendix_file := fun _ => Appendix_Read.full_read fun _ => 65
    zio_calls := [] }

/-- Appendix data whose appendix file cannot be read. -/
def unreadable_appendix_data : EB_Appendix_Data :=
  { sample_appendix_data with appendix_file := fun _ => Appendix_Read.short_read fun p => p }

/-- Appendix data whose appendix file cannot be positioned. -/
def unseekable_appendix_data : EB_Appendix_Data :=
  { sample_appendix_data with appendix_file := fun _ => Appendix_Read.seek_failed }

/-- An appendix without a current subbook. -/
def unset_appendix : EB_Appendix := { subbook_current := none }

/-- The sample book with its current subbook unset. -/
def closed_book : EB_Book := { sample_book with subbook_current := none }

/-- The sample book with no submitted query. -/
def idle_book : EB_Book :=
  { sample_book with
    search_contexts := fun _ => { sample_context with code := EB_SEARCH_NONE } }

/-- A page given by records placed at byte offsets; every other byte is
zero. -/
def page_of_records (records : List (Nat × List Nat)) : Page :=
  fun i =>
    match records.find? fun r => decide (r.1 ≤ i ∧ i < r.1 + r.2.length) with
    | some r => r.2.getD (i - r.1) 0
    | none => 0

/-- A variable-layout leaf (page id `0xA0`: leaf, end of layer) with two
records `cat`, with text and heading locations `(5,0),(5,6)` and
`(7,0),(7,6)`. -/
def twin_leaf : Page :=
  page_of_bytes
    [0xa0, 0, 0, 2,
     3, 99, 97, 116,  0, 0, 0, 5,  0, 0,  0, 0, 0, 5,  0, 6,
     3, 99, 97, 116,  0, 0, 0, 7,  0, 0,  0, 0, 0, 7,  0, 6]

/-- A book with code 1 whose text file holds the twin leaf as page 10. -/
def twin_book : EB_Book :=
  { code := some 1
    subbook_current := some { text_file := one_page_file 10 twin_leaf }
    search_contexts := fun _ => sample_context }

/-- A leaf with group entries (page id `0xB0`: leaf, end of layer, group
entries) of nine records.  Seven group headers `0x80` with a key of 255 zero
bytes lead from offset 4 to offset 1817; the header there has the key `cat`
padded to 213 bytes and ends at offset 2034; the last record, at offset 2034,
is the group element `0xC0` with the key `cat`, text location `(7,0)` at
offsets 2039 to 2044 and heading location at offsets 2045 to 2050.  The bytes
of the page are those at the indexes below `EB_SIZE_PAGE`; every byte behind
the page is `behind`. -/
def overrun_leaf (behind : Nat) : Page :=
  fun i =>
    if i < EB_SIZE_PAGE then
      page_of_records
        [(0, [0xb0, 0, 0, 9]),
         (4, [0x80, 255]), (263, [0x80, 255]), (522, [0x80, 255]), (781, [0x80, 255]),
         (1040, [0x80, 255]), (1299, [0x80, 255]), (1558, [0x80, 255]),
         (1817, [0x80, 213, 0, 0, 99, 97, 116]),
         (2034, [0xc0, 3, 99, 97, 116,  0, 0, 0, 7,  0, 0,  0, 0, 0])] i
    else behind

/-- A book with code 1 whose text file holds `overrun_leaf behind` as
page 10. -/
def overrun_book (behind : Nat) : EB_Book :=
  { code := some 1
    subbook_current := some { text_file := one_page_file 10 (overrun_leaf behind) }
    search_contexts := fun _ => sample_context }

/-- A variable-layout leaf (page id `0xA0`: leaf, end of layer) with the
single record `key`, a word of three bytes, whose text and heading locations
are `(page, 0)` and `(page, 6)`. -/
def single_record_leaf (key : List Nat) (page : Nat) : Page :=
  page_of_bytes ([0xa0, 0, 0, 1, 3] ++ key ++ [0, 0, 0, page, 0, 0, 0, 0, 0, page, 0, 6])

/-- A variable-layout leaf with 65 records `dog`: record `k` has the text
location `(k + 1, 0)` for `k < 64`, and the last one `(100, 0)`; the heading
locations are 6 bytes further. -/
def many_records_leaf : Page :=
  fun i =>
    if i < 4 then [0xa0, 0, 0, 65].getD i 0
    else if 65 ≤ (i - 4) / 16 then 0
    else
      let page := if (i - 4) / 16 < 64 then (i - 4) / 16 + 1 else 100
      [3, 100, 111, 103, 0, 0, 0, page, 0, 0, 0, 0, 0, page, 0, 6].getD ((i - 4) % 16) 0

/-- A multi search with two entries: context 0 looks for `cat` in the leaf
`first` stored as page 10, context 1 for `dog` in the leaf `second` stored as
page 11; the other contexts are unused. -/
def multi_book (first second : Page) : EB_Book :=
  { code := some 1
    subbook_current := some
      { text_file := fun location =>
          if location = 9 * 2048 then Zio_Result.full_page first
          else if location = 10 * 2048 then Zio_Result.full_page second
          else Zio_Result.seek_failed }
    search_contexts := fun i =>
      if i = 0 then { sample_context with code := EB_SEARCH_MULTI, comparison_result := 1 }
      else if i = 1 then
        { sample_context with
          code := EB_SEARCH_MULTI
          word := [100, 111, 103]
          canonicalized_word := [100, 111, 103]
          page := 11
          comparison_result := 1 }
      else { sample_context with code := EB_SEARCH_NONE } }

/-- A hit with text address `(page, offset)` whose heading address is
`(page + 1, offset)`: the same text as `sample_hit page offset` under another
heading. -/
def retitled_hit (page offset : Nat) : EB_Hit :=
  { heading := { page := page + 1, offset := offset }
    text := { page := page, offset := offset } }

/-- A fixed-layout leaf without group entries, with page id `page_id`, entry
length 4 and the single record `cat` whose text and heading locations are
`(page, 0)` and `(page, 6)`. -/
def fixed_record_leaf (page_id page : Nat) : Page :=
  page_of_bytes [page_id, 4, 0, 1, 99, 97, 116, 0, 0, 0, 0, page, 0, 0, 0, 0, 0, page, 0, 6]

/-- A keyword search with the single term `cat` over a leaf layer of two
fixed-layout pages: page 10 (`0x80`, not the end of the layer) holds
`cat -> (7,0)` and page 11 (`0xA0`, end of the layer) holds `cat -> (9,0)`.
Context 0 is the term, the other contexts are unused. -/
def single_term_book : EB_Book :=
  { code := some 1
    subbook_current := some
      { text_file := fun location =>
          if location = 9 * 2048 then Zio_Result.full_page (fixed_record_leaf 0x80 7)
          else if location = 10 * 2048 then Zio_Result.full_page (fixed_record_leaf 0xa0 9)
          else Zio_Result.seek_failed }
    search_contexts := fun i =>
      if i = 0 then { sample_context with code := EB_SEARCH_KEYWORD }
      else { sample_context with code := EB_SEARCH_NONE } }

/-- The single-term book after `eb_presearch_word` ran on context 0. -/
def single_term_presearched : EB_Book :=
  { single_term_book with
    search_contexts :=
      Function.update single_term_book.search_contexts 0
        (eb_presearch_word single_term_book empty_cache
          (single_term_book.search_contexts 0)).2.2 }

/-- A book with code 1 whose leaf layer starts on page 10, a fixed-layout
leaf that is not the end of the layer, and whose page 11 cannot be reached by
a seek. -/
def open_ended_book : EB_Book :=
  { code := some 1
    subbook_current := some { text_file := one_page_file 10 (fixed_record_leaf 0x80 7) }
    search_contexts := fun _ => sample_context }

/-- A book with code 1 whose text file delivers no page in full. -/
def unreadable_book : EB_Book :=
  { code := some 1
    subbook_current := some { text_file := fun _ => Zio_Result.short_read fun p => p }
    search_contexts := fun _ => sample_context }

/-- A page cache that holds page 3 of the book with code 2. -/
def foreign_cache : Cache :=
  { cache_book_code := some 2
    cache_page := 3
    cache_buffer := sample_internal_page 9
    zio_calls := [] }

/-- A fixed-layout leaf without group entries (page id `0xA0`: leaf, end of
layer) with entry length 134 and 14 records of `134 + 12 = 146` bytes, which
fill the page exactly: the last record starts at offset 1902 and ends at
byte 2048.  The first 13 keys are zero bytes; the last key is `cat` padded
with zeros, with text and heading locations `(7,0)` and `(7,6)` at the
offsets 2036 to 2047. -/
def full_fixed_leaf : Page :=
  page_of_records
    [(0, [0xa0, 134, 0, 14]),
     (1902, [99, 97, 116]),
     (2036, [0, 0, 0, 7, 0, 0, 0, 0, 0, 7, 0, 6])]

/-- A book with code 1 whose text file holds `full_fixed_leaf` as page 10. -/
def full_leaf_book : EB_Book :=
  { code := some 1
    subbook_current := some { text_file := one_page_file 10 full_fixed_leaf }
    search_contexts := fun _ => sample_context }

/-- No lock held and no call made. -/
def no_locks : Lock_State := { cache_mutex := 0, book_lock := 0, calls := [] }

/-- An intermediate page with entry length 1 and three entries: the keys
`a`, `d`, `z` with the child pointers 5, 6 and 7. -/
def three_way_page : Page :=
  page_of_bytes [0x00, 1, 0, 3, 97, 0, 0, 0, 5, 100, 0, 0, 0, 6, 122, 0, 0, 0, 7]

/-- A book with code 1 whose page 1 is `three_way_page` and whose page 6 is
the sample leaf. -/
def three_way_book : EB_Book :=
  { code := some 1
    subbook_current := some
      { text_file := fun location =>
          if location = 0 then Zio_Result.full_page three_way_page
          else if location = 5 * 2048 then Zio_Result.full_page sample_fixed_leaf
          else Zio_Result.seek_failed }
    search_contexts := fun _ => sample_context }

/-- The context the word walk leaves on the twin leaf after its first hit:
one record passed, the next record at offset 20. -/
def resumed_twin_context : EB_Search_Context :=
  { sample_context with
    page_id := 0xa0
    entry_arrangement := EB_ARRANGE_VARIABLE
    entry_length := 3
    entry_count := 2
    entry_index := 1
    offset := 20
    comparison_result := 0 }

/-- A variable-layout leaf with page id `page_id` and two records, `bat` with
locations `(5,0)`, `(5,6)` and `cat` with locations `(7,0)`, `(7,6)`: the
final record is the only match of the word `cat`. -/
def trailing_match_leaf (page_id : Nat) : Page :=
  page_of_bytes
    [page_id, 0, 0, 2,
     3, 98, 97, 116,  0, 0, 0, 5,  0, 0,  0, 0, 0, 5,  0, 6,
     3, 99, 97, 116,  0, 0, 0, 7,  0, 0,  0, 0, 0, 7,  0, 6]

/-- A book with code 1 whose page 10 is `trailing_match_leaf page_id` and
whose page 11 is a variable-layout leaf, end of the layer, with the single
record `cat -> (9,0)`. -/
def trailing_book (page_id : Nat) : EB_Book :=
  { code := some 1
    subbook_current := some
      { text_file := fun location =>
          if location = 9 * 2048 then Zio_Result.full_page (trailing_match_leaf page_id)
          else if location = 10 * 2048 then
            Zio_Result.full_page (single_record_leaf [99, 97, 116] 9)
          else Zio_Result.seek_failed }
    search_contexts := fun _ => sample_context }

/-- The context the word walk leaves on `trailing_match_leaf page_id` after
the hit of its final record: both records passed, `offset = 36`. -/
def trailing_context (page_id : Nat) : EB_Search_Context :=
  { sample_context with
    page_id := page_id
    entry_arrangement := EB_ARRANGE_VARIABLE
    entry_length := 3
    entry_count := 2
    entry_index := 2
    offset := 36
    comparison_result := 0 }

/-- A leaf with group entries (page id `0xB0`) with two records: at offset 4
the singleton `0x00` with the key `cat` and the locations `(5,0)`, `(5,6)`,
and at offset 21 the group element `0xC0` with the key `cat` and the
locations `(7,0)`, `(7,6)`, which follows no group header. -/
def singleton_leaf : Page :=
  page_of_bytes
    [0xb0, 0, 0, 2,
     0x00, 3, 99, 97, 116,  0, 0, 0, 5,  0, 0,  0, 0, 0, 5,  0, 6,
     0xc0, 3, 99, 97, 116,  0, 0, 0, 7,  0, 0,  0, 0, 0, 7,  0, 6]

/-- The sample context at the first record of a page whose header has been
decoded, for the word `Cat` whose canonical form is `cat`. -/
def capital_context : EB_Search_Context :=
  { sample_context with word := [67, 97, 116], offset := 4 }

/-- A book with code 1 whose text file holds `singleton_leaf` as page 10. -/
def singleton_book : EB_Book :=
  { code := some 1
    subbook_current := some { text_file := one_page_file 10 singleton_leaf }
    search_contexts := fun _ => sample_context }

/-- The context that meets the group element of `singleton_leaf` at offset
21, after the singleton matched: `comparison_result = 0` and
`in_group_entry` false. -/
def after_singleton_context : EB_Search_Context :=
  { sample_context with
    page_id := 0xb0
    entry_length := 3
    entry_count := 2
    entry_index := 1
    offset := 21
    comparison_result := 0
    in_group_entry := false }

/-- A leaf with group entries (page id `0xB0`) with two records of the word
decoder: at offset 4 the group header `0x80` with the key `cat`, and at
offset 11 the group element `0xC0` with the key `cat` and the locations
`(7,0)`, `(7,6)`. -/
def group_leaf : Page :=
  page_of_bytes
    [0xb0, 0, 0, 2,
     0x80, 3, 0, 0, 99, 97, 116,
     0xc0, 3, 99, 97, 116,  0, 0, 0, 7,  0, 0,  0, 0, 0, 7,  0, 6]

/-- A book with code 1 whose text file holds `group_leaf` as page 10. -/
def group_book : EB_Book :=
  { code := some 1
    subbook_current := some { text_file := one_page_file 10 group_leaf }
    search_contexts := fun _ => sample_context }

/-- An appendix whose current subbook has no narrow alternation
(`narrow_page == 0`). -/
def fontless_appendix : EB_Appendix :=
  { subbook_current := some
      { character_code := EB_CHARCODE_JISX0208
        narrow_page := 0
        narrow_start := 0x2121
        narrow_end := 0x237e } }

/-- A leaf with group entries (page id `0xB0`) holding one group header
`0x80` at offset 4, with the key `cat` at `+6` followed by the bytes
`00 00 00 09 00 06`. -/
def header_leaf : Page :=
  page_of_bytes [0xb0, 0, 0, 1, 0x80, 3, 0, 0, 0, 0, 99, 97, 116, 0, 0, 0, 9, 0, 6]

/-- A sequence of lookups on the sample JIS subbook: a successful read of
`0x2121`, a short read for `0x2122`, a failed seek for `0x2123`, the rejected
`0x2120`, and a successful read of `0x2131`, which replaces `0x2121` in
slot 1. -/
def sample_alternation_calls : List Alternation_Call :=
  [ { appendix := sample_jis_appendix, appendix_file := sample_appendix_data.appendix_file
      character_number := 0x2121, text := fun _ => 0 },
    { appendix := sample_jis_appendix, appendix_file := unreadable_appendix_data.appendix_file
      character_number := 0x2122, text := fun _ => 0 },
    { appendix := sample_jis_appendix, appendix_file := unseekable_appendix_data.appendix_file
      character_number := 0x2123, text := fun _ => 0 },
    { appendix := sample_jis_appendix, appendix_file := sample_appendix_data.appendix_file
      character_number := 0x2120, text := fun _ => 0 },
    { appendix := sample_jis_appendix, appendix_file := sample_appendix_data.appendix_file
      character_number := 0x2131, text := fun _ => 0 } ]

/-- A book with code 1 whose text file holds the sample leaf at byte 0
(page 1) and another leaf at byte `2^32` (page `0x00200001`); its search
contexts ask for page `0x00200001`. -/
def far_page_book : EB_Book :=
  { code := some 1
    subbook_current := some
      { text_file := fun location =>
          if location = 0 then Zio_Result.full_page sample_fixed_leaf
          else if location = 4294967296 then Zio_Result.full_page (fixed_record_leaf 0x80 7)
          else Zio_Result.seek_failed }
    search_contexts := fun _ => { sample_context with page := 0x00200001 } }

/-! # Theorems -/

/-! ## Narrow-font alternation -/

theorem low_byte_eq_mod (c : Int) : low_byte c = c % 256 := by
  unfold low_byte
  cases c with
  | ofNat n =>
    show ((Nat.land n 255 : Nat) : Int) = _
    have h : Nat.land n 255 = n % 256 := Nat.and_pow_two_sub_one_eq_mod n 8
    rw [h]; rfl
  | negSucc n =>
    show ((Nat.ldiff 255 n : Nat) : Int) = _
    have hlt := Nat.mod_lt n (show 256 > 0 by norm_num)
    have h : Nat.ldiff 255 n = 255 - n % 256 := by
      apply Nat.eq_of_testBit_eq
      intro i
      rw [Nat.testBit_ldiff]
      have h255 : (255 : Nat) = 2 ^ 8 - 1 := by norm_num
      by_cases hi : i < 8
      · have e1 : Nat.testBit 255 i = true := by
          rw [h255, Nat.testBit_two_pow_sub_one]; simpa using hi
        have e2 : 255 - n % 256 = 2 ^ 8 - (n % 256 + 1) := by omega
        have e3 : (n % 256).testBit i = n.testBit i := by
          rw [show (256 : Nat) = 2 ^ 8 by norm_num, Nat.testBit_mod_two_pow]
          simp [hi]
        rw [e1, e2, Nat.testBit_two_pow_sub_succ (by omega)]
        simp [hi, e3]
      · have e1 : Nat.testBit 255 i = false := by
          rw [h255, Nat.testBit_two_pow_sub_one]; simpa using hi
        have e2 : Nat.testBit (255 - n % 256) i = false := by
          apply Nat.testBit_lt_two_pow
          calc 255 - n % 256 < 2 ^ 8 := by omega
            _ ≤ 2 ^ i := Nat.pow_le_pow_right (by norm_num) (by omega)
        rw [e1, e2]; simp
    rw [h, Int.negSucc_eq]
    omega

theorem backward_loop_snoc (edge jump s : Int) (k : Nat) (c : Int) :
    backward_loop edge jump s (k + 1) c
      = (backward_loop edge jump s k c).bind (fun d => backward_loop edge jump s 1 d) := by
  induction k generalizing c with
  | zero => simp [backward_loop]
  | succ k ih =>
    rw [backward_loop]
    by_cases h : (if low_byte c ≤ edge then c - jump else c - 1) < s
    · simp [backward_loop, h]
    · simp only [h, if_false]
      rw [ih]
      conv_rhs => rw [backward_loop]
      simp [h]

theorem loops_round_trip (lo hi jump s e : Int) (hlo : 0 ≤ lo) (hlh : lo ≤ hi) (hhi : hi < 256)
    (hj : jump = 256 - (hi - lo)) (k : Nat) :
    ∀ c c1 : Int, s ≤ c → c ≤ e → lo ≤ c % 256 → c % 256 ≤ hi →
      forward_loop hi jump e k c = some c1 →
      backward_loop lo jump s k c1 = some c
        ∧ lo ≤ c1 % 256 ∧ c1 % 256 ≤ hi ∧ c ≤ c1 ∧ c1 ≤ e := by
  induction k with
  | zero =>
    intro c c1 hs he h1 h2 hf
    simp only [forward_loop, Option.some.injEq] at hf
    subst hf
    exact ⟨rfl, h1, h2, le_refl _, he⟩
  | succ k ih =>
    intro c c1 hs he h1 h2 hf
    rw [forward_loop, low_byte_eq_mod] at hf
    by_cases hle : e < (if hi ≤ c % 256 then c + jump else c + 1)
    · rw [if_pos hle] at hf
      exact absurd hf (by simp)
    · rw [if_neg hle] at hf
      have hstep : s ≤ (if hi ≤ c % 256 then c + jump else c + 1)
          ∧ lo ≤ (if hi ≤ c % 256 then c + jump else c + 1) % 256
          ∧ (if hi ≤ c % 256 then c + jump else c + 1) % 256 ≤ hi
          ∧ c < (if hi ≤ c % 256 then c + jump else c + 1)
          ∧ (if (if hi ≤ c % 256 then c + jump else c + 1) % 256 ≤ lo
              then (if hi ≤ c % 256 then c + jump else c + 1) - jump
              else (if hi ≤ c % 256 then c + jump else c + 1) - 1) = c := by
        split <;> (refine ⟨?_, ?_, ?_, ?_, ?_⟩ <;> try split) <;> omega
      obtain ⟨q1, q2, q3, q4, q5⟩ := hstep
      obtain ⟨r1, r2, r3, r4, r5⟩ := ih _ c1 q1 (not_lt.mp hle) q2 q3 hf
      refine ⟨?_, r2, r3, by omega, r5⟩
      rw [backward_loop_snoc, r1]
      simp only [Option.bind, backward_loop, low_byte_eq_mod]
      rw [q5]
      simp [not_lt.mpr hs]

/-- Claim C1 (alternation round trip): for both numbering schemes, every
appendix, every character number `c` and every `n >= 0`, if
`eb_forward_narrow_alt_character` by `n` succeeds on `c` and yields `c1`, then
`eb_backward_narrow_alt_character` by `n` on `c1` succeeds and yields `c`. -/
theorem forward_backward_round_trip (appendix : EB_Appendix) (n c c1 : Int) (hn : 0 ≤ n)
    (h : eb_forward_narrow_alt_character appendix n c = (EB_SUCCESS, c1)) :
    eb_backward_narrow_alt_character appendix n c1 = (EB_SUCCESS, c) := by
  have hn' : ¬ n < 0 := not_lt.mpr hn
  simp only [eb_forward_narrow_alt_character, hn', if_false, forward_narrow_alt_nonneg,
    low_byte_eq_mod] at h
  simp only [eb_backward_narrow_alt_character, hn', if_false, backward_narrow_alt_nonneg,
    low_byte_eq_mod]
  cases hsub : appendix.subbook_current with
  | none => simp [hsub] at h
  | some sub =>
    simp only [hsub] at h ⊢
    by_cases hp : sub.narrow_page = 0
    · simp [hp] at h
    · simp only [hp, if_false] at h ⊢
      by_cases hc : sub.character_code = EB_CHARCODE_ISO8859_1
      · simp only [hc, if_true] at h ⊢
        split at h
        · simp at h
        · rename_i hv
          simp only [not_or, not_lt] at hv
          obtain ⟨v1, v2, v3, v4⟩ := hv
          cases hf : forward_loop 0xfe 3 sub.narrow_end n.toNat c with
          | none => simp [hf] at h
          | some d =>
            simp only [hf, Prod.mk.injEq, true_and] at h
            subst h
            obtain ⟨r1, r2, r3, r4, r5⟩ :=
              loops_round_trip 0x01 0xfe 3 sub.narrow_start sub.narrow_end (by norm_num)
                (by norm_num) (by norm_num) (by norm_num) n.toNat c d v1 v2 v3 v4 hf
            have : ¬ (d < sub.narrow_start ∨ sub.narrow_end < d ∨ d % 256 < 1 ∨ 254 < d % 256) := by
              simp only [not_or, not_lt]; exact ⟨by omega, r5, r2, r3⟩
            simp only [this, if_false, r1]
      · simp only [hc, if_false] at h ⊢
        split at h
        · simp at h
        · rename_i hv
          simp only [not_or, not_lt] at hv
          obtain ⟨v1, v2, v3, v4⟩ := hv
          cases hf : forward_loop 0x7e 0xa3 sub.narrow_end n.toNat c with
          | none => simp [hf] at h
          | some d =>
            simp only [hf, Prod.mk.injEq, true_and] at h
            subst h
            obtain ⟨r1, r2, r3, r4, r5⟩ :=
              loops_round_trip 0x21 0x7e 0xa3 sub.narrow_start sub.narrow_end (by norm_num)
                (by norm_num) (by norm_num) (by norm_num) n.toNat c d v1 v2 v3 v4 hf
            have : ¬ (d < sub.narrow_start ∨ sub.narrow_end < d ∨ d % 256 < 33 ∨ 126 < d % 256) := by
              simp only [not_or, not_lt]; exact ⟨by omega, r5, r2, r3⟩
            simp only [this, if_false, r1]

/-- Witness of C1: `start = 0x2121`, `0x217E` forward 3 gives `0x2223`, and
backward 3 from there gives `0x217E` again. -/
theorem forward_backward_round_trip_witness :
    eb_forward_narrow_alt_character sample_jis_appendix 3 0x217e = (EB_SUCCESS, 0x2223)
      ∧ eb_backward_narrow_alt_character sample_jis_appendix 3 0x2223 = (EB_SUCCESS, 0x217e) :=
  ⟨by decide,
   forward_backward_round_trip sample_jis_appendix 3 0x217e 0x2223 (by decide) (by decide)⟩

theorem forward_loop_eq_iterate (lo hi jump e : Int) (succ : Int → Int)
    (hlo : 0 ≤ lo) (hlh : lo ≤ hi) (hhi : hi < 256) (hj : jump = 256 - (hi - lo))
    (hsucc : ∀ c, succ c = if c % 256 = hi then c + jump else c + 1) (k : Nat) :
    ∀ c : Int, lo ≤ c % 256 → c % 256 ≤ hi →
      ((∀ i, 1 ≤ i → i ≤ k → succ^[i] c ≤ e) → forward_loop hi jump e k c = some (succ^[k] c))
      ∧ (¬ (∀ i, 1 ≤ i → i ≤ k → succ^[i] c ≤ e) → forward_loop hi jump e k c = none) := by
  induction k with
  | zero =>
    intro c _ _
    refine ⟨fun _ => by simp [forward_loop], fun h => absurd (fun i h1 h0 => by omega) h⟩
  | succ k ih =>
    intro c h1 h2
    have hstep : (if hi ≤ c % 256 then c + jump else c + 1) = succ c := by
      rw [hsucc]; split <;> split <;> omega
    have hleg : lo ≤ succ c % 256 ∧ succ c % 256 ≤ hi := by
      rw [hsucc]; split <;> omega
    obtain ⟨ihA, ihB⟩ := ih (succ c) hleg.1 hleg.2
    rw [forward_loop, low_byte_eq_mod]
    simp only [hstep]
    constructor
    · intro hall
      have h1e : succ c ≤ e := by simpa using hall 1 (le_refl _) (by omega)
      rw [if_neg (not_lt.mpr h1e), Function.iterate_succ_apply]
      apply ihA
      intro i hi1 hik
      have := hall (i + 1) (by omega) (by omega)
      rwa [Function.iterate_succ_apply] at this
    · intro hnall
      by_cases h1e : e < succ c
      · rw [if_pos h1e]
      · rw [if_neg h1e]
        apply ihB
        intro hall
        apply hnall
        intro i hi1 hik
        obtain ⟨j, rfl⟩ : ∃ j, i = j + 1 := ⟨i - 1, by omega⟩
        rw [Function.iterate_succ_apply]
        by_cases hj0 : j = 0
        · subst hj0; simpa using not_lt.mp h1e
        · exact hall j (by omega) (by omega)

/-- Claim C2 (forward iteration rule): for every `n >= 0` and every character
number `c` with `start <= c <= end` and a legal low byte,
`eb_forward_narrow_alt_character` returns `EB_SUCCESS` with the `n`-fold
successor of `c` when each of the `n` intermediate results is `<= end`, and
fails with `EB_ERR_NO_SUCH_CHAR_TEXT` (character number `-1`) otherwise; the
successor adds the row jump (`0xA3` at low byte `0x7E` for JIS X 0208, `3` at
low byte `0xFE` for ISO 8859-1) and otherwise 1.  With `n = 0` the character
number is returned unchanged. -/
theorem forward_iteration_rule (appendix : EB_Appendix) (sub : EB_Appendix_Subbook)
    (n : Nat) (c : Int)
    (hsub : appendix.subbook_current = some sub) (hpage : sub.narrow_page ≠ 0)
    (hstart : sub.narrow_start ≤ c) (hend : c ≤ sub.narrow_end)
    (hlegal : legal_low_byte sub.character_code c) :
    ((∀ i, 1 ≤ i → i ≤ n → (spec_successor sub.character_code)^[i] c ≤ sub.narrow_end) →
        eb_forward_narrow_alt_character appendix n c
          = (EB_SUCCESS, (spec_successor sub.character_code)^[n] c))
    ∧ (¬ (∀ i, 1 ≤ i → i ≤ n → (spec_successor sub.character_code)^[i] c ≤ sub.narrow_end) →
        eb_forward_narrow_alt_character appendix n c = (EB_ERR_NO_SUCH_CHAR_TEXT, -1))
    ∧ eb_forward_narrow_alt_character appendix 0 c = (EB_SUCCESS, c) := by
  have hn : ¬ ((n : Int) < 0) := by omega
  simp only [eb_forward_narrow_alt_character, hn, if_false, forward_narrow_alt_nonneg, hsub,
    hpage, lt_irrefl, Int.toNat_ofNat, Int.toNat_zero, low_byte_eq_mod]
  cases hcode : sub.character_code with
  | EB_CHARCODE_ISO8859_1 =>
    rw [hcode] at hlegal
    obtain ⟨l1, l2⟩ := hlegal
    have hv : ¬ (c < sub.narrow_start ∨ sub.narrow_end < c ∨ c % 256 < 1 ∨ 254 < c % 256) := by
      simp only [not_or, not_lt]; exact ⟨hstart, hend, l1, l2⟩
    obtain ⟨hA, hB⟩ := forward_loop_eq_iterate 0x01 0xfe 3 sub.narrow_end
      (spec_successor EB_CHARCODE_ISO8859_1) (by norm_num) (by norm_num) (by norm_num)
      (by norm_num) (fun c => rfl) n c l1 l2
    simp only [if_true, hv, if_false]
    refine ⟨fun h => by rw [hA h], fun h => by rw [hB h], by simp [forward_loop]⟩
  | EB_CHARCODE_JISX0208 =>
    rw [hcode] at hlegal
    obtain ⟨l1, l2⟩ := hlegal
    have hv : ¬ (c < sub.narrow_start ∨ sub.narrow_end < c ∨ c % 256 < 33 ∨ 126 < c % 256) := by
      simp only [not_or, not_lt]; exact ⟨hstart, hend, l1, l2⟩
    obtain ⟨hA, hB⟩ := forward_loop_eq_iterate 0x21 0x7e 0xa3 sub.narrow_end
      (spec_successor EB_CHARCODE_JISX0208) (by norm_num) (by norm_num) (by norm_num)
      (by norm_num) (fun c => rfl) n c l1 l2
    simp only [reduceCtorEq, if_false, hv]
    refine ⟨fun h => by rw [hA h], fun h => by rw [hB h], by simp [forward_loop]⟩

/-- Witness of C2: three steps from `0x217E` in the sample JIS subbook. -/
theorem forward_iteration_rule_witness :
    eb_forward_narrow_alt_character sample_jis_appendix ((3 : Nat) : Int) 0x217e
      = (EB_SUCCESS, (spec_successor EB_CHARCODE_JISX0208)^[3] 0x217e) :=
  (forward_iteration_rule sample_jis_appendix
      { character_code := EB_CHARCODE_JISX0208, narrow_page := 1, narrow_start := 0x2121,
        narrow_end := 0x237e }
      3 0x217e rfl (by decide) (by decide) (by decide) (by decide)).1
    (by intro i h1 h3; interval_cases i <;> decide)

/-! ## Pre-search -/

theorem read_page_full (book : EB_Book) (page : Int) (cache : Cache) (data : Page)
    (h : page_data book page = some data) :
    (read_page book page cache).1 = EB_SUCCESS
      ∧ (read_page book page cache).2.cache_buffer = data
      ∧ (read_page book page cache).2.cache_book_code = cache.cache_book_code := by
  unfold page_data at h
  cases hf : text_file book (seek_location page) with
  | seek_failed => simp [hf] at h
  | short_read f => simp [hf] at h
  | full_page d =>
    simp only [hf, Option.some.injEq] at h
    subst h
    simp only [read_page, hf, and_self]

theorem read_page_success (book : EB_Book) (page : Int) (cache : Cache)
    (h : (read_page book page cache).1 = EB_SUCCESS) :
    page_data book page = some (read_page book page cache).2.cache_buffer := by
  cases hf : text_file book (seek_location page) with
  | seek_failed => simp [read_page, hf] at h
  | short_read f => simp [read_page, hf] at h
  | full_page d => simp only [page_data, read_page, hf]

theorem read_page_zread_count (book : EB_Book) (page : Int) (cache : Cache) :
    ∃ calls, (read_page book page cache).2.zio_calls = calls ++ cache.zio_calls
      ∧ zread_count calls ≤ 1 := by
  cases hf : text_file book (seek_location page) with
  | seek_failed =>
    exact ⟨[Zio_Call.zlseek (seek_location page)], by simp [read_page, hf],
      by simp [zread_count]⟩
  | short_read f =>
    exact ⟨[Zio_Call.zread (seek_location page), Zio_Call.zlseek (seek_location page)],
      by simp [read_page, hf], by simp [zread_count]⟩
  | full_page d =>
    exact ⟨[Zio_Call.zread (seek_location page), Zio_Call.zlseek (seek_location page)],
      by simp [read_page, hf], by simp [zread_count]⟩

theorem presearch_loop_zread_count (book : EB_Book) (d : Nat) :
    ∀ (cache : Cache) (context : EB_Search_Context),
      ∃ calls, (presearch_loop book d cache context).2.1.zio_calls = calls ++ cache.zio_calls
        ∧ zread_count calls ≤ d := by
  induction d with
  | zero => intro cache context; exact ⟨[], rfl, by simp [zread_count]⟩
  | succ d ih =>
    intro cache context
    obtain ⟨c1, h1, h1c⟩ := read_page_zread_count book context.page cache
    rw [presearch_loop]
    simp only
    split
    · exact ⟨c1, h1, by omega⟩
    · split
      · exact ⟨c1, h1, by omega⟩
      · split
        · exact ⟨c1, h1, by omega⟩
        · split
          · exact ⟨c1, h1, by omega⟩
          · obtain ⟨c2, h2, h2c⟩ := ih (read_page book context.page cache).2
              { (presearch_scan (read_page book context.page cache).2.cache_buffer
                  (decode_header (read_page book context.page cache).2.cache_buffer context).page
                  (decode_header (read_page book context.page cache).2.cache_buffer
                    context).entry_count
                  { decode_header (read_page book context.page cache).2.cache_buffer context with
                    entry_index := 0 }).2.1 with
                page := (presearch_scan (read_page book context.page cache).2.cache_buffer
                  (decode_header (read_page book context.page cache).2.cache_buffer context).page
                  (decode_header (read_page book context.page cache).2.cache_buffer
                    context).entry_count
                  { decode_header (read_page book context.page cache).2.cache_buffer context with
                    entry_index := 0 }).2.2 }
            refine ⟨c2 ++ c1, ?_, ?_⟩
            · rw [h2, h1, List.append_assoc]
            · simp only [zread_count, List.filter_append, List.length_append] at *
              omega

/-- Claim C7 (monotonic depth): for every book, cache, and context (starting
page and comparator), `eb_presearch_word` returns after at most
`EB_MAX_INDEX_DEPTH = 6` calls of `eb_zread`: the reader calls it adds to the
record contain at most 6 reads. -/
theorem presearch_page_reads (book : EB_Book) (cache : Cache) (context : EB_Search_Context) :
    ∃ calls, (eb_presearch_word book cache context).2.1.zio_calls = calls ++ cache.zio_calls
      ∧ zread_count calls ≤ EB_MAX_INDEX_DEPTH := by
  obtain ⟨calls, h, hc⟩ := presearch_loop_zread_count book EB_MAX_INDEX_DEPTH
    { cache with cache_book_code := EB_BOOK_NONE } context
  refine ⟨calls, ?_, hc⟩
  unfold eb_presearch_word
  simp only
  split <;> exact h

theorem presearch_loop_internal (book : EB_Book) (c c1 : EB_Search_Context)
    (h : internal_level book c = some c1) (d : Nat) (cache : Cache) :
    presearch_loop book (d + 1) cache c
      = presearch_loop book d (read_page book c.page cache).2 c1 := by
  unfold internal_level at h
  cases hd : page_data book c.page with
  | none => simp [hd] at h
  | some data =>
    obtain ⟨r1, r2, -⟩ := read_page_full book c.page cache data hd
    simp only [hd] at h
    split at h
    · exact absurd h (by simp)
    · rename_i hleaf
      split at h
      · rename_i hsc
        obtain ⟨s1, s2, s3⟩ := hsc
        simp only [Option.some.injEq] at h
        rw [presearch_loop]
        simp only [r1, r2, ne_eq, not_true_eq_false, if_false, hleaf, s1, s3,
          Nat.not_le.mpr s2, false_or, Bool.false_eq_true]
        rw [h]
      · exact absurd h (by simp)

theorem presearch_loop_levels (book : EB_Book) (n : Nat) :
    ∀ (c c1 : EB_Search_Context), internal_levels book n c = some c1 →
      ∀ (d : Nat) (cache : Cache), ∃ cache1,
        presearch_loop book (n + d) cache c = presearch_loop book d cache1 c1
          ∧ cache1.cache_book_code = cache.cache_book_code := by
  induction n with
  | zero =>
    intro c c1 h d cache
    simp only [internal_levels, Option.some.injEq] at h
    subst h
    exact ⟨cache, by simp, rfl⟩
  | succ n ih =>
    intro c c1 h d cache
    simp only [internal_levels] at h
    cases hl : internal_level book c with
    | none => simp [hl] at h
    | some c2 =>
      simp only [hl, Option.some_bind] at h
      obtain ⟨cache1, e1, e2⟩ := ih c2 c1 h d (read_page book c.page cache).2
      refine ⟨cache1, ?_, ?_⟩
      · rw [show n + 1 + d = (n + d) + 1 by omega, presearch_loop_internal book c c2 hl, e1]
      · rw [e2]
        cases hf : text_file book (seek_location c.page) <;> simp [read_page, hf]

theorem presearch_loop_leaf (book : EB_Book) (c : EB_Search_Context) (data : Page)
    (hd : page_data book c.page = some data)
    (hleaf : PAGE_ID_IS_LEAF_LAYER (eb_uint1 data) = true) (d : Nat) (cache : Cache) :
    presearch_loop book (d + 1) cache c
      = (Presearch_Exit.leaf, (read_page book c.page cache).2, decode_header data c) := by
  obtain ⟨r1, r2, -⟩ := read_page_full book c.page cache data hd
  rw [presearch_loop]
  simp only [r1, r2, ne_eq, not_true_eq_false, if_false]
  have : PAGE_ID_IS_LEAF_LAYER (decode_header data c).page_id = true := hleaf
  simp only [this, if_true]

theorem presearch_scan_frame (buf : Page) (np : Int) (r : Nat) :
    ∀ x : EB_Search_Context,
      (presearch_scan buf np r x).2.1.compare = x.compare
        ∧ (presearch_scan buf np r x).2.1.canonicalized_word = x.canonicalized_word
        ∧ (presearch_scan buf np r x).2.1.page = x.page
        ∧ (presearch_scan buf np r x).2.1.entry_count = x.entry_count := by
  induction r with
  | zero => intro x; exact ⟨rfl, rfl, rfl, rfl⟩
  | succ r ih =>
    intro x
    rw [presearch_scan]
    split
    · exact ⟨rfl, rfl, rfl, rfl⟩
    · split
      · exact ⟨rfl, rfl, rfl, rfl⟩
      · exact ih _

theorem internal_levels_compare (book : EB_Book) (n : Nat) :
    ∀ (c c1 : EB_Search_Context), internal_levels book n c = some c1 →
      c1.compare = c.compare ∧ c1.canonicalized_word = c.canonicalized_word := by
  induction n with
  | zero =>
    intro c c1 h
    simp only [internal_levels, Option.some.injEq] at h
    subst h
    exact ⟨rfl, rfl⟩
  | succ n ih =>
    intro c c1 h
    simp only [internal_levels] at h
    cases hl : internal_level book c with
    | none => simp [hl] at h
    | some c2 =>
      simp only [hl, Option.some_bind] at h
      obtain ⟨e1, e2⟩ := ih c2 c1 h
      have hc2 : c2.compare = c.compare ∧ c2.canonicalized_word = c.canonicalized_word := by
        unfold internal_level at hl
        cases hd : page_data book c.page with
        | none => simp [hd] at hl
        | some data =>
          simp only [hd] at hl
          split at hl
          · exact absurd hl (by simp)
          · split at hl
            · simp only [Option.some.injEq] at hl
              subst hl
              have := presearch_scan_frame data (decode_header data c).page
                (decode_header data c).entry_count
                { decode_header data c with entry_index := 0 }
              exact ⟨this.1, this.2.1⟩
            · exact absurd hl (by simp)
      exact ⟨e1.trans hc2.1, e2.trans hc2.2⟩

theorem presearch_leaf_reached (book : EB_Book) (cache : Cache) (context leaf_context : EB_Search_Context)
    (n : Nat) (data : Page) (hn : n < EB_MAX_INDEX_DEPTH)
    (hpath : internal_levels book n context = some leaf_context)
    (hdata : page_data book leaf_context.page = some data)
    (hleaf : PAGE_ID_IS_LEAF_LAYER (eb_uint1 data) = true) :
    (eb_presearch_word book cache context).1 = EB_SUCCESS
      ∧ (eb_presearch_word book cache context).2.2.page = leaf_context.page
      ∧ PAGE_ID_IS_LEAF_LAYER (eb_presearch_word book cache context).2.2.page_id = true
      ∧ (eb_presearch_word book cache context).2.2.entry_index = 0
      ∧ (eb_presearch_word book cache context).2.2.comparison_result = 1
      ∧ (eb_presearch_word book cache context).2.2.entry_length = 0
      ∧ (eb_presearch_word book cache context).2.2.in_group_entry = false
      ∧ (eb_presearch_word book cache context).2.1.cache_book_code = book.code
      ∧ (eb_presearch_word book cache context).2.1.cache_page
          = (eb_presearch_word book cache context).2.2.page
      ∧ (eb_presearch_word book cache context).2.1.cache_buffer = data := by
  obtain ⟨d, hd⟩ : ∃ d, EB_MAX_INDEX_DEPTH = n + (d + 1) := ⟨EB_MAX_INDEX_DEPTH - n - 1, by omega⟩
  obtain ⟨cache1, e1, -⟩ := presearch_loop_levels book n context leaf_context hpath (d + 1)
    { cache with cache_book_code := EB_BOOK_NONE }
  rw [presearch_loop_leaf book leaf_context data hdata hleaf] at e1
  obtain ⟨-, r2, -⟩ := read_page_full book leaf_context.page cache1 data hdata
  simp [eb_presearch_word, hd, e1, r2, decode_header, hleaf]

theorem presearch_scan_falls_off (buf : Page) (np : Int) (r : Nat) :
    ∀ x : EB_Search_Context,
      (∀ i, i < r →
        x.offset + i * (x.entry_length + 4) + x.entry_length + 4 ≤ EB_SIZE_PAGE
          ∧ 0 < x.compare x.canonicalized_word
              (ptr buf (x.offset + i * (x.entry_length + 4))) x.entry_length) →
      presearch_scan buf np r x
        = (EB_SUCCESS,
            { x with
              offset := x.offset + r * (x.entry_length + 4)
              entry_index := x.entry_index + r },
            np) := by
  induction r with
  | zero => intro x _; simp [presearch_scan]
  | succ r ih =>
    intro x h
    have h0 := h 0 (by omega)
    simp only [Nat.zero_mul, Nat.add_zero] at h0
    rw [presearch_scan, if_neg (by omega), if_neg (not_le.mpr h0.2), ih]
    · simp only [Prod.mk.injEq, true_and, and_true]
      congr 1 <;> ring
    · intro i hi
      have := h (i + 1) (by omega)
      simp only
      have e : x.offset + x.entry_length + 4 + i * (x.entry_length + 4)
          = x.offset + (i + 1) * (x.entry_length + 4) := by ring
      rw [e]
      exact this

theorem presearch_scan_selects (buf : Page) (np : Int) (r : Nat) :
    ∀ (k : Nat) (x : EB_Search_Context), k < r →
      (∀ i, i < k →
        x.offset + i * (x.entry_length + 4) + x.entry_length + 4 ≤ EB_SIZE_PAGE
          ∧ 0 < x.compare x.canonicalized_word
              (ptr buf (x.offset + i * (x.entry_length + 4))) x.entry_length) →
      x.offset + k * (x.entry_length + 4) + x.entry_length + 4 ≤ EB_SIZE_PAGE →
      x.compare x.canonicalized_word
          (ptr buf (x.offset + k * (x.entry_length + 4))) x.entry_length ≤ 0 →
      presearch_scan buf np r x
        = (EB_SUCCESS,
            { x with
              offset := x.offset + k * (x.entry_length + 4)
              entry_index := x.entry_index + k },
            int32 (eb_uint4 (ptr buf (x.offset + k * (x.entry_length + 4) + x.entry_length)))) := by
  induction r with
  | zero => intro k x hk; omega
  | succ r ih =>
    intro k x hk hbefore hfit hcmp
    cases k with
    | zero =>
      simp only [Nat.zero_mul, Nat.add_zero] at hfit hcmp ⊢
      rw [presearch_scan, if_neg (by omega), if_pos hcmp]
    | succ k =>
      have h0 := hbefore 0 (by omega)
      simp only [Nat.zero_mul, Nat.add_zero] at h0
      have e : ∀ i, x.offset + x.entry_length + 4 + i * (x.entry_length + 4)
          = x.offset + (i + 1) * (x.entry_length + 4) := by intro i; ring
      rw [presearch_scan, if_neg (by omega), if_neg (not_le.mpr h0.2), ih k]
      · simp only [Prod.mk.injEq, true_and, e]
        constructor
        · congr 1; ring
        · trivial
      · omega
      · intro i hi
        simp only [e]
        exact hbefore (i + 1) (by omega)
      · simp only [e]; exact hfit
      · simp only [e]; exact hcmp

theorem presearch_loop_exhausted (book : EB_Book) (c : EB_Search_Context) (data : Page)
    (hd : page_data book c.page = some data)
    (hint : PAGE_ID_IS_LEAF_LAYER (eb_uint1 data) = false)
    (h : (∀ i, i < eb_uint2 (ptr data 2) →
            4 + i * (eb_uint1 (ptr data 1) + 4) + eb_uint1 (ptr data 1) + 4 ≤ EB_SIZE_PAGE
              ∧ 0 < c.compare c.canonicalized_word
                  (ptr data (4 + i * (eb_uint1 (ptr data 1) + 4))) (eb_uint1 (ptr data 1)))
        ∨ (∃ k, k < eb_uint2 (ptr data 2)
            ∧ (∀ i, i < k →
                4 + i * (eb_uint1 (ptr data 1) + 4) + eb_uint1 (ptr data 1) + 4 ≤ EB_SIZE_PAGE
                  ∧ 0 < c.compare c.canonicalized_word
                      (ptr data (4 + i * (eb_uint1 (ptr data 1) + 4))) (eb_uint1 (ptr data 1)))
            ∧ 4 + k * (eb_uint1 (ptr data 1) + 4) + eb_uint1 (ptr data 1) + 4 ≤ EB_SIZE_PAGE
            ∧ c.compare c.canonicalized_word
                (ptr data (4 + k * (eb_uint1 (ptr data 1) + 4))) (eb_uint1 (ptr data 1)) ≤ 0
            ∧ int32 (eb_uint4 (ptr data (4 + k * (eb_uint1 (ptr data 1) + 4) + eb_uint1 (ptr data 1)))) = c.page))
    (d : Nat) (cache : Cache) :
    (presearch_loop book (d + 1) cache c).1 = Presearch_Exit.succeeded
      ∧ (presearch_loop book (d + 1) cache c).2.2.comparison_result = -1
      ∧ (presearch_loop book (d + 1) cache c).2.2.page = c.page := by
  obtain ⟨r1, r2, -⟩ := read_page_full book c.page cache data hd
  have hleaf : PAGE_ID_IS_LEAF_LAYER (decode_header data c).page_id = false := hint
  rw [presearch_loop]
  simp only [r1, r2, ne_eq, not_true_eq_false, if_false, hleaf, Bool.false_eq_true]
  rcases h with h | ⟨k, hk, hbefore, hfit, hcmp, hchild⟩
  · have hs := presearch_scan_falls_off data (decode_header data c).page
      (decode_header data c).entry_count { decode_header data c with entry_index := 0 } h
    rw [hs]
    simp [decode_header]
  · have hs := presearch_scan_selects data (decode_header data c).page
      (decode_header data c).entry_count k { decode_header data c with entry_index := 0 }
      hk hbefore hfit hcmp
    rw [hs]
    simp [decode_header, hchild]

/-- Claim C6 (pre-search settle postcondition): when the descent from
`context.page` passes `n < EB_MAX_INDEX_DEPTH` intermediate pages and then
reads a page whose page id has the leaf bit, `eb_presearch_word` returns
`EB_SUCCESS` with `context.page` that leaf, the leaf bit set in
`context.page_id`, `entry_index = 0`, `comparison_result = 1`,
`entry_length = 0`, `in_group_entry = false`, and the page cache holding
`(book.code, context.page)` with the bytes of the leaf in the buffer.  The
pages of the descent are those the code reaches: each is read at the `int`
offset `(page - 1) * EB_SIZE_PAGE`, and each child pointer is taken as the
`int` the code stores it in. -/
theorem presearch_settle (book : EB_Book) (cache : Cache)
    (context leaf_context : EB_Search_Context) (n : Nat) (data : Page)
    (hn : n < EB_MAX_INDEX_DEPTH)
    (hpath : internal_levels book n context = some leaf_context)
    (hdata : page_data book leaf_context.page = some data)
    (hleaf : PAGE_ID_IS_LEAF_LAYER (eb_uint1 data) = true) :
    (eb_presearch_word book cache context).1 = EB_SUCCESS
      ∧ (eb_presearch_word book cache context).2.2.page = leaf_context.page
      ∧ PAGE_ID_IS_LEAF_LAYER (eb_presearch_word book cache context).2.2.page_id = true
      ∧ (eb_presearch_word book cache context).2.2.entry_index = 0
      ∧ (eb_presearch_word book cache context).2.2.comparison_result = 1
      ∧ (eb_presearch_word book cache context).2.2.entry_length = 0
      ∧ (eb_presearch_word book cache context).2.2.in_group_entry = false
      ∧ (eb_presearch_word book cache context).2.1.cache_book_code = book.code
      ∧ (eb_presearch_word book cache context).2.1.cache_page
          = (eb_presearch_word book cache context).2.2.page
      ∧ (eb_presearch_word book cache context).2.1.cache_buffer = data :=
  presearch_leaf_reached book cache context leaf_context n data hn hpath hdata hleaf

/-- Witness of C6: five intermediate pages, then the sample leaf as page 6. -/
theorem presearch_settle_witness :
    (eb_presearch_word deep_book empty_cache { sample_context with page := 1 }).1 = EB_SUCCESS
      ∧ (eb_presearch_word deep_book empty_cache { sample_context with page := 1 }).2.2.page = 6
      ∧ (eb_presearch_word deep_book empty_cache
          { sample_context with page := 1 }).2.2.entry_length = 0
      ∧ (eb_presearch_word deep_book empty_cache
          { sample_context with page := 1 }).2.1.cache_book_code = some 1
      ∧ (eb_presearch_word deep_book empty_cache
          { sample_context with page := 1 }).2.1.cache_buffer = sample_fixed_leaf := by
  have h := presearch_settle deep_book empty_cache { sample_context with page := 1 }
    { decode_header (sample_internal_page 6) sample_context with page := 6 } 5 sample_fixed_leaf
    (by decide) rfl rfl rfl
  exact ⟨h.1, h.2.1, h.2.2.2.2.2.1, h.2.2.2.2.2.2.2.1, h.2.2.2.2.2.2.2.2.2⟩

/-- Claim C8 (depth overrun is corruption): if the descent passes
`EB_MAX_INDEX_DEPTH = 6` intermediate pages, each selecting a child different
from itself, `eb_presearch_word` returns `EB_ERR_UNEXP_TEXT`; if it passes
five such pages and the sixth page read is a leaf, it settles on that leaf
with `EB_SUCCESS`.  The pages are those the code reaches, read at the `int`
offset `(page - 1) * EB_SIZE_PAGE` and selected by child pointers taken as
`int`. -/
theorem depth_overrun_is_corruption (book : EB_Book) (cache : Cache)
    (context : EB_Search_Context) :
    ((internal_levels book EB_MAX_INDEX_DEPTH context).isSome = true →
        (eb_presearch_word book cache context).1 = EB_ERR_UNEXP_TEXT)
      ∧ (∀ (c5 : EB_Search_Context) (data : Page),
          internal_levels book 5 context = some c5 →
          page_data book c5.page = some data →
          PAGE_ID_IS_LEAF_LAYER (eb_uint1 data) = true →
          (eb_presearch_word book cache context).1 = EB_SUCCESS
            ∧ (eb_presearch_word book cache context).2.2.page = c5.page
            ∧ (eb_presearch_word book cache context).2.2.comparison_result = 1
            ∧ (eb_presearch_word book cache context).2.1.cache_book_code = book.code
            ∧ (eb_presearch_word book cache context).2.1.cache_page = c5.page) := by
  constructor
  · intro h
    obtain ⟨c6, hc6⟩ := Option.isSome_iff_exists.mp h
    obtain ⟨cache1, e1, -⟩ := presearch_loop_levels book EB_MAX_INDEX_DEPTH context c6 hc6 0
      { cache with cache_book_code := EB_BOOK_NONE }
    simp only [Nat.add_zero] at e1
    unfold eb_presearch_word
    rw [e1]
    rfl
  · intro c5 data hpath hdata hleaf
    have h := presearch_leaf_reached book cache context c5 5 data (by decide) hpath hdata hleaf
    exact ⟨h.1, h.2.1, h.2.2.2.2.1, h.2.2.2.2.2.2.2.1, by rw [h.2.2.2.2.2.2.2.2.1, h.2.1]⟩

/-- Witness of C8: a chain of intermediate pages 1, 2, 3, ... is rejected,
the same chain with a leaf as page 6 settles. -/
theorem depth_overrun_is_corruption_witness :
    (eb_presearch_word chain_book empty_cache { sample_context with page := 1 }).1
        = EB_ERR_UNEXP_TEXT
      ∧ (eb_presearch_word deep_book empty_cache { sample_context with page := 1 }).1
        = EB_SUCCESS :=
  ⟨(depth_overrun_is_corruption chain_book empty_cache { sample_context with page := 1 }).1 rfl,
   ((depth_overrun_is_corruption deep_book empty_cache { sample_context with page := 1 }).2
      { decode_header (sample_internal_page 6) sample_context with page := 6 }
      sample_fixed_leaf rfl rfl rfl).1⟩

/-- Claim C9 (descent exhaustion is not an error): when the descent reaches,
within the budget, an intermediate page on which either every one of the
`entry_count` entries lies inside the page and compares greater than zero
against `canonicalized_word` (the scan falls off the end), or the first entry
that compares `<= 0` carries a child pointer equal to the page itself (as
the `int` values `next_page` and `context->page` that line 210 compares),
`eb_presearch_word` returns `EB_SUCCESS` with `comparison_result = -1` and
`context.page` still that intermediate page. -/
theorem descent_exhaustion (book : EB_Book) (cache : Cache)
    (context c : EB_Search_Context) (n : Nat) (data : Page)
    (hn : n < EB_MAX_INDEX_DEPTH)
    (hpath : internal_levels book n context = some c)
    (hdata : page_data book c.page = some data)
    (hint : PAGE_ID_IS_LEAF_LAYER (eb_uint1 data) = false)
    (h : (∀ i, i < eb_uint2 (ptr data 2) →
            4 + i * (eb_uint1 (ptr data 1) + 4) + eb_uint1 (ptr data 1) + 4 ≤ EB_SIZE_PAGE
              ∧ 0 < context.compare context.canonicalized_word
                  (ptr data (4 + i * (eb_uint1 (ptr data 1) + 4))) (eb_uint1 (ptr data 1)))
        ∨ (∃ k, k < eb_uint2 (ptr data 2)
            ∧ (∀ i, i < k →
                4 + i * (eb_uint1 (ptr data 1) + 4) + eb_uint1 (ptr data 1) + 4 ≤ EB_SIZE_PAGE
                  ∧ 0 < context.compare context.canonicalized_word
                      (ptr data (4 + i * (eb_uint1 (ptr data 1) + 4))) (eb_uint1 (ptr data 1)))
            ∧ 4 + k * (eb_uint1 (ptr data 1) + 4) + eb_uint1 (ptr data 1) + 4 ≤ EB_SIZE_PAGE
            ∧ context.compare context.canonicalized_word
                (ptr data (4 + k * (eb_uint1 (ptr data 1) + 4))) (eb_uint1 (ptr data 1)) ≤ 0
            ∧ int32 (eb_uint4
                (ptr data (4 + k * (eb_uint1 (ptr data 1) + 4) + eb_uint1 (ptr data 1))))
              = c.page)) :
    (eb_presearch_word book cache context).1 = EB_SUCCESS
      ∧ (eb_presearch_word book cache context).2.2.comparison_result = -1
      ∧ (eb_presearch_word book cache context).2.2.page = c.page := by
  obtain ⟨d, hd⟩ : ∃ d, EB_MAX_INDEX_DEPTH = n + (d + 1) := ⟨EB_MAX_INDEX_DEPTH - n - 1, by omega⟩
  obtain ⟨cache1, e1, -⟩ := presearch_loop_levels book n context c hpath (d + 1)
    { cache with cache_book_code := EB_BOOK_NONE }
  obtain ⟨hc1, hc2⟩ := internal_levels_compare book n context c hpath
  rw [← hc1, ← hc2] at h
  obtain ⟨x1, x2, x3⟩ := presearch_loop_exhausted book c data hdata hint h d cache1
  unfold eb_presearch_word
  simp only [hd, e1]
  generalize presearch_loop book (d + 1) cache1 c = r at x1 x2 x3
  obtain ⟨r1, r2, r3⟩ := r
  simp only at x1 x2 x3
  subst x1
  exact ⟨rfl, x2, x3⟩

/-- Witness of C9: page 1 is an intermediate page whose selected child is
page 1 itself. -/
theorem descent_exhaustion_witness :
    (eb_presearch_word loop_book empty_cache { sample_context with page := 1 }).1 = EB_SUCCESS
      ∧ (eb_presearch_word loop_book empty_cache
          { sample_context with page := 1 }).2.2.comparison_result = -1
      ∧ (eb_presearch_word loop_book empty_cache { sample_context with page := 1 }).2.2.page = 1 :=
  descent_exhaustion loop_book empty_cache { sample_context with page := 1 }
    { sample_context with page := 1 } 0 (sample_internal_page 1) (by decide) rfl rfl rfl
    (Or.inr ⟨0, by decide, fun i hi => absurd hi (Nat.not_lt_zero i), by decide, by decide,
      by decide⟩)

/-! ## Leaf walk -/

/-- Claim C5, evaluated on the example of the specification (fixed-layout
leaf of entry length 4 with records bat, cat, dog, pattern cat):
`eb_presearch_word` leaves `entry_length = 0` and a warm cache, so the
following `eb_hit_list` does not decode the header again, walks the leaf in
entries of `0 + 12` bytes with keys of length 0, and returns no hit instead
of the hit `text = (7,0)`, `heading = (7,6)`. -/
theorem fixed_leaf_after_presearch :
    (eb_presearch_word sample_book empty_cache sample_context).1 = EB_SUCCESS
      ∧ eb_uint1 (ptr sample_fixed_leaf 1) = 4
      ∧ (eb_presearch_word sample_book empty_cache sample_context).2.2.entry_length = 0
      ∧ (eb_presearch_word sample_book empty_cache sample_context).2.2.entry_arrangement
          = EB_ARRANGE_FIXED
      ∧ (eb_hit_list trivial_text sample_env 5 presearched_book ()
            (eb_presearch_word sample_book empty_cache sample_context).2.1 10 0).map
          (fun r => (r.error_code, r.hit_list, r.hit_count))
          = some (EB_SUCCESS, [], 0) := by
  decide

/-- Claim C4, evaluated on the same example: after `eb_presearch_word` the
word walk returns no hit when the cache is left warm, and the hit
`text = (7,0)`, `heading = (7,6)` when the cache was evicted in between,
either by setting `cache_book_code` to `EB_BOOK_NONE` or by another book
storing its page in the cache. -/
theorem cache_eviction_changes_hits :
    (eb_hit_list_word 5 sample_book
          (eb_presearch_word sample_book empty_cache sample_context).2.1
          (eb_presearch_word sample_book empty_cache sample_context).2.2 10).map
        (fun r => (r.error_code, r.hit_list, r.hit_count))
        = some (EB_SUCCESS, [], 0)
      ∧ (eb_hit_list_word 5 sample_book
          { (eb_presearch_word sample_book empty_cache sample_context).2.1 with
            cache_book_code := EB_BOOK_NONE }
          (eb_presearch_word sample_book empty_cache sample_context).2.2 10).map
        (fun r => (r.error_code, r.hit_list, r.hit_count))
        = some (EB_SUCCESS,
            [{ heading := { page := 7, offset := 6 }, text := { page := 7, offset := 0 } }], 1)
      ∧ (eb_hit_list_word 5 sample_book
          { (eb_presearch_word sample_book empty_cache sample_context).2.1 with
            cache_book_code := some 2, cache_page := 3, cache_buffer := sample_internal_page 9 }
          (eb_presearch_word sample_book empty_cache sample_context).2.2 10).map
        (fun r => (r.error_code, r.hit_list, r.hit_count))
        = some (EB_SUCCESS,
            [{ heading := { page := 7, offset := 6 }, text := { page := 7, offset := 0 } }], 1) := by
  decide

/-! ## AND of hit lists -/

theorem scan_inv_step (done : List And_Row) (s : And_Scan) (i : Nat) (row : And_Row)
    (h : Scan_Inv done s) : Scan_Inv (done ++ [row]) (and_scan_step s i row) := by
  obtain ⟨h1, h2, h3, h4⟩ := h
  unfold and_scan_step
  rcases hrow : row.2 with _ | ⟨hit, rest⟩
  · -- the row is exhausted
    simp only
    refine ⟨?_, ?_, ?_, ?_⟩
    · intro hg
      obtain ⟨a, b⟩ := h1 hg
      refine ⟨?_, b⟩
      intro r hr
      rcases List.mem_append.mp hr with hr | hr
      · exact a r hr
      · simp only [List.mem_singleton] at hr; subst hr; exact hrow
    · intro hg
      obtain ⟨⟨r, hr, w⟩, b⟩ := h2 hg
      refine ⟨⟨r, List.mem_append_left _ hr, w⟩, ?_⟩
      intro r hr hh rr e
      rcases List.mem_append.mp hr with hr | hr
      · exact b r hr hh rr e
      · simp only [List.mem_singleton] at hr; subst hr; rw [hrow] at e; cases e
    · simp only [List.length_append, List.length_singleton]; omega
    · simp only [List.length_append, List.length_singleton]
      constructor
      · intro e; omega
      · intro e
        obtain ⟨hh, rr, e1, -⟩ := e row (by simp)
        rw [hrow] at e1; cases e1
  · simp only
    by_cases hg : s.greatest_list = -1
    · -- first row with a current element
      obtain ⟨a, b⟩ := h1 hg
      simp only [hg, if_true]
      refine ⟨?_, ?_, ?_, ?_⟩
      · intro hi; simp only at hi; omega
      · intro _
        refine ⟨⟨row, by simp, hit, rest, hrow, rfl, rfl⟩, ?_⟩
        intro r hr hh rr e
        rcases List.mem_append.mp hr with hr | hr
        · rw [a r hr] at e; cases e
        · simp only [List.mem_singleton] at hr; subst hr; rw [hrow] at e
          cases e
          simp
      · simp only [List.length_append, List.length_singleton]; omega
      · simp only [List.length_append, List.length_singleton, b]
        constructor
        · intro e
          have hd : done = [] := List.length_eq_zero.mp (by omega)
          subst hd
          intro r hr
          simp only [List.nil_append, List.mem_singleton] at hr
          subst hr
          exact ⟨hit, rest, hrow, rfl, rfl⟩
        · intro e
          rcases done with _ | ⟨d, ds⟩
          · rfl
          · obtain ⟨hh, rr, e1, -⟩ := e d (by simp)
            rw [a d (by simp)] at e1; cases e1
    · obtain ⟨⟨r0, hr0, h0, rest0, e0, p0, o0⟩, b⟩ := h2 hg
      have hdone : 0 < done.length := List.length_pos_of_mem hr0
      simp only [hg, if_false]
      by_cases c1 : s.greatest_page < field_int hit.text.page
      · rw [if_pos c1]
        refine ⟨fun hi => by simp only at hi; omega, fun _ => ⟨⟨row, by simp, hit, rest, hrow, rfl, rfl⟩, ?_⟩, ?_, ?_⟩
        · intro r hr hh rr e
          rcases List.mem_append.mp hr with hr | hr
          · have := b r hr hh rr e
            simp only [not_or, not_and, not_lt] at this ⊢
            omega
          · simp only [List.mem_singleton] at hr; subst hr; rw [hrow] at e
            cases e
            simp
        · simp only [List.length_append, List.length_singleton]; omega
        · simp only [List.length_append, List.length_singleton]
          constructor
          · intro e; omega
          · intro e
            obtain ⟨hh, rr, e1, e2, -⟩ := e r0 (List.mem_append_left _ hr0)
            rw [e0] at e1; cases e1
            omega
      · rw [if_neg c1]
        by_cases c2 : field_int hit.text.page = s.greatest_page ∧ s.greatest_offset < field_int hit.text.offset
        · rw [if_pos c2]
          refine ⟨fun hi => by simp only at hi; omega, fun _ => ⟨⟨row, by simp, hit, rest, hrow, rfl, rfl⟩, ?_⟩, ?_, ?_⟩
          · intro r hr hh rr e
            rcases List.mem_append.mp hr with hr | hr
            · have := b r hr hh rr e
              simp only [not_or, not_and, not_lt] at this ⊢
              omega
            · simp only [List.mem_singleton] at hr; subst hr; rw [hrow] at e
              cases e
              simp
          · simp only [List.length_append, List.length_singleton]; omega
          · simp only [List.length_append, List.length_singleton]
            constructor
            · intro e; omega
            · intro e
              obtain ⟨hh, rr, e1, -, e3⟩ := e r0 (List.mem_append_left _ hr0)
              rw [e0] at e1; cases e1
              omega
        · rw [if_neg c2]
          by_cases c3 : field_int hit.text.page = s.greatest_page ∧ field_int hit.text.offset = s.greatest_offset
          · rw [if_pos c3]
            refine ⟨fun hi => absurd hi hg, fun _ => ⟨⟨r0, List.mem_append_left _ hr0, h0, rest0, e0, p0, o0⟩, ?_⟩, ?_, ?_⟩
            · intro r hr hh rr e
              rcases List.mem_append.mp hr with hr | hr
              · exact b r hr hh rr e
              · simp only [List.mem_singleton] at hr; subst hr; rw [hrow] at e
                cases e
                simp only [not_or, not_and, not_lt]
                omega
            · simp only [List.length_append, List.length_singleton]; omega
            · simp only [List.length_append, List.length_singleton, Nat.add_right_cancel_iff]
              rw [h4]
              constructor
              · intro e r hr
                rcases List.mem_append.mp hr with hr | hr
                · exact e r hr
                · simp only [List.mem_singleton] at hr; subst hr
                  exact ⟨hit, rest, hrow, c3.1, c3.2⟩
              · intro e r hr
                exact e r (List.mem_append_left _ hr)
          · rw [if_neg c3]
            refine ⟨fun hi => absurd hi hg, fun _ => ⟨⟨r0, List.mem_append_left _ hr0, h0, rest0, e0, p0, o0⟩, ?_⟩, ?_, ?_⟩
            · intro r hr hh rr e
              rcases List.mem_append.mp hr with hr | hr
              · exact b r hr hh rr e
              · simp only [List.mem_singleton] at hr; subst hr; rw [hrow] at e
                cases e
                simp only [not_or, not_and, not_lt]
                omega
            · simp only [List.length_append, List.length_singleton]; omega
            · simp only [List.length_append, List.length_singleton]
              constructor
              · intro e; omega
              · intro e
                obtain ⟨hh, rr, e1, e2, e3⟩ := e row (by simp)
                rw [hrow] at e1; cases e1
                exact absurd ⟨e2, e3⟩ c3

theorem scan_inv_scan (rows : List And_Row) :
    ∀ (done : List And_Row) (i : Nat) (s : And_Scan), Scan_Inv done s →
      Scan_Inv (done ++ rows) (and_scan i rows s) := by
  induction rows with
  | nil => intro done i s h; simpa [and_scan] using h
  | cons row rows ih =>
    intro done i s h
    have := ih (done ++ [row]) (i + 1) _ (scan_inv_step done s i row h)
    simpa [and_scan] using this

theorem scan_inv_result (rows : List And_Row) :
    Scan_Inv rows (and_scan 0 rows
      { greatest_list := -1, greatest_page := 0, greatest_offset := 0, equal_count := 0 }) := by
  have := scan_inv_scan rows [] 0
    { greatest_list := -1, greatest_page := 0, greatest_offset := 0, equal_count := 0 }
    ⟨fun _ => ⟨by simp, rfl⟩, fun h => absurd rfl h, by simp, by simp⟩
  simpa using this

theorem position_eq_iff (a : EB_Position) (p o : Nat) :
    a = ⟨p, o⟩ ↔ a.page = p ∧ a.offset = o := by
  cases a; simp

theorem field_int_injective (a b : Nat) (h : field_int a = field_int b) : a = b := by
  unfold field_int int32 at h
  split at h <;> split at h <;> omega

theorem field_int_small (v : Nat) (h : v < 2147483648) : field_int v = v := by
  unfold field_int int32
  rw [if_pos (by omega)]
  omega

theorem position_eq_int (a g : EB_Position) :
    a = g ↔ field_int a.page = field_int g.page ∧ field_int a.offset = field_int g.offset := by
  constructor
  · rintro rfl; exact ⟨rfl, rfl⟩
  · rintro ⟨hp, ho⟩
    cases a; cases g
    simp only [EB_Position.mk.injEq]
    exact ⟨field_int_injective _ _ hp, field_int_injective _ _ ho⟩

theorem int_position_lt_irrefl (g : EB_Position) : ¬ int_position_lt g g := by
  simp only [int_position_lt]; omega

theorem common_hits_cons (row0 : List EB_Hit) (rows : List (List EB_Hit)) :
    common_hits (row0 :: rows)
      = row0.filter fun hit => decide (in_all_rows (row0 :: rows) hit.text) := rfl

theorem mem_ascending_row (hit : EB_Hit) (rest : List EB_Hit)
    (hasc : int_ascending (hit :: rest)) (a : EB_Position)
    (ha : a ∈ (hit :: rest).map EB_Hit.text) :
    a = hit.text ∨ int_position_lt hit.text a := by
  simp only [List.map_cons, List.mem_cons, List.mem_map] at ha
  rcases ha with ha | ⟨x, hx, rfl⟩
  · exact Or.inl ha
  · exact Or.inr ((List.pairwise_cons.mp hasc).1 x hx)

theorem advance_all_rows (st : List And_Row) :
    (and_advance_all st).map Prod.snd = (st.map Prod.snd).map List.tail := by
  unfold and_advance_all
  simp only [List.map_map]
  apply List.map_congr_left
  intro r _
  simp only [Function.comp]
  rcases h : r.2 with _ | ⟨x, xs⟩ <;> simp [h]

theorem advance_lesser_rows (gp go : Int) (st : List And_Row) :
    (and_advance_lesser gp go st).map Prod.snd = (st.map Prod.snd).map (advance_row gp go) := by
  unfold and_advance_lesser
  simp only [List.map_map]
  apply List.map_congr_left
  intro r _
  simp only [Function.comp, advance_row]
  rcases h : r.2 with _ | ⟨x, xs⟩
  · simp [h]
  · simp only
    split <;> simp [h]

theorem common_hits_exhausted (rows : List (List EB_Hit)) (h : [] ∈ rows) :
    common_hits rows = [] := by
  rcases rows with _ | ⟨row0, rows⟩
  · rfl
  · rw [common_hits_cons, List.filter_eq_nil_iff]
    intro x _
    simp only [decide_eq_true_eq, in_all_rows]
    intro hc
    simpa using hc [] h

theorem common_hits_emit (row0 : List EB_Hit) (rows : List (List EB_Hit)) (g : EB_Position)
    (hasc : ∀ row ∈ row0 :: rows, int_ascending row)
    (hall : ∀ row ∈ row0 :: rows, ∃ h rest, row = h :: rest ∧ h.text = g) :
    ∃ h0 rest0, row0 = h0 :: rest0
      ∧ common_hits (row0 :: rows) = h0 :: common_hits ((row0 :: rows).map List.tail) := by
  obtain ⟨h0, rest0, e0, t0⟩ := hall row0 (by simp)
  refine ⟨h0, rest0, e0, ?_⟩
  have hin : in_all_rows (row0 :: rows) h0.text := by
    intro row hrow
    obtain ⟨h, rest, e, t⟩ := hall row hrow
    rw [e, t0, ← t]
    simp
  have hasc0 := hasc row0 (by simp)
  rw [e0] at hasc0
  rw [common_hits_cons]
  simp only [List.map_cons]
  rw [common_hits_cons]
  subst e0
  simp only [List.filter_cons, hin, decide_True, if_true, List.tail_cons]
  congr 1
  apply List.filter_congr
  intro x hx
  have hxg : int_position_lt g x.text := by
    rw [← t0]; exact (List.pairwise_cons.mp hasc0).1 x hx
  have hne : x.text ≠ g := by
    intro e; rw [e] at hxg
    exact int_position_lt_irrefl g hxg
  congr 1
  apply propext
  constructor
  · intro hx_all row hrow
    have hrow' : row ∈ ((h0 :: rest0) :: rows).map List.tail := by simpa using hrow
    obtain ⟨r, hr, rfl⟩ := List.mem_map.mp hrow'
    obtain ⟨h, rest, e, t⟩ := hall r hr
    have := hx_all r hr
    subst e
    simp only [List.map_cons, List.mem_cons] at this
    rcases this with this | this
    · exact absurd (this.trans t) hne
    · simpa using this
  · intro hx_all row hrow
    have hm : row.tail ∈ rest0 :: rows.map List.tail := by
      have : row.tail ∈ ((h0 :: rest0) :: rows).map List.tail := List.mem_map_of_mem _ hrow
      simpa using this
    have := hx_all _ hm
    obtain ⟨y, hy, e⟩ := List.mem_map.mp this
    exact List.mem_map.mpr ⟨y, List.mem_of_mem_tail hy, e⟩

theorem common_hits_advance (row0 : List EB_Hit) (rows : List (List EB_Hit))
    (g : EB_Position)
    (hasc : ∀ row ∈ row0 :: rows, int_ascending row)
    (hmax : ∃ row ∈ row0 :: rows, ∃ h rest, row = h :: rest ∧ h.text = g)
    (hle : ∀ row ∈ row0 :: rows, ∀ h rest, row = h :: rest → ¬ int_position_lt g h.text) :
    common_hits ((row0 :: rows).map (advance_row (field_int g.page) (field_int g.offset)))
      = common_hits (row0 :: rows) := by
  obtain ⟨rg, hrg, hg, restg, eg, tg⟩ := hmax
  -- an address common to all rows is not below the greatest current element
  have hge : ∀ a, in_all_rows (row0 :: rows) a → a = g ∨ int_position_lt g a := by
    intro a ha
    have h1 := ha rg hrg
    have h2 := hasc rg hrg
    subst eg
    rw [← tg]
    exact mem_ascending_row hg restg h2 a h1
  have hsub : ∀ (row : List EB_Hit) (a : EB_Position),
      a ∈ (advance_row (field_int g.page) (field_int g.offset) row).map EB_Hit.text →
        a ∈ row.map EB_Hit.text := by
    intro row a ha
    rcases row with _ | ⟨h, rest⟩
    · simp [advance_row] at ha
    · simp only [advance_row] at ha
      split at ha
      · simp only [List.map_cons, List.mem_cons]; exact Or.inr ha
      · exact ha
  have hiff : ∀ a,
      in_all_rows ((row0 :: rows).map (advance_row (field_int g.page) (field_int g.offset))) a
        ↔ in_all_rows (row0 :: rows) a := by
    intro a
    constructor
    · intro ha row hrow
      exact hsub row a (ha _ (List.mem_map_of_mem _ hrow))
    · intro ha row hrow
      obtain ⟨r, hr, rfl⟩ := List.mem_map.mp hrow
      have hr_in := ha r hr
      rcases r with _ | ⟨h, rest⟩
      · simp at hr_in
      · simp only [advance_row]
        split
        · rename_i hne
          simp only [List.map_cons, List.mem_cons] at hr_in
          rcases hr_in with e | e
          · exfalso
            rcases hge a ha with e2 | e2
            · rw [e2] at e
              have := (position_eq_int h.text g).mp e.symm
              omega
            · rw [e] at e2
              exact hle _ hr h rest rfl e2
          · exact e
        · exact hr_in
  simp only [List.map_cons]
  rw [common_hits_cons, common_hits_cons]
  have hcongr : (advance_row (field_int g.page) (field_int g.offset) row0).filter
      (fun hit => decide (in_all_rows
        (advance_row (field_int g.page) (field_int g.offset) row0
          :: rows.map (advance_row (field_int g.page) (field_int g.offset))) hit.text))
      = (advance_row (field_int g.page) (field_int g.offset) row0).filter
        (fun hit => decide (in_all_rows (row0 :: rows) hit.text)) := by
    apply List.filter_congr
    intro x _
    congr 1
    apply propext
    have := hiff x.text
    simpa using this
  rw [hcongr]
  rcases row0 with _ | ⟨h, rest⟩
  · simp [advance_row]
  · simp only [advance_row]
    split
    · rename_i hne
      have hnot : ¬ in_all_rows ((h :: rest) :: rows) h.text := by
        intro ha
        rcases hge _ ha with e2 | e2
        · have := (position_eq_int h.text g).mp e2
          omega
        · exact hle _ (by simp) h rest rfl e2
      simp only [List.filter_cons, hnot, decide_False, Bool.false_eq_true, if_false]
    · rfl

theorem remaining_total_advance_all (st : List And_Row)
    (hlive : ∃ r ∈ st, r.2 ≠ []) :
    remaining_total (and_advance_all st) < remaining_total st := by
  unfold remaining_total and_advance_all
  rw [List.map_map]
  apply List.sum_lt_sum
  · intro r _
    simp only [Function.comp]
    rcases h : r.2 with _ | ⟨x, xs⟩ <;> simp [h]
  · obtain ⟨r, hr, hne⟩ := hlive
    refine ⟨r, hr, ?_⟩
    simp only [Function.comp]
    rcases h : r.2 with _ | ⟨x, xs⟩
    · exact absurd h hne
    · simp

theorem remaining_total_advance_lesser (gp go : Int) (st : List And_Row)
    (hlive : ∃ r ∈ st, ∃ h rest, r.2 = h :: rest
      ∧ (field_int h.text.page ≠ gp ∨ field_int h.text.offset ≠ go)) :
    remaining_total (and_advance_lesser gp go st) < remaining_total st := by
  unfold remaining_total and_advance_lesser
  rw [List.map_map]
  apply List.sum_lt_sum
  · intro r _
    simp only [Function.comp]
    rcases h : r.2 with _ | ⟨x, xs⟩
    · simp [h]
    · simp only
      split <;> simp [h]
  · obtain ⟨r, hr, x, xs, e, hne⟩ := hlive
    refine ⟨r, hr, ?_⟩
    simp only [Function.comp, e, hne, if_true, List.length_cons]
    omega

theorem increment_count_zero (gp go : Int) (st : List And_Row)
    (h : and_increment_count gp go st = 0) :
    ∀ r ∈ st, ∀ x xs, r.2 = x :: xs →
      field_int x.text.page = gp ∧ field_int x.text.offset = go := by
  unfold and_increment_count at h
  rw [List.length_eq_zero, List.filter_eq_nil_iff] at h
  intro r hr x xs e
  have := h r hr
  simp only [e, decide_eq_true_eq, not_or, not_not] at this
  exact this

theorem increment_count_pos (gp go : Int) (st : List And_Row)
    (h : and_increment_count gp go st ≠ 0) :
    ∃ r ∈ st, ∃ x xs, r.2 = x :: xs
      ∧ (field_int x.text.page ≠ gp ∨ field_int x.text.offset ≠ go) := by
  unfold and_increment_count at h
  rw [Ne, List.length_eq_zero, List.filter_eq_nil_iff] at h
  push_neg at h
  obtain ⟨r, hr, hp⟩ := h
  refine ⟨r, hr, ?_⟩
  rcases e : r.2 with _ | ⟨x, xs⟩
  · simp [e] at hp
  · simp only [e, decide_eq_true_eq] at hp
    exact ⟨x, xs, rfl, hp⟩

theorem advance_row_ascending (gp go : Int) (row : List EB_Hit) (h : int_ascending row) :
    int_ascending (advance_row gp go row) := by
  rcases row with _ | ⟨x, xs⟩
  · exact h
  · simp only [advance_row]
    split
    · exact (List.pairwise_cons.mp h).2
    · exact h

theorem and_loop_intersection (max_and_count : Int) (fuel : Nat) :
    ∀ (st : List And_Row) (acc : List EB_Hit),
      st ≠ [] → (∀ row ∈ st.map Prod.snd, int_ascending row) →
      remaining_total st < fuel →
      (acc.length : Int) + ((common_hits (st.map Prod.snd)).length : Int) ≤ max_and_count →
      ∃ st1, and_loop max_and_count fuel st acc
        = some (acc ++ common_hits (st.map Prod.snd), st1) := by
  induction fuel with
  | zero => intro st acc _ _ h; omega
  | succ fuel ih =>
    intro st acc hne hasc hfuel hmax
    rw [and_loop]
    by_cases hfull : (acc.length : Int) < max_and_count
    · simp only [hfull, not_true_eq_false, if_false]
      obtain ⟨i1, i2, i3, i4⟩ := scan_inv_result st
      generalize and_scan 0 st
        { greatest_list := -1, greatest_page := 0, greatest_offset := 0, equal_count := 0 } = s
        at i1 i2 i3 i4
      by_cases heq : s.equal_count = st.length
      · -- all current elements coincide
        simp only [heq, if_true]
        have hall := i4.mp heq
        rcases st with _ | ⟨p0, ps⟩
        · exact absurd rfl hne
        · obtain ⟨g0, -, -, pg0, og0⟩ := hall p0 (by simp)
          have hallR : ∀ row ∈ p0.2 :: ps.map Prod.snd, ∃ h rest, row = h :: rest
              ∧ h.text = g0.text := by
            intro row hrow
            have hrow' : row ∈ (p0 :: ps).map Prod.snd := by simpa using hrow
            obtain ⟨r, hr, rfl⟩ := List.mem_map.mp hrow'
            obtain ⟨h, rest, e, p, o⟩ := hall r hr
            exact ⟨h, rest, e, (position_eq_int _ _).mpr ⟨p.trans pg0.symm, o.trans og0.symm⟩⟩
          obtain ⟨h0, rest0, e0, hc⟩ := common_hits_emit p0.2 (ps.map Prod.snd) _
            (by simpa using hasc) hallR
          have hfirst : and_first_element (p0 :: ps) = h0 := by
            obtain ⟨a, b⟩ := p0
            simp only at e0
            subst e0
            rfl
          have hrows : (and_advance_all (p0 :: ps)).map Prod.snd
              = (p0.2 :: ps.map Prod.snd).map List.tail := by
            rw [advance_all_rows]; rfl
          have hstep := ih (and_advance_all (p0 :: ps)) (acc ++ [and_first_element (p0 :: ps)])
            (by simp [and_advance_all])
            (by
              rw [hrows]
              intro row hrow
              obtain ⟨r, hr, rfl⟩ := List.mem_map.mp hrow
              exact List.Pairwise.tail (hasc r (by simpa using hr)))
            (by
              have := remaining_total_advance_all (p0 :: ps)
                ⟨p0, by simp, by rw [e0]; simp⟩
              omega)
            (by
              rw [hrows]
              simp only [List.map_cons] at hmax
              rw [hc] at hmax
              simp only [List.length_append, List.length_singleton, List.length_cons,
                List.length_nil, Nat.cast_add, Nat.cast_one, Nat.cast_zero] at hmax ⊢
              omega)
          obtain ⟨st1, hst1⟩ := hstep
          refine ⟨st1, ?_⟩
          rw [hst1, hrows, hfirst]
          simp only [List.map_cons]
          rw [hc]
          simp
      · simp only [heq, if_false]
        by_cases hinc : and_increment_count s.greatest_page s.greatest_offset st = 0
        · -- no index moved: some row is exhausted
          simp only [hinc, if_true]
          have hz := increment_count_zero _ _ _ hinc
          have hex : ∃ r ∈ st, r.2 = [] := by
            by_contra hno
            push_neg at hno
            apply heq
            rw [i4]
            intro r hr
            rcases e : r.2 with _ | ⟨x, xs⟩
            · exact absurd e (hno r hr)
            · exact ⟨x, xs, rfl, hz r hr x xs e⟩
          obtain ⟨r, hr, e⟩ := hex
          have : common_hits (st.map Prod.snd) = [] :=
            common_hits_exhausted _ (List.mem_map.mpr ⟨r, hr, e⟩)
          exact ⟨st, by rw [this]; simp⟩
        · -- the lesser rows advance
          simp only [hinc, if_false]
          obtain ⟨r, hr, x, xs, e, hne'⟩ := increment_count_pos _ _ _ hinc
          have hg : s.greatest_list ≠ -1 := by
            intro hg
            have := (i1 hg).1 r hr
            rw [e] at this; cases this
          obtain ⟨⟨rg, hrg, hgh, hgrest, eg, pg, og⟩, hle⟩ := i2 hg
          rw [← pg, ← og] at hle hne' ⊢
          rcases st with _ | ⟨p0, ps⟩
          · exact absurd rfl hne
          · have hrows : (and_advance_lesser (field_int hgh.text.page)
                  (field_int hgh.text.offset) (p0 :: ps)).map Prod.snd
                = (p0.2 :: ps.map Prod.snd).map
                  (advance_row (field_int hgh.text.page) (field_int hgh.text.offset)) := by
              rw [advance_lesser_rows]; rfl
            have hc := common_hits_advance p0.2 (ps.map Prod.snd) hgh.text
              (by simpa using hasc)
              ⟨rg.2, by
                have : rg.2 ∈ (p0 :: ps).map Prod.snd := List.mem_map_of_mem _ hrg
                simpa using this,
                hgh, hgrest, eg, rfl⟩
              (by
                intro row hrow h rest erow
                have hrow' : row ∈ (p0 :: ps).map Prod.snd := by simpa using hrow
                obtain ⟨q, hq, rfl⟩ := List.mem_map.mp hrow'
                exact hle q hq h rest erow)
            have hstep := ih
              (and_advance_lesser (field_int hgh.text.page) (field_int hgh.text.offset)
                (p0 :: ps)) acc
              (by simp [and_advance_lesser])
              (by
                rw [hrows]
                intro row hrow
                obtain ⟨q, hq, rfl⟩ := List.mem_map.mp hrow
                exact advance_row_ascending _ _ _ (hasc q (by simpa using hq)))
              (by
                have := remaining_total_advance_lesser (field_int hgh.text.page)
                  (field_int hgh.text.offset) (p0 :: ps) ⟨r, hr, x, xs, e, hne'⟩
                omega)
              (by
                rw [hrows, hc]
                simpa using hmax)
            obtain ⟨st1, hst1⟩ := hstep
            refine ⟨st1, ?_⟩
            rw [hst1, hrows, hc]
            simp
    · -- the output is full
      simp only [hfull, not_false_eq_true, if_true]
      have : common_hits (st.map Prod.snd) = [] := by
        apply List.length_eq_zero.mp
        omega
      exact ⟨st, by rw [this]; simp⟩

/-- Claim C3 as stated fails for fields from `2^31` on: the rows
`[(1,0), (2^31,0)]` and `[(2^31,0)]` are strictly ascending by
`(text.page, text.offset)` and share the address `(2^31,0)`, and
`max_and_count = 10` exceeds the number of common addresses, yet
`eb_and_hit_lists` stores nothing: its `int` variable `current_page` holds
`-2^31` for the page `2^31`, which it takes to be less than 1. -/
theorem and_merge_loses_high_pages :
    strictly_ascending [sample_hit 1 0, sample_hit 2147483648 0]
      ∧ strictly_ascending [sample_hit 2147483648 0]
      ∧ (∀ row ∈ [[sample_hit 1 0, sample_hit 2147483648 0], [sample_hit 2147483648 0]],
          ({ page := 2147483648, offset := 0 } : EB_Position) ∈ row.map EB_Hit.text)
      ∧ common_hits [[sample_hit 1 0, sample_hit 2147483648 0], [sample_hit 2147483648 0]]
        = [sample_hit 2147483648 0]
      ∧ eb_and_hit_lists 10
          [[sample_hit 1 0, sample_hit 2147483648 0], [sample_hit 2147483648 0]]
        = some ([], [0, 1]) := by
  refine ⟨by decide, by decide, by decide, by decide, by decide⟩

/-- Claim C3, amended (`eb_and_hit_lists` is a k-way intersection of rows
ascending in the order of its `int` comparisons): for `k >= 1` rows, each
strictly ascending by the `int` values of `(text.page, text.offset)`, and
`max_and_count` at least the number of common addresses, `eb_and_hit_lists`
returns, and the elements it stores are the hits of row 0 whose text address
occurs in every row; so their text addresses are exactly the addresses that
occur in all `k` rows, in strictly ascending order of the `int` values (hence
each once).  For addresses whose page and offset are below `2^31` that order
is the order by `(text.page, text.offset)`. -/
theorem and_merge_is_intersection (max_and_count : Int) (hit_lists : List (List EB_Hit))
    (hk : hit_lists ≠ []) (hasc : ∀ row ∈ hit_lists, int_ascending row)
    (hmax : ((common_hits hit_lists).length : Int) ≤ max_and_count) :
    (∃ and_list hit_counts,
      eb_and_hit_lists max_and_count hit_lists = some (and_list, hit_counts)
        ∧ and_list = common_hits hit_lists
        ∧ (∀ a, a ∈ and_list.map EB_Hit.text ↔ ∀ row ∈ hit_lists, a ∈ row.map EB_Hit.text)
        ∧ (and_list.map EB_Hit.text).Pairwise int_position_lt)
      ∧ ∀ a b : EB_Position, a.page < 2147483648 → a.offset < 2147483648 →
          b.page < 2147483648 → b.offset < 2147483648 →
          (int_position_lt a b ↔ position_lt a b) := by
  have hrows : (hit_lists.map fun row => ((0 : Nat), row)).map Prod.snd = hit_lists := by
    simp [List.map_map, Function.comp]
  obtain ⟨st1, h1⟩ := and_loop_intersection max_and_count
    ((hit_lists.map List.length).sum + max_and_count.toNat + 1)
    (hit_lists.map fun row => ((0 : Nat), row)) []
    (by simpa using hk)
    (by rw [hrows]; exact hasc)
    (by
      have : remaining_total (hit_lists.map fun row => ((0 : Nat), row))
          = (hit_lists.map List.length).sum := by
        simp only [remaining_total, List.map_map]
        rfl
      omega)
    (by rw [hrows]; simpa using hmax)
  rw [hrows] at h1
  refine ⟨⟨common_hits hit_lists, st1.map Prod.fst, ?_, rfl, ?_, ?_⟩, ?_⟩
  · simp only [eb_and_hit_lists, h1, List.nil_append, Option.map_some']
  · rcases hit_lists with _ | ⟨row0, rows⟩
    · exact absurd rfl hk
    · intro a
      rw [common_hits_cons]
      simp only [List.mem_map, List.mem_filter, decide_eq_true_eq]
      constructor
      · rintro ⟨x, ⟨-, hx⟩, rfl⟩
        intro row hrow
        have := hx row hrow
        simpa using this
      · intro h
        obtain ⟨x, hx, rfl⟩ := h row0 (by simp)
        refine ⟨x, ⟨hx, ?_⟩, rfl⟩
        intro row hrow
        have := h row hrow
        simpa using this
  · rcases hit_lists with _ | ⟨row0, rows⟩
    · exact absurd rfl hk
    · rw [common_hits_cons, List.pairwise_map]
      exact List.Pairwise.sublist (List.filter_sublist _) (hasc row0 (by simp))
  · intro a b hap hao hbp hbo
    simp only [int_position_lt, position_lt, field_int_small _ hap, field_int_small _ hao,
      field_int_small _ hbp, field_int_small _ hbo]
    omega

/-- Witness of C3 amended: the keyword example of the specification, term A
with `[(1,0),(3,0),(5,0)]` and term B with `[(2,0),(3,0),(5,0),(7,0)]`. -/
theorem and_merge_is_intersection_witness :
    (eb_and_hit_lists 10 [sample_row_a, sample_row_b]).map
        (fun r => r.1.map EB_Hit.text)
      = some [{ page := 3, offset := 0 }, { page := 5, offset := 0 }] := by
  obtain ⟨⟨and_list, hit_counts, h1, h2, -⟩, -⟩ :=
    and_merge_is_intersection 10 [sample_row_a, sample_row_b] (by decide) (by decide)
      (by decide)
  rw [h1, h2]
  simp only [Option.map_some']
  decide


/-! ## Alternation text -/

theorem set_nul_twice (p : Page) (i : Nat) : set_nul (set_nul p i) i = set_nul p i := by
  unfold set_nul
  exact Function.update_idem _ _ _

theorem narrow_character_text_valid (lo hi stride : Int) (sub : EB_Appendix_Subbook)
    (data : EB_Appendix_Data) (c : Int) (text : Page) (location : Int)
    (h1 : sub.narrow_start ≤ c) (h2 : c ≤ sub.narrow_end)
    (h3 : lo ≤ c % 256) (h4 : c % 256 ≤ hi)
    (hloc : (sub.narrow_page - 1) * EB_SIZE_PAGE
        + (((c >>> 8) - (sub.narrow_start >>> 8)) * stride
            + low_byte c - low_byte sub.narrow_start)
          * (EB_MAX_ALTERNATION_TEXT_LENGTH + 1 : Nat) = location) :
    narrow_character_text lo hi stride sub data c text
      = if (data.narrow_cache (EB_HASH_ALT_CACHE c)).character_number = c then
          (EB_SUCCESS, data, copy_text (data.narrow_cache (EB_HASH_ALT_CACHE c)).text text)
        else
          match data.appendix_file location with
          | Appendix_Read.seek_failed =>
            (EB_ERR_FAIL_SEEK_APP,
              { data with zio_calls := Appendix_Call.zlseek location :: data.zio_calls },
              set_nul text 0)
          | Appendix_Read.short_read clobber =>
            (EB_ERR_FAIL_READ_APP,
              { data with
                narrow_cache := Function.update data.narrow_cache (EB_HASH_ALT_CACHE c)
                  { character_number := -1
                    text := clobber (data.narrow_cache (EB_HASH_ALT_CACHE c)).text }
                zio_calls :=
                  Appendix_Call.zread 32 :: Appendix_Call.zlseek location :: data.zio_calls },
              set_nul text 0)
          | Appendix_Read.full_read bytes =>
            (EB_SUCCESS,
              { data with
                narrow_cache := Function.update data.narrow_cache (EB_HASH_ALT_CACHE c)
                  { character_number := c, text := set_nul bytes 31 }
                zio_calls :=
                  Appendix_Call.zread 32 :: Appendix_Call.zlseek location :: data.zio_calls },
              copy_text bytes text) := by
  have hv : ¬ (c < sub.narrow_start ∨ sub.narrow_end < c ∨ low_byte c < lo ∨ hi < low_byte c) := by
    rw [low_byte_eq_mod]
    simp only [not_or, not_lt]
    exact ⟨h1, h2, h3, h4⟩
  unfold narrow_character_text
  rw [if_neg hv]
  simp only [hloc]
  rfl

theorem alternation_text_valid (appendix : EB_Appendix) (sub : EB_Appendix_Subbook)
    (data : EB_Appendix_Data) (c : Int) (text : Page)
    (hsub : appendix.subbook_current = some sub) (hpage : sub.narrow_page ≠ 0)
    (hstart : sub.narrow_start ≤ c) (hend : c ≤ sub.narrow_end)
    (hlegal : legal_low_byte sub.character_code c) :
    eb_narrow_alt_character_text appendix data c text
      = if (data.narrow_cache (EB_HASH_ALT_CACHE c)).character_number = c then
          (EB_SUCCESS, data, copy_text (data.narrow_cache (EB_HASH_ALT_CACHE c)).text text)
        else
          match data.appendix_file
              (spec_slot_location sub.character_code sub.narrow_page sub.narrow_start c) with
          | Appendix_Read.seek_failed =>
            (EB_ERR_FAIL_SEEK_APP,
              { data with
                zio_calls :=
                  Appendix_Call.zlseek
                    (spec_slot_location sub.character_code sub.narrow_page sub.narrow_start c)
                    :: data.zio_calls },
              set_nul text 0)
          | Appendix_Read.short_read clobber =>
            (EB_ERR_FAIL_READ_APP,
              { data with
                narrow_cache := Function.update data.narrow_cache (EB_HASH_ALT_CACHE c)
                  { character_number := -1
                    text := clobber (data.narrow_cache (EB_HASH_ALT_CACHE c)).text }
                zio_calls :=
                  Appendix_Call.zread 32
                    :: Appendix_Call.zlseek
                      (spec_slot_location sub.character_code sub.narrow_page sub.narrow_start c)
                    :: data.zio_calls },
              set_nul text 0)
          | Appendix_Read.full_read bytes =>
            (EB_SUCCESS,
              { data with
                narrow_cache := Function.update data.narrow_cache (EB_HASH_ALT_CACHE c)
                  { character_number := c, text := set_nul bytes 31 }
                zio_calls :=
                  Appendix_Call.zread 32
                    :: Appendix_Call.zlseek
                      (spec_slot_location sub.character_code sub.narrow_page sub.narrow_start c)
                    :: data.zio_calls },
              copy_text bytes text) := by
  unfold eb_narrow_alt_character_text
  simp only [hsub, hpage, if_false]
  cases hcode : sub.character_code with
  | EB_CHARCODE_ISO8859_1 =>
    rw [hcode] at hlegal
    simp only [if_true, eb_narrow_character_text_latin]
    rw [narrow_character_text_valid 0x01 0xfe 0xfe sub data c text
      (spec_slot_location EB_CHARCODE_ISO8859_1 sub.narrow_page sub.narrow_start c)
      hstart hend hlegal.1 hlegal.2
      (by simp [spec_slot_location, spec_stride, EB_SIZE_PAGE, EB_MAX_ALTERNATION_TEXT_LENGTH])]
    by_cases hhit : (data.narrow_cache (EB_HASH_ALT_CACHE c)).character_number = c
    · simp [hhit]
    · simp only [hhit, if_false]
      cases hf : data.appendix_file (spec_slot_location EB_CHARCODE_ISO8859_1 sub.narrow_page
          sub.narrow_start c) <;> simp [set_nul_twice]
  | EB_CHARCODE_JISX0208 =>
    rw [hcode] at hlegal
    simp only [reduceCtorEq, if_false, eb_narrow_character_text_jis]
    rw [narrow_character_text_valid 0x21 0x7e 0x5e sub data c text
      (spec_slot_location EB_CHARCODE_JISX0208 sub.narrow_page sub.narrow_start c)
      hstart hend hlegal.1 hlegal.2
      (by simp [spec_slot_location, spec_stride, EB_SIZE_PAGE, EB_MAX_ALTERNATION_TEXT_LENGTH])]
    by_cases hhit : (data.narrow_cache (EB_HASH_ALT_CACHE c)).character_number = c
    · simp [hhit]
    · simp only [hhit, if_false]
      cases hf : data.appendix_file (spec_slot_location EB_CHARCODE_JISX0208 sub.narrow_page
          sub.narrow_start c) <;> simp [set_nul_twice]

/-- Claim C14, evaluated on a cache miss whose appendix slot holds 32 bytes
`A`: `eb_narrow_alt_character_text` returns `EB_SUCCESS` and byte 31 of the
text handed to the caller is `A`, not 0, because the text is copied to the
caller before byte 31 of the cache entry is cleared (lines 326-327); the
cache entry itself is terminated, and the following call for the same
character, a cache hit, returns a text whose byte 31 is 0. -/
theorem alternation_text_not_terminated :
    (eb_narrow_alt_character_text sample_jis_appendix sample_appendix_data 0x2121
        (fun _ => 0)).1 = EB_SUCCESS
      ∧ (eb_narrow_alt_character_text sample_jis_appendix sample_appendix_data 0x2121
        (fun _ => 0)).2.2 31 = 65
      ∧ ((eb_narrow_alt_character_text sample_jis_appendix sample_appendix_data 0x2121
        (fun _ => 0)).2.1.narrow_cache (EB_HASH_ALT_CACHE 0x2121)).text 31 = 0
      ∧ (eb_narrow_alt_character_text sample_jis_appendix
          (eb_narrow_alt_character_text sample_jis_appendix sample_appendix_data 0x2121
            (fun _ => 0)).2.1 0x2121 (fun _ => 0)).1 = EB_SUCCESS
      ∧ (eb_narrow_alt_character_text sample_jis_appendix
          (eb_narrow_alt_character_text sample_jis_appendix sample_appendix_data 0x2121
            (fun _ => 0)).2.1 0x2121 (fun _ => 0)).2.2 31 = 0 := by
  decide

/-- Claim C16 (alternation cache hit): for a character number `c` valid for
the current subbook, if slot `c & 0x0F` of the cache holds `c`,
`eb_narrow_alt_character_text` returns `EB_SUCCESS`, the first 32 bytes of
the caller's text are the 32 bytes of that slot, and the appendix data (all
cache slots and the record of seeks and reads) is unchanged; on a successful
miss every slot other than `c & 0x0F` is unchanged and slot `c & 0x0F` holds
`c`. -/
theorem alternation_cache_hit (appendix : EB_Appendix) (sub : EB_Appendix_Subbook)
    (data : EB_Appendix_Data) (c : Int) (text : Page)
    (hsub : appendix.subbook_current = some sub) (hpage : sub.narrow_page ≠ 0)
    (hstart : sub.narrow_start ≤ c) (hend : c ≤ sub.narrow_end)
    (hlegal : legal_low_byte sub.character_code c) :
    ((data.narrow_cache (EB_HASH_ALT_CACHE c)).character_number = c →
        (eb_narrow_alt_character_text appendix data c text).1 = EB_SUCCESS
          ∧ (∀ i, i < 32 →
              (eb_narrow_alt_character_text appendix data c text).2.2 i
                = (data.narrow_cache (EB_HASH_ALT_CACHE c)).text i)
          ∧ (eb_narrow_alt_character_text appendix data c text).2.1 = data)
      ∧ ((data.narrow_cache (EB_HASH_ALT_CACHE c)).character_number ≠ c →
        (eb_narrow_alt_character_text appendix data c text).1 = EB_SUCCESS →
        (∀ i, i ≠ EB_HASH_ALT_CACHE c →
            (eb_narrow_alt_character_text appendix data c text).2.1.narrow_cache i
              = data.narrow_cache i)
          ∧ ((eb_narrow_alt_character_text appendix data c text).2.1.narrow_cache
              (EB_HASH_ALT_CACHE c)).character_number = c) := by
  rw [alternation_text_valid appendix sub data c text hsub hpage hstart hend hlegal]
  constructor
  · intro hhit
    rw [if_pos hhit]
    refine ⟨rfl, ?_, rfl⟩
    intro i hi
    simp [copy_text, EB_MAX_ALTERNATION_TEXT_LENGTH, hi]
  · intro hmiss
    rw [if_neg hmiss]
    cases hf : data.appendix_file (spec_slot_location sub.character_code sub.narrow_page
        sub.narrow_start c) with
    | seek_failed => intro h; simp at h
    | short_read clobber => intro h; simp at h
    | full_read bytes =>
      intro _
      refine ⟨?_, ?_⟩
      · intro i hi
        simp [Function.update_noteq hi]
      · simp

/-- Witness of C16: after a first lookup of `0x2121` stored it in slot 1, the
second lookup is a hit and leaves the appendix data as it is. -/
theorem alternation_cache_hit_witness :
    (eb_narrow_alt_character_text sample_jis_appendix
        (eb_narrow_alt_character_text sample_jis_appendix sample_appendix_data 0x2121
          (fun _ => 0)).2.1 0x2121 (fun _ => 7)).2.1
      = (eb_narrow_alt_character_text sample_jis_appendix sample_appendix_data 0x2121
          (fun _ => 0)).2.1 :=
  ((alternation_cache_hit sample_jis_appendix
      { character_code := EB_CHARCODE_JISX0208, narrow_page := 1, narrow_start := 0x2121,
        narrow_end := 0x237e }
      (eb_narrow_alt_character_text sample_jis_appendix sample_appendix_data 0x2121
        (fun _ => 0)).2.1 0x2121 (fun _ => 7) rfl (by decide) (by decide) (by decide)
      (by decide)).1 (by decide)).2.2

/-- Claim C17 (alternation read failure): for a valid character number `c`
that misses the cache, when the read does not deliver 32 bytes
`eb_narrow_alt_character_text` returns `EB_ERR_FAIL_READ_APP`, slot
`c & 0x0F` has `character_number = -1` and every other slot is unchanged;
when the seek fails it returns `EB_ERR_FAIL_SEEK_APP` and the cache is
unchanged. -/
theorem alternation_read_failure (appendix : EB_Appendix) (sub : EB_Appendix_Subbook)
    (data : EB_Appendix_Data) (c : Int) (text : Page)
    (hsub : appendix.subbook_current = some sub) (hpage : sub.narrow_page ≠ 0)
    (hstart : sub.narrow_start ≤ c) (hend : c ≤ sub.narrow_end)
    (hlegal : legal_low_byte sub.character_code c)
    (hmiss : (data.narrow_cache (EB_HASH_ALT_CACHE c)).character_number ≠ c) :
    (∀ clobber,
        data.appendix_file (spec_slot_location sub.character_code sub.narrow_page
          sub.narrow_start c) = Appendix_Read.short_read clobber →
        (eb_narrow_alt_character_text appendix data c text).1 = EB_ERR_FAIL_READ_APP
          ∧ ((eb_narrow_alt_character_text appendix data c text).2.1.narrow_cache
              (EB_HASH_ALT_CACHE c)).character_number = -1
          ∧ ∀ i, i ≠ EB_HASH_ALT_CACHE c →
              (eb_narrow_alt_character_text appendix data c text).2.1.narrow_cache i
                = data.narrow_cache i)
      ∧ (data.appendix_file (spec_slot_location sub.character_code sub.narrow_page
          sub.narrow_start c) = Appendix_Read.seek_failed →
        (eb_narrow_alt_character_text appendix data c text).1 = EB_ERR_FAIL_SEEK_APP
          ∧ (eb_narrow_alt_character_text appendix data c text).2.1.narrow_cache
              = data.narrow_cache) := by
  rw [alternation_text_valid appendix sub data c text hsub hpage hstart hend hlegal,
    if_neg hmiss]
  constructor
  · intro clobber hf
    rw [hf]
    refine ⟨rfl, by simp, ?_⟩
    intro i hi
    simp [Function.update_noteq hi]
  · intro hf
    rw [hf]
    exact ⟨rfl, rfl⟩

/-- Witness of C17: a short read and a failed seek on the sample subbook. -/
theorem alternation_read_failure_witness :
    (eb_narrow_alt_character_text sample_jis_appendix unreadable_appendix_data 0x2121
        (fun _ => 7)).1 = EB_ERR_FAIL_READ_APP
      ∧ (eb_narrow_alt_character_text sample_jis_appendix unseekable_appendix_data 0x2121
        (fun _ => 7)).1 = EB_ERR_FAIL_SEEK_APP :=
  ⟨((alternation_read_failure sample_jis_appendix
      { character_code := EB_CHARCODE_JISX0208, narrow_page := 1, narrow_start := 0x2121,
        narrow_end := 0x237e }
      unreadable_appendix_data 0x2121 (fun _ => 7) rfl (by decide) (by decide) (by decide)
      (by decide) (by decide)).1 (fun p => p) rfl).1,
   ((alternation_read_failure sample_jis_appendix
      { character_code := EB_CHARCODE_JISX0208, narrow_page := 1, narrow_start := 0x2121,
        narrow_end := 0x237e }
      unseekable_appendix_data 0x2121 (fun _ => 7) rfl (by decide) (by decide) (by decide)
      (by decide) (by decide)).2 rfl).1⟩

/-! ## Search status and out-parameters -/

/-- Claim C18 as stated fails: with an empty page cache,
`eb_initialize_search` leaves the primary search context of the sample book
with its code `EB_SEARCH_EXACTWORD`. -/
theorem initialize_search_keeps_query :
    ((eb_initialize_search sample_book empty_cache).1.search_contexts 0).code
      ≠ EB_SEARCH_NONE := by
  decide

/-- Claim C18, amended: after `eb_initialize_search(book)` the cache does not
hold a page of that book; if the cache held a page of that book before the
call (`cache_book_code == book->code`) the code of `search_contexts[0]` is
`EB_SEARCH_NONE` afterwards, and otherwise the call changes neither the book
nor the cache variables. -/
theorem initialize_search_resets (book : EB_Book) (cache : Cache) :
    ((eb_initialize_search book cache).2.cache_book_code = EB_BOOK_NONE
        ∨ (eb_initialize_search book cache).2.cache_book_code ≠ book.code)
      ∧ (cache.cache_book_code = book.code →
          ((eb_initialize_search book cache).1.search_contexts 0).code = EB_SEARCH_NONE)
      ∧ (cache.cache_book_code ≠ book.code →
          eb_initialize_search book cache = (book, cache)) := by
  unfold eb_initialize_search
  by_cases h : book.code = cache.cache_book_code
  · simp [h]
  · have h2 : ¬ cache.cache_book_code = book.code := fun e => h e.symm
    simp [h, h2]

/-- Witness of C18 amended: after `eb_presearch_word` left the leaf of the
sample book in the cache, `eb_initialize_search` resets the query. -/
theorem initialize_search_resets_witness :
    ((eb_initialize_search sample_book
        (eb_presearch_word sample_book empty_cache sample_context).2.1).1.search_contexts
        0).code = EB_SEARCH_NONE :=
  (initialize_search_resets sample_book
    (eb_presearch_word sample_book empty_cache sample_context).2.1).2.1 (by decide)

/-- Claim C19 as stated fails at `max_hit_count = 0`: on a book with no
current subbook, and on a book with a current subbook and no submitted query,
`eb_hit_list` returns `EB_SUCCESS` and leaves the hit count (here 7) as it
was. -/
theorem hit_list_zero_max_succeeds :
    (eb_hit_list trivial_text sample_env 1 closed_book () empty_cache 0 7).map
        (fun r => (r.error_code, r.hit_count)) = some (EB_SUCCESS, 7)
      ∧ (eb_hit_list trivial_text sample_env 1 idle_book () empty_cache 0 7).map
        (fun r => (r.error_code, r.hit_count)) = some (EB_SUCCESS, 7) := by
  decide

/-- Claim C19, amended: for every `max_hit_count` other than 0, `eb_hit_list`
on a book that has a current subbook but whose primary search context has
code `EB_SEARCH_NONE` returns `EB_ERR_NO_PREV_SEARCH` with hit count 0, and on
a book with no current subbook it returns `EB_ERR_NO_CUR_SUB` with hit count
0; book and cache are unchanged in both cases. -/
theorem no_previous_search {TC : Type} (text : Text_Functions TC) (env : Hit_List_Env)
    (fuel : Nat) (book : EB_Book) (text_context : TC) (cache : Cache)
    (max_hit_count hit_count : Int) (hmax : max_hit_count ≠ 0) :
    (book.subbook_current.isSome = true →
        (book.search_contexts 0).code = EB_SEARCH_NONE →
        eb_hit_list text env fuel book text_context cache max_hit_count hit_count
          = some { error_code := EB_ERR_NO_PREV_SEARCH, book := book, cache := cache,
                   hit_list := [], hit_count := 0 })
      ∧ (book.subbook_current = none →
        eb_hit_list text env fuel book text_context cache max_hit_count hit_count
          = some { error_code := EB_ERR_NO_CUR_SUB, book := book, cache := cache,
                   hit_list := [], hit_count := 0 }) := by
  unfold eb_hit_list
  constructor
  · intro hsub hcode
    have hsub1 : book.subbook_current.isNone = false := by
      cases hs : book.subbook_current <;> simp [hs] at hsub ⊢
    simp only [hmax, if_false, hsub1, Bool.false_eq_true, hcode]
  · intro hsub
    simp [hmax, hsub]

/-- Witness of C19 amended: `max_hit_count = 5` on the idle and on the closed
sample book. -/
theorem no_previous_search_witness :
    (eb_hit_list trivial_text sample_env 1 idle_book () empty_cache 5 7).map
        (fun r => (r.error_code, r.hit_count)) = some (EB_ERR_NO_PREV_SEARCH, 0)
      ∧ (eb_hit_list trivial_text sample_env 1 closed_book () empty_cache 5 7).map
        (fun r => (r.error_code, r.hit_count)) = some (EB_ERR_NO_CUR_SUB, 0) :=
  ⟨by rw [(no_previous_search trivial_text sample_env 1 idle_book () empty_cache 5 7
        (by decide)).1 rfl rfl]; rfl,
   by rw [(no_previous_search trivial_text sample_env 1 closed_book () empty_cache 5 7
        (by decide)).2 rfl]; rfl⟩

/-! ## Hit counts -/

theorem fixed_loop_hit_count (check : Nat) (buf : Page) (max_hit_count : Int) (r : Nat) :
    ∀ (context : EB_Search_Context) (hits : List EB_Hit),
      (hits.length : Int) < max_hit_count →
      ((fixed_loop check buf max_hit_count r context hits).2.2.length : Int) ≤ max_hit_count
        ∧ ((fixed_loop check buf max_hit_count r context hits).1 = Walk_Exit.page_done →
            ((fixed_loop check buf max_hit_count r context hits).2.2.length : Int)
              < max_hit_count) := by
  induction r with
  | zero => intro context hits h; exact ⟨le_of_lt h, fun _ => h⟩
  | succ r ih =>
    intro context hits h
    rw [fixed_loop]
    split
    · exact ⟨le_of_lt h, fun e => by simp at e⟩
    · dsimp only
      split <;> split
      all_goals first
        | (refine ⟨?_, fun e => by simp at e⟩
           simp only [List.length_append, List.length_singleton, Nat.cast_add, Nat.cast_one]
           omega)
        | (rename_i hgo
           simp only [not_or, not_le] at hgo
           exact ih _ _ hgo.2)

theorem variable_loop_hit_count (buf : Page) (max_hit_count : Int) (r : Nat) :
    ∀ (context : EB_Search_Context) (hits : List EB_Hit),
      (hits.length : Int) < max_hit_count →
      ((variable_loop buf max_hit_count r context hits).2.2.length : Int) ≤ max_hit_count
        ∧ ((variable_loop buf max_hit_count r context hits).1 = Walk_Exit.page_done →
            ((variable_loop buf max_hit_count r context hits).2.2.length : Int)
              < max_hit_count) := by
  induction r with
  | zero => intro context hits h; exact ⟨le_of_lt h, fun _ => h⟩
  | succ r ih =>
    intro context hits h
    rw [variable_loop]
    split
    · exact ⟨le_of_lt h, fun e => by simp at e⟩
    · dsimp only
      split
      · exact ⟨le_of_lt h, fun e => by simp at e⟩
      · split <;> split
        all_goals first
          | (refine ⟨?_, fun e => by simp at e⟩
             simp only [List.length_append, List.length_singleton, Nat.cast_add, Nat.cast_one]
             omega)
          | (rename_i hgo
             simp only [not_or, not_le] at hgo
             exact ih _ _ hgo.2)

theorem single_entry_hit_count (cache_p : Page) (context : EB_Search_Context)
    (hits : List EB_Hit) (r : EB_Search_Context × List EB_Hit)
    (h : single_entry cache_p context hits = some r) :
    r.2.length ≤ hits.length + 1 := by
  unfold single_entry at h
  split at h
  · cases h
  · simp only [Option.some.injEq] at h
    subst h
    dsimp only
    split <;> simp

theorem word_group_entry_hit_count (buf : Page) (context : EB_Search_Context)
    (hits : List EB_Hit) (r : EB_Search_Context × List EB_Hit)
    (h : word_group_entry buf context hits = Except.ok r) :
    r.2.length ≤ hits.length + 1 := by
  unfold word_group_entry at h
  split at h
  · cases h
  · dsimp only at h
    split at h
    · split at h
      · cases h
      · rename_i r1 hr1
        simp only [Except.ok.injEq] at h
        subst h
        exact single_entry_hit_count _ _ _ _ hr1
    · split at h
      · split at h
        · cases h
        · simp only [Except.ok.injEq] at h
          subst h
          simp
      · split at h
        · split at h
          · cases h
          · simp only [Except.ok.injEq] at h
            subst h
            dsimp only
            split <;> simp
        · cases h

theorem word_group_loop_hit_count (buf : Page) (max_hit_count : Int) (r : Nat) :
    ∀ (context : EB_Search_Context) (hits : List EB_Hit),
      (hits.length : Int) < max_hit_count →
      ((word_group_loop buf max_hit_count r context hits).2.2.length : Int) ≤ max_hit_count
        ∧ ((word_group_loop buf max_hit_count r context hits).1 = Walk_Exit.page_done →
            ((word_group_loop buf max_hit_count r context hits).2.2.length : Int)
              < max_hit_count) := by
  induction r with
  | zero => intro context hits h; exact ⟨le_of_lt h, fun _ => h⟩
  | succ r ih =>
    intro context hits h
    rw [word_group_loop]
    split
    · exact ⟨le_of_lt h, fun e => by simp at e⟩
    · rename_i context1 hits1 he
      have hlen := word_group_entry_hit_count _ _ _ _ he
      dsimp only at hlen ⊢
      split
      · refine ⟨?_, fun e => by simp at e⟩
        dsimp only
        omega
      · rename_i hgo
        simp only [not_or, not_le] at hgo
        exact ih _ _ hgo.2

theorem word_page_loop_hit_count (book : EB_Book) (max_hit_count : Int) (fuel : Nat) :
    ∀ (cache : Cache) (context : EB_Search_Context) (hits : List EB_Hit)
      (res : Hit_List_Result),
      (hits.length : Int) < max_hit_count →
      word_page_loop book max_hit_count fuel cache context hits = some res →
      (res.hit_list.length : Int) ≤ max_hit_count
        ∧ 0 ≤ res.hit_count ∧ res.hit_count ≤ max_hit_count := by
  induction fuel with
  | zero => intro cache context hits res _ h; simp [word_page_loop] at h
  | succ fuel ih =>
    intro cache context hits res hlt h
    have hpos : (0 : Int) ≤ max_hit_count := by omega
    rw [word_page_loop] at h
    dsimp only at h
    split at h
    · simp only [Option.some.injEq] at h
      subst h
      exact ⟨le_of_lt hlt, le_refl _, hpos⟩
    · split at h
      · simp only [Option.some.injEq] at h
        subst h
        exact ⟨le_of_lt hlt, le_refl _, hpos⟩
      · have key : ∀ w : Walk_Exit × EB_Search_Context × List EB_Hit,
            ((w.2.2.length : Int) ≤ max_hit_count
              ∧ (w.1 = Walk_Exit.page_done → (w.2.2.length : Int) < max_hit_count)) →
            (match w.1 with
              | Walk_Exit.failed error_code =>
                some (walk_failed error_code (load_leaf_page book cache context).2.1 w.2.1 w.2.2)
              | Walk_Exit.succeeded =>
                some (walk_succeeded (load_leaf_page book cache context).2.1 w.2.1 w.2.2)
              | Walk_Exit.page_done =>
                if PAGE_ID_IS_LAYER_END w.2.1.page_id then
                  some (walk_succeeded (load_leaf_page book cache context).2.1
                    { w.2.1 with comparison_result := -1 } w.2.2)
                else
                  word_page_loop book max_hit_count fuel (load_leaf_page book cache context).2.1
                    { w.2.1 with page := int32 (w.2.1.page + 1), entry_index := 0 } w.2.2) = some res →
            (res.hit_list.length : Int) ≤ max_hit_count
              ∧ 0 ≤ res.hit_count ∧ res.hit_count ≤ max_hit_count := by
          intro w hw hres
          obtain ⟨w1, w2, w3⟩ := w
          obtain ⟨hw1, hw2⟩ := hw
          dsimp only at hw1 hw2 hres
          cases w1 with
          | failed e =>
            simp only [Option.some.injEq] at hres
            subst hres
            exact ⟨hw1, le_refl _, hpos⟩
          | succeeded =>
            simp only [Option.some.injEq] at hres
            subst hres
            exact ⟨hw1, by simp [walk_succeeded], hw1⟩
          | page_done =>
            dsimp only at hres
            split at hres
            · simp only [Option.some.injEq] at hres
              subst hres
              exact ⟨hw1, by simp [walk_succeeded], hw1⟩
            · exact ih _ _ _ _ (hw2 rfl) hres
        refine key _ ?_ h
        split
        · exact fixed_loop_hit_count _ _ _ _ _ _ hlt
        · split
          · exact variable_loop_hit_count _ _ _ _ _ hlt
          · exact word_group_loop_hit_count _ _ _ _ _ hlt

theorem and_loop_length (max_and_count : Int) (fuel : Nat) :
    ∀ (rows : List And_Row) (and_list : List EB_Hit) (r : List EB_Hit × List And_Row),
      (and_list.length : Int) ≤ max_and_count →
      and_loop max_and_count fuel rows and_list = some r →
      (r.1.length : Int) ≤ max_and_count := by
  induction fuel with
  | zero => intro rows and_list r _ h; simp [and_loop] at h
  | succ fuel ih =>
    intro rows and_list r hle h
    rw [and_loop] at h
    split at h
    · simp only [Option.some.injEq] at h
      subst h
      exact hle
    · rename_i hlt
      simp only [not_not] at hlt
      dsimp only at h
      split at h
      · refine ih _ _ _ ?_ h
        simp only [List.length_append, List.length_singleton, Nat.cast_add, Nat.cast_one]
        omega
      · split at h
        · simp only [Option.some.injEq] at h
          subst h
          exact hle
        · exact ih _ _ _ hle h

theorem eb_and_hit_lists_length (max_and_count : Int) (hit_lists : List (List EB_Hit))
    (a : List EB_Hit × List Nat) (hpos : 0 ≤ max_and_count)
    (h : eb_and_hit_lists max_and_count hit_lists = some a) :
    (a.1.length : Int) ≤ max_and_count := by
  unfold eb_and_hit_lists at h
  simp only [Option.map_eq_some'] at h
  obtain ⟨r, hr, rfl⟩ := h
  exact and_loop_length _ _ _ _ _ (by simpa using hpos) hr

theorem keyword_rounds_hit_count {TC : Type} (text : Text_Functions TC) (env : Hit_List_Env)
    (fuel : Nat) (text_context : TC) (max_hit_count : Int) (rounds : Nat) :
    ∀ (book : EB_Book) (cache : Cache) (hits : List EB_Hit) (hit_count : Int)
      (res : Hit_List_Outcome),
      hit_count = (hits.length : Int) → hit_count < max_hit_count →
      keyword_rounds text env fuel text_context max_hit_count rounds book cache hits hit_count
        = some res →
      (res.hit_list.length : Int) ≤ max_hit_count
        ∧ 0 ≤ res.hit_count ∧ res.hit_count ≤ max_hit_count
        ∧ (res.error_code ≠ EB_SUCCESS → res.hit_count = 0) := by
  induction rounds with
  | zero => intro book cache hits hit_count res _ _ h; simp [keyword_rounds] at h
  | succ rounds ih =>
    intro book cache hits hit_count res heq hlt h
    rw [keyword_rounds] at h
    split at h
    · cases h
    · split at h
      · simp only [Option.some.injEq] at h
        subst h
        exact ⟨by dsimp only; omega, le_refl _, by dsimp only; omega, fun _ => rfl⟩
      · split at h
        · rename_i hg _
          simp only [ne_eq, not_not] at hg
          simp only [Option.some.injEq] at h
          subst h
          exact ⟨by dsimp only; omega, by dsimp only; omega, by dsimp only; omega,
            fun hne => absurd rfl hne⟩
        · split at h
          · cases h
          · rename_i a ha
            have hal := eb_and_hit_lists_length _ _ _ (by omega) ha
            split at h
            · cases h
            · split at h
              · simp only [Option.some.injEq] at h
                subst h
                refine ⟨?_, le_refl _, by dsimp only; omega, fun _ => rfl⟩
                simp only [List.length_append, Nat.cast_add]
                omega
              · rename_i hadv
                simp only [ne_eq, not_not] at hadv
                split at h
                · simp only [Option.some.injEq] at h
                  subst h
                  refine ⟨?_, by dsimp only; omega, by dsimp only; omega,
                    fun hne => absurd rfl hne⟩
                  simp only [List.length_append, Nat.cast_add]
                  omega
                · rename_i hmore
                  refine ih _ _ _ _ _ ?_ (by omega) h
                  simp only [List.length_append, Nat.cast_add]
                  omega

theorem multi_rounds_hit_count (env : Hit_List_Env) (fuel : Nat) (max_hit_count : Int)
    (rounds : Nat) :
    ∀ (book : EB_Book) (cache : Cache) (hits : List EB_Hit) (hit_count : Int)
      (res : Hit_List_Outcome),
      hit_count = (hits.length : Int) → hit_count < max_hit_count →
      multi_rounds env fuel max_hit_count rounds book cache hits hit_count = some res →
      (res.hit_list.length : Int) ≤ max_hit_count
        ∧ 0 ≤ res.hit_count ∧ res.hit_count ≤ max_hit_count
        ∧ (res.error_code ≠ EB_SUCCESS → res.hit_count = 0) := by
  induction rounds with
  | zero => intro book cache hits hit_count res _ _ h; simp [multi_rounds] at h
  | succ rounds ih =>
    intro book cache hits hit_count res heq hlt h
    rw [multi_rounds] at h
    split at h
    · cases h
    · split at h
      · simp only [Option.some.injEq] at h
        subst h
        exact ⟨by dsimp only; omega, le_refl _, by dsimp only; omega, fun _ => rfl⟩
      · split at h
        · rename_i hg _
          simp only [ne_eq, not_not] at hg
          simp only [Option.some.injEq] at h
          subst h
          exact ⟨by dsimp only; omega, by dsimp only; omega, by dsimp only; omega,
            fun hne => absurd rfl hne⟩
        · split at h
          · cases h
          · rename_i a ha
            have hal := eb_and_hit_lists_length _ _ _ (by omega) ha
            split at h
            · cases h
            · split at h
              · simp only [Option.some.injEq] at h
                subst h
                refine ⟨?_, le_refl _, by dsimp only; omega, fun _ => rfl⟩
                simp only [List.length_append, Nat.cast_add]
                omega
              · rename_i hadv
                simp only [ne_eq, not_not] at hadv
                split at h
                · simp only [Option.some.injEq] at h
                  subst h
                  refine ⟨?_, by dsimp only; omega, by dsimp only; omega,
                    fun hne => absurd rfl hne⟩
                  simp only [List.length_append, Nat.cast_add]
                  omega
                · rename_i hmore
                  refine ih _ _ _ _ _ ?_ (by omega) h
                  simp only [List.length_append, Nat.cast_add]
                  omega

theorem eb_hit_list_word_hit_count (fuel : Nat) (book : EB_Book) (cache : Cache)
    (context : EB_Search_Context) (max_hit_count : Int) (res : Hit_List_Result)
    (hmax : 1 ≤ max_hit_count)
    (h : eb_hit_list_word fuel book cache context max_hit_count = some res) :
    (res.hit_list.length : Int) ≤ max_hit_count
      ∧ 0 ≤ res.hit_count ∧ res.hit_count ≤ max_hit_count := by
  unfold eb_hit_list_word at h
  split at h
  · simp only [Option.some.injEq] at h
    subst h
    simp only [walk_succeeded, List.length_nil, Nat.cast_zero]
    omega
  · exact word_page_loop_hit_count _ _ _ _ _ _ _ (by simpa using hmax) h

/-- Claim C11 (hit-count limit): for every `max_hit_count >= 1`, every search
kind of the primary context and every page bound, a call of `eb_hit_list`
that returns `EB_SUCCESS` leaves a hit count with
`0 <= hit_count <= max_hit_count`, and the elements it stored into the
`hit_list` of the caller (at the indexes `0`, `1`, ...) are at most
`max_hit_count`, so none is written at an index `>= max_hit_count`. -/
theorem hit_count_limit {TC : Type} (text : Text_Functions TC) (env : Hit_List_Env)
    (fuel : Nat) (book : EB_Book) (text_context : TC) (cache : Cache)
    (max_hit_count hit_count : Int) (r : Hit_List_Outcome)
    (hmax : 1 ≤ max_hit_count)
    (h : eb_hit_list text env fuel book text_context cache max_hit_count hit_count = some r)
    (hs : r.error_code = EB_SUCCESS) :
    0 ≤ r.hit_count ∧ r.hit_count ≤ max_hit_count
      ∧ (r.hit_list.length : Int) ≤ max_hit_count := by
  have hmax0 : ¬ max_hit_count = 0 := by omega
  unfold eb_hit_list at h
  rw [if_neg hmax0] at h
  split at h
  · simp only [Option.some.injEq] at h
    subst h
    cases hs
  · have hword : ∀ res : Option Hit_List_Result,
        (∀ x, res = some x → (x.hit_list.length : Int) ≤ max_hit_count
          ∧ 0 ≤ x.hit_count ∧ x.hit_count ≤ max_hit_count) →
        res.map (fun res =>
          ({ error_code := res.error_code
             book := { book with
                       search_contexts := Function.update book.search_contexts 0 res.context }
             cache := res.cache
             hit_list := res.hit_list
             hit_count := if res.error_code ≠ EB_SUCCESS then 0 else res.hit_count }
            : Hit_List_Outcome)) = some r →
        0 ≤ r.hit_count ∧ r.hit_count ≤ max_hit_count
          ∧ (r.hit_list.length : Int) ≤ max_hit_count := by
      intro res hres hmap
      simp only [Option.map_eq_some'] at hmap
      obtain ⟨x, hx, rfl⟩ := hmap
      obtain ⟨h1, h2, h3⟩ := hres x hx
      dsimp only at hs ⊢
      rw [if_neg (by simpa using hs)]
      exact ⟨h2, h3, h1⟩
    split at h
    · exact hword _ (fun x hx => eb_hit_list_word_hit_count _ _ _ _ _ _ hmax hx) h
    · exact hword _ (fun x hx => eb_hit_list_word_hit_count _ _ _ _ _ _ hmax hx) h
    · exact hword _ (fun x hx => eb_hit_list_word_hit_count _ _ _ _ _ _ hmax hx) h
    · obtain ⟨h1, h2, h3, _⟩ :=
        keyword_rounds_hit_count text env fuel text_context max_hit_count fuel book cache [] 0 r
          rfl (by omega) h
      exact ⟨h2, h3, h1⟩
    · obtain ⟨h1, h2, h3, _⟩ :=
        multi_rounds_hit_count env fuel max_hit_count fuel book cache [] 0 r rfl (by omega) h
      exact ⟨h2, h3, h1⟩
    · simp only [Option.some.injEq] at h
      subst h
      cases hs

/-- Witness of C11: on a leaf with two records `cat` the word walk with
`max_hit_count = 1` succeeds with one hit. -/
theorem hit_count_limit_witness :
    ∃ r, eb_hit_list trivial_text sample_env 5 twin_book () empty_cache 1 0 = some r
      ∧ r.error_code = EB_SUCCESS
      ∧ r.hit_list = [sample_hit 5 0]
      ∧ 0 ≤ r.hit_count ∧ r.hit_count ≤ 1 ∧ (r.hit_list.length : Int) ≤ 1 :=
  ⟨_, rfl, rfl, rfl,
    hit_count_limit trivial_text sample_env 5 twin_book () empty_cache 1 0 _ (by decide) rfl rfl⟩

/-! ## Out-parameters on failure -/

theorem forward_nonneg_cleared (appendix : EB_Appendix) (n c : Int)
    (h : (forward_narrow_alt_nonneg appendix n c).1 ≠ EB_SUCCESS) :
    (forward_narrow_alt_nonneg appendix n c).2 = -1 := by
  unfold forward_narrow_alt_nonneg at h ⊢
  repeat' split
  all_goals first | rfl | simp_all

theorem backward_nonneg_cleared (appendix : EB_Appendix) (n c : Int)
    (h : (backward_narrow_alt_nonneg appendix n c).1 ≠ EB_SUCCESS) :
    (backward_narrow_alt_nonneg appendix n c).2 = -1 := by
  unfold backward_narrow_alt_nonneg at h ⊢
  repeat' split
  all_goals first | rfl | simp_all

theorem alternation_text_cleared (appendix : EB_Appendix) (data : EB_Appendix_Data)
    (c : Int) (text : Page) :
    (eb_narrow_alt_character_text appendix data c text).1 ≠ EB_SUCCESS →
    (eb_narrow_alt_character_text appendix data c text).2.2 0 = 0 := by
  unfold eb_narrow_alt_character_text
  obtain ⟨sc⟩ := appendix
  cases sc with
  | none => intro _; simp [set_nul]
  | some sub =>
    dsimp only
    by_cases hp : sub.narrow_page = 0
    · intro _; simp [hp, set_nul]
    · rw [if_neg hp]
      generalize (if sub.character_code = EB_CHARCODE_ISO8859_1 then
          eb_narrow_character_text_latin sub data c text
        else eb_narrow_character_text_jis sub data c text) = r
      by_cases hr : r.1 ≠ EB_SUCCESS
      · intro _; rw [if_pos hr]; simp [set_nul]
      · rw [if_neg hr]; intro h; exact absurd h hr

theorem keyword_rounds_cleared {TC : Type} (text : Text_Functions TC) (env : Hit_List_Env)
    (fuel : Nat) (text_context : TC) (max_hit_count : Int) (rounds : Nat) :
    ∀ (book : EB_Book) (cache : Cache) (hits : List EB_Hit) (hit_count : Int)
      (res : Hit_List_Outcome),
      keyword_rounds text env fuel text_context max_hit_count rounds book cache hits hit_count = some res →
      res.error_code ≠ EB_SUCCESS → res.hit_count = 0 := by
  induction rounds with
  | zero => intro book cache hits hit_count res h; simp [keyword_rounds] at h
  | succ rounds ih =>
    intro book cache hits hit_count res h hf
    rw [keyword_rounds] at h
    split at h
    · cases h
    · split at h
      · simp only [Option.some.injEq] at h
        subst h
        rfl
      · split at h
        · simp only [Option.some.injEq] at h
          subst h
          exact absurd rfl hf
        · split at h
          · cases h
          · split at h
            · cases h
            · split at h
              · simp only [Option.some.injEq] at h
                subst h
                rfl
              · split at h
                · simp only [Option.some.injEq] at h
                  subst h
                  exact absurd rfl hf
                · exact ih _ _ _ _ _ h hf

theorem multi_rounds_cleared (env : Hit_List_Env) (fuel : Nat) (max_hit_count : Int) (rounds : Nat) :
    ∀ (book : EB_Book) (cache : Cache) (hits : List EB_Hit) (hit_count : Int)
      (res : Hit_List_Outcome),
      multi_rounds env fuel max_hit_count rounds book cache hits hit_count = some res →
      res.error_code ≠ EB_SUCCESS → res.hit_count = 0 := by
  induction rounds with
  | zero => intro book cache hits hit_count res h; simp [multi_rounds] at h
  | succ rounds ih =>
    intro book cache hits hit_count res h hf
    rw [multi_rounds] at h
    split at h
    · cases h
    · split at h
      · simp only [Option.some.injEq] at h
        subst h
        rfl
      · split at h
        · simp only [Option.some.injEq] at h
          subst h
          exact absurd rfl hf
        · split at h
          · cases h
          · split at h
            · cases h
            · split at h
              · simp only [Option.some.injEq] at h
                subst h
                rfl
              · split at h
                · simp only [Option.some.injEq] at h
                  subst h
                  exact absurd rfl hf
                · exact ih _ _ _ _ _ h hf

theorem eb_hit_list_cleared {TC : Type} (text : Text_Functions TC) (env : Hit_List_Env)
    (fuel : Nat) (book : EB_Book) (text_context : TC) (cache : Cache)
    (max_hit_count hit_count : Int) (r : Hit_List_Outcome)
    (h : eb_hit_list text env fuel book text_context cache max_hit_count hit_count = some r)
    (hf : r.error_code ≠ EB_SUCCESS) : r.hit_count = 0 := by
  unfold eb_hit_list at h
  split at h
  · simp only [Option.some.injEq] at h
    subst h
    exact absurd rfl hf
  · split at h
    · simp only [Option.some.injEq] at h
      subst h
      rfl
    · have hword : ∀ res : Option Hit_List_Result,
          res.map (fun res =>
            ({ error_code := res.error_code
               book := { book with
                         search_contexts := Function.update book.search_contexts 0 res.context }
               cache := res.cache
               hit_list := res.hit_list
               hit_count := if res.error_code ≠ EB_SUCCESS then 0 else res.hit_count }
              : Hit_List_Outcome)) = some r →
          r.hit_count = 0 := by
        intro res hmap
        simp only [Option.map_eq_some'] at hmap
        obtain ⟨x, _, rfl⟩ := hmap
        dsimp only at hf ⊢
        rw [if_pos hf]
      split at h
      · exact hword _ h
      · exact hword _ h
      · exact hword _ h
      · exact keyword_rounds_cleared text env fuel text_context max_hit_count fuel _ _ _ _ _ h hf
      · exact multi_rounds_cleared env fuel max_hit_count fuel _ _ _ _ _ h hf
      · simp only [Option.some.injEq] at h
        subst h
        rfl

/-- Claim C13 (out-parameters are cleared on failure): whenever
`eb_narrow_alt_start`, `eb_narrow_alt_end`, `eb_forward_narrow_alt_character`
or `eb_backward_narrow_alt_character` returns a code other than `EB_SUCCESS`
the character number it leaves is `-1`; whenever
`eb_narrow_alt_character_text` fails the first byte of the text buffer is
`0`; and whenever `eb_hit_list` returns a code other than `EB_SUCCESS` the
hit count is `0`. -/
theorem out_parameters_cleared {TC : Type} (text : Text_Functions TC) (env : Hit_List_Env)
    (fuel : Nat) (book : EB_Book) (text_context : TC) (cache : Cache)
    (max_hit_count hit_count : Int) (appendix : EB_Appendix) (data : EB_Appendix_Data)
    (n character_number : Int) (buffer : Page) :
    ((eb_narrow_alt_start appendix).1 ≠ EB_SUCCESS → (eb_narrow_alt_start appendix).2 = -1)
      ∧ ((eb_narrow_alt_end appendix).1 ≠ EB_SUCCESS → (eb_narrow_alt_end appendix).2 = -1)
      ∧ ((eb_forward_narrow_alt_character appendix n character_number).1 ≠ EB_SUCCESS →
          (eb_forward_narrow_alt_character appendix n character_number).2 = -1)
      ∧ ((eb_backward_narrow_alt_character appendix n character_number).1 ≠ EB_SUCCESS →
          (eb_backward_narrow_alt_character appendix n character_number).2 = -1)
      ∧ ((eb_narrow_alt_character_text appendix data character_number buffer).1 ≠ EB_SUCCESS →
          (eb_narrow_alt_character_text appendix data character_number buffer).2.2 0 = 0)
      ∧ (∀ r : Hit_List_Outcome,
          eb_hit_list text env fuel book text_context cache max_hit_count hit_count = some r →
          r.error_code ≠ EB_SUCCESS → r.hit_count = 0) := by
  refine ⟨?_, ?_, ?_, ?_, alternation_text_cleared appendix data character_number buffer,
    fun r h hf => eb_hit_list_cleared text env fuel book text_context cache max_hit_count
      hit_count r h hf⟩
  · unfold eb_narrow_alt_start
    repeat' split
    all_goals first | (intro _; rfl) | (intro h; exact absurd rfl h)
  · unfold eb_narrow_alt_end
    repeat' split
    all_goals first | (intro _; rfl) | (intro h; exact absurd rfl h)
  · unfold eb_forward_narrow_alt_character
    split
    · exact backward_nonneg_cleared appendix (-n) character_number
    · exact forward_nonneg_cleared appendix n character_number
  · unfold eb_backward_narrow_alt_character
    split
    · exact forward_nonneg_cleared appendix (-n) character_number
    · exact backward_nonneg_cleared appendix n character_number

/-- Witness of C13: the six failures on an appendix without a current
subbook, an appendix file that cannot be read, and a book without a current
subbook. -/
theorem out_parameters_cleared_witness :
    (eb_narrow_alt_start unset_appendix).2 = -1
      ∧ (eb_narrow_alt_end unset_appendix).2 = -1
      ∧ (eb_forward_narrow_alt_character sample_jis_appendix 1 0x237e).2 = -1
      ∧ (eb_backward_narrow_alt_character sample_jis_appendix 1 0x2121).2 = -1
      ∧ (eb_narrow_alt_character_text sample_jis_appendix unreadable_appendix_data 0x2223
            (fun _ => 65)).2.2 0 = 0
      ∧ (∃ r : Hit_List_Outcome,
          eb_hit_list trivial_text sample_env 5 closed_book () empty_cache 10 7 = some r
            ∧ r.error_code = EB_ERR_NO_CUR_SUB ∧ r.hit_count = 0) :=
  have w := out_parameters_cleared trivial_text sample_env 5 closed_book () empty_cache 10 7
    unset_appendix unreadable_appendix_data 1 0x237e (fun _ => 65)
  have v := out_parameters_cleared trivial_text sample_env 5 closed_book () empty_cache 10 7
    sample_jis_appendix unreadable_appendix_data 1 0x237e (fun _ => 65)
  have u := out_parameters_cleared trivial_text sample_env 5 closed_book () empty_cache 10 7
    sample_jis_appendix unreadable_appendix_data 1 0x2121 (fun _ => 65)
  have t := out_parameters_cleared trivial_text sample_env 5 closed_book () empty_cache 10 7
    sample_jis_appendix unreadable_appendix_data 1 0x2223 (fun _ => 65)
  ⟨w.1 (by decide), w.2.1 (by decide), v.2.2.1 (by decide), u.2.2.2.1 (by decide),
    t.2.2.2.2.1 (by decide), ⟨_, rfl, rfl, w.2.2.2.2.2 _ rfl (by decide)⟩⟩

/-! ## Page bounds -/

set_option maxRecDepth 100000 in
/-- Claim C12, evaluated on a leaf with group entries whose last record, a
group element `0xC0` with a key of 3 bytes, starts at offset 2034: the check
of `eb_hit_list_word` for this record is `EB_SIZE_PAGE < offset + 14`, without
the key length, so the record is accepted although its heading location
occupies the offsets 2045 to 2050.  The walk returns `EB_SUCCESS` instead of
`EB_ERR_UNEXP_TEXT`, and the hit it stores depends on the bytes behind the
page buffer: two buffers with the same 2048 page bytes give different
headings. -/
theorem word_group_element_overrun :
    (∀ behind i, i < EB_SIZE_PAGE → overrun_leaf behind i = overrun_leaf 0 i)
      ∧ (eb_hit_list_word 1 (overrun_book 0) empty_cache sample_context 10).map
          (fun r => (r.error_code, r.context.offset, r.hit_list))
          = some (EB_SUCCESS, 2051,
              [{ heading := { page := 0, offset := 0 }, text := { page := 7, offset := 0 } }])
      ∧ (eb_hit_list_word 1 (overrun_book 1) empty_cache sample_context 10).map
          (fun r => (r.error_code, r.context.offset, r.hit_list))
          = some (EB_SUCCESS, 2051,
              [{ heading := { page := 1, offset := 257 },
                 text := { page := 7, offset := 0 } }]) := by
  refine ⟨fun behind i h => by simp [overrun_leaf, h], by decide, by decide⟩

/-! ## Compound advance -/

set_option maxRecDepth 100000 in
/-- Claim C20, evaluated on a multi search with two entries.  In the first
example row 0 is the single hit `(5,0)` and row 1 the single hit `(1,0)`:
`eb_and_hit_lists` stores nothing and reports 0 elements of row 0 and 1 of
row 1 as consumed, but the second pass walks context 0 with
`max_hit_count = 0`, which decodes one record before the limit is checked, so
context 0 ends behind its only hit (`entry_index = 1`, `offset = 20`).  In the
second example row 0 is the hit `(100,0)` and context 1 has 64 smaller hits
followed by `(100,0)`: the first round passes the 64 smaller hits of row 1
and none of row 0, context 0 is advanced behind `(100,0)` all the same, and
`eb_hit_list` returns no hit although `(100,0)` is in both rows. -/
theorem advance_skips_unconsumed_hit :
    (multi_gather 3 (multi_book (single_record_leaf [99, 97, 116] 5)
          (single_record_leaf [100, 111, 103] 1)) 8 0 empty_cache [] 0).map
        (fun g => (g.error_code, g.rows))
        = some (EB_SUCCESS, [[sample_hit 5 0], [sample_hit 1 0]])
      ∧ eb_and_hit_lists 10 [[sample_hit 5 0], [sample_hit 1 0]] = some ([], [0, 1])
      ∧ (multi_advance 3 (updated_hit_counts sample_env [0, 1]) 8 0
          (multi_book (single_record_leaf [99, 97, 116] 5)
            (single_record_leaf [100, 111, 103] 1)) empty_cache).map
          (fun a => (a.1, (a.2.1.search_contexts 0).entry_index,
            (a.2.1.search_contexts 0).offset, (a.2.1.search_contexts 1).entry_index))
          = some (EB_SUCCESS, 1, 20, 1)
      ∧ (eb_hit_list trivial_text sample_env 3
          (multi_book (single_record_leaf [99, 97, 116] 5)
            (single_record_leaf [100, 111, 103] 1)) () empty_cache 10 0).map
          (fun r => (r.error_code, r.hit_list, (r.book.search_contexts 0).entry_index))
          = some (EB_SUCCESS, [], 1)
      ∧ (eb_hit_list_multi 3 (multi_book (single_record_leaf [99, 97, 116] 100)
            many_records_leaf) empty_cache
          ((multi_book (single_record_leaf [99, 97, 116] 100)
            many_records_leaf).search_contexts 0) 64).map (fun r => r.hit_list)
          = some [sample_hit 100 0]
      ∧ (eb_hit_list_multi 3 (multi_book (single_record_leaf [99, 97, 116] 100)
            many_records_leaf) empty_cache
          ((multi_book (single_record_leaf [99, 97, 116] 100)
            many_records_leaf).search_contexts 1) 65).map
          (fun r => (r.hit_list.length, r.hit_list.getLast?))
          = some (65, some (sample_hit 100 0))
      ∧ (eb_hit_list trivial_text sample_env 3
          (multi_book (single_record_leaf [99, 97, 116] 100) many_records_leaf) ()
          empty_cache 10 0).map
          (fun r => (r.error_code, r.hit_list, r.hit_count,
            (r.book.search_contexts 0).entry_index, (r.book.search_contexts 1).entry_index))
          = some (EB_SUCCESS, [], 0, 1, 64) := by
  refine ⟨by decide, by decide, by decide, by decide, by decide, by decide, by decide⟩

/-! ## Permutation of the rows -/

theorem remaining_total_advance_all_le (st : List And_Row) :
    remaining_total (and_advance_all st) ≤ remaining_total st := by
  unfold remaining_total and_advance_all
  rw [List.map_map]
  apply List.sum_le_sum
  intro r _
  simp only [Function.comp]
  rcases h : r.2 with _ | ⟨x, xs⟩ <;> simp [h]

theorem and_loop_total (max_and_count : Int) (fuel : Nat) :
    ∀ (rows : List And_Row) (and_list : List EB_Hit),
      remaining_total rows + (max_and_count - (and_list.length : Int)).toNat < fuel →
      ∃ r, and_loop max_and_count fuel rows and_list = some r := by
  induction fuel with
  | zero => intro rows and_list h; omega
  | succ fuel ih =>
    intro rows and_list h
    rw [and_loop]
    by_cases hfull : (and_list.length : Int) < max_and_count
    · simp only [hfull, not_true_eq_false, if_false]
      by_cases heq : (and_scan 0 rows
          { greatest_list := -1, greatest_page := 0, greatest_offset := 0,
            equal_count := 0 }).equal_count = rows.length
      · simp only [heq, if_true]
        apply ih
        have := remaining_total_advance_all_le rows
        simp only [List.length_append, List.length_singleton, Nat.cast_add, Nat.cast_one]
        omega
      · simp only [heq, if_false]
        by_cases hinc : and_increment_count
            (and_scan 0 rows
              { greatest_list := -1, greatest_page := 0, greatest_offset := 0,
                equal_count := 0 }).greatest_page
            (and_scan 0 rows
              { greatest_list := -1, greatest_page := 0, greatest_offset := 0,
                equal_count := 0 }).greatest_offset rows = 0
        · simp only [hinc, if_true]
          exact ⟨_, rfl⟩
        · simp only [hinc, if_false]
          apply ih
          have := remaining_total_advance_lesser _ _ rows (increment_count_pos _ _ _ hinc)
          omega
    · simp only [hfull, not_false_eq_true, if_true]
      exact ⟨_, rfl⟩

theorem eb_and_hit_lists_total (max_and_count : Int) (hit_lists : List (List EB_Hit)) :
    ∃ r, eb_and_hit_lists max_and_count hit_lists = some r := by
  unfold eb_and_hit_lists
  obtain ⟨r, hr⟩ := and_loop_total max_and_count
    ((hit_lists.map List.length).sum + max_and_count.toNat + 1)
    (hit_lists.map fun row => ((0 : Nat), row)) []
    (by
      have : remaining_total (hit_lists.map fun row => ((0 : Nat), row))
          = (hit_lists.map List.length).sum := by
        simp only [remaining_total, List.map_map]
        rfl
      simp only [List.length_nil, Nat.cast_zero, sub_zero]
      omega)
  exact ⟨(r.1, r.2.map Prod.fst), by simp only [hr, Option.map_some']⟩

theorem scan_inv_perm (rows rows' : List And_Row) (s : And_Scan) (hp : rows.Perm rows')
    (h : Scan_Inv rows s) : Scan_Inv rows' s := by
  obtain ⟨h1, h2, h3, h4⟩ := h
  refine ⟨?_, ?_, ?_, ?_⟩
  · intro hg
    exact ⟨fun r hr => (h1 hg).1 r (hp.mem_iff.mpr hr), (h1 hg).2⟩
  · intro hg
    obtain ⟨⟨r, hr, w⟩, b⟩ := h2 hg
    exact ⟨⟨r, hp.mem_iff.mp hr, w⟩, fun q hq => b q (hp.mem_iff.mpr hq)⟩
  · rw [← hp.length_eq]; exact h3
  · rw [← hp.length_eq, h4]
    exact ⟨fun e r hr => e r (hp.mem_iff.mpr hr), fun e r hr => e r (hp.mem_iff.mp hr)⟩

theorem scan_inv_greatest (rows : List And_Row) (s s' : And_Scan)
    (h : Scan_Inv rows s) (h' : Scan_Inv rows s') (hlive : ∃ r ∈ rows, r.2 ≠ []) :
    s.greatest_page = s'.greatest_page ∧ s.greatest_offset = s'.greatest_offset := by
  obtain ⟨r, hr, hne⟩ := hlive
  have hg : s.greatest_list ≠ -1 := fun e => hne ((h.1 e).1 r hr)
  have hg' : s'.greatest_list ≠ -1 := fun e => hne ((h'.1 e).1 r hr)
  obtain ⟨⟨a, ha, x, xs, ex, px, ox⟩, ua⟩ := h.2.1 hg
  obtain ⟨⟨b, hb, y, ys, ey, py, oy⟩, ub⟩ := h'.2.1 hg'
  have k1 := ua b hb y ys ey
  have k2 := ub a ha x xs ex
  simp only [position_lt, not_or, not_and, not_lt] at k1 k2
  omega

theorem scan_inv_equal (rows : List And_Row) (s s' : And_Scan)
    (h : Scan_Inv rows s) (h' : Scan_Inv rows s') :
    s.equal_count = rows.length ↔ s'.equal_count = rows.length := by
  have key : ∀ (t t' : And_Scan), Scan_Inv rows t → Scan_Inv rows t' →
      t.equal_count = rows.length → t'.equal_count = rows.length := by
    intro t t' k k' e
    rcases rows with _ | ⟨p, ps⟩
    · have := k'.2.2.1
      simp only [List.length_nil] at this ⊢
      omega
    · have hall := k.2.2.2.mp e
      obtain ⟨x, xs, ex, -, -⟩ := hall p (by simp)
      obtain ⟨g1, g2⟩ := scan_inv_greatest _ t t' k k' ⟨p, by simp, by rw [ex]; simp⟩
      rw [k'.2.2.2]
      intro r hr
      obtain ⟨y, ys, ey, py, oy⟩ := hall r hr
      exact ⟨y, ys, ey, by omega, by omega⟩
  exact ⟨key s s' h h', key s' s h' h⟩

theorem increment_count_exhausted (gp go : Int) (rows : List And_Row)
    (h : ¬ ∃ r ∈ rows, r.2 ≠ []) : and_increment_count gp go rows = 0 := by
  unfold and_increment_count
  rw [List.length_eq_zero, List.filter_eq_nil_iff]
  intro r hr
  have : r.2 = [] := by
    by_contra hne
    exact h ⟨r, hr, hne⟩
  simp [this]

theorem advance_all_subset (rows : List And_Row) :
    ∀ p ∈ and_advance_all rows, ∃ q ∈ rows, ∀ a ∈ p.2, a ∈ q.2 := by
  intro p hp
  unfold and_advance_all at hp
  obtain ⟨q, hq, rfl⟩ := List.mem_map.mp hp
  refine ⟨q, hq, ?_⟩
  rcases e : q.2 with _ | ⟨x, xs⟩
  · simp [e]
  · intro a ha
    simp only at ha
    exact List.mem_cons_of_mem _ ha

theorem advance_lesser_subset (gp go : Int) (rows : List And_Row) :
    ∀ p ∈ and_advance_lesser gp go rows, ∃ q ∈ rows, ∀ a ∈ p.2, a ∈ q.2 := by
  intro p hp
  unfold and_advance_lesser at hp
  obtain ⟨q, hq, rfl⟩ := List.mem_map.mp hp
  refine ⟨q, hq, ?_⟩
  rcases e : q.2 with _ | ⟨x, xs⟩
  · simp [e]
  · intro a ha
    simp only at ha
    split at ha
    · exact List.mem_cons_of_mem _ ha
    · rw [e] at ha; exact ha

theorem and_loop_perm (R : EB_Hit → EB_Hit → Prop) (hdef : R default default)
    (max_and_count : Int) (fuel : Nat) :
    ∀ (rows rows' : List And_Row) (l l' : List EB_Hit) (r : List EB_Hit × List And_Row),
      rows.Perm rows' → List.Forall₂ R l l' →
      (∀ p ∈ rows, ∀ a ∈ p.2, ∀ q ∈ rows, ∀ b ∈ q.2, a.text = b.text → R a b) →
      and_loop max_and_count fuel rows l = some r →
      ∃ r', and_loop max_and_count fuel rows' l' = some r' ∧ List.Forall₂ R r.1 r'.1 := by
  induction fuel with
  | zero => intro rows rows' l l' r _ _ _ h; simp [and_loop] at h
  | succ fuel ih =>
    intro rows rows' l l' r hp hl hR h
    have hlen := hl.length_eq
    rw [and_loop] at h ⊢
    rw [← hlen]
    by_cases hfull : (l.length : Int) < max_and_count
    · simp only [hfull, not_true_eq_false, if_false] at h ⊢
      have i := scan_inv_result rows
      have i' := scan_inv_perm rows' rows _ hp.symm (scan_inv_result rows')
      generalize and_scan 0 rows
        { greatest_list := -1, greatest_page := 0, greatest_offset := 0, equal_count := 0 } = s
        at i h
      generalize and_scan 0 rows'
        { greatest_list := -1, greatest_page := 0, greatest_offset := 0, equal_count := 0 } = s'
        at i'
      have hiff := scan_inv_equal rows s s' i i'
      by_cases heq : s.equal_count = rows.length
      · have heq' : s'.equal_count = rows'.length := by
          rw [← hp.length_eq]; exact hiff.mp heq
        simp only [heq, if_true] at h
        simp only [heq', if_true]
        refine ih _ _ _ _ r (hp.map _) ?_ ?_ h
        · refine List.rel_append hl (List.Forall₂.cons ?_ List.Forall₂.nil)
          rcases rows with _ | ⟨p, ps⟩
          · rw [List.nil_perm.mp hp]
            exact hdef
          · rcases rows' with _ | ⟨p', ps'⟩
            · exact absurd hp.length_eq (by simp)
            · have hall := i.2.2.2.mp heq
              obtain ⟨x, xs, ex, px, ox⟩ := hall p (by simp)
              obtain ⟨y, ys, ey, py, oy⟩ := hall p' (hp.mem_iff.mpr (by simp))
              have hx : and_first_element (p :: ps) = x := by
                obtain ⟨a, b⟩ := p
                simp only at ex
                subst ex
                rfl
              have hy : and_first_element (p' :: ps') = y := by
                obtain ⟨a, b⟩ := p'
                simp only at ey
                subst ey
                rfl
              rw [hx, hy]
              refine hR p (by simp) x (by rw [ex]; simp) p' (hp.mem_iff.mpr (by simp)) y
                (by rw [ey]; simp) ?_
              rw [(position_eq_int x.text y.text).mpr ⟨px.trans py.symm, ox.trans oy.symm⟩]
        · intro p hp1 a ha q hq b hb e
          obtain ⟨p0, hp0, hsub⟩ := advance_all_subset rows p hp1
          obtain ⟨q0, hq0, hsubq⟩ := advance_all_subset rows q hq
          exact hR p0 hp0 a (hsub a ha) q0 hq0 b (hsubq b hb) e
      · have heq' : ¬ s'.equal_count = rows'.length := by
          rw [← hp.length_eq]; exact fun e => heq (hiff.mpr e)
        simp only [heq, if_false] at h
        simp only [heq', if_false]
        by_cases hlive : ∃ r ∈ rows, r.2 ≠ []
        · obtain ⟨g1, g2⟩ := scan_inv_greatest rows s s' i i' hlive
          rw [← g1, ← g2]
          have hcount : and_increment_count s.greatest_page s.greatest_offset rows'
              = and_increment_count s.greatest_page s.greatest_offset rows := by
            unfold and_increment_count
            exact ((hp.filter _).length_eq).symm
          rw [hcount]
          by_cases hinc : and_increment_count s.greatest_page s.greatest_offset rows = 0
          · simp only [hinc, if_true] at h ⊢
            simp only [Option.some.injEq] at h
            subst h
            exact ⟨_, rfl, hl⟩
          · simp only [hinc, if_false] at h ⊢
            refine ih _ _ _ _ r (hp.map _) hl ?_ h
            intro p hp1 a ha q hq b hb e
            obtain ⟨p0, hp0, hsub⟩ := advance_lesser_subset _ _ rows p hp1
            obtain ⟨q0, hq0, hsubq⟩ := advance_lesser_subset _ _ rows q hq
            exact hR p0 hp0 a (hsub a ha) q0 hq0 b (hsubq b hb) e
        · have hlive' : ¬ ∃ r ∈ rows', r.2 ≠ [] := by
            rintro ⟨q, hq, hne⟩
            exact hlive ⟨q, hp.mem_iff.mpr hq, hne⟩
          rw [increment_count_exhausted _ _ rows hlive] at h
          rw [increment_count_exhausted _ _ rows' hlive']
          simp only [if_true] at h ⊢
          simp only [Option.some.injEq] at h
          subst h
          exact ⟨_, rfl, hl⟩
    · simp only [hfull, not_false_eq_true, if_true] at h ⊢
      simp only [Option.some.injEq] at h
      subst h
      exact ⟨_, rfl, hl⟩

/-- Claim C21 as stated fails: `eb_and_hit_lists` compares text addresses only
and copies the element of the first row, so two rows that hold the same text
address under different headings give different Hit records when they are
swapped. -/
theorem and_merge_copies_first_row :
    eb_and_hit_lists 10 [[sample_hit 3 0], [retitled_hit 3 0]]
        = some ([sample_hit 3 0], [1, 1])
      ∧ eb_and_hit_lists 10 [[retitled_hit 3 0], [sample_hit 3 0]]
        = some ([retitled_hit 3 0], [1, 1])
      ∧ sample_hit 3 0 ≠ retitled_hit 3 0 := by
  decide

theorem map_text_eq_of_rel (l l' : List EB_Hit)
    (h : List.Forall₂ (fun a b => a.text = b.text) l l') :
    l.map EB_Hit.text = l'.map EB_Hit.text := by
  induction h with
  | nil => rfl
  | cons hab _ ih => simp only [List.map_cons, hab, ih]

theorem eq_of_rel_eq (l l' : List EB_Hit) (h : List.Forall₂ (fun a b => a = b) l l') :
    l = l' := by
  induction h with
  | nil => rfl
  | cons hab _ ih => rw [hab, ih]

/-- Claim C21, amended: for every `k` rows of hits, every permutation of the
rows and every `max_and_count`, `eb_and_hit_lists` returns on both
arrangements and emits the same sequence of text addresses (same set, same
order); the Hit records are those of the row that comes first, so the two
sequences of records are equal whenever hits with the same text address are
the same record in all rows. -/
theorem and_merge_permutation (max_and_count : Int) (hit_lists hit_lists' : List (List EB_Hit))
    (hp : hit_lists.Perm hit_lists') :
    ∃ r r', eb_and_hit_lists max_and_count hit_lists = some r
      ∧ eb_and_hit_lists max_and_count hit_lists' = some r'
      ∧ r.1.map EB_Hit.text = r'.1.map EB_Hit.text
      ∧ ((∀ row ∈ hit_lists, ∀ a ∈ row, ∀ row' ∈ hit_lists, ∀ b ∈ row',
            a.text = b.text → a = b) → r.1 = r'.1) := by
  obtain ⟨r, hr⟩ := eb_and_hit_lists_total max_and_count hit_lists
  obtain ⟨r', hr'⟩ := eb_and_hit_lists_total max_and_count hit_lists'
  refine ⟨r, r', hr, hr', ?_, ?_⟩
  all_goals
    unfold eb_and_hit_lists at hr hr'
    simp only [Option.map_eq_some'] at hr hr'
    obtain ⟨x, hx, rfl⟩ := hr
    obtain ⟨x', hx', rfl⟩ := hr'
    have hsum : (hit_lists'.map List.length).sum = (hit_lists.map List.length).sum :=
      ((hp.map List.length).sum_eq).symm
    rw [hsum] at hx'
  · obtain ⟨y, hy, hrel⟩ := and_loop_perm (fun a b => a.text = b.text) rfl max_and_count _
      _ _ [] [] x (hp.map fun row => ((0 : Nat), row)) List.Forall₂.nil
      (fun _ _ _ _ _ _ _ _ e => e) hx
    rw [hx'] at hy
    simp only [Option.some.injEq] at hy
    subst hy
    exact map_text_eq_of_rel _ _ hrel
  · intro hsame
    obtain ⟨y, hy, hrel⟩ := and_loop_perm (fun a b => a = b) rfl max_and_count _
      _ _ [] [] x (hp.map fun row => ((0 : Nat), row)) List.Forall₂.nil
      (by
        intro p hp1 a ha q hq b hb e
        obtain ⟨row, hrow, rfl⟩ := List.mem_map.mp hp1
        obtain ⟨row', hrow', rfl⟩ := List.mem_map.mp hq
        exact hsame row hrow a ha row' hrow' b hb e) hx
    rw [hx'] at hy
    simp only [Option.some.injEq] at hy
    subst hy
    exact eq_of_rel_eq _ _ hrel

/-- Witness of C21 amended: the two rows of the keyword example of the
specification in both orders. -/
theorem and_merge_permutation_witness :
    ∃ r r', eb_and_hit_lists 10 [sample_row_a, sample_row_b] = some r
      ∧ eb_and_hit_lists 10 [sample_row_b, sample_row_a] = some r'
      ∧ r.1.map EB_Hit.text = r'.1.map EB_Hit.text
      ∧ r.1 = r'.1 :=
  have w := and_merge_permutation 10 [sample_row_a, sample_row_b] [sample_row_b, sample_row_a]
    (List.Perm.swap _ _ _)
  ⟨w.choose, w.choose_spec.choose, w.choose_spec.choose_spec.1,
    w.choose_spec.choose_spec.2.1, w.choose_spec.choose_spec.2.2.1,
    w.choose_spec.choose_spec.2.2.2 (by decide)⟩

/-! ## A single row -/

theorem and_loop_single_row (max_and_count : Int) (row : List EB_Hit) :
    ∀ (fuel i : Nat) (l : List EB_Hit), row.length < fuel →
      and_loop max_and_count fuel [(i, row)] l
        = some (l ++ row.take (max_and_count - (l.length : Int)).toNat,
            [(i + min row.length (max_and_count - (l.length : Int)).toNat,
              row.drop (max_and_count - (l.length : Int)).toNat)]) := by
  induction row with
  | nil =>
    intro fuel i l hf
    obtain ⟨f, rfl⟩ : ∃ f, fuel = f + 1 := ⟨fuel - 1, by omega⟩
    rw [and_loop]
    by_cases hfull : (l.length : Int) < max_and_count
    · simp [hfull, and_scan, and_scan_step, and_increment_count]
    · simp [hfull]
  | cons h rest ih =>
    intro fuel i l hf
    obtain ⟨f, rfl⟩ : ∃ f, fuel = f + 1 := ⟨fuel - 1, by omega⟩
    rw [and_loop]
    by_cases hfull : (l.length : Int) < max_and_count
    · have hn : (max_and_count - (l.length : Int)).toNat
          = (max_and_count - ((l ++ [h]).length : Int)).toNat + 1 := by
        simp only [List.length_append, List.length_singleton, Nat.cast_add, Nat.cast_one]
        omega
      have hstep := ih f (i + 1) (l ++ [h]) (by simpa using hf)
      simp only [hfull, not_true_eq_false, if_false, and_scan, and_scan_step, if_true,
        List.length_singleton, Nat.zero_add, and_advance_all, List.map_cons, List.map_nil,
        and_first_element]
      rw [hstep, hn]
      simp only [List.take_succ_cons, List.drop_succ_cons, List.append_assoc,
        List.singleton_append, List.length_cons, Option.some.injEq, Prod.mk.injEq,
        List.cons.injEq, and_true, true_and]
      omega
    · have hz : (max_and_count - (l.length : Int)).toNat = 0 := by omega
      simp [hfull, hz]

/-- Claim C22: `eb_and_hit_lists` with one row returns the first
`min(count, max_and_count)` hits of the row unchanged and in order and
reports that number as consumed, for every row and every `max_and_count`.
The compound path of `eb_hit_list` built on it does not always give the hits
of the leaf walk of the term: on a keyword search with the single term `cat`
over two fixed-layout pages, `cat -> (7,0)` on page 10 and `cat -> (9,0)` on
page 11, run after `eb_presearch_word`, the walk of the term on the warm
cache returns the hit `(9,0)`, and `eb_hit_list` returns `(9,0)` twice, while
the stream of the term, given by the walk on an empty cache, is `(7,0)`,
`(9,0)`.  The second pass of the round reads page 10 again and decodes its
header, which the first pass did not (`entry_length` was left 0 by
`eb_presearch_word`), so the two passes of a round see different records. -/
theorem single_term_keyword :
    (∀ (max_and_count : Int) (row : List EB_Hit),
        eb_and_hit_lists max_and_count [row]
          = some (row.take max_and_count.toNat, [min row.length max_and_count.toNat]))
      ∧ (eb_hit_list_keyword trivial_text 5 single_term_presearched ()
            (eb_presearch_word single_term_book empty_cache
              (single_term_book.search_contexts 0)).2.1
            (single_term_presearched.search_contexts 0) 10).map
          (fun r => (r.error_code, r.hit_list))
          = some (EB_SUCCESS, [sample_hit 9 0])
      ∧ (eb_hit_list trivial_text sample_env 5 single_term_presearched ()
            (eb_presearch_word single_term_book empty_cache
              (single_term_book.search_contexts 0)).2.1 10 0).map
          (fun r => (r.error_code, r.hit_list, r.hit_count))
          = some (EB_SUCCESS, [sample_hit 9 0, sample_hit 9 0], 2)
      ∧ (eb_hit_list_keyword trivial_text 5 single_term_presearched () empty_cache
            (single_term_presearched.search_contexts 0) 10).map
          (fun r => (r.error_code, r.hit_list))
          = some (EB_SUCCESS, [sample_hit 7 0, sample_hit 9 0]) := by
  refine ⟨?_, by decide, by decide, by decide⟩
  intro max_and_count row
  unfold eb_and_hit_lists
  have h := and_loop_single_row max_and_count row
    (([row].map List.length).sum + max_and_count.toNat + 1) 0 []
    (by simp only [List.map_cons, List.map_nil, List.sum_cons, List.sum_nil]; omega)
  simp only [List.map_cons, List.map_nil] at h ⊢
  rw [h]
  simp

/-! ## Failures of the reader in a leaf walk -/

theorem load_leaf_page_failure (book : EB_Book) (cache : Cache) (context : EB_Search_Context)
    (h : (load_leaf_page book cache context).1 ≠ EB_SUCCESS) :
    (load_leaf_page book cache context).2.2 = context
      ∧ ((load_leaf_page book cache context).1 = EB_ERR_FAIL_SEEK_TEXT →
          (load_leaf_page book cache context).2.1.cache_book_code = cache.cache_book_code
            ∧ (load_leaf_page book cache context).2.1.cache_page = cache.cache_page
            ∧ (load_leaf_page book cache context).2.1.cache_buffer = cache.cache_buffer
            ∧ (cache.cache_book_code ≠ book.code ∨ cache.cache_page ≠ context.page)) := by
  unfold load_leaf_page at h ⊢
  by_cases hmiss : cache.cache_book_code ≠ book.code ∨ cache.cache_page ≠ context.page
  · rw [if_pos hmiss] at h ⊢
    cases hf : text_file book (seek_location context.page) with
    | seek_failed => simp [read_page, hf, hmiss]
    | short_read f => simp [read_page, hf]
    | full_page d => simp [read_page, hf] at h
  · rw [if_neg hmiss] at h
    exact absurd rfl h

theorem fixed_loop_failure (check : Nat) (buf : Page) (max_hit_count : Int) (r : Nat) :
    ∀ (context : EB_Search_Context) (hits : List EB_Hit) (e : EB_Error_Code),
      (fixed_loop check buf max_hit_count r context hits).1 = Walk_Exit.failed e →
      e = EB_ERR_UNEXP_TEXT := by
  induction r with
  | zero => intro context hits e h; simp [fixed_loop] at h
  | succ r ih =>
    intro context hits e h
    rw [fixed_loop] at h
    split at h
    · simp only [Walk_Exit.failed.injEq] at h
      exact h.symm
    · dsimp only at h
      split at h <;> split at h
      all_goals first
        | exact ih _ _ _ h
        | exact absurd h (by simp)

theorem variable_loop_failure (buf : Page) (max_hit_count : Int) (r : Nat) :
    ∀ (context : EB_Search_Context) (hits : List EB_Hit) (e : EB_Error_Code),
      (variable_loop buf max_hit_count r context hits).1 = Walk_Exit.failed e →
      e = EB_ERR_UNEXP_TEXT := by
  induction r with
  | zero => intro context hits e h; simp [variable_loop] at h
  | succ r ih =>
    intro context hits e h
    rw [variable_loop] at h
    split at h
    · simp only [Walk_Exit.failed.injEq] at h
      exact h.symm
    · dsimp only at h
      split at h
      · simp only [Walk_Exit.failed.injEq] at h
        exact h.symm
      · split at h <;> split at h
        all_goals first
          | exact ih _ _ _ h
          | exact absurd h (by simp)

theorem word_group_loop_failure (buf : Page) (max_hit_count : Int) (r : Nat) :
    ∀ (context : EB_Search_Context) (hits : List EB_Hit) (e : EB_Error_Code),
      (word_group_loop buf max_hit_count r context hits).1 = Walk_Exit.failed e →
      e = EB_ERR_UNEXP_TEXT := by
  induction r with
  | zero => intro context hits e h; simp [word_group_loop] at h
  | succ r ih =>
    intro context hits e h
    rw [word_group_loop] at h
    split at h
    · simp only [Walk_Exit.failed.injEq] at h
      exact h.symm
    · dsimp only at h
      split at h
      · simp at h
      · exact ih _ _ _ h

theorem multi_group_loop_failure (buf : Page) (max_hit_count : Int) (r : Nat) :
    ∀ (context : EB_Search_Context) (hits : List EB_Hit) (e : EB_Error_Code),
      (multi_group_loop buf max_hit_count r context hits).1 = Walk_Exit.failed e →
      e = EB_ERR_UNEXP_TEXT := by
  induction r with
  | zero => intro context hits e h; simp [multi_group_loop] at h
  | succ r ih =>
    intro context hits e h
    rw [multi_group_loop] at h
    split at h
    · simp only [Walk_Exit.failed.injEq] at h
      exact h.symm
    · dsimp only at h
      split at h
      · simp at h
      · exact ih _ _ _ h

theorem walk_failed_read (e : EB_Error_Code) (cache : Cache) (context : EB_Search_Context)
    (hits : List EB_Hit) (h : (walk_failed e cache context hits).error_code = EB_ERR_FAIL_READ_TEXT) :
    (walk_failed e cache context hits).cache.cache_book_code = EB_BOOK_NONE := by
  simp only [walk_failed] at h ⊢
  rw [if_pos h]

theorem word_page_loop_io_failure (book : EB_Book) (max_hit_count : Int) (fuel : Nat) :
    ∀ (cache : Cache) (context : EB_Search_Context) (hits : List EB_Hit)
      (res : Hit_List_Result),
      word_page_loop book max_hit_count fuel cache context hits = some res →
      (res.error_code = EB_ERR_FAIL_READ_TEXT → res.cache.cache_book_code = EB_BOOK_NONE)
        ∧ (res.error_code = EB_ERR_FAIL_SEEK_TEXT →
            res.cache.cache_book_code ≠ book.code ∨ res.cache.cache_page ≠ res.context.page) := by
  induction fuel with
  | zero => intro cache context hits res h; simp [word_page_loop] at h
  | succ fuel ih =>
    intro cache context hits res h
    rw [word_page_loop] at h
    dsimp only at h
    split at h
    · rename_i hld
      simp only [Option.some.injEq] at h
      subst h
      refine ⟨walk_failed_read _ _ _ _, ?_⟩
      intro hs
      obtain ⟨hc, hk⟩ := load_leaf_page_failure book cache context hld
      obtain ⟨k1, k2, -, k4⟩ := hk hs
      have hne : ¬ (load_leaf_page book cache context).1 = EB_ERR_FAIL_READ_TEXT := by
        simp only [walk_failed] at hs
        rw [hs]; decide
      simp only [walk_failed, if_neg hne, hc, k1, k2]
      exact k4
    · split at h
      · simp only [Option.some.injEq] at h
        subst h
        exact ⟨fun e => by simp [walk_failed] at e, fun e => by simp [walk_failed] at e⟩
      · have key : ∀ w : Walk_Exit × EB_Search_Context × List EB_Hit,
            (∀ e, w.1 = Walk_Exit.failed e → e = EB_ERR_UNEXP_TEXT) →
            (match w.1 with
              | Walk_Exit.failed error_code =>
                some (walk_failed error_code (load_leaf_page book cache context).2.1 w.2.1 w.2.2)
              | Walk_Exit.succeeded =>
                some (walk_succeeded (load_leaf_page book cache context).2.1 w.2.1 w.2.2)
              | Walk_Exit.page_done =>
                if PAGE_ID_IS_LAYER_END w.2.1.page_id then
                  some (walk_succeeded (load_leaf_page book cache context).2.1
                    { w.2.1 with comparison_result := -1 } w.2.2)
                else
                  word_page_loop book max_hit_count fuel (load_leaf_page book cache context).2.1
                    { w.2.1 with page := int32 (w.2.1.page + 1), entry_index := 0 } w.2.2) = some res →
            (res.error_code = EB_ERR_FAIL_READ_TEXT → res.cache.cache_book_code = EB_BOOK_NONE)
              ∧ (res.error_code = EB_ERR_FAIL_SEEK_TEXT →
                  res.cache.cache_book_code ≠ book.code
                    ∨ res.cache.cache_page ≠ res.context.page) := by
          intro w hw hres
          obtain ⟨w1, w2, w3⟩ := w
          dsimp only at hw hres
          cases w1 with
          | failed e =>
            have he := hw e rfl
            subst he
            simp only [Option.some.injEq] at hres
            subst hres
            exact ⟨fun e => by simp [walk_failed] at e, fun e => by simp [walk_failed] at e⟩
          | succeeded =>
            simp only [Option.some.injEq] at hres
            subst hres
            exact ⟨fun e => by simp [walk_succeeded] at e,
              fun e => by simp [walk_succeeded] at e⟩
          | page_done =>
            dsimp only at hres
            split at hres
            · simp only [Option.some.injEq] at hres
              subst hres
              exact ⟨fun e => by simp [walk_succeeded] at e,
                fun e => by simp [walk_succeeded] at e⟩
            · exact ih _ _ _ _ hres
        refine key _ ?_ h
        split
        · exact fixed_loop_failure _ _ _ _ _ _
        · split
          · exact variable_loop_failure _ _ _ _ _
          · exact word_group_loop_failure _ _ _ _ _

theorem multi_page_loop_io_failure (book : EB_Book) (max_hit_count : Int) (fuel : Nat) :
    ∀ (cache : Cache) (context : EB_Search_Context) (hits : List EB_Hit)
      (res : Hit_List_Result),
      multi_page_loop book max_hit_count fuel cache context hits = some res →
      (res.error_code = EB_ERR_FAIL_READ_TEXT → res.cache.cache_book_code = EB_BOOK_NONE)
        ∧ (res.error_code = EB_ERR_FAIL_SEEK_TEXT →
            res.cache.cache_book_code ≠ book.code ∨ res.cache.cache_page ≠ res.context.page) := by
  induction fuel with
  | zero => intro cache context hits res h; simp [multi_page_loop] at h
  | succ fuel ih =>
    intro cache context hits res h
    rw [multi_page_loop] at h
    dsimp only at h
    split at h
    · rename_i hld
      simp only [Option.some.injEq] at h
      subst h
      refine ⟨walk_failed_read _ _ _ _, ?_⟩
      intro hs
      obtain ⟨hc, hk⟩ := load_leaf_page_failure book cache context hld
      obtain ⟨k1, k2, -, k4⟩ := hk hs
      have hne : ¬ (load_leaf_page book cache context).1 = EB_ERR_FAIL_READ_TEXT := by
        simp only [walk_failed] at hs
        rw [hs]; decide
      simp only [walk_failed, if_neg hne, hc, k1, k2]
      exact k4
    · split at h
      · simp only [Option.some.injEq] at h
        subst h
        exact ⟨fun e => by simp [walk_failed] at e, fun e => by simp [walk_failed] at e⟩
      · have key : ∀ w : Walk_Exit × EB_Search_Context × List EB_Hit,
            (∀ e, w.1 = Walk_Exit.failed e → e = EB_ERR_UNEXP_TEXT) →
            (match w.1 with
              | Walk_Exit.failed error_code =>
                some (walk_failed error_code (load_leaf_page book cache context).2.1 w.2.1 w.2.2)
              | Walk_Exit.succeeded =>
                some (walk_succeeded (load_leaf_page book cache context).2.1 w.2.1 w.2.2)
              | Walk_Exit.page_done =>
                if PAGE_ID_IS_LAYER_END w.2.1.page_id then
                  some (walk_succeeded (load_leaf_page book cache context).2.1
                    { w.2.1 with comparison_result := -1 } w.2.2)
                else
                  multi_page_loop book max_hit_count fuel (load_leaf_page book cache context).2.1
                    { w.2.1 with page := int32 (w.2.1.page + 1), entry_index := 0 } w.2.2) = some res →
            (res.error_code = EB_ERR_FAIL_READ_TEXT → res.cache.cache_book_code = EB_BOOK_NONE)
              ∧ (res.error_code = EB_ERR_FAIL_SEEK_TEXT →
                  res.cache.cache_book_code ≠ book.code
                    ∨ res.cache.cache_page ≠ res.context.page) := by
          intro w hw hres
          obtain ⟨w1, w2, w3⟩ := w
          dsimp only at hw hres
          cases w1 with
          | failed e =>
            have he := hw e rfl
            subst he
            simp only [Option.some.injEq] at hres
            subst hres
            exact ⟨fun e => by simp [walk_failed] at e, fun e => by simp [walk_failed] at e⟩
          | succeeded =>
            simp only [Option.some.injEq] at hres
            subst hres
            exact ⟨fun e => by simp [walk_succeeded] at e,
              fun e => by simp [walk_succeeded] at e⟩
          | page_done =>
            dsimp only at hres
            split at hres
            · simp only [Option.some.injEq] at hres
              subst hres
              exact ⟨fun e => by simp [walk_succeeded] at e,
                fun e => by simp [walk_succeeded] at e⟩
            · exact ih _ _ _ _ hres
        refine key _ ?_ h
        split
        · exact fixed_loop_failure _ _ _ _ _ _
        · split
          · exact variable_loop_failure _ _ _ _ _
          · exact multi_group_loop_failure _ _ _ _ _

theorem keyword_succeeded_read {TC : Type} (text : Text_Functions TC) (cache : Cache)
    (s : Keyword_State TC)
    (h : (keyword_succeeded text cache s).error_code = EB_ERR_FAIL_READ_TEXT) :
    (keyword_succeeded text cache s).cache.cache_book_code = EB_BOOK_NONE := by
  unfold keyword_succeeded at h ⊢
  split
  · rename_i hc
    rw [if_pos hc] at h
    dsimp only at h ⊢
    split
    · rename_i ht
      rw [if_pos ht] at h
      exact walk_failed_read _ _ _ _ h
    · rename_i ht
      rw [if_neg ht] at h
      simp [walk_succeeded] at h
  · rename_i hc
    rw [if_neg hc] at h
    simp [walk_succeeded] at h

theorem keyword_page_loop_io_failure {TC : Type} (text : Text_Functions TC) (book : EB_Book)
    (max_hit_count : Int) (fuel : Nat) :
    ∀ (cache : Cache) (s : Keyword_State TC) (res : Hit_List_Result),
      keyword_page_loop text book max_hit_count fuel cache s = some res →
      res.error_code = EB_ERR_FAIL_READ_TEXT → res.cache.cache_book_code = EB_BOOK_NONE := by
  induction fuel with
  | zero => intro cache s res h; simp [keyword_page_loop] at h
  | succ fuel ih =>
    intro cache s res h
    rw [keyword_page_loop] at h
    dsimp only at h
    split at h
    · simp only [Option.some.injEq] at h
      subst h
      exact walk_failed_read _ _ _ _
    · split at h
      · simp only [Option.some.injEq] at h
        subst h
        exact walk_failed_read _ _ _ _
      · have key : ∀ w : Walk_Exit × Keyword_State TC,
            (match w.1 with
              | Walk_Exit.failed error_code =>
                some (walk_failed error_code (load_leaf_page book cache s.context).2.1
                  w.2.context w.2.hits)
              | Walk_Exit.succeeded =>
                some (keyword_succeeded text (load_leaf_page book cache s.context).2.1 w.2)
              | Walk_Exit.page_done =>
                if PAGE_ID_IS_LAYER_END w.2.context.page_id then
                  some (keyword_succeeded text (load_leaf_page book cache s.context).2.1
                    { w.2 with context := { w.2.context with comparison_result := -1 } })
                else
                  keyword_page_loop text book max_hit_count fuel
                    (load_leaf_page book cache s.context).2.1
                    { w.2 with
                      context :=
                        { w.2.context with
                          page := int32 (w.2.context.page + 1), entry_index := 0 } }) = some res →
            res.error_code = EB_ERR_FAIL_READ_TEXT →
            res.cache.cache_book_code = EB_BOOK_NONE := by
          intro w hres
          obtain ⟨w1, w2⟩ := w
          dsimp only at hres
          cases w1 with
          | failed e =>
            simp only [Option.some.injEq] at hres
            subst hres
            exact walk_failed_read _ _ _ _
          | succeeded =>
            simp only [Option.some.injEq] at hres
            subst hres
            exact keyword_succeeded_read _ _ _
          | page_done =>
            dsimp only at hres
            split at hres
            · simp only [Option.some.injEq] at hres
              subst hres
              exact keyword_succeeded_read _ _ _
            · exact ih _ _ _ hres
        exact key _ h

/-- Claim C23 as stated fails for a seek failure: the word walk over a leaf
layer whose second page cannot be reached returns `EB_ERR_FAIL_SEEK_TEXT`
and the page cache still holds page 10 of the book; the same holds for the
multi walk and the keyword walk. -/
theorem seek_failure_keeps_cache :
    (eb_hit_list_word 5 open_ended_book empty_cache sample_context 10).map
        (fun r => (r.error_code, r.cache.cache_book_code, r.cache.cache_page))
        = some (EB_ERR_FAIL_SEEK_TEXT, some 1, 10)
      ∧ (eb_hit_list_multi 5 open_ended_book empty_cache sample_context 10).map
        (fun r => (r.error_code, r.cache.cache_book_code, r.cache.cache_page))
        = some (EB_ERR_FAIL_SEEK_TEXT, some 1, 10)
      ∧ (eb_hit_list_keyword trivial_text 5 open_ended_book () empty_cache sample_context
          10).map
        (fun r => (r.error_code, r.cache.cache_book_code, r.cache.cache_page))
        = some (EB_ERR_FAIL_SEEK_TEXT, some 1, 10) := by
  decide

theorem walk_failed_kept (book : EB_Book) (entry : Cache) (e : EB_Error_Code) (cache : Cache)
    (context : EB_Search_Context) (hits : List EB_Hit) (h : Cache_Kept book entry cache) :
    (walk_failed e cache context hits).error_code ≠ EB_ERR_FAIL_READ_TEXT →
      Cache_Kept book entry (walk_failed e cache context hits).cache := by
  intro hne
  have he : ¬ e = EB_ERR_FAIL_READ_TEXT := hne
  simp only [walk_failed, if_neg he]
  exact h

theorem keyword_succeeded_kept {TC : Type} (book : EB_Book) (entry : Cache)
    (text : Text_Functions TC) (cache : Cache) (s : Keyword_State TC)
    (h : Cache_Kept book entry cache) :
    (keyword_succeeded text cache s).error_code ≠ EB_ERR_FAIL_READ_TEXT →
      Cache_Kept book entry (keyword_succeeded text cache s).cache := by
  unfold keyword_succeeded
  split
  · simp only
    split
    · exact walk_failed_kept _ _ _ _ _ _ h
    · intro _; exact h
  · intro _; exact h

theorem load_leaf_page_kept (book : EB_Book) (entry cache : Cache)
    (context : EB_Search_Context) (hits : List EB_Hit) (h : Cache_Kept book entry cache) :
    ((load_leaf_page book cache context).1 = EB_SUCCESS →
        Cache_Kept book entry (load_leaf_page book cache context).2.1)
      ∧ ((load_leaf_page book cache context).1 ≠ EB_SUCCESS →
        (load_leaf_page book cache context).1 ≠ EB_ERR_FAIL_READ_TEXT →
        Cache_Kept book entry
          (walk_failed (load_leaf_page book cache context).1
            (load_leaf_page book cache context).2.1
            (load_leaf_page book cache context).2.2 hits).cache) := by
  unfold load_leaf_page
  split
  · simp only
    cases hf : text_file book (seek_location context.page) with
    | seek_failed =>
      simp only [read_page, hf, ne_eq, reduceCtorEq, not_false_eq_true, if_true, false_implies,
        true_implies, true_and, walk_failed, if_false]
      exact h
    | short_read f =>
      simp [read_page, hf]
    | full_page d =>
      simp only [read_page, hf, ne_eq, not_true_eq_false, if_false, true_implies, false_implies,
        and_true]
      right
      exact ⟨rfl, by simp only [page_data, hf]⟩
  · simp only [ne_eq, not_true_eq_false, false_implies, and_true, forall_true_left]
    exact h

theorem word_page_loop_kept (book : EB_Book) (entry : Cache) (max_hit_count : Int)
    (fuel : Nat) :
    ∀ (cache : Cache) (context : EB_Search_Context) (hits : List EB_Hit)
      (res : Hit_List_Result), Cache_Kept book entry cache →
      word_page_loop book max_hit_count fuel cache context hits = some res →
      res.error_code ≠ EB_ERR_FAIL_READ_TEXT → Cache_Kept book entry res.cache := by
  induction fuel with
  | zero => intro cache context hits res _ h; simp [word_page_loop] at h
  | succ fuel ih =>
    intro cache context hits res hc h
    obtain ⟨l1, l2⟩ := load_leaf_page_kept book entry cache context hits hc
    rw [word_page_loop] at h
    dsimp only at h
    split at h
    · rename_i hld
      simp only [Option.some.injEq] at h
      subst h
      intro hne
      exact l2 hld hne
    · rename_i hld
      have hc1 := l1 (not_not.mp hld)
      split at h
      · simp only [Option.some.injEq] at h
        subst h
        exact walk_failed_kept _ _ _ _ _ _ hc1
      · have key : ∀ w : Walk_Exit × EB_Search_Context × List EB_Hit,
            (match w.1 with
              | Walk_Exit.failed error_code =>
                some (walk_failed error_code (load_leaf_page book cache context).2.1 w.2.1 w.2.2)
              | Walk_Exit.succeeded =>
                some (walk_succeeded (load_leaf_page book cache context).2.1 w.2.1 w.2.2)
              | Walk_Exit.page_done =>
                if PAGE_ID_IS_LAYER_END w.2.1.page_id then
                  some (walk_succeeded (load_leaf_page book cache context).2.1
                    { w.2.1 with comparison_result := -1 } w.2.2)
                else
                  word_page_loop book max_hit_count fuel (load_leaf_page book cache context).2.1
                    { w.2.1 with page := int32 (w.2.1.page + 1), entry_index := 0 } w.2.2)
              = some res →
            res.error_code ≠ EB_ERR_FAIL_READ_TEXT → Cache_Kept book entry res.cache := by
          intro w hres
          obtain ⟨w1, w2, w3⟩ := w
          dsimp only at hres
          cases w1 with
          | failed e =>
            simp only [Option.some.injEq] at hres
            subst hres
            exact walk_failed_kept _ _ _ _ _ _ hc1
          | succeeded =>
            simp only [Option.some.injEq] at hres
            subst hres
            intro _
            exact hc1
          | page_done =>
            dsimp only at hres
            split at hres
            · simp only [Option.some.injEq] at hres
              subst hres
              intro _
              exact hc1
            · exact ih _ _ _ _ hc1 hres
        exact key _ h

theorem multi_page_loop_kept (book : EB_Book) (entry : Cache) (max_hit_count : Int)
    (fuel : Nat) :
    ∀ (cache : Cache) (context : EB_Search_Context) (hits : List EB_Hit)
      (res : Hit_List_Result), Cache_Kept book entry cache →
      multi_page_loop book max_hit_count fuel cache context hits = some res →
      res.error_code ≠ EB_ERR_FAIL_READ_TEXT → Cache_Kept book entry res.cache := by
  induction fuel with
  | zero => intro cache context hits res _ h; simp [multi_page_loop] at h
  | succ fuel ih =>
    intro cache context hits res hc h
    obtain ⟨l1, l2⟩ := load_leaf_page_kept book entry cache context hits hc
    rw [multi_page_loop] at h
    dsimp only at h
    split at h
    · rename_i hld
      simp only [Option.some.injEq] at h
      subst h
      intro hne
      exact l2 hld hne
    · rename_i hld
      have hc1 := l1 (not_not.mp hld)
      split at h
      · simp only [Option.some.injEq] at h
        subst h
        exact walk_failed_kept _ _ _ _ _ _ hc1
      · have key : ∀ w : Walk_Exit × EB_Search_Context × List EB_Hit,
            (match w.1 with
              | Walk_Exit.failed error_code =>
                some (walk_failed error_code (load_leaf_page book cache context).2.1 w.2.1 w.2.2)
              | Walk_Exit.succeeded =>
                some (walk_succeeded (load_leaf_page book cache context).2.1 w.2.1 w.2.2)
              | Walk_Exit.page_done =>
                if PAGE_ID_IS_LAYER_END w.2.1.page_id then
                  some (walk_succeeded (load_leaf_page book cache context).2.1
                    { w.2.1 with comparison_result := -1 } w.2.2)
                else
                  multi_page_loop book max_hit_count fuel (load_leaf_page book cache context).2.1
                    { w.2.1 with page := int32 (w.2.1.page + 1), entry_index := 0 } w.2.2)
              = some res →
            res.error_code ≠ EB_ERR_FAIL_READ_TEXT → Cache_Kept book entry res.cache := by
          intro w hres
          obtain ⟨w1, w2, w3⟩ := w
          dsimp only at hres
          cases w1 with
          | failed e =>
            simp only [Option.some.injEq] at hres
            subst hres
            exact walk_failed_kept _ _ _ _ _ _ hc1
          | succeeded =>
            simp only [Option.some.injEq] at hres
            subst hres
            intro _
            exact hc1
          | page_done =>
            dsimp only at hres
            split at hres
            · simp only [Option.some.injEq] at hres
              subst hres
              intro _
              exact hc1
            · exact ih _ _ _ _ hc1 hres
        exact key _ h

theorem keyword_page_loop_kept {TC : Type} (text : Text_Functions TC) (book : EB_Book)
    (entry : Cache) (max_hit_count : Int) (fuel : Nat) :
    ∀ (cache : Cache) (s : Keyword_State TC) (res : Hit_List_Result),
      Cache_Kept book entry cache →
      keyword_page_loop text book max_hit_count fuel cache s = some res →
      res.error_code ≠ EB_ERR_FAIL_READ_TEXT → Cache_Kept book entry res.cache := by
  induction fuel with
  | zero => intro cache s res _ h; simp [keyword_page_loop] at h
  | succ fuel ih =>
    intro cache s res hc h
    obtain ⟨l1, l2⟩ := load_leaf_page_kept book entry cache s.context s.hits hc
    rw [keyword_page_loop] at h
    dsimp only at h
    split at h
    · rename_i hld
      simp only [Option.some.injEq] at h
      subst h
      intro hne
      exact l2 hld hne
    · rename_i hld
      have hc1 := l1 (not_not.mp hld)
      split at h
      · simp only [Option.some.injEq] at h
        subst h
        exact walk_failed_kept _ _ _ _ _ _ hc1
      · have key : ∀ w : Walk_Exit × Keyword_State TC,
            (match w.1 with
              | Walk_Exit.failed error_code =>
                some (walk_failed error_code (load_leaf_page book cache s.context).2.1
                  w.2.context w.2.hits)
              | Walk_Exit.succeeded =>
                some (keyword_succeeded text (load_leaf_page book cache s.context).2.1 w.2)
              | Walk_Exit.page_done =>
                if PAGE_ID_IS_LAYER_END w.2.context.page_id then
                  some (keyword_succeeded text (load_leaf_page book cache s.context).2.1
                    { w.2 with context := { w.2.context with comparison_result := -1 } })
                else
                  keyword_page_loop text book max_hit_count fuel
                    (load_leaf_page book cache s.context).2.1
                    { w.2 with
                      context :=
                        { w.2.context with
                          page := int32 (w.2.context.page + 1), entry_index := 0 } })
              = some res →
            res.error_code ≠ EB_ERR_FAIL_READ_TEXT → Cache_Kept book entry res.cache := by
          intro w hres
          obtain ⟨w1, w2⟩ := w
          dsimp only at hres
          cases w1 with
          | failed e =>
            simp only [Option.some.injEq] at hres
            subst hres
            exact walk_failed_kept _ _ _ _ _ _ hc1
          | succeeded =>
            simp only [Option.some.injEq] at hres
            subst hres
            exact keyword_succeeded_kept _ _ _ _ _ hc1
          | page_done =>
            dsimp only at hres
            split at hres
            · simp only [Option.some.injEq] at hres
              subst hres
              exact keyword_succeeded_kept _ _ _ _ _ hc1
            · exact ih _ _ _ hc1 hres
        exact key _ h

/-- Claim C23, amended: whenever a hit-list walk (word, keyword or multi)
returns `EB_ERR_FAIL_READ_TEXT`, the page cache is empty afterwards
(`cache_book_code = EB_BOOK_NONE`).  A walk that returns in any other way, in
particular with `EB_ERR_FAIL_SEEK_TEXT`, does not empty the cache: the cache
then holds exactly what it held at entry (book code, page number and buffer)
or, under the code of the book, a page of the book read in full.  After an
`EB_ERR_FAIL_SEEK_TEXT` of the word or the multi walk the cache does not hold
the page of the context (`cache_book_code != book->code` or
`cache_page != context->page`), so the next call seeks that page again. -/
theorem read_failure_empties_cache {TC : Type} (text : Text_Functions TC) (fuel : Nat)
    (book : EB_Book) (text_context : TC) (cache : Cache) (context : EB_Search_Context)
    (max_hit_count : Int) :
    (∀ res, eb_hit_list_word fuel book cache context max_hit_count = some res →
        (res.error_code = EB_ERR_FAIL_READ_TEXT → res.cache.cache_book_code = EB_BOOK_NONE)
          ∧ (res.error_code ≠ EB_ERR_FAIL_READ_TEXT → Cache_Kept book cache res.cache)
          ∧ (res.error_code = EB_ERR_FAIL_SEEK_TEXT →
              res.cache.cache_book_code ≠ book.code
                ∨ res.cache.cache_page ≠ res.context.page))
      ∧ (∀ res, eb_hit_list_multi fuel book cache context max_hit_count = some res →
        (res.error_code = EB_ERR_FAIL_READ_TEXT → res.cache.cache_book_code = EB_BOOK_NONE)
          ∧ (res.error_code ≠ EB_ERR_FAIL_READ_TEXT → Cache_Kept book cache res.cache)
          ∧ (res.error_code = EB_ERR_FAIL_SEEK_TEXT →
              res.cache.cache_book_code ≠ book.code
                ∨ res.cache.cache_page ≠ res.context.page))
      ∧ (∀ res,
          eb_hit_list_keyword text fuel book text_context cache context max_hit_count
            = some res →
          (res.error_code = EB_ERR_FAIL_READ_TEXT → res.cache.cache_book_code = EB_BOOK_NONE)
            ∧ (res.error_code ≠ EB_ERR_FAIL_READ_TEXT → Cache_Kept book cache res.cache)) := by
  have hkept : Cache_Kept book cache cache := Or.inl ⟨rfl, rfl, rfl⟩
  refine ⟨?_, ?_, ?_⟩
  · intro res h
    unfold eb_hit_list_word at h
    split at h
    · simp only [Option.some.injEq] at h
      subst h
      exact ⟨fun e => by simp [walk_succeeded] at e, fun _ => hkept,
        fun e => by simp [walk_succeeded] at e⟩
    · obtain ⟨a, b⟩ := word_page_loop_io_failure _ _ _ _ _ _ _ h
      exact ⟨a, word_page_loop_kept book cache _ _ _ _ _ _ hkept h, b⟩
  · intro res h
    unfold eb_hit_list_multi at h
    split at h
    · simp only [Option.some.injEq] at h
      subst h
      exact ⟨fun e => by simp [walk_succeeded] at e, fun _ => hkept,
        fun e => by simp [walk_succeeded] at e⟩
    · obtain ⟨a, b⟩ := multi_page_loop_io_failure _ _ _ _ _ _ _ h
      exact ⟨a, multi_page_loop_kept book cache _ _ _ _ _ _ hkept h, b⟩
  · intro res h
    unfold eb_hit_list_keyword at h
    dsimp only at h
    generalize (if context.in_group_entry = true ∧ context.comparison_result = 0 then
        text.eb_seek_text text_context context.keyword_heading
      else (EB_SUCCESS, text_context)) = sk at h
    by_cases h1 : sk.1 ≠ EB_SUCCESS
    · rw [if_pos h1] at h
      simp only [Option.some.injEq] at h
      subst h
      exact ⟨walk_failed_read _ _ _ _, walk_failed_kept _ _ _ _ _ _ hkept⟩
    · rw [if_neg h1] at h
      by_cases h2 : context.comparison_result < 0
      · rw [if_pos h2] at h
        simp only [Option.some.injEq] at h
        subst h
        exact ⟨keyword_succeeded_read _ _ _, keyword_succeeded_kept _ _ _ _ _ hkept⟩
      · rw [if_neg h2] at h
        exact ⟨keyword_page_loop_io_failure _ _ _ _ _ _ _ h,
          keyword_page_loop_kept text book cache _ _ _ _ _ hkept h⟩

/-- Witness of C23 amended: a short read empties a cache that held the page
of another book; a failed seek for page 11 leaves page 10 of the book in the
cache; and a failed seek at the first page leaves the page of the other book
in the cache. -/
theorem read_failure_empties_cache_witness :
    (∃ res, eb_hit_list_word 5 unreadable_book foreign_cache sample_context 10 = some res
        ∧ res.error_code = EB_ERR_FAIL_READ_TEXT
        ∧ res.cache.cache_book_code = EB_BOOK_NONE)
      ∧ (∃ res, eb_hit_list_word 5 open_ended_book empty_cache sample_context 10 = some res
        ∧ res.error_code = EB_ERR_FAIL_SEEK_TEXT
        ∧ res.context.page = 11
        ∧ res.cache.cache_book_code = some 1
        ∧ res.cache.cache_page = 10
        ∧ Cache_Kept open_ended_book empty_cache res.cache
        ∧ (res.cache.cache_book_code ≠ open_ended_book.code
            ∨ res.cache.cache_page ≠ res.context.page))
      ∧ (∃ res, eb_hit_list_word 5 open_ended_book foreign_cache
            { sample_context with page := 11 } 10 = some res
        ∧ res.error_code = EB_ERR_FAIL_SEEK_TEXT
        ∧ res.cache.cache_book_code = some 2
        ∧ res.cache.cache_page = 3
        ∧ Cache_Kept open_ended_book foreign_cache res.cache) :=
  ⟨⟨_, rfl, rfl,
      ((read_failure_empties_cache trivial_text 5 unreadable_book () foreign_cache
        sample_context 10).1 _ rfl).1 rfl⟩,
   ⟨_, rfl, rfl, rfl, rfl, rfl,
      ((read_failure_empties_cache trivial_text 5 open_ended_book () empty_cache
        sample_context 10).1 _ rfl).2.1 (by decide),
      ((read_failure_empties_cache trivial_text 5 open_ended_book () empty_cache
        sample_context 10).1 _ rfl).2.2 rfl⟩,
   ⟨_, rfl, rfl, rfl, rfl,
      ((read_failure_empties_cache trivial_text 5 open_ended_book () foreign_cache
        { sample_context with page := 11 } 10).1 _ rfl).2.1 (by decide)⟩⟩

/-! ## Fixed entries -/

set_option maxRecDepth 100000 in
/-- Claim C24, evaluated on a fixed-layout leaf whose 14 records of
`134 + 12` bytes fill the page, the last one (the only match) ending exactly
at byte 2048: `eb_hit_list_word` and `eb_hit_list_keyword` decode the last
record and return its hit, while `eb_hit_list_multi`, whose check is
`EB_SIZE_PAGE < offset + entry_length + 13`, returns `EB_ERR_UNEXP_TEXT` at
that record (`entry_index = 13`, `offset = 1902`) although it reads and
advances by `entry_length + 12` bytes like the other two. -/
theorem multi_fixed_entry_off_by_one :
    1902 + 134 + 12 = EB_SIZE_PAGE
      ∧ (eb_hit_list_word 1 full_leaf_book empty_cache sample_context 10).map
          (fun r => (r.error_code, r.hit_list)) = some (EB_SUCCESS, [sample_hit 7 0])
      ∧ (eb_hit_list_keyword trivial_text 1 full_leaf_book () empty_cache sample_context
            10).map
          (fun r => (r.error_code, r.hit_list)) = some (EB_SUCCESS, [sample_hit 7 0])
      ∧ (eb_hit_list_multi 1 full_leaf_book empty_cache sample_context 10).map
          (fun r => (r.error_code, r.hit_list, r.context.entry_index, r.context.offset))
          = some (EB_ERR_UNEXP_TEXT, [], 13, 1902) := by
  refine ⟨by decide, by decide, by decide, by decide⟩

/-! ## Locks -/

theorem presearch_loop_locked_eq (book : EB_Book) (locks : Lock_State) (d : Nat) :
    ∀ (cache : Cache) (context : EB_Search_Context),
      presearch_loop_locked book d cache context locks
        = ((presearch_loop book d cache context).1, (presearch_loop book d cache context).2.1,
            (presearch_loop book d cache context).2.2, locks) := by
  induction d with
  | zero => intro cache context; rfl
  | succ d ih =>
    intro cache context
    rw [presearch_loop_locked, presearch_loop]
    dsimp only
    split
    · rfl
    · split
      · rfl
      · split
        · rfl
        · split
          · rfl
          · exact ih _ _

theorem keyword_rounds_locked_eq {TC : Type} (text : Text_Functions TC) (env : Hit_List_Env)
    (fuel : Nat) (text_context : TC) (max_hit_count : Int) (locks : Lock_State)
    (rounds : Nat) :
    ∀ (book : EB_Book) (cache : Cache) (hits : List EB_Hit) (hit_count : Int),
      keyword_rounds_locked text env fuel text_context max_hit_count rounds book cache hits
          hit_count locks
        = (keyword_rounds text env fuel text_context max_hit_count rounds book cache hits
            hit_count).map fun r => (r, pthread_mutex_unlock (eb_unlock locks)) := by
  induction rounds with
  | zero => intro book cache hits hit_count; rfl
  | succ rounds ih =>
    intro book cache hits hit_count
    rw [keyword_rounds_locked, keyword_rounds]
    cases keyword_gather text fuel book text_context env.EB_MAX_KEYWORDS 0 cache [] 0 with
    | none => rfl
    | some g =>
      dsimp only
      split
      · rfl
      · split
        · rfl
        · cases eb_and_hit_lists (max_hit_count - hit_count) g.rows with
          | none => rfl
          | some a =>
            dsimp only
            cases keyword_advance text fuel text_context (updated_hit_counts env a.2)
                env.EB_MAX_MULTI_ENTRIES 0 book g.cache with
            | none => rfl
            | some adv =>
              dsimp only
              split
              · rfl
              · split
                · rfl
                · exact ih _ _ _ _

theorem multi_rounds_locked_eq (env : Hit_List_Env) (fuel : Nat) (max_hit_count : Int)
    (locks : Lock_State) (rounds : Nat) :
    ∀ (book : EB_Book) (cache : Cache) (hits : List EB_Hit) (hit_count : Int),
      multi_rounds_locked env fuel max_hit_count rounds book cache hits hit_count locks
        = (multi_rounds env fuel max_hit_count rounds book cache hits hit_count).map
            fun r => (r, pthread_mutex_unlock (eb_unlock locks)) := by
  induction rounds with
  | zero => intro book cache hits hit_count; rfl
  | succ rounds ih =>
    intro book cache hits hit_count
    rw [multi_rounds_locked, multi_rounds]
    cases multi_gather fuel book env.EB_MAX_MULTI_ENTRIES 0 cache [] 0 with
    | none => rfl
    | some g =>
      dsimp only
      split
      · rfl
      · split
        · rfl
        · cases eb_and_hit_lists (max_hit_count - hit_count) g.rows with
          | none => rfl
          | some a =>
            dsimp only
            cases multi_advance fuel (updated_hit_counts env a.2)
                env.EB_MAX_MULTI_ENTRIES 0 book g.cache with
            | none => rfl
            | some adv =>
              dsimp only
              split
              · rfl
              · split
                · rfl
                · exact ih _ _ _ _

theorem eb_hit_list_locked_eq {TC : Type} (text : Text_Functions TC) (env : Hit_List_Env)
    (fuel : Nat) (book : EB_Book) (text_context : TC) (cache : Cache)
    (max_hit_count hit_count : Int) (locks : Lock_State) :
    eb_hit_list_locked text env fuel book text_context cache max_hit_count hit_count locks
      = (eb_hit_list text env fuel book text_context cache max_hit_count hit_count).map
          fun r => (r, pthread_mutex_unlock (eb_unlock (eb_lock (pthread_mutex_lock locks)))) := by
  unfold eb_hit_list_locked eb_hit_list
  dsimp only
  split
  · rfl
  · split
    · rfl
    · have hword : (eb_hit_list_word fuel book cache (book.search_contexts 0)
            max_hit_count).map
          (fun res : Hit_List_Result =>
            (({ error_code := res.error_code
                book := { book with
                          search_contexts :=
                            Function.update book.search_contexts 0 res.context }
                cache := res.cache
                hit_list := res.hit_list
                hit_count := if res.error_code ≠ EB_SUCCESS then 0 else res.hit_count }
              : Hit_List_Outcome),
              if res.error_code ≠ EB_SUCCESS then
                hit_list_failed (eb_lock (pthread_mutex_lock locks))
              else hit_list_succeeded (eb_lock (pthread_mutex_lock locks))))
          = ((eb_hit_list_word fuel book cache (book.search_contexts 0) max_hit_count).map
              fun res : Hit_List_Result =>
                ({ error_code := res.error_code
                   book := { book with
                             search_contexts :=
                               Function.update book.search_contexts 0 res.context }
                   cache := res.cache
                   hit_list := res.hit_list
                   hit_count := if res.error_code ≠ EB_SUCCESS then 0 else res.hit_count }
                  : Hit_List_Outcome)).map
              fun r =>
                (r, pthread_mutex_unlock (eb_unlock (eb_lock (pthread_mutex_lock locks)))) := by
        rw [Option.map_map]
        congr 1
        funext res
        simp only [Function.comp]
        split <;> rfl
      generalize (book.search_contexts 0).code = code
      cases code with
      | EB_SEARCH_NONE => rfl
      | EB_SEARCH_EXACTWORD => exact hword
      | EB_SEARCH_WORD => exact hword
      | EB_SEARCH_ENDWORD => exact hword
      | EB_SEARCH_KEYWORD => exact keyword_rounds_locked_eq _ _ _ _ _ _ _ _ _ _ _
      | EB_SEARCH_MULTI => exact multi_rounds_locked_eq _ _ _ _ _ _ _ _ _

/-- Claim C25 as stated fails for `eb_presearch_word`: the call takes and
releases the cache mutex and never calls `eb_lock` on the book. -/
theorem presearch_takes_no_book_lock :
    (eb_presearch_word_locked sample_book empty_cache sample_context no_locks).2.calls
        = [Lock_Call.mutex_unlock, Lock_Call.mutex_lock]
      ∧ (eb_presearch_word_locked chain_book empty_cache { sample_context with page := 1 }
          no_locks).2.calls
        = [Lock_Call.mutex_unlock, Lock_Call.mutex_lock] := by
  decide

/-- Claim C25, amended: `eb_hit_list` acquires the cache mutex and then the
lock of the book on entry and releases both, in the opposite order, on every
exit path, success or failure; `eb_presearch_word`, called on a book with a
current subbook, acquires and releases only the cache mutex (the lock of the
book is left to its callers); after either call the lock state equals the
lock state before it, and the call returns what it returns without the lock
calls. -/
theorem lock_discipline {TC : Type} (text : Text_Functions TC) (env : Hit_List_Env) (fuel : Nat)
    (book : EB_Book) (text_context : TC) (cache : Cache) (context : EB_Search_Context)
    (max_hit_count hit_count : Int) (locks : Lock_State) :
    (book.subbook_current ≠ none →
        (eb_presearch_word_locked book cache context locks).1
            = eb_presearch_word book cache context
          ∧ (eb_presearch_word_locked book cache context locks).2.calls
            = Lock_Call.mutex_unlock :: Lock_Call.mutex_lock :: locks.calls
          ∧ (eb_presearch_word_locked book cache context locks).2.cache_mutex
            = locks.cache_mutex
          ∧ (eb_presearch_word_locked book cache context locks).2.book_lock
            = locks.book_lock)
      ∧ (∀ r,
          eb_hit_list_locked text env fuel book text_context cache max_hit_count hit_count locks
            = some r →
          eb_hit_list text env fuel book text_context cache max_hit_count hit_count
              = some r.1
            ∧ r.2.calls
              = Lock_Call.mutex_unlock :: Lock_Call.book_unlock :: Lock_Call.book_lock
                :: Lock_Call.mutex_lock :: locks.calls
            ∧ r.2.cache_mutex = locks.cache_mutex
            ∧ r.2.book_lock = locks.book_lock) := by
  have hp : eb_presearch_word_locked book cache context locks
      = (eb_presearch_word book cache context,
          pthread_mutex_unlock (pthread_mutex_lock locks)) := by
    unfold eb_presearch_word_locked eb_presearch_word
    rw [presearch_loop_locked_eq]
    dsimp only
    generalize presearch_loop book EB_MAX_INDEX_DEPTH
      { cache with cache_book_code := EB_BOOK_NONE } context = r
    obtain ⟨e, c, x⟩ := r
    cases e <;> rfl
  refine ⟨fun _ => ⟨by rw [hp], by rw [hp]; rfl, ?_, by rw [hp]; rfl⟩, ?_⟩
  · rw [hp]
    simp [pthread_mutex_unlock, pthread_mutex_lock]
  · intro r h
    rw [eb_hit_list_locked_eq] at h
    simp only [Option.map_eq_some'] at h
    obtain ⟨x, hx, rfl⟩ := h
    refine ⟨hx, rfl, ?_, ?_⟩
    · simp [pthread_mutex_unlock, pthread_mutex_lock, eb_lock, eb_unlock]
    · simp [pthread_mutex_unlock, pthread_mutex_lock, eb_lock, eb_unlock]

/-- Witness of C25 amended: a successful and a failing `eb_hit_list` and an
`eb_presearch_word`, entered with the cache mutex held once and the book lock
held twice. -/
theorem lock_discipline_witness :
    (∃ r, eb_hit_list_locked trivial_text sample_env 5 twin_book () empty_cache 1 0
          { cache_mutex := 1, book_lock := 2, calls := [] } = some r
        ∧ r.1.error_code = EB_SUCCESS
        ∧ r.2.calls = [Lock_Call.mutex_unlock, Lock_Call.book_unlock, Lock_Call.book_lock,
            Lock_Call.mutex_lock]
        ∧ r.2.cache_mutex = 1 ∧ r.2.book_lock = 2)
      ∧ (∃ r, eb_hit_list_locked trivial_text sample_env 5 closed_book () empty_cache 1 0
          { cache_mutex := 1, book_lock := 2, calls := [] } = some r
        ∧ r.1.error_code = EB_ERR_NO_CUR_SUB
        ∧ r.2.calls = [Lock_Call.mutex_unlock, Lock_Call.book_unlock, Lock_Call.book_lock,
            Lock_Call.mutex_lock]
        ∧ r.2.cache_mutex = 1 ∧ r.2.book_lock = 2)
      ∧ (eb_presearch_word_locked sample_book empty_cache sample_context
          { cache_mutex := 1, book_lock := 2, calls := [] }).2.calls
        = [Lock_Call.mutex_unlock, Lock_Call.mutex_lock] :=
  ⟨⟨_, rfl, rfl,
      ((lock_discipline trivial_text sample_env 5 twin_book () empty_cache sample_context 1 0
        { cache_mutex := 1, book_lock := 2, calls := [] }).2 _ rfl).2⟩,
   ⟨_, rfl, rfl,
      ((lock_discipline trivial_text sample_env 5 closed_book () empty_cache sample_context 1 0
        { cache_mutex := 1, book_lock := 2, calls := [] }).2 _ rfl).2⟩,
   ((lock_discipline trivial_text sample_env 5 sample_book () empty_cache sample_context 1 0
      { cache_mutex := 1, book_lock := 2, calls := [] }).1 (Option.some_ne_none _)).2.1⟩

/-! ## Child selection -/

/-- Claim C26 (child selection in the descent): on an intermediate page with
entry length `L` and entry count `N`, let `k < N` be the least index whose
`L`-byte key at offset `4 + k * (L + 4)` satisfies
`compare(canonicalized_word, key, L) <= 0`, the entries up to `k` lying
inside the page.  Then the scan of `eb_presearch_word` stops at entry `k`
(`entry_index = k`, `offset = 4 + k * (L + 4)`) with `next_page` the
big-endian `u32` at the bytes `4 + k * (L + 4) + L` and following, whatever
the entries after `k` hold, and, when that page differs from the current
one, the descent goes on by reading it.  `next_page` is an `int`
(line 136): it holds the 32 bits of the `u32`, which is the `u32` itself
when that is below `2^31`. -/
theorem child_selection (book : EB_Book) (cache : Cache) (context : EB_Search_Context)
    (data : Page) (k d : Nat)
    (hdata : page_data book context.page = some data)
    (hint : PAGE_ID_IS_LEAF_LAYER (eb_uint1 data) = false)
    (hk : k < eb_uint2 (ptr data 2))
    (hbefore : ∀ i, i < k →
      4 + i * (eb_uint1 (ptr data 1) + 4) + eb_uint1 (ptr data 1) + 4 ≤ EB_SIZE_PAGE
        ∧ 0 < context.compare context.canonicalized_word
            (ptr data (4 + i * (eb_uint1 (ptr data 1) + 4))) (eb_uint1 (ptr data 1)))
    (hfit : 4 + k * (eb_uint1 (ptr data 1) + 4) + eb_uint1 (ptr data 1) + 4 ≤ EB_SIZE_PAGE)
    (hcmp : context.compare context.canonicalized_word
        (ptr data (4 + k * (eb_uint1 (ptr data 1) + 4))) (eb_uint1 (ptr data 1)) ≤ 0) :
    presearch_scan data context.page (eb_uint2 (ptr data 2))
        { decode_header data context with entry_index := 0 }
        = (EB_SUCCESS,
            { decode_header data context with
              entry_index := k
              offset := 4 + k * (eb_uint1 (ptr data 1) + 4) },
            int32 (eb_uint4
              (ptr data (4 + k * (eb_uint1 (ptr data 1) + 4) + eb_uint1 (ptr data 1)))))
      ∧ (int32 (eb_uint4
            (ptr data (4 + k * (eb_uint1 (ptr data 1) + 4) + eb_uint1 (ptr data 1))))
          ≠ context.page →
          presearch_loop book (d + 1) cache context
            = presearch_loop book d (read_page book context.page cache).2
                { decode_header data context with
                  entry_index := k
                  offset := 4 + k * (eb_uint1 (ptr data 1) + 4)
                  page := int32 (eb_uint4
                    (ptr data
                      (4 + k * (eb_uint1 (ptr data 1) + 4) + eb_uint1 (ptr data 1)))) })
      ∧ (eb_uint4 (ptr data (4 + k * (eb_uint1 (ptr data 1) + 4) + eb_uint1 (ptr data 1)))
          < 2147483648 →
          int32 (eb_uint4
            (ptr data (4 + k * (eb_uint1 (ptr data 1) + 4) + eb_uint1 (ptr data 1))))
            = eb_uint4
              (ptr data (4 + k * (eb_uint1 (ptr data 1) + 4) + eb_uint1 (ptr data 1)))) := by
  have hs := presearch_scan_selects data context.page (eb_uint2 (ptr data 2)) k
    { decode_header data context with entry_index := 0 } hk hbefore hfit hcmp
  have hs' : presearch_scan data context.page (eb_uint2 (ptr data 2))
      { decode_header data context with entry_index := 0 }
      = (EB_SUCCESS,
          { decode_header data context with
            entry_index := k
            offset := 4 + k * (eb_uint1 (ptr data 1) + 4) },
          int32 (eb_uint4 (ptr data (4 + k * (eb_uint1 (ptr data 1) + 4) + eb_uint1 (ptr data 1))))) := by
    rw [hs]
    simp [decode_header]
  refine ⟨hs', ?_, fun hlt => by unfold int32; omega⟩
  intro hne
  obtain ⟨r1, r2, -⟩ := read_page_full book context.page cache data hdata
  have hleaf : PAGE_ID_IS_LEAF_LAYER (decode_header data context).page_id = false := hint
  have hsd := presearch_scan_selects data (decode_header data context).page
    (decode_header data context).entry_count k
    { decode_header data context with entry_index := 0 } hk hbefore hfit hcmp
  have h1 : ¬ (eb_uint2 (ptr data 2) ≤ k) := by omega
  have h2 : ¬ (context.page
      = int32 (eb_uint4 (ptr data (4 + k * (eb_uint1 (ptr data 1) + 4) + eb_uint1 (ptr data 1))))) := fun e => hne e.symm
  rw [presearch_loop]
  simp only [r1, r2, ne_eq, not_true_eq_false, if_false, hleaf, Bool.false_eq_true]
  rw [hsd]
  simp [decode_header, h1, h2]

/-- Witness of C26: on the page with keys `a`, `d`, `z` the word `cat`
selects the second entry, whose child pointer is 6. -/
theorem child_selection_witness :
    (presearch_scan three_way_page 1 3
        { decode_header three_way_page { sample_context with page := 1 } with
          entry_index := 0 }).2.2 = 6
      ∧ (presearch_scan three_way_page 1 3
        { decode_header three_way_page { sample_context with page := 1 } with
          entry_index := 0 }).2.1.entry_index = 1
      ∧ (eb_presearch_word three_way_book empty_cache { sample_context with page := 1 }).2.2.page
        = 6 :=
  have w := child_selection three_way_book empty_cache { sample_context with page := 1 }
    three_way_page 1 5 rfl (by decide) (by decide)
    (fun i hi => by
      have : i = 0 := by omega
      subst this
      decide)
    (by decide) (by decide)
  ⟨congrArg (fun r => r.2.2) w.1, congrArg (fun r => r.2.1.entry_index) w.1, by decide⟩

/-! ## Header reload -/

theorem load_leaf_page_miss (book : EB_Book) (cache : Cache) (context : EB_Search_Context)
    (data : Page)
    (hmiss : cache.cache_book_code ≠ book.code ∨ cache.cache_page ≠ context.page)
    (hdata : page_data book context.page = some data) :
    load_leaf_page book cache context
      = (EB_SUCCESS, reloaded_cache book cache context.page data,
          if context.entry_index = 0 then
            { decode_header data context with entry_index := 0 }
          else context) := by
  unfold page_data at hdata
  unfold load_leaf_page
  rw [if_pos hmiss]
  cases hf : text_file book (seek_location context.page) with
  | seek_failed => simp [hf] at hdata
  | short_read f => simp [hf] at hdata
  | full_page d =>
    simp only [hf, Option.some.injEq] at hdata
    subst hdata
    simp [read_page, hf, reloaded_cache]

theorem load_leaf_page_hit (book : EB_Book) (cache : Cache) (context : EB_Search_Context)
    (hcode : cache.cache_book_code = book.code) (hpage : cache.cache_page = context.page) :
    load_leaf_page book cache context = (EB_SUCCESS, cache, context) := by
  unfold load_leaf_page
  rw [if_neg (by simp [hcode, hpage])]

theorem word_page_loop_load (book : EB_Book) (max_hit_count : Int) (fuel : Nat)
    (cache cache1 : Cache) (context context1 : EB_Search_Context) (hits : List EB_Hit)
    (h : load_leaf_page book cache context = (EB_SUCCESS, cache1, context1))
    (h1 : load_leaf_page book cache1 context1 = (EB_SUCCESS, cache1, context1)) :
    word_page_loop book max_hit_count (fuel + 1) cache context hits
      = word_page_loop book max_hit_count (fuel + 1) cache1 context1 hits := by
  rw [word_page_loop, word_page_loop, h, h1]

theorem multi_page_loop_load (book : EB_Book) (max_hit_count : Int) (fuel : Nat)
    (cache cache1 : Cache) (context context1 : EB_Search_Context) (hits : List EB_Hit)
    (h : load_leaf_page book cache context = (EB_SUCCESS, cache1, context1))
    (h1 : load_leaf_page book cache1 context1 = (EB_SUCCESS, cache1, context1)) :
    multi_page_loop book max_hit_count (fuel + 1) cache context hits
      = multi_page_loop book max_hit_count (fuel + 1) cache1 context1 hits := by
  rw [multi_page_loop, multi_page_loop, h, h1]

theorem keyword_page_loop_load {TC : Type} (text : Text_Functions TC) (book : EB_Book)
    (max_hit_count : Int) (fuel : Nat)
    (cache cache1 : Cache) (s : Keyword_State TC) (context1 : EB_Search_Context)
    (h : load_leaf_page book cache s.context = (EB_SUCCESS, cache1, context1))
    (h1 : load_leaf_page book cache1 context1 = (EB_SUCCESS, cache1, context1)) :
    keyword_page_loop text book max_hit_count (fuel + 1) cache s
      = keyword_page_loop text book max_hit_count (fuel + 1) cache1
          { s with context := context1 } := by
  rw [keyword_page_loop, keyword_page_loop]
  dsimp only
  rw [h, h1]

/-- Claim C27 (header reload is gated by `entry_index`): when a leaf walk
misses the page cache and page `context.page` can be read, the cache check
reads the page and sets the cache identity to it; with
`context.entry_index != 0` it leaves the context, hence `page_id`,
`entry_arrangement`, `entry_length`, `entry_count`, `entry_index` and
`offset`, as it was, and each of the three walks goes on exactly as it would
on a warm cache with the same context; with `context.entry_index == 0` the
header fields are decoded from the page (with `offset = 4`) and each walk
goes on as it would on a warm cache with the decoded context.  The page read
is the one at the `int` offset `(context->page - 1) * EB_SIZE_PAGE`. -/
theorem header_reload_gated {TC : Type} (text : Text_Functions TC) (book : EB_Book)
    (max_hit_count : Int) (fuel : Nat) (cache : Cache) (s : Keyword_State TC) (data : Page)
    (hmiss : cache.cache_book_code ≠ book.code ∨ cache.cache_page ≠ s.context.page)
    (hdata : page_data book s.context.page = some data) :
    (s.context.entry_index ≠ 0 →
        load_leaf_page book cache s.context
            = (EB_SUCCESS, reloaded_cache book cache s.context.page data, s.context)
          ∧ word_page_loop book max_hit_count (fuel + 1) cache s.context s.hits
            = word_page_loop book max_hit_count (fuel + 1)
                (reloaded_cache book cache s.context.page data) s.context s.hits
          ∧ multi_page_loop book max_hit_count (fuel + 1) cache s.context s.hits
            = multi_page_loop book max_hit_count (fuel + 1)
                (reloaded_cache book cache s.context.page data) s.context s.hits
          ∧ keyword_page_loop text book max_hit_count (fuel + 1) cache s
            = keyword_page_loop text book max_hit_count (fuel + 1)
                (reloaded_cache book cache s.context.page data) s)
      ∧ (s.context.entry_index = 0 →
        load_leaf_page book cache s.context
            = (EB_SUCCESS, reloaded_cache book cache s.context.page data,
                { s.context with
                  page_id := eb_uint1 data
                  entry_length := eb_uint1 (ptr data 1)
                  entry_arrangement :=
                    if eb_uint1 (ptr data 1) = 0 then EB_ARRANGE_VARIABLE else EB_ARRANGE_FIXED
                  entry_count := eb_uint2 (ptr data 2)
                  offset := 4
                  entry_index := 0 })
          ∧ word_page_loop book max_hit_count (fuel + 1) cache s.context s.hits
            = word_page_loop book max_hit_count (fuel + 1)
                (reloaded_cache book cache s.context.page data)
                { decode_header data s.context with entry_index := 0 } s.hits
          ∧ multi_page_loop book max_hit_count (fuel + 1) cache s.context s.hits
            = multi_page_loop book max_hit_count (fuel + 1)
                (reloaded_cache book cache s.context.page data)
                { decode_header data s.context with entry_index := 0 } s.hits
          ∧ keyword_page_loop text book max_hit_count (fuel + 1) cache s
            = keyword_page_loop text book max_hit_count (fuel + 1)
                (reloaded_cache book cache s.context.page data)
                { s with context := { decode_header data s.context with entry_index := 0 } }) := by
  have hl := load_leaf_page_miss book cache s.context data hmiss hdata
  constructor
  · intro hne
    rw [if_neg hne] at hl
    have h1 := load_leaf_page_hit book (reloaded_cache book cache s.context.page data) s.context
      rfl rfl
    exact ⟨hl, word_page_loop_load _ _ _ _ _ _ _ _ hl h1,
      multi_page_loop_load _ _ _ _ _ _ _ _ hl h1,
      keyword_page_loop_load text _ _ _ _ _ s _ hl h1⟩
  · intro he
    rw [if_pos he] at hl
    have h1 := load_leaf_page_hit book (reloaded_cache book cache s.context.page data)
      { decode_header data s.context with entry_index := 0 } rfl rfl
    exact ⟨hl, word_page_loop_load _ _ _ _ _ _ _ _ hl h1,
      multi_page_loop_load _ _ _ _ _ _ _ _ hl h1,
      keyword_page_loop_load text _ _ _ _ _ s _ hl h1⟩

/-- Witness of C27: the word walk stopped after the first record of the twin
leaf; the cache is then taken by another book; the next call reads page 10
again, keeps `entry_index = 1` and `offset = 20`, and returns the second
record. -/
theorem header_reload_gated_witness :
    (eb_hit_list_word 1 twin_book empty_cache sample_context 1).map
        (fun r => (r.context, r.hit_list))
        = some (resumed_twin_context, [sample_hit 5 0])
      ∧ load_leaf_page twin_book foreign_cache resumed_twin_context
        = (EB_SUCCESS, reloaded_cache twin_book foreign_cache 10 twin_leaf, resumed_twin_context)
      ∧ word_page_loop twin_book 10 1 foreign_cache resumed_twin_context []
        = word_page_loop twin_book 10 1 (reloaded_cache twin_book foreign_cache 10 twin_leaf)
            resumed_twin_context []
      ∧ (word_page_loop twin_book 10 1 foreign_cache resumed_twin_context []).map
          (fun r => (r.error_code, r.hit_list)) = some (EB_SUCCESS, [sample_hit 7 0]) :=
  have w := (header_reload_gated trivial_text twin_book 10 0 foreign_cache
    { context := resumed_twin_context, hits := [], text_context := () } twin_leaf
    (by decide) rfl).1 (by decide)
  ⟨rfl, w.1, w.2.1, by decide⟩

/-! ## Page advance -/

theorem word_page_loop_page_end (book : EB_Book) (max_hit_count : Int) (fuel : Nat)
    (cache : Cache) (context : EB_Search_Context) (hits : List EB_Hit)
    (hcode : cache.cache_book_code = book.code) (hpage : cache.cache_page = context.page)
    (hleaf : PAGE_ID_IS_LEAF_LAYER context.page_id = true)
    (hend : context.entry_count ≤ context.entry_index) :
    word_page_loop book max_hit_count (fuel + 1) cache context hits
      = if PAGE_ID_IS_LAYER_END context.page_id then
          some (walk_succeeded cache { context with comparison_result := -1 } hits)
        else
          word_page_loop book max_hit_count fuel cache
            { context with page := int32 (context.page + 1), entry_index := 0 } hits := by
  have hrem : context.entry_count - context.entry_index = 0 := Nat.sub_eq_zero_of_le hend
  rw [word_page_loop, load_leaf_page_hit book cache context hcode hpage]
  simp only [ne_eq, not_true_eq_false, if_false, hleaf, hrem, fixed_loop, variable_loop,
    word_group_loop, ite_self]

theorem multi_page_loop_page_end (book : EB_Book) (max_hit_count : Int) (fuel : Nat)
    (cache : Cache) (context : EB_Search_Context) (hits : List EB_Hit)
    (hcode : cache.cache_book_code = book.code) (hpage : cache.cache_page = context.page)
    (hleaf : PAGE_ID_IS_LEAF_LAYER context.page_id = true)
    (hend : context.entry_count ≤ context.entry_index) :
    multi_page_loop book max_hit_count (fuel + 1) cache context hits
      = if PAGE_ID_IS_LAYER_END context.page_id then
          some (walk_succeeded cache { context with comparison_result := -1 } hits)
        else
          multi_page_loop book max_hit_count fuel cache
            { context with page := int32 (context.page + 1), entry_index := 0 } hits := by
  have hrem : context.entry_count - context.entry_index = 0 := Nat.sub_eq_zero_of_le hend
  rw [multi_page_loop, load_leaf_page_hit book cache context hcode hpage]
  simp only [ne_eq, not_true_eq_false, if_false, hleaf, hrem, fixed_loop, variable_loop,
    multi_group_loop, ite_self]

theorem keyword_page_loop_page_end {TC : Type} (text : Text_Functions TC) (book : EB_Book)
    (max_hit_count : Int) (fuel : Nat) (cache : Cache) (s : Keyword_State TC)
    (hcode : cache.cache_book_code = book.code) (hpage : cache.cache_page = s.context.page)
    (hleaf : PAGE_ID_IS_LEAF_LAYER s.context.page_id = true)
    (hend : s.context.entry_count ≤ s.context.entry_index) :
    keyword_page_loop text book max_hit_count (fuel + 1) cache s
      = if PAGE_ID_IS_LAYER_END s.context.page_id then
          some (walk_succeeded cache { s.context with comparison_result := -1 } s.hits)
        else
          keyword_page_loop text book max_hit_count fuel cache
            { s with
              context := { s.context with page := int32 (s.context.page + 1), entry_index := 0 } } := by
  have hrem : s.context.entry_count - s.context.entry_index = 0 := Nat.sub_eq_zero_of_le hend
  rw [keyword_page_loop]
  dsimp only
  rw [load_leaf_page_hit book cache s.context hcode hpage]
  simp only [ne_eq, not_true_eq_false, if_false, hleaf, hrem, fixed_loop, variable_loop,
    keyword_group_loop, ite_self, keyword_succeeded]
  split
  · simp
  · rfl

/-- Claim C28 (page advance): when a leaf walk stands at the end of the page
it has in the cache (`entry_count <= entry_index`), then, if `page_id` has
the layer-end bit `0x20`, each of the three walks sets
`comparison_result = -1` and returns `EB_SUCCESS` with the hits collected so
far, leaving the cache, hence the record of reader calls, as it was;
otherwise it sets `page := page + 1` and `entry_index := 0`, reads that page,
decodes its header, and goes on from its first record.  The increment is
done in `int` (`context->page++`, lines 708, 1050, 1350), which is `page + 1`
for every page below `INT_MAX`, and the page read is the one the seek to the
`int` offset `(page - 1) * EB_SIZE_PAGE` delivers. -/
theorem page_advance {TC : Type} (text : Text_Functions TC) (book : EB_Book)
    (max_hit_count : Int) (fuel : Nat) (cache : Cache) (s : Keyword_State TC)
    (hcode : cache.cache_book_code = book.code) (hpage : cache.cache_page = s.context.page)
    (hleaf : PAGE_ID_IS_LEAF_LAYER s.context.page_id = true)
    (hend : s.context.entry_count ≤ s.context.entry_index) :
    (PAGE_ID_IS_LAYER_END s.context.page_id = true →
        word_page_loop book max_hit_count (fuel + 1) cache s.context s.hits
            = some { error_code := EB_SUCCESS, cache := cache,
                     context := { s.context with comparison_result := -1 },
                     hit_list := s.hits, hit_count := s.hits.length }
          ∧ multi_page_loop book max_hit_count (fuel + 1) cache s.context s.hits
            = some { error_code := EB_SUCCESS, cache := cache,
                     context := { s.context with comparison_result := -1 },
                     hit_list := s.hits, hit_count := s.hits.length }
          ∧ keyword_page_loop text book max_hit_count (fuel + 1) cache s
            = some { error_code := EB_SUCCESS, cache := cache,
                     context := { s.context with comparison_result := -1 },
                     hit_list := s.hits, hit_count := s.hits.length })
      ∧ (PAGE_ID_IS_LAYER_END s.context.page_id = false →
          ∀ data, page_data book (int32 (s.context.page + 1)) = some data →
          word_page_loop book max_hit_count (fuel + 2) cache s.context s.hits
              = word_page_loop book max_hit_count (fuel + 1)
                  (reloaded_cache book cache (int32 (s.context.page + 1)) data)
                  { decode_header data { s.context with page := int32 (s.context.page + 1) } with
                    entry_index := 0 } s.hits
            ∧ multi_page_loop book max_hit_count (fuel + 2) cache s.context s.hits
              = multi_page_loop book max_hit_count (fuel + 1)
                  (reloaded_cache book cache (int32 (s.context.page + 1)) data)
                  { decode_header data { s.context with page := int32 (s.context.page + 1) } with
                    entry_index := 0 } s.hits
            ∧ keyword_page_loop text book max_hit_count (fuel + 2) cache s
              = keyword_page_loop text book max_hit_count (fuel + 1)
                  (reloaded_cache book cache (int32 (s.context.page + 1)) data)
                  { s with
                    context :=
                      { decode_header data
                          { s.context with page := int32 (s.context.page + 1) } with
                        entry_index := 0 } })
      ∧ (-2147483648 ≤ s.context.page → s.context.page < 2147483647 →
          int32 (s.context.page + 1) = s.context.page + 1) := by
  refine ⟨?_, ?_, fun h1 h2 => by unfold int32; omega⟩
  · intro he
    rw [word_page_loop_page_end book max_hit_count fuel cache s.context s.hits hcode hpage hleaf
        hend,
      multi_page_loop_page_end book max_hit_count fuel cache s.context s.hits hcode hpage hleaf
        hend,
      keyword_page_loop_page_end text book max_hit_count fuel cache s hcode hpage hleaf hend]
    simp only [he, if_true, walk_succeeded, and_self]
  · intro he data hdata
    have hmiss : cache.cache_book_code ≠ book.code
        ∨ cache.cache_page
          ≠ ({ s.context with page := int32 (s.context.page + 1), entry_index := 0 }
              : EB_Search_Context).page := by
      right
      rw [hpage]
      show s.context.page ≠ int32 (s.context.page + 1)
      unfold int32
      omega
    have hl := load_leaf_page_miss book cache
      { s.context with page := int32 (s.context.page + 1), entry_index := 0 } data hmiss hdata
    rw [if_pos rfl] at hl
    have h1 := load_leaf_page_hit book (reloaded_cache book cache (int32 (s.context.page + 1)) data)
      { decode_header data { s.context with page := int32 (s.context.page + 1) } with
        entry_index := 0 } rfl rfl
    have hl' : load_leaf_page book cache
        { s.context with page := int32 (s.context.page + 1), entry_index := 0 }
        = (EB_SUCCESS, reloaded_cache book cache (int32 (s.context.page + 1)) data,
            { decode_header data { s.context with page := int32 (s.context.page + 1) } with
              entry_index := 0 }) := hl
    rw [word_page_loop_page_end book max_hit_count (fuel + 1) cache s.context s.hits hcode hpage
        hleaf hend,
      multi_page_loop_page_end book max_hit_count (fuel + 1) cache s.context s.hits hcode hpage
        hleaf hend,
      keyword_page_loop_page_end text book max_hit_count (fuel + 1) cache s hcode hpage hleaf
        hend]
    simp only [he, Bool.false_eq_true, if_false]
    exact ⟨word_page_loop_load _ _ _ _ _ _ _ _ hl' h1,
      multi_page_loop_load _ _ _ _ _ _ _ _ hl' h1,
      keyword_page_loop_load text _ _ _ _ _
        { s with
          context := { s.context with page := int32 (s.context.page + 1), entry_index := 0 } } _
        hl' h1⟩

/-- Witness of C28: a variable-layout page whose final record is the only
match, walked with `max_hit_count = 1`, followed by a second call.  With the
layer-end bit the second call returns no hit, sets `comparison_result = -1`
and reads nothing; without it the second call reads page 11 and returns the
hit found there. -/
theorem page_advance_witness :
    eb_hit_list_word 5 (trailing_book 0xa0) empty_cache sample_context 1
        = some { error_code := EB_SUCCESS,
                 cache := reloaded_cache (trailing_book 0xa0) empty_cache 10
                   (trailing_match_leaf 0xa0),
                 context := trailing_context 0xa0,
                 hit_list := [sample_hit 7 0], hit_count := 1 }
      ∧ word_page_loop (trailing_book 0xa0) 1 1
          (reloaded_cache (trailing_book 0xa0) empty_cache 10 (trailing_match_leaf 0xa0))
          (trailing_context 0xa0) []
        = some { error_code := EB_SUCCESS,
                 cache := reloaded_cache (trailing_book 0xa0) empty_cache 10
                   (trailing_match_leaf 0xa0),
                 context := { trailing_context 0xa0 with comparison_result := -1 },
                 hit_list := [], hit_count := 0 }
      ∧ word_page_loop (trailing_book 0x80) 1 2
          (reloaded_cache (trailing_book 0x80) empty_cache 10 (trailing_match_leaf 0x80))
          (trailing_context 0x80) []
        = word_page_loop (trailing_book 0x80) 1 1
            (reloaded_cache (trailing_book 0x80)
              (reloaded_cache (trailing_book 0x80) empty_cache 10 (trailing_match_leaf 0x80))
              11 (single_record_leaf [99, 97, 116] 9))
            { decode_header (single_record_leaf [99, 97, 116] 9)
                { trailing_context 0x80 with page := 11 } with entry_index := 0 } []
      ∧ (word_page_loop (trailing_book 0x80) 1 2
          (reloaded_cache (trailing_book 0x80) empty_cache 10 (trailing_match_leaf 0x80))
          (trailing_context 0x80) []).map
          (fun r => (r.error_code, r.hit_list, r.cache.cache_page))
        = some (EB_SUCCESS, [sample_hit 9 0], 11) :=
  ⟨rfl,
   ((page_advance trivial_text (trailing_book 0xa0) 1 0
      (reloaded_cache (trailing_book 0xa0) empty_cache 10 (trailing_match_leaf 0xa0))
      { context := trailing_context 0xa0, hits := [], text_context := () }
      rfl rfl (by decide) (by decide)).1 (by decide)).1,
   ((page_advance trivial_text (trailing_book 0x80) 1 0
      (reloaded_cache (trailing_book 0x80) empty_cache 10 (trailing_match_leaf 0x80))
      { context := trailing_context 0x80, hits := [], text_context := () }
      rfl rfl (by decide) (by decide)).2.1 (by decide)
      (single_record_leaf [99, 97, 116] 9) rfl).1,
   by decide⟩

/-! ## Records of a leaf with group entries -/

theorem ptr_ptr (p : Page) (a b : Nat) : ptr (ptr p a) b = ptr p (a + b) := by
  funext i
  simp only [ptr, Nat.add_assoc]

theorem single_entry_fits (buf : Page) (context : EB_Search_Context) (hits : List EB_Hit)
    (hfit : context.offset + context.entry_length + 14 ≤ EB_SIZE_PAGE) :
    single_entry (ptr buf context.offset) context hits
      = some
          (spec_singleton_context buf context context.entry_length,
            if spec_singleton_match buf context context.entry_length then
              hits ++ [spec_singleton_hit buf context.offset context.entry_length]
            else hits) := by
  unfold single_entry
  rw [if_neg (by omega)]
  simp only [hit_at, ptr_ptr, Nat.add_assoc, spec_singleton_context, spec_singleton_match,
    spec_singleton_hit]

/-- Claim C29 (group-leaf singleton): for a record with group id `0x00` and
key length `L` that lies inside the page, each of the three decoders emits a
Hit exactly when both `compare(canonicalized_word, key, L) = 0` and
`compare(word, key, L) = 0`, the key being the `L` bytes at `+2`; the Hit has
`text = (u32 at +L+2, u16 at +L+6)` and `heading = (u32 at +L+8, u16 at
+L+12)`; in every case `in_group_entry` becomes false, `comparison_result`
is the result for the canonical word and `offset` advances by `L + 14`. -/
theorem group_singleton {TC : Type} (text : Text_Functions TC) (buf : Page)
    (context : EB_Search_Context) (hits : List EB_Hit) (text_context : TC) (L : Nat)
    (hid : eb_uint1 (ptr buf context.offset) = 0x00)
    (hL : eb_uint1 (ptr buf (context.offset + 1)) = L)
    (hfit : context.offset + L + 14 ≤ EB_SIZE_PAGE) :
    word_group_entry buf context hits
        = Except.ok
            (spec_singleton_context buf context L,
              if spec_singleton_match buf context L then
                hits ++ [spec_singleton_hit buf context.offset L]
              else hits)
      ∧ multi_group_entry buf context hits
        = Except.ok
            (spec_singleton_context buf context L,
              if spec_singleton_match buf context L then
                hits ++ [spec_singleton_hit buf context.offset L]
              else hits)
      ∧ keyword_group_entry text buf
          { context := context, hits := hits, text_context := text_context }
        = Except.ok
            { context := spec_singleton_context buf context L
              hits :=
                if spec_singleton_match buf context L then
                  hits ++ [spec_singleton_hit buf context.offset L]
                else hits
              text_context := text_context }
      ∧ (spec_singleton_context buf context L).in_group_entry = false
      ∧ (spec_singleton_context buf context L).offset = context.offset + L + 14 := by
  have h2 : ¬ EB_SIZE_PAGE < context.offset + 2 := by omega
  have hs := single_entry_fits buf
    { context with entry_length := eb_uint1 (ptr (ptr buf context.offset) 1) } hits
    (by
      show context.offset + eb_uint1 (ptr (ptr buf context.offset) 1) + 14 ≤ EB_SIZE_PAGE
      rw [ptr_ptr, hL]; exact hfit)
  simp only [ptr_ptr, hL] at hs
  replace hs : single_entry (ptr buf context.offset) { context with entry_length := L } hits
      = some
          (spec_singleton_context buf context L,
            if spec_singleton_match buf context L then
              hits ++ [spec_singleton_hit buf context.offset L]
            else hits) := hs
  refine ⟨?_, ?_, ?_, rfl, rfl⟩
  · unfold word_group_entry
    rw [if_neg h2]
    simp only [hid, if_true, ptr_ptr, hL, hs]
  · unfold multi_group_entry
    rw [if_neg h2]
    simp only [hid, if_true, ptr_ptr, hL, hs]
  · unfold keyword_group_entry
    dsimp only
    rw [if_neg h2]
    simp only [hid, if_true, ptr_ptr, hL, hs]

/-- Witness of C29: on the singleton `cat` the word `Cat` with canonical form
`cat` matches canonically but not literally and gets no hit; the word `cat`
matches both ways and gets the hit `(5,0)`, `(5,6)`. -/
theorem group_singleton_witness :
    word_group_entry singleton_leaf capital_context []
        = Except.ok (spec_singleton_context singleton_leaf capital_context 3, [])
      ∧ (spec_singleton_context singleton_leaf capital_context 3).comparison_result = 0
      ∧ word_group_entry singleton_leaf { sample_context with offset := 4 } []
        = Except.ok
            (spec_singleton_context singleton_leaf { sample_context with offset := 4 } 3,
              [sample_hit 5 0]) :=
  ⟨(group_singleton trivial_text singleton_leaf capital_context [] () 3 (by decide) (by decide)
      (by decide)).1,
   by decide,
   (group_singleton trivial_text singleton_leaf { sample_context with offset := 4 } [] () 3
      (by decide) (by decide) (by decide)).1⟩

theorem presearch_loop_exit (book : EB_Book) (d : Nat) :
    ∀ (cache : Cache) (context : EB_Search_Context),
      ((presearch_loop book d cache context).1 = Presearch_Exit.succeeded →
          (presearch_loop book d cache context).2.2.comparison_result = -1)
        ∧ ∀ e, (presearch_loop book d cache context).1 = Presearch_Exit.failed e →
            e ≠ EB_SUCCESS := by
  induction d with
  | zero => intro cache context; simp [presearch_loop]
  | succ d ih =>
    intro cache context
    rw [presearch_loop]
    dsimp only
    split
    · rename_i h1
      refine ⟨fun e => by simp at e, fun e he => ?_⟩
      simp only [Presearch_Exit.failed.injEq] at he
      rw [← he]; exact h1
    · split
      · exact ⟨fun e => by simp at e, fun e he => by simp at he⟩
      · split
        · rename_i h3
          refine ⟨fun e => by simp at e, fun e he => ?_⟩
          simp only [Presearch_Exit.failed.injEq] at he
          rw [← he]; exact h3
        · split
          · exact ⟨fun _ => rfl, fun e he => by simp at he⟩
          · exact ih _ _

theorem presearch_leaves_no_group (book : EB_Book) (cache : Cache)
    (context : EB_Search_Context)
    (h : (eb_presearch_word book cache context).1 = EB_SUCCESS) :
    (eb_presearch_word book cache context).2.2.in_group_entry = false
      ∨ (eb_presearch_word book cache context).2.2.comparison_result = -1 := by
  unfold eb_presearch_word at h ⊢
  dsimp only at h ⊢
  obtain ⟨h1, h2⟩ := presearch_loop_exit book EB_MAX_INDEX_DEPTH
    { cache with cache_book_code := EB_BOOK_NONE } context
  generalize presearch_loop book EB_MAX_INDEX_DEPTH
    { cache with cache_book_code := EB_BOOK_NONE } context = r at h h1 h2 ⊢
  obtain ⟨r1, r2, r3⟩ := r
  cases r1 with
  | failed e => exact absurd h (h2 e rfl)
  | succeeded => exact Or.inr (h1 rfl)
  | leaf => exact Or.inl rfl
  | depth_exceeded => simp at h

/-- Claim C30 (group elements inherit the comparison of the header): in all
three decoders a record with group id `0xC0` emits a Hit only if
`in_group_entry` is true and `comparison_result == 0` in the context it
meets, and, in the word decoder, the literal word also compares equal to the
element key; so with `in_group_entry` false it emits nothing.  A `0x00`
singleton leaves `in_group_entry` false whether it matched or not, and a
successful `eb_presearch_word` leaves `in_group_entry` false or
`comparison_result = -1`, so a `0xC0` record that follows a singleton, or
that comes before any `0x80` header after the pre-search, emits nothing. -/
theorem group_element_inherits {TC : Type} (text : Text_Functions TC) (buf : Page)
    (context : EB_Search_Context) (hits : List EB_Hit) (text_context : TC)
    (hid : eb_uint1 (ptr buf context.offset) = 0xc0) :
    (∀ r, word_group_entry buf context hits = Except.ok r →
        r.2 = hits
          ∨ (context.in_group_entry = true ∧ context.comparison_result = 0
              ∧ context.compare context.word (ptr buf (context.offset + 2))
                  (eb_uint1 (ptr buf (context.offset + 1))) = 0))
      ∧ (∀ r, multi_group_entry buf context hits = Except.ok r →
        r.2 = hits ∨ (context.in_group_entry = true ∧ context.comparison_result = 0))
      ∧ (∀ r,
          keyword_group_entry text buf
            { context := context, hits := hits, text_context := text_context } = Except.ok r →
          r.hits = hits ∨ (context.in_group_entry = true ∧ context.comparison_result = 0))
      ∧ (∀ (c0 : EB_Search_Context) (h0 : List EB_Hit) r0,
          single_entry (ptr buf c0.offset) c0 h0 = some r0 → r0.1.in_group_entry = false)
      ∧ (∀ (book : EB_Book) (cache : Cache) (c0 : EB_Search_Context),
          (eb_presearch_word book cache c0).1 = EB_SUCCESS →
          (eb_presearch_word book cache c0).2.2.in_group_entry = false
            ∨ (eb_presearch_word book cache c0).2.2.comparison_result = -1) := by
  refine ⟨?_, ?_, ?_, ?_, presearch_leaves_no_group⟩
  · intro r h
    unfold word_group_entry at h
    split at h
    · cases h
    · simp only [hid, OfNat.ofNat_ne_zero, if_false, if_true,
        show ¬ ((0xc0 : Nat) = 0x80) by decide, show ¬ ((0xc0 : Nat) = 0x00) by decide] at h
      split at h
      · cases h
      · simp only [Except.ok.injEq] at h
        subst h
        dsimp only
        split
        · rename_i hc
          right
          simpa [ptr_ptr, and_assoc, and_comm, and_left_comm] using hc
        · left; rfl
  · intro r h
    unfold multi_group_entry at h
    split at h
    · cases h
    · simp only [hid, if_false, if_true,
        show ¬ ((0xc0 : Nat) = 0x80) by decide, show ¬ ((0xc0 : Nat) = 0x00) by decide] at h
      split at h
      · cases h
      · simp only [Except.ok.injEq] at h
        subst h
        dsimp only
        split
        · rename_i hc
          right; exact hc
        · left; rfl
  · intro r h
    unfold keyword_group_entry at h
    dsimp only at h
    split at h
    · cases h
    · simp only [hid, if_false, if_true,
        show ¬ ((0xc0 : Nat) = 0x80) by decide, show ¬ ((0xc0 : Nat) = 0x00) by decide] at h
      split at h
      · cases h
      · split at h
        · rename_i hc
          right; exact hc
        · simp only [Except.ok.injEq] at h
          subst h
          left; rfl
  · intro c0 h0 r0 h
    unfold single_entry at h
    split at h
    · cases h
    · simp only [Option.some.injEq] at h
      subst h
      rfl

/-- Witness of C30: the group element that follows the matching singleton of
`singleton_leaf` emits nothing although `comparison_result = 0`, so the walk
of that page returns the hit of the singleton only; the same element after a
matching group header is emitted. -/
theorem group_element_inherits_witness :
    (∃ r, word_group_entry singleton_leaf after_singleton_context [sample_hit 5 0]
          = Except.ok r
        ∧ r.2 = [sample_hit 5 0])
      ∧ (eb_hit_list_word 1 singleton_book empty_cache sample_context 10).map
          (fun r => (r.error_code, r.hit_list)) = some (EB_SUCCESS, [sample_hit 5 0])
      ∧ (eb_hit_list_word 1 group_book empty_cache sample_context 10).map
          (fun r => (r.error_code, r.hit_list)) = some (EB_SUCCESS, [sample_hit 7 0]) :=
  ⟨⟨_, rfl,
      ((group_element_inherits trivial_text singleton_leaf after_singleton_context
        [sample_hit 5 0] () (by decide)).1 _ rfl).resolve_right (by decide)⟩,
   by decide, by decide⟩

/-! ## Coincidences and consumed prefixes -/

theorem scan_equal_iff (rows : List And_Row) :
    (and_scan 0 rows
        { greatest_list := -1, greatest_page := 0, greatest_offset := 0,
          equal_count := 0 }).equal_count = rows.length
      ↔ ∃ g : EB_Position, ∀ r ∈ rows, ∃ h rest, r.2 = h :: rest ∧ h.text = g := by
  obtain ⟨i1, i2, i3, i4⟩ := scan_inv_result rows
  generalize and_scan 0 rows
    { greatest_list := -1, greatest_page := 0, greatest_offset := 0, equal_count := 0 } = s
    at i1 i2 i3 i4
  constructor
  · intro h
    rcases rows with _ | ⟨p0, ps⟩
    · exact ⟨⟨0, 0⟩, fun r hr => absurd hr (List.not_mem_nil r)⟩
    · obtain ⟨x0, -, -, p0x, o0x⟩ := i4.mp h p0 (by simp)
      refine ⟨x0.text, fun r hr => ?_⟩
      obtain ⟨x, xs, e, p, o⟩ := i4.mp h r hr
      exact ⟨x, xs, e, (position_eq_int _ _).mpr ⟨p.trans p0x.symm, o.trans o0x.symm⟩⟩
  · rintro ⟨g, hg⟩
    rcases rows with _ | ⟨p, ps⟩
    · simp only [List.length_nil] at i3 ⊢
      omega
    · obtain ⟨x, xs, ex, tx⟩ := hg p (by simp)
      have hlist : s.greatest_list ≠ -1 := by
        intro e
        have := (i1 e).1 p (by simp)
        rw [ex] at this
        cases this
      obtain ⟨⟨q, hq, y, ys, ey, py, oy⟩, -⟩ := i2 hlist
      obtain ⟨y', ys', ey', ty'⟩ := hg q hq
      rw [ey] at ey'
      cases ey'
      rw [i4]
      intro r hr
      obtain ⟨z, zs, ez, tz⟩ := hg r hr
      refine ⟨z, zs, ez, ?_, ?_⟩
      · rw [tz, ← ty', py]
      · rw [tz, ← ty', oy]

theorem advance_all_live (rows : List And_Row)
    (h : ∀ r ∈ rows, ∃ x xs, r.2 = x :: xs) :
    and_advance_all rows = rows.map fun r => (r.1 + 1, r.2.tail) := by
  unfold and_advance_all
  apply List.map_congr_left
  intro r hr
  obtain ⟨x, xs, e⟩ := h r hr
  simp [e]

theorem drop_step (orig rest : List EB_Hit) (n : Nat) (x : EB_Hit)
    (h : x :: rest = orig.drop n) : rest = orig.drop (n + 1) ∧ n + 1 ≤ orig.length := by
  constructor
  · rw [← List.tail_drop, ← h]
    rfl
  · by_contra hc
    have : orig.drop n = [] := List.drop_eq_nil_of_le (by omega)
    rw [this] at h
    cases h

theorem consumed_advance_all (hit_lists : List (List EB_Hit)) (rows : List And_Row)
    (h : List.Forall₂ (fun orig st => st.2 = orig.drop st.1 ∧ st.1 ≤ orig.length)
      hit_lists rows) :
    List.Forall₂ (fun orig st => st.2 = orig.drop st.1 ∧ st.1 ≤ orig.length)
      hit_lists (and_advance_all rows) := by
  unfold and_advance_all
  rw [List.forall₂_map_right_iff]
  refine List.Forall₂.imp ?_ h
  rintro orig ⟨n, rem⟩ hst
  rcases rem with _ | ⟨x, xs⟩
  · exact hst
  · exact drop_step orig xs n x hst.1

theorem consumed_advance_lesser (gp go : Int) (hit_lists : List (List EB_Hit))
    (rows : List And_Row)
    (h : List.Forall₂ (fun orig st => st.2 = orig.drop st.1 ∧ st.1 ≤ orig.length)
      hit_lists rows) :
    List.Forall₂ (fun orig st => st.2 = orig.drop st.1 ∧ st.1 ≤ orig.length)
      hit_lists (and_advance_lesser gp go rows) := by
  unfold and_advance_lesser
  rw [List.forall₂_map_right_iff]
  refine List.Forall₂.imp ?_ h
  rintro orig ⟨n, rem⟩ hst
  rcases rem with _ | ⟨x, xs⟩
  · exact hst
  · simp only
    split
    · exact drop_step orig xs n x hst.1
    · exact hst

theorem related_rows_mem {α β : Type} (R : α → β → Prop) (l : List α) (u : List β)
    (h : List.Forall₂ R l u) : ∀ a ∈ l, ∃ b ∈ u, R a b := by
  induction h with
  | nil => intro a ha; cases ha
  | cons hab _ ih =>
    intro a ha
    rcases List.mem_cons.mp ha with e | e
    · subst e
      exact ⟨_, by simp, hab⟩
    · obtain ⟨b, hb, hr⟩ := ih a e
      exact ⟨b, List.mem_cons_of_mem _ hb, hr⟩

theorem and_loop_consumed (max_and_count : Int) (hit_lists : List (List EB_Hit)) (fuel : Nat) :
    ∀ (rows : List And_Row) (l : List EB_Hit) (r : List EB_Hit × List And_Row),
      List.Forall₂ (fun orig st => st.2 = orig.drop st.1 ∧ st.1 ≤ orig.length)
        hit_lists rows →
      (∀ hit ∈ l, (∀ row ∈ hit_lists, hit.text ∈ row.map EB_Hit.text)
        ∧ ∀ row0 rest, hit_lists = row0 :: rest → hit ∈ row0) →
      and_loop max_and_count fuel rows l = some r →
      List.Forall₂ (fun orig st => st.2 = orig.drop st.1 ∧ st.1 ≤ orig.length)
          hit_lists r.2
        ∧ ∀ hit ∈ r.1, (∀ row ∈ hit_lists, hit.text ∈ row.map EB_Hit.text)
            ∧ ∀ row0 rest, hit_lists = row0 :: rest → hit ∈ row0 := by
  induction fuel with
  | zero => intro rows l r _ _ h; simp [and_loop] at h
  | succ fuel ih =>
    intro rows l r hI hl h
    rw [and_loop] at h
    by_cases hfull : (l.length : Int) < max_and_count
    · simp only [hfull, not_true_eq_false, if_false] at h
      by_cases heq : (and_scan 0 rows
          { greatest_list := -1, greatest_page := 0, greatest_offset := 0,
            equal_count := 0 }).equal_count = rows.length
      · simp only [heq, if_true] at h
        obtain ⟨g, hg⟩ := (scan_equal_iff rows).mp heq
        refine ih _ _ r (consumed_advance_all _ _ hI) ?_ h
        intro hit hhit
        rcases List.mem_append.mp hhit with hm | hm
        · exact hl hit hm
        · simp only [List.mem_singleton] at hm
          subst hm
          have hmem : ∀ (o : List EB_Hit) (t : And_Row) (y : EB_Hit) (ys : List EB_Hit),
              t.2 = o.drop t.1 → t.2 = y :: ys → y ∈ o := by
            intro o t y ys e1 e2
            have : y ∈ o.drop t.1 := by rw [← e1, e2]; simp
            exact List.mem_of_mem_drop this
          rcases rows with _ | ⟨st, sts⟩
          · have hnil : hit_lists = [] := by cases hI; rfl
            constructor
            · intro row hrow
              rw [hnil] at hrow
              cases hrow
            · intro row0 rest e
              rw [hnil] at e
              cases e
          · obtain ⟨x, xs, ex, tx⟩ := hg st (by simp)
            have hfirst : and_first_element (st :: sts) = x := by
              obtain ⟨a, b⟩ := st
              simp only at ex
              subst ex
              rfl
            rw [hfirst]
            constructor
            · intro row hrow
              obtain ⟨t, ht, hIt⟩ := related_rows_mem _ _ _ hI row hrow
              obtain ⟨y, ys, ey, ty⟩ := hg t ht
              rw [tx, ← ty]
              exact List.mem_map_of_mem _ (hmem row t y ys hIt.1 ey)
            · intro row0 rest e
              rw [e, List.forall₂_cons] at hI
              exact hmem row0 st x xs hI.1.1 ex
      · simp only [heq, if_false] at h
        split at h
        · simp only [Option.some.injEq] at h
          subst h
          exact ⟨hI, hl⟩
        · exact ih _ _ r (consumed_advance_lesser _ _ _ _ hI) hl h
    · simp only [hfull, not_false_eq_true, if_true, Option.some.injEq] at h
      subst h
      exact ⟨hI, hl⟩

theorem initial_rows_consumed (hit_lists : List (List EB_Hit)) :
    List.Forall₂ (fun orig (st : And_Row) => st.2 = orig.drop st.1 ∧ st.1 ≤ orig.length)
      hit_lists (hit_lists.map fun row => ((0 : Nat), row)) := by
  rw [List.forall₂_map_right_iff]
  exact List.forall₂_same.mpr fun row _ => ⟨rfl, Nat.zero_le _⟩

/-- Claim C31 (`eb_and_hit_lists` emits only coincidences, taken from row 0):
in an iteration of the loop entered with room in `and_list`, for any rows
(sorted or not) `equal_count == hit_list_count` holds iff every row still has
a current element and all current elements have one text address; exactly
then the current element of row 0 is appended and the index of every row is
increased by one, and otherwise the iteration appends nothing.  Hence every
element returned by `eb_and_hit_lists` is an element of row 0 and its text
address occurs in every row. -/
theorem and_merge_emits_coincidences (max_and_count : Int) (fuel : Nat)
    (rows : List And_Row) (and_list : List EB_Hit)
    (hroom : (and_list.length : Int) < max_and_count) :
    ((and_scan 0 rows
          { greatest_list := -1, greatest_page := 0, greatest_offset := 0,
            equal_count := 0 }).equal_count = rows.length
        ↔ ∃ g : EB_Position, ∀ r ∈ rows, ∃ h rest, r.2 = h :: rest ∧ h.text = g)
      ∧ ((and_scan 0 rows
            { greatest_list := -1, greatest_page := 0, greatest_offset := 0,
              equal_count := 0 }).equal_count = rows.length →
          and_loop max_and_count (fuel + 1) rows and_list
              = and_loop max_and_count fuel (rows.map fun r => (r.1 + 1, r.2.tail))
                  (and_list ++ [and_first_element rows])
            ∧ ∀ row0 rest, rows = row0 :: rest →
                row0.2.head? = some (and_first_element rows))
      ∧ ((and_scan 0 rows
            { greatest_list := -1, greatest_page := 0, greatest_offset := 0,
              equal_count := 0 }).equal_count ≠ rows.length →
          and_loop max_and_count (fuel + 1) rows and_list = some (and_list, rows)
            ∨ ∃ rows', and_loop max_and_count (fuel + 1) rows and_list
                = and_loop max_and_count fuel rows' and_list)
      ∧ ∀ (hit_lists : List (List EB_Hit)) (r : List EB_Hit × List Nat),
          eb_and_hit_lists max_and_count hit_lists = some r →
          ∀ hit ∈ r.1, (∀ row ∈ hit_lists, hit.text ∈ row.map EB_Hit.text)
            ∧ ∀ row0 rest, hit_lists = row0 :: rest → hit ∈ row0 := by
  refine ⟨scan_equal_iff rows, ?_, ?_, ?_⟩
  · intro heq
    obtain ⟨g, hg⟩ := (scan_equal_iff rows).mp heq
    constructor
    · rw [and_loop, if_neg (not_not.mpr hroom)]
      simp only [heq, if_true]
      rw [advance_all_live rows fun r hr => by
        obtain ⟨x, xs, e, -⟩ := hg r hr
        exact ⟨x, xs, e⟩]
    · rintro ⟨n, rem⟩ rest e
      obtain ⟨x, xs, ex, -⟩ := hg (n, rem) (by rw [e]; simp)
      simp only at ex
      subst ex
      subst e
      rfl
  · intro hne
    rw [and_loop, if_neg (not_not.mpr hroom)]
    simp only [hne, if_false]
    split
    · exact Or.inl rfl
    · exact Or.inr ⟨_, rfl⟩
  · intro hit_lists r h
    unfold eb_and_hit_lists at h
    simp only [Option.map_eq_some'] at h
    obtain ⟨st, hst, rfl⟩ := h
    exact (and_loop_consumed max_and_count hit_lists _ _ [] st
      (initial_rows_consumed hit_lists) (fun hit hh => by cases hh) hst).2

/-- Witness of C31: with the current elements `(3,0)` and `(3,0)` the
iteration appends the element of row 0 and moves both indexes; the call on
the two sample rows returns elements of row A only. -/
theorem and_merge_emits_coincidences_witness :
    and_loop 10 3 [(1, sample_row_a.tail), (1, sample_row_b.tail)] []
        = and_loop 10 2 [(2, [sample_hit 5 0]), (2, [sample_hit 5 0, sample_hit 7 0])]
            [sample_hit 3 0]
      ∧ ∀ hit ∈ [sample_hit 3 0, sample_hit 5 0], hit ∈ sample_row_a :=
  ⟨((and_merge_emits_coincidences 10 2 [(1, sample_row_a.tail), (1, sample_row_b.tail)] []
      (by decide)).2.1 (by decide)).1,
   fun hit hh =>
    ((and_merge_emits_coincidences 10 0 [] [] (by decide)).2.2.2
      [sample_row_a, sample_row_b] ([sample_hit 3 0, sample_hit 5 0], [3, 3]) (by decide)
      hit hh).2 sample_row_a [sample_row_b] rfl⟩

/-- Claim C32 (`eb_and_hit_lists` terminates and reports consumed prefixes):
for every number of rows, all row contents and every `max_and_count` the call
returns; it returns one index per row, and the index of row `i` is at most the
number of elements of the row (so `0 <= idx[i] <= count[i]`).  Each iteration
of the loop either stops it, or appends one element, or leaves `and_list` and
moves at least one index forward; the number of remaining elements plus the
room left in `and_list` decreases in each iteration that goes on. -/
theorem and_merge_terminates (max_and_count : Int) (hit_lists : List (List EB_Hit)) :
    (∃ r, eb_and_hit_lists max_and_count hit_lists = some r
        ∧ r.2.length = hit_lists.length
        ∧ List.Forall₂ (fun (idx : Nat) (row : List EB_Hit) => idx ≤ row.length)
            r.2 hit_lists)
      ∧ ∀ (fuel : Nat) (rows : List And_Row) (and_list : List EB_Hit),
          and_loop max_and_count (fuel + 1) rows and_list = some (and_list, rows)
            ∨ ∃ rows' and_list',
                and_loop max_and_count (fuel + 1) rows and_list
                    = and_loop max_and_count fuel rows' and_list'
                  ∧ ((and_list' = and_list ++ [and_first_element rows]
                        ∧ remaining_total rows' ≤ remaining_total rows)
                      ∨ (and_list' = and_list
                        ∧ remaining_total rows' < remaining_total rows))
                  ∧ remaining_total rows' + (max_and_count - and_list'.length).toNat
                      < remaining_total rows + (max_and_count - and_list.length).toNat := by
  constructor
  · obtain ⟨r, hr⟩ := eb_and_hit_lists_total max_and_count hit_lists
    refine ⟨r, hr, ?_⟩
    unfold eb_and_hit_lists at hr
    simp only [Option.map_eq_some'] at hr
    obtain ⟨st, hst, rfl⟩ := hr
    have hI := (and_loop_consumed max_and_count hit_lists _ _ [] st
      (initial_rows_consumed hit_lists) (fun hit hh => by cases hh) hst).1
    have h2 : List.Forall₂ (fun (idx : Nat) (row : List EB_Hit) => idx ≤ row.length)
        (st.2.map Prod.fst) hit_lists := by
      rw [List.forall₂_map_left_iff]
      exact (List.Forall₂.imp (fun _ _ h => h.2) hI).flip
    exact ⟨by simpa using h2.length_eq, h2⟩
  · intro fuel rows and_list
    rw [and_loop]
    by_cases hroom : (and_list.length : Int) < max_and_count
    · rw [if_neg (not_not.mpr hroom)]
      by_cases heq : (and_scan 0 rows
          { greatest_list := -1, greatest_page := 0, greatest_offset := 0,
            equal_count := 0 }).equal_count = rows.length
      · simp only [heq, if_true]
        refine Or.inr ⟨_, _, rfl, Or.inl ⟨rfl, remaining_total_advance_all_le rows⟩, ?_⟩
        have := remaining_total_advance_all_le rows
        simp only [List.length_append, List.length_singleton, Nat.cast_add, Nat.cast_one]
        omega
      · simp only [heq, if_false]
        by_cases hinc : and_increment_count
            (and_scan 0 rows
              { greatest_list := -1, greatest_page := 0, greatest_offset := 0,
                equal_count := 0 }).greatest_page
            (and_scan 0 rows
              { greatest_list := -1, greatest_page := 0, greatest_offset := 0,
                equal_count := 0 }).greatest_offset rows = 0
        · rw [if_pos hinc]
          exact Or.inl rfl
        · rw [if_neg hinc]
          have := remaining_total_advance_lesser _ _ rows (increment_count_pos _ _ rows hinc)
          refine Or.inr ⟨_, _, rfl, Or.inr ⟨rfl, by omega⟩, by omega⟩
    · rw [if_pos hroom]
      exact Or.inl rfl

/-! ## Group headers of the keyword and multi decoders -/

/-- Claim C33 (group-header asymmetry between keyword and multi): for a
record with group id `0x80` and key length `L`, both decoders compare
`canonicalized_word` against the `L` bytes at `+6` and set `in_group_entry`.
The multi decoder accepts the record exactly when
`offset + L + 6 <= EB_SIZE_PAGE`, advances `offset` by `L + 6` and leaves
`keyword_heading` as it was; the keyword decoder accepts it exactly when
`offset + L + 12 <= EB_SIZE_PAGE`, stores
`keyword_heading = (u32 at +L+6, u16 at +L+10)`, advances `offset` by
`L + 12`, and on a match seeks the text cursor to that heading.  A record
that is not accepted gives `EB_ERR_UNEXP_TEXT`. -/
theorem group_header_asymmetry {TC : Type} (text : Text_Functions TC) (buf : Page)
    (context : EB_Search_Context) (hits : List EB_Hit) (text_context : TC) (L : Nat)
    (h2 : context.offset + 2 ≤ EB_SIZE_PAGE)
    (hid : eb_uint1 (ptr buf context.offset) = 0x80)
    (hL : eb_uint1 (ptr buf (context.offset + 1)) = L) :
    (context.offset + L + 6 ≤ EB_SIZE_PAGE →
        multi_group_entry buf context hits
          = Except.ok (spec_multi_header_context buf context L, hits))
      ∧ (EB_SIZE_PAGE < context.offset + L + 6 →
        multi_group_entry buf context hits
          = Except.error { context with entry_length := L })
      ∧ (context.offset + L + 12 ≤ EB_SIZE_PAGE →
        keyword_group_entry text buf
            { context := context, hits := hits, text_context := text_context }
          = if (spec_keyword_header_context buf context L).comparison_result = 0 then
              if (text.eb_seek_text text_context
                    (spec_keyword_header_context buf context L).keyword_heading).1
                  ≠ EB_SUCCESS then
                Except.error
                  ((text.eb_seek_text text_context
                      (spec_keyword_header_context buf context L).keyword_heading).1,
                    { context := spec_keyword_header_context buf context L
                      hits := hits
                      text_context :=
                        (text.eb_seek_text text_context
                          (spec_keyword_header_context buf context L).keyword_heading).2 })
              else
                Except.ok
                  { context := spec_keyword_header_context buf context L
                    hits := hits
                    text_context :=
                      (text.eb_seek_text text_context
                        (spec_keyword_header_context buf context L).keyword_heading).2 }
            else
              Except.ok
                { context := spec_keyword_header_context buf context L
                  hits := hits
                  text_context := text_context })
      ∧ (EB_SIZE_PAGE < context.offset + L + 12 →
        keyword_group_entry text buf
            { context := context, hits := hits, text_context := text_context }
          = Except.error
              (EB_ERR_UNEXP_TEXT,
                { context := { context with entry_length := L }
                  hits := hits
                  text_context := text_context }))
      ∧ (spec_multi_header_context buf context L).keyword_heading = context.keyword_heading
      ∧ (spec_multi_header_context buf context L).comparison_result
        = (spec_keyword_header_context buf context L).comparison_result := by
  have hn2 : ¬ EB_SIZE_PAGE < context.offset + 2 := by omega
  have hne : ¬ ((0x80 : Nat) = 0x00) := by decide
  refine ⟨?_, ?_, ?_, ?_, rfl, rfl⟩
  · intro hfit
    unfold multi_group_entry
    rw [if_neg hn2]
    simp only [hid, hne, if_false, if_true, ptr_ptr, hL]
    rw [if_neg (by omega)]
    rfl
  · intro hfit
    unfold multi_group_entry
    rw [if_neg hn2]
    simp only [hid, hne, if_false, if_true, ptr_ptr, hL]
    rw [if_pos hfit]
  · intro hfit
    unfold keyword_group_entry
    dsimp only
    rw [if_neg hn2]
    simp only [hid, hne, if_false, if_true, ptr_ptr, hL]
    rw [if_neg (by omega)]
    rfl
  · intro hfit
    unfold keyword_group_entry
    dsimp only
    rw [if_neg hn2]
    simp only [hid, hne, if_false, if_true, ptr_ptr, hL]
    rw [if_pos hfit]

/-- Witness of C33: the same header record decoded by the two decoders; the
multi decoder stops at offset 13, the keyword decoder at offset 19 with the
heading `(9, 6)`. -/
theorem group_header_asymmetry_witness :
    multi_group_entry header_leaf { sample_context with offset := 4 } []
        = Except.ok
            (spec_multi_header_context header_leaf { sample_context with offset := 4 } 3, [])
      ∧ (spec_multi_header_context header_leaf { sample_context with offset := 4 } 3).offset
        = 13
      ∧ keyword_group_entry trivial_text header_leaf
          { context := { sample_context with offset := 4 }, hits := [], text_context := () }
        = Except.ok
            { context :=
                spec_keyword_header_context header_leaf { sample_context with offset := 4 } 3
              hits := []
              text_context := () }
      ∧ (spec_keyword_header_context header_leaf { sample_context with offset := 4 } 3).offset
        = 19
      ∧ (spec_keyword_header_context header_leaf
          { sample_context with offset := 4 } 3).keyword_heading = { page := 9, offset := 6 } :=
  have w := group_header_asymmetry trivial_text header_leaf { sample_context with offset := 4 }
    [] () 3 (by decide) (by decide) (by decide)
  ⟨w.1 (by decide), by decide, (w.2.2.1 (by decide)).trans rfl, by decide, by decide⟩

/-! ## Slots in iteration order -/

theorem narrow_character_text_inv (lo hi stride : Int) (sub : EB_Appendix_Subbook)
    (data : EB_Appendix_Data) (c : Int) (text : Page) (h : Alternation_Cache_Inv data) :
    Alternation_Cache_Inv (narrow_character_text lo hi stride sub data c text).2.1 := by
  unfold narrow_character_text
  split
  · exact h
  · simp only
    split
    · exact h
    · split
      · exact h
      · intro i hi
        simp only at hi ⊢
        by_cases e : i = EB_HASH_ALT_CACHE c
        · subst e
          simp at hi
        · rw [Function.update_noteq e] at hi ⊢
          exact h i hi
      · intro i hi
        simp only at hi ⊢
        by_cases e : i = EB_HASH_ALT_CACHE c
        · subst e
          simp [set_nul]
        · rw [Function.update_noteq e] at hi ⊢
          exact h i hi

theorem alternation_text_inv (appendix : EB_Appendix) (data : EB_Appendix_Data) (c : Int)
    (text : Page) (h : Alternation_Cache_Inv data) :
    Alternation_Cache_Inv (eb_narrow_alt_character_text appendix data c text).2.1 := by
  unfold eb_narrow_alt_character_text
  split
  · exact h
  · split
    · exact h
    · simp only
      have key : ∀ r : EB_Error_Code × EB_Appendix_Data × Page,
          (if r.1 ≠ EB_SUCCESS then (r.1, r.2.1, set_nul r.2.2 0) else r).2.1 = r.2.1 := by
        intro r
        split <;> rfl
      rw [key]
      split
      · exact narrow_character_text_inv _ _ _ _ _ _ _ h
      · exact narrow_character_text_inv _ _ _ _ _ _ _ h

theorem alternation_calls_inv (calls : List Alternation_Call) :
    ∀ data, Alternation_Cache_Inv data → Alternation_Cache_Inv (alternation_calls calls data) := by
  induction calls with
  | nil => intro data h; exact h
  | cons call calls ih =>
    intro data h
    exact ih _ (alternation_text_inv _ _ _ _ h)

theorem low_byte_minus_one : low_byte (-1) = 255 := by
  rw [low_byte_eq_mod]
  rfl

/-- Claim C35 (alternation cache invariant): starting from a cache whose
slots are all empty, after any sequence of calls of
`eb_narrow_alt_character_text` (on any appendix, with any outcome of the seek
and the read of each call, for any character number) every slot `i` whose
character number is not `-1` holds a character number with
`(character_number & 0x0f) == i` and a text whose byte 31 is 0.  The
character number `-1` is rejected in every state: the call fails and leaves
the cache and the record of reader calls as they were, so a lookup never hits
an empty slot. -/
theorem alternation_cache_invariant (calls : List Alternation_Call) (data : EB_Appendix_Data)
    (hempty : ∀ i, (data.narrow_cache i).character_number = -1) :
    (∀ i, ((alternation_calls calls data).narrow_cache i).character_number ≠ -1 →
        EB_HASH_ALT_CACHE ((alternation_calls calls data).narrow_cache i).character_number = i
          ∧ ((alternation_calls calls data).narrow_cache i).text 31 = 0)
      ∧ ∀ (appendix : EB_Appendix) (d : EB_Appendix_Data) (text : Page),
          (eb_narrow_alt_character_text appendix d (-1) text).1 ≠ EB_SUCCESS
            ∧ (eb_narrow_alt_character_text appendix d (-1) text).2.1 = d
            ∧ (∀ sub, appendix.subbook_current = some sub →
                (eb_narrow_alt_character_text appendix d (-1) text).1
                  = EB_ERR_NO_SUCH_CHAR_TEXT) := by
  constructor
  · exact alternation_calls_inv calls data fun i hi => absurd (hempty i) hi
  · intro appendix d text
    unfold eb_narrow_alt_character_text
    cases hsub : appendix.subbook_current with
    | none => simp
    | some sub =>
      simp only
      by_cases hpage : sub.narrow_page = 0
      · simp [hpage]
      · simp only [hpage, if_false, eb_narrow_character_text_latin,
          eb_narrow_character_text_jis, narrow_character_text, low_byte_minus_one]
        split <;> simp

/-- Witness of C35: after the five sample lookups slot 1 holds a character
number that hashes to 1 and a terminated text. -/
theorem alternation_cache_invariant_witness :
    EB_HASH_ALT_CACHE
        ((alternation_calls sample_alternation_calls sample_appendix_data).narrow_cache
          1).character_number = 1
      ∧ ((alternation_calls sample_alternation_calls sample_appendix_data).narrow_cache
          1).text 31 = 0 :=
  (alternation_cache_invariant sample_alternation_calls sample_appendix_data
    (fun _ => rfl)).1 1 (by decide)

/-! ## Coherence of the page cache -/

theorem coherent_none (streams : Text_Streams) (cache : Cache)
    (h : cache.cache_book_code = EB_BOOK_NONE) : Cache_Coherent_Exact streams cache := by
  intro c hc
  rw [h] at hc
  cases hc

theorem reads_stream_contexts (streams : Text_Streams) (book : EB_Book)
    (contexts : Nat → EB_Search_Context) (h : Reads_Stream streams book) :
    Reads_Stream streams { book with search_contexts := contexts } :=
  fun c hc page data hd => h c hc page data hd

theorem walk_failed_coherent (streams : Text_Streams) (e : EB_Error_Code) (cache : Cache)
    (context : EB_Search_Context) (hits : List EB_Hit) (h : Cache_Coherent_Exact streams cache) :
    Cache_Coherent_Exact streams (walk_failed e cache context hits).cache := by
  unfold walk_failed
  simp only
  split
  · exact coherent_none _ _ rfl
  · exact h

theorem keyword_succeeded_coherent {TC : Type} (streams : Text_Streams)
    (text : Text_Functions TC) (cache : Cache) (s : Keyword_State TC)
    (h : Cache_Coherent_Exact streams cache) :
    Cache_Coherent_Exact streams (keyword_succeeded text cache s).cache := by
  unfold keyword_succeeded
  split
  · simp only
    split
    · exact walk_failed_coherent _ _ _ _ _ h
    · exact h
  · exact h

theorem read_page_coherent (streams : Text_Streams) (book : EB_Book) (page : Int)
    (cache : Cache) (hbook : Reads_Stream streams book) :
    ((read_page book page cache).1 = EB_SUCCESS →
        (read_page book page cache).2.cache_book_code = cache.cache_book_code
          ∧ ∀ c, book.code = some c → seek_exact page → ∀ i, i < EB_SIZE_PAGE →
              (read_page book page cache).2.cache_buffer i = streams c page i)
      ∧ ((read_page book page cache).1 = EB_ERR_FAIL_SEEK_TEXT →
          (read_page book page cache).2.cache_book_code = cache.cache_book_code
            ∧ (read_page book page cache).2.cache_page = cache.cache_page
            ∧ (read_page book page cache).2.cache_buffer = cache.cache_buffer)
      ∧ ((read_page book page cache).1 = EB_SUCCESS
          ∨ (read_page book page cache).1 = EB_ERR_FAIL_SEEK_TEXT
          ∨ (read_page book page cache).1 = EB_ERR_FAIL_READ_TEXT) := by
  unfold read_page
  simp only
  cases hf : text_file book (seek_location page) with
  | seek_failed => simp
  | short_read f => simp
  | full_page d =>
    simp only [true_and, reduceCtorEq, false_implies, true_or, and_true, forall_true_left]
    intro c hc hexact i hi
    rw [hexact] at hf
    exact hbook c hc page d hf i hi

theorem load_leaf_page_coherent (streams : Text_Streams) (book : EB_Book) (cache : Cache)
    (context : EB_Search_Context) (hits : List EB_Hit)
    (hc : Cache_Coherent_Exact streams cache) (hbook : Reads_Stream streams book) :
    ((load_leaf_page book cache context).1 = EB_SUCCESS →
        Cache_Coherent_Exact streams (load_leaf_page book cache context).2.1)
      ∧ ((load_leaf_page book cache context).1 ≠ EB_SUCCESS →
        Cache_Coherent_Exact streams
          (walk_failed (load_leaf_page book cache context).1
            (load_leaf_page book cache context).2.1
            (load_leaf_page book cache context).2.2 hits).cache) := by
  obtain ⟨r1, r2, r3⟩ := read_page_coherent streams book context.page cache hbook
  unfold load_leaf_page
  split
  · simp only
    split
    · rename_i hne
      simp only
      refine ⟨fun h => absurd h hne, fun _ => ?_⟩
      rcases r3 with r3 | r3 | r3
      · exact absurd r3 hne
      · obtain ⟨k1, k2, k3⟩ := r2 r3
        rw [r3]
        simp only [walk_failed, reduceCtorEq, if_false]
        intro c hcode hexact i hi
        rw [k1] at hcode
        rw [k2] at hexact
        rw [k3, k2]
        exact hc c hcode hexact i hi
      · rw [r3]
        simp only [walk_failed, if_true]
        exact coherent_none _ _ rfl
    · rename_i hs
      simp only [ne_eq, not_true_eq_false, false_implies, and_true, forall_true_left]
      intro c hcode hexact i hi
      exact (r1 (not_not.mp hs)).2 c hcode hexact i hi
  · simp only [ne_eq, not_true_eq_false, false_implies, and_true, forall_true_left]
    exact hc

theorem word_page_loop_coherent (streams : Text_Streams) (book : EB_Book)
    (hbook : Reads_Stream streams book) (max_hit_count : Int) (fuel : Nat) :
    ∀ (cache : Cache) (context : EB_Search_Context) (hits : List EB_Hit)
      (res : Hit_List_Result), Cache_Coherent_Exact streams cache →
      word_page_loop book max_hit_count fuel cache context hits = some res →
      Cache_Coherent_Exact streams res.cache := by
  induction fuel with
  | zero => intro cache context hits res _ h; simp [word_page_loop] at h
  | succ fuel ih =>
    intro cache context hits res hc h
    obtain ⟨l1, l2⟩ := load_leaf_page_coherent streams book cache context hits hc hbook
    rw [word_page_loop] at h
    dsimp only at h
    split at h
    · rename_i hld
      simp only [Option.some.injEq] at h
      subst h
      exact l2 hld
    · rename_i hld
      have hc1 := l1 (not_not.mp hld)
      split at h
      · simp only [Option.some.injEq] at h
        subst h
        exact walk_failed_coherent _ _ _ _ _ hc1
      · have key : ∀ w : Walk_Exit × EB_Search_Context × List EB_Hit,
            (match w.1 with
              | Walk_Exit.failed error_code =>
                some (walk_failed error_code (load_leaf_page book cache context).2.1 w.2.1 w.2.2)
              | Walk_Exit.succeeded =>
                some (walk_succeeded (load_leaf_page book cache context).2.1 w.2.1 w.2.2)
              | Walk_Exit.page_done =>
                if PAGE_ID_IS_LAYER_END w.2.1.page_id then
                  some (walk_succeeded (load_leaf_page book cache context).2.1
                    { w.2.1 with comparison_result := -1 } w.2.2)
                else
                  word_page_loop book max_hit_count fuel (load_leaf_page book cache context).2.1
                    { w.2.1 with page := int32 (w.2.1.page + 1), entry_index := 0 } w.2.2) = some res →
            Cache_Coherent_Exact streams res.cache := by
          intro w hres
          obtain ⟨w1, w2, w3⟩ := w
          dsimp only at hres
          cases w1 with
          | failed e =>
            simp only [Option.some.injEq] at hres
            subst hres
            exact walk_failed_coherent _ _ _ _ _ hc1
          | succeeded =>
            simp only [Option.some.injEq] at hres
            subst hres
            exact hc1
          | page_done =>
            dsimp only at hres
            split at hres
            · simp only [Option.some.injEq] at hres
              subst hres
              exact hc1
            · exact ih _ _ _ _ hc1 hres
        exact key _ h

theorem multi_page_loop_coherent (streams : Text_Streams) (book : EB_Book)
    (hbook : Reads_Stream streams book) (max_hit_count : Int) (fuel : Nat) :
    ∀ (cache : Cache) (context : EB_Search_Context) (hits : List EB_Hit)
      (res : Hit_List_Result), Cache_Coherent_Exact streams cache →
      multi_page_loop book max_hit_count fuel cache context hits = some res →
      Cache_Coherent_Exact streams res.cache := by
  induction fuel with
  | zero => intro cache context hits res _ h; simp [multi_page_loop] at h
  | succ fuel ih =>
    intro cache context hits res hc h
    obtain ⟨l1, l2⟩ := load_leaf_page_coherent streams book cache context hits hc hbook
    rw [multi_page_loop] at h
    dsimp only at h
    split at h
    · rename_i hld
      simp only [Option.some.injEq] at h
      subst h
      exact l2 hld
    · rename_i hld
      have hc1 := l1 (not_not.mp hld)
      split at h
      · simp only [Option.some.injEq] at h
        subst h
        exact walk_failed_coherent _ _ _ _ _ hc1
      · have key : ∀ w : Walk_Exit × EB_Search_Context × List EB_Hit,
            (match w.1 with
              | Walk_Exit.failed error_code =>
                some (walk_failed error_code (load_leaf_page book cache context).2.1 w.2.1 w.2.2)
              | Walk_Exit.succeeded =>
                some (walk_succeeded (load_leaf_page book cache context).2.1 w.2.1 w.2.2)
              | Walk_Exit.page_done =>
                if PAGE_ID_IS_LAYER_END w.2.1.page_id then
                  some (walk_succeeded (load_leaf_page book cache context).2.1
                    { w.2.1 with comparison_result := -1 } w.2.2)
                else
                  multi_page_loop book max_hit_count fuel (load_leaf_page book cache context).2.1
                    { w.2.1 with page := int32 (w.2.1.page + 1), entry_index := 0 } w.2.2) = some res →
            Cache_Coherent_Exact streams res.cache := by
          intro w hres
          obtain ⟨w1, w2, w3⟩ := w
          dsimp only at hres
          cases w1 with
          | failed e =>
            simp only [Option.some.injEq] at hres
            subst hres
            exact walk_failed_coherent _ _ _ _ _ hc1
          | succeeded =>
            simp only [Option.some.injEq] at hres
            subst hres
            exact hc1
          | page_done =>
            dsimp only at hres
            split at hres
            · simp only [Option.some.injEq] at hres
              subst hres
              exact hc1
            · exact ih _ _ _ _ hc1 hres
        exact key _ h

theorem keyword_page_loop_coherent {TC : Type} (streams : Text_Streams)
    (text : Text_Functions TC) (book : EB_Book) (hbook : Reads_Stream streams book)
    (max_hit_count : Int) (fuel : Nat) :
    ∀ (cache : Cache) (s : Keyword_State TC) (res : Hit_List_Result),
      Cache_Coherent_Exact streams cache →
      keyword_page_loop text book max_hit_count fuel cache s = some res →
      Cache_Coherent_Exact streams res.cache := by
  induction fuel with
  | zero => intro cache s res _ h; simp [keyword_page_loop] at h
  | succ fuel ih =>
    intro cache s res hc h
    obtain ⟨l1, l2⟩ := load_leaf_page_coherent streams book cache s.context s.hits hc hbook
    rw [keyword_page_loop] at h
    dsimp only at h
    split at h
    · rename_i hld
      simp only [Option.some.injEq] at h
      subst h
      exact l2 hld
    · rename_i hld
      have hc1 := l1 (not_not.mp hld)
      split at h
      · simp only [Option.some.injEq] at h
        subst h
        exact walk_failed_coherent _ _ _ _ _ hc1
      · have key : ∀ w : Walk_Exit × Keyword_State TC,
            (match w.1 with
              | Walk_Exit.failed error_code =>
                some (walk_failed error_code (load_leaf_page book cache s.context).2.1
                  w.2.context w.2.hits)
              | Walk_Exit.succeeded =>
                some (keyword_succeeded text (load_leaf_page book cache s.context).2.1 w.2)
              | Walk_Exit.page_done =>
                if PAGE_ID_IS_LAYER_END w.2.context.page_id then
                  some (keyword_succeeded text (load_leaf_page book cache s.context).2.1
                    { w.2 with context := { w.2.context with comparison_result := -1 } })
                else
                  keyword_page_loop text book max_hit_count fuel
                    (load_leaf_page book cache s.context).2.1
                    { w.2 with
                      context :=
                        { w.2.context with
                          page := int32 (w.2.context.page + 1), entry_index := 0 } }) = some res →
            Cache_Coherent_Exact streams res.cache := by
          intro w hres
          obtain ⟨w1, w2⟩ := w
          dsimp only at hres
          cases w1 with
          | failed e =>
            simp only [Option.some.injEq] at hres
            subst hres
            exact walk_failed_coherent _ _ _ _ _ hc1
          | succeeded =>
            simp only [Option.some.injEq] at hres
            subst hres
            exact keyword_succeeded_coherent _ _ _ _ hc1
          | page_done =>
            dsimp only at hres
            split at hres
            · simp only [Option.some.injEq] at hres
              subst hres
              exact keyword_succeeded_coherent _ _ _ _ hc1
            · exact ih _ _ _ hc1 hres
        exact key _ h

theorem eb_hit_list_word_coherent (streams : Text_Streams) (fuel : Nat) (book : EB_Book)
    (cache : Cache) (context : EB_Search_Context) (max_hit_count : Int)
    (res : Hit_List_Result) (hc : Cache_Coherent_Exact streams cache)
    (hbook : Reads_Stream streams book)
    (h : eb_hit_list_word fuel book cache context max_hit_count = some res) :
    Cache_Coherent_Exact streams res.cache := by
  unfold eb_hit_list_word at h
  split at h
  · simp only [Option.some.injEq] at h
    subst h
    exact hc
  · exact word_page_loop_coherent streams book hbook _ _ _ _ _ _ hc h

theorem eb_hit_list_multi_coherent (streams : Text_Streams) (fuel : Nat) (book : EB_Book)
    (cache : Cache) (context : EB_Search_Context) (max_hit_count : Int)
    (res : Hit_List_Result) (hc : Cache_Coherent_Exact streams cache)
    (hbook : Reads_Stream streams book)
    (h : eb_hit_list_multi fuel book cache context max_hit_count = some res) :
    Cache_Coherent_Exact streams res.cache := by
  unfold eb_hit_list_multi at h
  split at h
  · simp only [Option.some.injEq] at h
    subst h
    exact hc
  · exact multi_page_loop_coherent streams book hbook _ _ _ _ _ _ hc h

theorem eb_hit_list_keyword_coherent {TC : Type} (streams : Text_Streams)
    (text : Text_Functions TC) (fuel : Nat) (book : EB_Book) (text_context : TC)
    (cache : Cache) (context : EB_Search_Context) (max_hit_count : Int)
    (res : Hit_List_Result) (hc : Cache_Coherent_Exact streams cache)
    (hbook : Reads_Stream streams book)
    (h : eb_hit_list_keyword text fuel book text_context cache context max_hit_count
      = some res) :
    Cache_Coherent_Exact streams res.cache := by
  unfold eb_hit_list_keyword at h
  dsimp only at h
  generalize (if context.in_group_entry = true ∧ context.comparison_result = 0 then
      text.eb_seek_text text_context context.keyword_heading
    else (EB_SUCCESS, text_context)) = sk at h
  by_cases h1 : sk.1 ≠ EB_SUCCESS
  · rw [if_pos h1] at h
    simp only [Option.some.injEq] at h
    subst h
    exact walk_failed_coherent _ _ _ _ _ hc
  · rw [if_neg h1] at h
    by_cases h2 : context.comparison_result < 0
    · rw [if_pos h2] at h
      simp only [Option.some.injEq] at h
      subst h
      exact keyword_succeeded_coherent _ _ _ _ hc
    · rw [if_neg h2] at h
      exact keyword_page_loop_coherent streams text book hbook _ _ _ _ _ hc h

theorem keyword_gather_coherent {TC : Type} (streams : Text_Streams)
    (text : Text_Functions TC) (fuel : Nat) (book : EB_Book) (text_context : TC)
    (hbook : Reads_Stream streams book) (r : Nat) :
    ∀ (i : Nat) (cache : Cache) (rows : List (List EB_Hit)) (last : Int) (g : Gather_Result),
      Cache_Coherent_Exact streams cache →
      keyword_gather text fuel book text_context r i cache rows last = some g →
      Cache_Coherent_Exact streams g.cache := by
  induction r with
  | zero =>
    intro i cache rows last g hc h
    simp only [keyword_gather, Option.some.injEq] at h
    subst h
    exact hc
  | succ r ih =>
    intro i cache rows last g hc h
    rw [keyword_gather] at h
    split at h
    · simp only [Option.some.injEq] at h
      subst h
      exact hc
    · cases hw : eb_hit_list_keyword text fuel book text_context cache (book.search_contexts i)
          EB_TMP_MAX_HITS with
      | none => simp [hw] at h
      | some res =>
        have hres := eb_hit_list_keyword_coherent streams text fuel book text_context cache _ _
          res hc hbook hw
        simp only [hw] at h
        split at h
        · simp only [Option.some.injEq] at h
          subst h
          exact hres
        · split at h
          · simp only [Option.some.injEq] at h
            subst h
            exact hres
          · exact ih _ _ _ _ _ hres h

theorem multi_gather_coherent (streams : Text_Streams) (fuel : Nat) (book : EB_Book)
    (hbook : Reads_Stream streams book) (r : Nat) :
    ∀ (i : Nat) (cache : Cache) (rows : List (List EB_Hit)) (last : Int) (g : Gather_Result),
      Cache_Coherent_Exact streams cache →
      multi_gather fuel book r i cache rows last = some g →
      Cache_Coherent_Exact streams g.cache := by
  induction r with
  | zero =>
    intro i cache rows last g hc h
    simp only [multi_gather, Option.some.injEq] at h
    subst h
    exact hc
  | succ r ih =>
    intro i cache rows last g hc h
    rw [multi_gather] at h
    split at h
    · simp only [Option.some.injEq] at h
      subst h
      exact hc
    · cases hw : eb_hit_list_multi fuel book cache (book.search_contexts i) EB_TMP_MAX_HITS with
      | none => simp [hw] at h
      | some res =>
        have hres := eb_hit_list_multi_coherent streams fuel book cache _ _ res hc hbook hw
        simp only [hw] at h
        split at h
        · simp only [Option.some.injEq] at h
          subst h
          exact hres
        · split at h
          · simp only [Option.some.injEq] at h
            subst h
            exact hres
          · exact ih _ _ _ _ _ hres h

theorem keyword_advance_coherent {TC : Type} (streams : Text_Streams)
    (text : Text_Functions TC) (fuel : Nat) (text_context : TC)
    (temporary_hit_counts : Nat → Int) (r : Nat) :
    ∀ (i : Nat) (book : EB_Book) (cache : Cache) (adv : EB_Error_Code × EB_Book × Cache),
      Cache_Coherent_Exact streams cache → Reads_Stream streams book →
      keyword_advance text fuel text_context temporary_hit_counts r i book cache = some adv →
      Cache_Coherent_Exact streams adv.2.2 ∧ Reads_Stream streams adv.2.1 := by
  induction r with
  | zero =>
    intro i book cache adv hc hbook h
    simp only [keyword_advance, Option.some.injEq] at h
    subst h
    exact ⟨hc, hbook⟩
  | succ r ih =>
    intro i book cache adv hc hbook h
    rw [keyword_advance] at h
    split at h
    · simp only [Option.some.injEq] at h
      subst h
      exact ⟨hc, hbook⟩
    · cases hw : eb_hit_list_keyword text fuel book text_context cache (book.search_contexts i)
          (temporary_hit_counts i) with
      | none => simp [hw] at h
      | some res =>
        have hres := eb_hit_list_keyword_coherent streams text fuel book text_context cache _ _
          res hc hbook hw
        simp only [hw] at h
        split at h
        · simp only [Option.some.injEq] at h
          subst h
          exact ⟨hres, reads_stream_contexts _ _ _ hbook⟩
        · exact ih _ _ _ _ hres (reads_stream_contexts _ _ _ hbook) h

theorem multi_advance_coherent (streams : Text_Streams) (fuel : Nat)
    (temporary_hit_counts : Nat → Int) (r : Nat) :
    ∀ (i : Nat) (book : EB_Book) (cache : Cache) (adv : EB_Error_Code × EB_Book × Cache),
      Cache_Coherent_Exact streams cache → Reads_Stream streams book →
      multi_advance fuel temporary_hit_counts r i book cache = some adv →
      Cache_Coherent_Exact streams adv.2.2 ∧ Reads_Stream streams adv.2.1 := by
  induction r with
  | zero =>
    intro i book cache adv hc hbook h
    simp only [multi_advance, Option.some.injEq] at h
    subst h
    exact ⟨hc, hbook⟩
  | succ r ih =>
    intro i book cache adv hc hbook h
    rw [multi_advance] at h
    split at h
    · simp only [Option.some.injEq] at h
      subst h
      exact ⟨hc, hbook⟩
    · cases hw : eb_hit_list_multi fuel book cache (book.search_contexts i)
          (temporary_hit_counts i) with
      | none => simp [hw] at h
      | some res =>
        have hres := eb_hit_list_multi_coherent streams fuel book cache _ _ res hc hbook hw
        simp only [hw] at h
        split at h
        · simp only [Option.some.injEq] at h
          subst h
          exact ⟨hres, reads_stream_contexts _ _ _ hbook⟩
        · exact ih _ _ _ _ hres (reads_stream_contexts _ _ _ hbook) h

theorem keyword_rounds_coherent {TC : Type} (streams : Text_Streams)
    (text : Text_Functions TC) (env : Hit_List_Env) (fuel : Nat) (text_context : TC)
    (max_hit_count : Int) (rounds : Nat) :
    ∀ (book : EB_Book) (cache : Cache) (hits : List EB_Hit) (hit_count : Int)
      (res : Hit_List_Outcome),
      Cache_Coherent_Exact streams cache → Reads_Stream streams book →
      keyword_rounds text env fuel text_context max_hit_count rounds book cache hits hit_count
        = some res →
      Cache_Coherent_Exact streams res.cache ∧ Reads_Stream streams res.book := by
  induction rounds with
  | zero => intro book cache hits hit_count res _ _ h; simp [keyword_rounds] at h
  | succ rounds ih =>
    intro book cache hits hit_count res hc hbook h
    rw [keyword_rounds] at h
    cases hg : keyword_gather text fuel book text_context env.EB_MAX_KEYWORDS 0 cache [] 0 with
    | none => simp [hg] at h
    | some g =>
      have hgc := keyword_gather_coherent streams text fuel book text_context hbook _ _ _ _ _ g
        hc hg
      simp only [hg] at h
      split at h
      · simp only [Option.some.injEq] at h
        subst h
        exact ⟨hgc, hbook⟩
      · split at h
        · simp only [Option.some.injEq] at h
          subst h
          exact ⟨hgc, hbook⟩
        · cases ha : eb_and_hit_lists (max_hit_count - hit_count) g.rows with
          | none => simp [ha] at h
          | some a =>
            simp only [ha] at h
            cases hadv : keyword_advance text fuel text_context (updated_hit_counts env a.2)
                env.EB_MAX_MULTI_ENTRIES 0 book g.cache with
            | none => simp [hadv] at h
            | some adv =>
              obtain ⟨k1, k2⟩ := keyword_advance_coherent streams text fuel text_context _ _ _
                _ _ adv hgc hbook hadv
              simp only [hadv] at h
              split at h
              · simp only [Option.some.injEq] at h
                subst h
                exact ⟨k1, k2⟩
              · split at h
                · simp only [Option.some.injEq] at h
                  subst h
                  exact ⟨k1, k2⟩
                · exact ih _ _ _ _ _ k1 k2 h

theorem multi_rounds_coherent (streams : Text_Streams) (env : Hit_List_Env) (fuel : Nat)
    (max_hit_count : Int) (rounds : Nat) :
    ∀ (book : EB_Book) (cache : Cache) (hits : List EB_Hit) (hit_count : Int)
      (res : Hit_List_Outcome),
      Cache_Coherent_Exact streams cache → Reads_Stream streams book →
      multi_rounds env fuel max_hit_count rounds book cache hits hit_count = some res →
      Cache_Coherent_Exact streams res.cache ∧ Reads_Stream streams res.book := by
  induction rounds with
  | zero => intro book cache hits hit_count res _ _ h; simp [multi_rounds] at h
  | succ rounds ih =>
    intro book cache hits hit_count res hc hbook h
    rw [multi_rounds] at h
    cases hg : multi_gather fuel book env.EB_MAX_MULTI_ENTRIES 0 cache [] 0 with
    | none => simp [hg] at h
    | some g =>
      have hgc := multi_gather_coherent streams fuel book hbook _ _ _ _ _ g hc hg
      simp only [hg] at h
      split at h
      · simp only [Option.some.injEq] at h
        subst h
        exact ⟨hgc, hbook⟩
      · split at h
        · simp only [Option.some.injEq] at h
          subst h
          exact ⟨hgc, hbook⟩
        · cases ha : eb_and_hit_lists (max_hit_count - hit_count) g.rows with
          | none => simp [ha] at h
          | some a =>
            simp only [ha] at h
            cases hadv : multi_advance fuel (updated_hit_counts env a.2)
                env.EB_MAX_MULTI_ENTRIES 0 book g.cache with
            | none => simp [hadv] at h
            | some adv =>
              obtain ⟨k1, k2⟩ := multi_advance_coherent streams fuel _ _ _ _ _ adv hgc hbook
                hadv
              simp only [hadv] at h
              split at h
              · simp only [Option.some.injEq] at h
                subst h
                exact ⟨k1, k2⟩
              · split at h
                · simp only [Option.some.injEq] at h
                  subst h
                  exact ⟨k1, k2⟩
                · exact ih _ _ _ _ _ k1 k2 h

theorem eb_hit_list_coherent {TC : Type} (streams : Text_Streams) (text : Text_Functions TC)
    (env : Hit_List_Env) (fuel : Nat) (book : EB_Book) (text_context : TC) (cache : Cache)
    (max_hit_count hit_count : Int) (res : Hit_List_Outcome)
    (hc : Cache_Coherent_Exact streams cache) (hbook : Reads_Stream streams book)
    (h : eb_hit_list text env fuel book text_context cache max_hit_count hit_count = some res) :
    Cache_Coherent_Exact streams res.cache ∧ Reads_Stream streams res.book := by
  have hword : (eb_hit_list_word fuel book cache (book.search_contexts 0) max_hit_count).map
      (fun r : Hit_List_Result =>
        ({ error_code := r.error_code
           book := { book with
                     search_contexts := Function.update book.search_contexts 0 r.context }
           cache := r.cache
           hit_list := r.hit_list
           hit_count := if r.error_code ≠ EB_SUCCESS then 0 else r.hit_count }
          : Hit_List_Outcome)) = some res →
      Cache_Coherent_Exact streams res.cache ∧ Reads_Stream streams res.book := by
    intro hw
    simp only [Option.map_eq_some'] at hw
    obtain ⟨r, hr, rfl⟩ := hw
    exact ⟨eb_hit_list_word_coherent streams fuel book cache _ _ r hc hbook hr,
      reads_stream_contexts _ _ _ hbook⟩
  unfold eb_hit_list at h
  split at h
  · simp only [Option.some.injEq] at h
    subst h
    exact ⟨hc, hbook⟩
  · split at h
    · simp only [Option.some.injEq] at h
      subst h
      exact ⟨hc, hbook⟩
    · split at h
      · exact hword h
      · exact hword h
      · exact hword h
      · exact keyword_rounds_coherent streams text env fuel text_context _ _ _ _ _ _ res hc
          hbook h
      · exact multi_rounds_coherent streams env fuel _ _ _ _ _ _ res hc hbook h
      · simp only [Option.some.injEq] at h
        subst h
        exact ⟨hc, hbook⟩

theorem presearch_loop_coherent (streams : Text_Streams) (book : EB_Book)
    (hbook : Reads_Stream streams book) (d : Nat) :
    ∀ (cache : Cache) (context : EB_Search_Context),
      cache.cache_book_code = EB_BOOK_NONE →
      (presearch_loop book d cache context).2.1.cache_book_code = EB_BOOK_NONE
        ∧ ((presearch_loop book d cache context).1 = Presearch_Exit.leaf →
            ∀ c, book.code = some c →
              seek_exact (presearch_loop book d cache context).2.2.page →
              ∀ i, i < EB_SIZE_PAGE →
                (presearch_loop book d cache context).2.1.cache_buffer i
                  = streams c (presearch_loop book d cache context).2.2.page i) := by
  induction d with
  | zero =>
    intro cache context hn
    simp only [presearch_loop, reduceCtorEq, false_implies, and_true]
    exact hn
  | succ d ih =>
    intro cache context hn
    obtain ⟨r1, -, -⟩ := read_page_coherent streams book context.page cache hbook
    rw [presearch_loop]
    dsimp only
    split
    · simp only [reduceCtorEq, false_implies, and_true]
    · rename_i hs
      obtain ⟨k1, k2⟩ := r1 (not_not.mp hs)
      split
      · refine ⟨k1.trans hn, fun _ => ?_⟩
        exact k2
      · split
        · simp only [reduceCtorEq, false_implies, and_true]
          exact k1.trans hn
        · split
          · simp only [reduceCtorEq, false_implies, and_true]
            exact k1.trans hn
          · exact ih _ _ (k1.trans hn)

theorem eb_presearch_word_coherent (streams : Text_Streams) (book : EB_Book) (cache : Cache)
    (context : EB_Search_Context) (hbook : Reads_Stream streams book) :
    Cache_Coherent_Exact streams (eb_presearch_word book cache context).2.1 := by
  obtain ⟨p1, p2⟩ := presearch_loop_coherent streams book hbook EB_MAX_INDEX_DEPTH
    { cache with cache_book_code := EB_BOOK_NONE } context rfl
  unfold eb_presearch_word
  dsimp only
  split
  · exact coherent_none _ _ p1
  · exact coherent_none _ _ p1
  · exact coherent_none _ _ p1
  · rename_i hleaf
    intro c hcode hexact i hi
    exact p2 hleaf c hcode hexact i hi

/-- Claim C36 as stated fails beyond the range of `int` offsets: the book has
the sample leaf at byte 0 (page 1) and another leaf at byte `2^32`
(page `0x00200001`).  For page `0x00200001` the seek offset wraps to 0, so
`eb_presearch_word` and `eb_hit_list` leave the cache set to
`(1, 0x00200001)` with the bytes of page 1 in the buffer. -/
theorem cache_holds_wrapped_page :
    Reads_Stream (fun _ => stream_of_book far_page_book) far_page_book
      ∧ Cache_Coherent (fun _ => stream_of_book far_page_book) empty_cache
      ∧ (eb_presearch_word far_page_book empty_cache (far_page_book.search_contexts 0)).1
        = EB_SUCCESS
      ∧ (eb_presearch_word far_page_book empty_cache
          (far_page_book.search_contexts 0)).2.1.cache_book_code = some 1
      ∧ (eb_presearch_word far_page_book empty_cache
          (far_page_book.search_contexts 0)).2.1.cache_page = 0x00200001
      ∧ ¬ Cache_Coherent (fun _ => stream_of_book far_page_book)
          (eb_presearch_word far_page_book empty_cache (far_page_book.search_contexts 0)).2.1
      ∧ ∃ res, eb_hit_list trivial_text sample_env 5 far_page_book () empty_cache 10 0
            = some res
          ∧ res.cache.cache_book_code = some 1
          ∧ res.cache.cache_page = 0x00200001
          ∧ ¬ Cache_Coherent (fun _ => stream_of_book far_page_book) res.cache := by
  refine ⟨fun _ _ page data hd i _ => by simp only [stream_of_book, hd],
    fun _ hcode => Option.noConfusion hcode, by decide, by decide, by decide, ?_,
    _, rfl, rfl, rfl, ?_⟩
  · intro h
    exact absurd (h 1 rfl 0 (by decide)) (by decide)
  · intro h
    exact absurd (h 1 rfl 0 (by decide)) (by decide)

/-- Claim C36, amended: let every book read its text from a fixed function
from page numbers to pages, page `p` lying at byte `(p - 1) * EB_SIZE_PAGE`
of the text file.  If before a call the page cache is coherent for the pages
whose byte offset fits in a C `int` (`cache_book_code` is `EB_BOOK_NONE`, or
the offset of page `cache_page` does not fit, or the first `EB_SIZE_PAGE`
bytes of the cache buffer are page `cache_page` of the book with code
`cache_book_code`), it is so after `eb_initialize_search`, after
`eb_presearch_word` on a book with a current subbook, and after
`eb_hit_list`, whatever these calls return (success,
`EB_ERR_FAIL_SEEK_TEXT`, `EB_ERR_FAIL_READ_TEXT`, a format error or an error
of a text function), and the book they leave still reads from its stream; a
cache with `cache_book_code == EB_BOOK_NONE`, the state before the first
call, is coherent. -/
theorem page_cache_coherence {TC : Type} (streams : Text_Streams) (text : Text_Functions TC)
    (env : Hit_List_Env) (fuel : Nat) (book : EB_Book) (text_context : TC) (cache : Cache)
    (context : EB_Search_Context) (max_hit_count hit_count : Int)
    (hc : Cache_Coherent_Exact streams cache) (hbook : Reads_Stream streams book) :
    (Cache_Coherent_Exact streams (eb_initialize_search book cache).2
        ∧ Reads_Stream streams (eb_initialize_search book cache).1)
      ∧ (book.subbook_current ≠ none →
          Cache_Coherent_Exact streams (eb_presearch_word book cache context).2.1)
      ∧ (∀ res, eb_hit_list text env fuel book text_context cache max_hit_count hit_count
            = some res →
          Cache_Coherent_Exact streams res.cache ∧ Reads_Stream streams res.book)
      ∧ ∀ empty : Cache, empty.cache_book_code = EB_BOOK_NONE →
          Cache_Coherent_Exact streams empty := by
  refine ⟨?_, fun _ => eb_presearch_word_coherent streams book cache context hbook, ?_, ?_⟩
  · unfold eb_initialize_search
    split
    · exact ⟨coherent_none _ _ rfl, reads_stream_contexts _ _ _ hbook⟩
    · exact ⟨hc, hbook⟩
  · intro res h
    exact eb_hit_list_coherent streams text env fuel book text_context cache max_hit_count
      hit_count res hc hbook h
  · intro empty h
    exact coherent_none _ _ h

/-- Witness of C36 amended: `eb_hit_list` on the sample book with an empty
cache returns with the cache set to page 10 of book 1, whose byte offset fits
in an `int`, and the cache buffer holds that page of the text stream of the
book. -/
theorem page_cache_coherence_witness :
    (∃ res, eb_hit_list trivial_text sample_env 5 sample_book () empty_cache 10 0 = some res
        ∧ res.cache.cache_book_code = some 1 ∧ res.cache.cache_page = 10
        ∧ ∀ i, i < EB_SIZE_PAGE →
            res.cache.cache_buffer i = stream_of_book sample_book 10 i)
      ∧ ∀ i, i < EB_SIZE_PAGE →
          (eb_presearch_word sample_book empty_cache sample_context).2.1.cache_buffer i
            = stream_of_book sample_book 10 i :=
  ⟨⟨_, rfl, rfl, rfl,
      ((page_cache_coherence (fun _ => stream_of_book sample_book) trivial_text sample_env 5
          sample_book () empty_cache sample_context 10 0
          (fun _ hcode => Option.noConfusion hcode)
          (fun _ _ page data hd i _ => by simp only [stream_of_book, hd])).2.2.1
        _ rfl).1 1 rfl (by decide)⟩,
    (page_cache_coherence (fun _ => stream_of_book sample_book) trivial_text sample_env 5
        sample_book () empty_cache sample_context 10 0
        (fun _ hcode => Option.noConfusion hcode)
        (fun _ _ page data hd i _ => by simp only [stream_of_book, hd])).2.1
      (Option.some_ne_none _) 1 rfl (by decide)⟩

/-! ## Degenerate calls -/

/-- Claim C37 (`eb_hit_list` with `max_hit_count == 0` is a no-op): for every
book state, including no current subbook and no submitted query, every cache
and every page bound the call returns `EB_SUCCESS`, stores no hit, and leaves
the hit count, the book with all its search contexts and the page cache with
its record of reader calls exactly as they were, so it reads no page. -/
theorem zero_max_is_no_op {TC : Type} (text : Text_Functions TC) (env : Hit_List_Env)
    (fuel : Nat) (book : EB_Book) (text_context : TC) (cache : Cache) (hit_count : Int) :
    eb_hit_list text env fuel book text_context cache 0 hit_count
      = some { error_code := EB_SUCCESS, book := book, cache := cache,
               hit_list := [], hit_count := hit_count } := by
  unfold eb_hit_list
  rw [if_pos rfl]

theorem int32_exact (x : Int) (h1 : -2147483648 ≤ x) (h2 : x < 2147483648) : int32 x = x := by
  unfold int32
  omega

theorem narrow_alt_call_nonneg (depth : Nat) (forward : Bool) (appendix : EB_Appendix)
    (n c : Int) (hn : 0 ≤ n) :
    narrow_alt_character_call (depth + 1) forward appendix n c
      = some (if forward then forward_narrow_alt_nonneg appendix n c
          else backward_narrow_alt_nonneg appendix n c) := by
  have hn' : ¬ n < 0 := by omega
  rw [narrow_alt_character_call, if_neg hn']
  cases forward <;> rfl

theorem narrow_alt_call_min (appendix : EB_Appendix) (c : Int) (depth : Nat) :
    ∀ forward, narrow_alt_character_call depth forward appendix (-2147483648) c = none := by
  induction depth with
  | zero => intro forward; rfl
  | succ depth ih =>
    intro forward
    have e : int32 (- (-2147483648 : Int)) = -2147483648 := by decide
    rw [narrow_alt_character_call, if_pos (by decide), e]
    exact ih _

/-- Claim C38 (direction-dependent error for a missing alternation), with
the negation of `n` done in `int`: on an appendix whose current subbook has
`narrow_page == 0`, `eb_forward_narrow_alt_character` with `n >= 0` returns
`EB_ERR_NO_SUCH_CHAR_TEXT` and `eb_backward_narrow_alt_character` with
`n >= 0` returns `EB_ERR_NO_CUR_FONT`; with `INT_MIN < n < 0` the forward
function returns what the backward function returns for `-n`, that is
`EB_ERR_NO_CUR_FONT`; the character number is `-1` in all these cases, and
for every `n` other than `INT_MIN` the forward call returns the value of the
model `eb_forward_narrow_alt_character`.  With `n == INT_MIN` the negation
gives `INT_MIN` again and neither function returns, at any depth of the
nested calls. -/
theorem missing_alternation_error (appendix : EB_Appendix) (sub : EB_Appendix_Subbook)
    (depth : Nat) (n character_number : Int)
    (hsub : appendix.subbook_current = some sub) (hpage : sub.narrow_page = 0) :
    (0 ≤ n →
        narrow_alt_character_call (depth + 1) true appendix n character_number
            = some (EB_ERR_NO_SUCH_CHAR_TEXT, -1)
          ∧ narrow_alt_character_call (depth + 1) false appendix n character_number
            = some (EB_ERR_NO_CUR_FONT, -1))
      ∧ (-2147483648 < n → n < 0 →
        narrow_alt_character_call (depth + 2) true appendix n character_number
            = some (EB_ERR_NO_CUR_FONT, -1)
          ∧ narrow_alt_character_call (depth + 2) true appendix n character_number
            = narrow_alt_character_call (depth + 1) false appendix (-n) character_number)
      ∧ (-2147483648 < n →
        narrow_alt_character_call (depth + 2) true appendix n character_number
          = some (eb_forward_narrow_alt_character appendix n character_number))
      ∧ narrow_alt_character_call depth true appendix (-2147483648) character_number = none
      ∧ narrow_alt_character_call depth false appendix (-2147483648) character_number
          = none := by
  have hf : ∀ m, forward_narrow_alt_nonneg appendix m character_number
      = (EB_ERR_NO_SUCH_CHAR_TEXT, -1) := by
    intro m
    simp [forward_narrow_alt_nonneg, hsub, hpage]
  have hb : ∀ m, backward_narrow_alt_nonneg appendix m character_number
      = (EB_ERR_NO_CUR_FONT, -1) := by
    intro m
    simp [backward_narrow_alt_nonneg, hsub, hpage]
  have hneg : ∀ d, -2147483648 < n → n < 0 →
      narrow_alt_character_call (d + 2) true appendix n character_number
        = narrow_alt_character_call (d + 1) false appendix (-n) character_number := by
    intro d h1 h2
    rw [narrow_alt_character_call, if_pos h2, int32_exact (-n) (by omega) (by omega)]
    rfl
  refine ⟨?_, ?_, ?_, narrow_alt_call_min _ _ _ _, narrow_alt_call_min _ _ _ _⟩
  · intro hn
    rw [narrow_alt_call_nonneg _ _ _ _ _ hn, narrow_alt_call_nonneg _ _ _ _ _ hn]
    simp [hf, hb]
  · intro h1 h2
    refine ⟨?_, hneg depth h1 h2⟩
    rw [hneg depth h1 h2, narrow_alt_call_nonneg _ _ _ _ _ (by omega)]
    simp [hb]
  · intro h1
    by_cases h2 : n < 0
    · rw [hneg depth h1 h2, narrow_alt_call_nonneg _ _ _ _ _ (by omega)]
      simp [eb_forward_narrow_alt_character, h2]
    · rw [narrow_alt_call_nonneg _ _ _ _ _ (by omega)]
      simp [eb_forward_narrow_alt_character, h2]

/-- Witness of C38: one step forward, one step backward and minus one step
forward from `0x2121` on a subbook without narrow alternation. -/
theorem missing_alternation_error_witness :
    narrow_alt_character_call 1 true fontless_appendix 1 0x2121
        = some (EB_ERR_NO_SUCH_CHAR_TEXT, -1)
      ∧ narrow_alt_character_call 1 false fontless_appendix 1 0x2121
        = some (EB_ERR_NO_CUR_FONT, -1)
      ∧ narrow_alt_character_call 2 true fontless_appendix (-1) 0x2121
        = some (EB_ERR_NO_CUR_FONT, -1) :=
  ⟨((missing_alternation_error fontless_appendix _ 0 1 0x2121 rfl rfl).1 (by decide)).1,
   ((missing_alternation_error fontless_appendix _ 0 1 0x2121 rfl rfl).1 (by decide)).2,
   ((missing_alternation_error fontless_appendix _ 0 (-1) 0x2121 rfl rfl).2.1 (by decide)
      (by decide)).1⟩

end EB
